import Mathlib

/-! Reckon: a shallow embedding of the metric engine.

The definitions below follow the C sources of the Reckon library
(`src/lib/c/*.c`, `src/lib/include/reckon/reckon.h`).

Conventions of the embedding:

* a byte is a natural number below 256, a text is a list of bytes;
* a C pointer that may be `NULL` is an `Option`;
* `RcnCount` is `uint64_t`: additions that accumulate are taken modulo `2 ^ 64`;
* the file system and the grammar service (tree-sitter) are external to the
  library, they are the two fields of `Env`.
-/

namespace Reckon

/-! ## Types of `reckon.h` -/

/-- Modelled from the spec: the enumerator `RCN_TEXT_MARKDOWN` of the closed
enumeration `TextFormat` ("currently `C`, `Java`", "currently
`UnformattedText`, `Markdown`"), which the header under `src/` does not
declare while `factories.c` and the unit tests use it. The other three
enumerators are those of the enumeration `RcnTextFormat` of `reckon.h`. -/
inductive RcnTextFormat where
  | RCN_TEXT_UNFORMATTED
  | RCN_LANG_C
  | RCN_LANG_JAVA
  | RCN_TEXT_MARKDOWN
  deriving DecidableEq, Repr

/-- Modelled from the spec: the value of `RCN_TEXT_MARKDOWN`, the next free
value, so that it stays below `NUM_FORMATS`, "equal to the cardinality of this
enumeration". The values 0, 1, 2 of the other enumerators are those of
`reckon.h`. -/
def RcnTextFormat.toNat : RcnTextFormat → Nat
  | .RCN_TEXT_UNFORMATTED => 0
  | .RCN_LANG_C => 1
  | .RCN_LANG_JAVA => 2
  | .RCN_TEXT_MARKDOWN => 3

/-- Macro `RECKON_MK_FRMT_OPT(frmt)`, that is `1ULL << (frmt)`. -/
def RECKON_MK_FRMT_OPT (frmt : RcnTextFormat) : Nat := 1 <<< frmt.toNat

/-- Enumeration `RcnErrorCode`. -/
inductive RcnErrorCode where
  | RCN_ERR_NONE
  | RCN_ERR_UNSUPPORTED_FORMAT
  | RCN_ERR_INVALID_INPUT
  | RCN_ERR_INPUT_TOO_LARGE
  | RCN_ERR_SYNTAX_ERROR
  | RCN_ERR_ALLOC_FAILURE
  | RCN_ERR_UNKNOWN
  deriving DecidableEq, Repr

/-- Struct `RcnResultState`. -/
structure RcnResultState where
  errorCode : RcnErrorCode
  errorMessage : Option String
  ok : Bool
  deriving DecidableEq, Repr

/-- Struct `RcnCountResult`. -/
structure RcnCountResult where
  count : Nat
  state : RcnResultState
  deriving DecidableEq, Repr

/-- Struct `RcnCountResultGroup`. -/
structure RcnCountResultGroup where
  logicalLines : Nat
  physicalLines : Nat
  words : Nat
  characters : Nat
  sourceSize : Nat
  state : RcnResultState
  isProcessed : Bool
  deriving DecidableEq, Repr

/-- Struct `RcnSourceText`: the pointer `text` (`none` is `NULL`) and the
field `size`, which the C code keeps independent of the buffer. -/
structure RcnSourceText where
  text : Option (List Nat)
  size : Nat
  deriving DecidableEq, Repr

/-- Enumeration `RcnFileOpStatus`. -/
inductive RcnFileOpStatus where
  | RCN_FILE_OP_OK
  | RCN_FILE_OP_INVALID_PATH
  | RCN_FILE_OP_FILE_NOT_FOUND
  | RCN_FILE_OP_IO_ERROR
  | RCN_FILE_OP_ALLOC_FAILURE
  | RCN_FILE_OP_FILE_TOO_LARGE
  | RCN_FILE_OP_UNKNOWN_ERROR
  deriving DecidableEq, Repr

/-- Struct `RcnSourceFile`. -/
structure RcnSourceFile where
  path : Option String
  name : Option String
  extension : Option String
  content : RcnSourceText
  isContentRead : Bool
  status : RcnFileOpStatus
  deriving DecidableEq, Repr

/-- Struct `RcnStatOptions`; `operations` and `formats` are `uint32_t`. -/
structure RcnStatOptions where
  operations : Nat
  formats : Nat
  stopOnError : Bool
  keepFileContent : Bool
  deriving DecidableEq, Repr

/-- Enumerator `RCN_OPT_COUNT_CHARACTERS`. -/
def RCN_OPT_COUNT_CHARACTERS : Nat := 0x01
/-- Enumerator `RCN_OPT_COUNT_WORDS`. -/
def RCN_OPT_COUNT_WORDS : Nat := 0x02
/-- Enumerator `RCN_OPT_COUNT_PHYSICAL_LINES`. -/
def RCN_OPT_COUNT_PHYSICAL_LINES : Nat := 0x04
/-- Enumerator `RCN_OPT_COUNT_LOGICAL_LINES`. -/
def RCN_OPT_COUNT_LOGICAL_LINES : Nat := 0x08

/-- Constant `UINT32_MAX`. -/
def UINT32_MAX : Nat := 4294967295

/-- Addition of two `RcnCount` values, `uint64_t` wrap-around. -/
def addCount (a b : Nat) : Nat := (a + b) % 2 ^ 64

/-- A counter array `RcnCount x[RECKON_NUM_SUPPORTED_FORMATS]` of
`RcnCountStatistics`, one cell per `RcnTextFormat` enumerator. -/
structure FormatCounters where
  unformatted : Nat
  langC : Nat
  langJava : Nat
  markdown : Nat
  deriving DecidableEq, Repr

/-- Read of `x[format]`. -/
def FormatCounters.get (x : FormatCounters) : RcnTextFormat → Nat
  | .RCN_TEXT_UNFORMATTED => x.unformatted
  | .RCN_LANG_C => x.langC
  | .RCN_LANG_JAVA => x.langJava
  | .RCN_TEXT_MARKDOWN => x.markdown

/-- Statement `x[format] += n`. -/
def FormatCounters.add (x : FormatCounters) (format : RcnTextFormat) (n : Nat) :
    FormatCounters :=
  match format with
  | .RCN_TEXT_UNFORMATTED => { x with unformatted := addCount x.unformatted n }
  | .RCN_LANG_C => { x with langC := addCount x.langC n }
  | .RCN_LANG_JAVA => { x with langJava := addCount x.langJava n }
  | .RCN_TEXT_MARKDOWN => { x with markdown := addCount x.markdown n }

/-- Struct `RcnCountResultSet`; `files` and `results` are pointers to arrays
of `size` elements. -/
structure RcnCountResultSet where
  files : Option (List RcnSourceFile)
  results : Option (List RcnCountResultGroup)
  size : Nat
  sizeProcessed : Nat
  deriving DecidableEq, Repr

/-- Struct `RcnCountStatistics`. -/
structure RcnCountStatistics where
  totalLogicalLines : Nat
  totalPhysicalLines : Nat
  totalWords : Nat
  totalCharacters : Nat
  totalSourceSize : Nat
  logicalLines : FormatCounters
  physicalLines : FormatCounters
  words : FormatCounters
  characters : FormatCounters
  sourceSize : FormatCounters
  count : RcnCountResultSet
  state : RcnResultState
  deriving DecidableEq, Repr

/-! ## Encoding detection (`encoding.c`) -/

/-- Enumeration `TextEncoding` of `evaluation.h`. -/
inductive TextEncoding where
  | TextEncodingUTF8
  | TextEncodingUTF16LE
  | TextEncodingUTF16BE
  deriving DecidableEq, Repr

/-- The byte `source.text[i]`, read as `unsigned char`. -/
def byteAt (source : RcnSourceText) (i : Nat) : Nat :=
  (source.text.getD []).getD i 0

/-- Function `hasUTF8BOM`. -/
def hasUTF8BOM (source : RcnSourceText) : Bool :=
  if source.size >= 3 then
    let byte0 := byteAt source 0
    let byte1 := byteAt source 1
    let byte2 := byteAt source 2
    if byte0 == 0xef && byte1 == 0xbb && byte2 == 0xbf then true else false
  else false

/-- Function `detectEncoding`. -/
def detectEncoding (source : RcnSourceText) : TextEncoding :=
  if hasUTF8BOM source then .TextEncodingUTF8
  else if source.size >= 2 then
    let byte0 := byteAt source 0
    let byte1 := byteAt source 1
    if byte0 == 0xff && byte1 == 0xfe then .TextEncodingUTF16LE
    else if byte0 == 0xfe && byte1 == 0xff then .TextEncodingUTF16BE
    else .TextEncodingUTF8
  else .TextEncodingUTF8

/-! ## Physical lines (`physical.c`) -/

/-- Result `{0}` with `state.ok = true` and `RCN_ERR_NONE`. -/
def okResult (count : Nat) : RcnCountResult :=
  { count := count,
    state := { errorCode := .RCN_ERR_NONE, errorMessage := none, ok := true } }

/-- Result `{0}` with an error code and message set; `ok` stays `false`. -/
def errResult (code : RcnErrorCode) (message : String) : RcnCountResult :=
  { count := 0,
    state := { errorCode := code, errorMessage := some message, ok := false } }

/-- The loop `for (size_t i = 0; i < source.size; ++i)` of the UTF-8 branch of
`rcnCountPhysicalLines`; the first argument bounds the number of iterations. -/
def physicalLoopUTF8 (source : RcnSourceText) : Nat → Nat → Nat → Nat
  | 0, _, count => count
  | fuel + 1, i, count =>
    if i < source.size then
      physicalLoopUTF8 source fuel (i + 1)
        (if byteAt source i == 0x0a then count + 1 else count)
    else count

/-- The loop `for (size_t i = 2; i < source.size - 1; i+=2)` of the UTF-16
branch of `rcnCountPhysicalLines`. -/
def physicalLoopUTF16 (source : RcnSourceText) (nlByte0 nlByte1 : Nat) :
    Nat → Nat → Nat → Nat
  | 0, _, count => count
  | fuel + 1, i, count =>
    if i < source.size - 1 then
      physicalLoopUTF16 source nlByte0 nlByte1 fuel (i + 2)
        (if byteAt source i == nlByte0 && byteAt source (i + 1) == nlByte1
         then count + 1 else count)
    else count

/-- Function `rcnCountPhysicalLines`. -/
def rcnCountPhysicalLines (source : RcnSourceText) : RcnCountResult :=
  if source.size == 0 then okResult 0
  else if source.text.isNone then
    errResult .RCN_ERR_INVALID_INPUT "Text input must not be NULL"
  else if source.size > UINT32_MAX then
    errResult .RCN_ERR_INPUT_TOO_LARGE "Input exceeds maximum supported size"
  else
    let encoding := detectEncoding source
    if encoding == .TextEncodingUTF8 then
      let count := physicalLoopUTF8 source source.size 0 0
      okResult (if byteAt source (source.size - 1) != 0x0a then count + 1 else count)
    else
      let isLittleEndian := encoding == .TextEncodingUTF16LE
      let nlByte0 := if isLittleEndian then 0x0a else 0x00
      let nlByte1 := if isLittleEndian then 0x00 else 0x0a
      let count := physicalLoopUTF16 source nlByte0 nlByte1 source.size 2 0
      okResult
        (if source.size > 2
            && (byteAt source (source.size - 2) != nlByte0
                || byteAt source (source.size - 1) != nlByte1)
         then count + 1 else count)

/-! ## Words (`words.c`) -/

/-- Function `isspace` of the C locale, on an `unsigned char`. -/
def isspace (character : Nat) : Bool :=
  character == 0x20 || (0x09 <= character && character <= 0x0d)

/-- The loop of `rcnCountWords`; the state is `(inWord, count)`. -/
def wordsLoop (source : RcnSourceText) : Nat → Nat → Bool → Nat → Nat
  | 0, _, _, count => count
  | fuel + 1, i, inWord, count =>
    if i < source.size then
      let character := byteAt source i
      if isspace character then wordsLoop source fuel (i + 1) false count
      else if character != 0 && !inWord then
        wordsLoop source fuel (i + 1) true (count + 1)
      else wordsLoop source fuel (i + 1) inWord count
    else count

/-- Function `rcnCountWords`. -/
def rcnCountWords (source : RcnSourceText) : RcnCountResult :=
  if source.size == 0 then okResult 0
  else if source.text.isNone then
    errResult .RCN_ERR_INVALID_INPUT "Text input must not be NULL"
  else if source.size > UINT32_MAX then
    errResult .RCN_ERR_INPUT_TOO_LARGE "Input exceeds maximum supported size"
  else okResult (wordsLoop source source.size 0 false 0)

/-! ## Characters (`characters.c`) -/

/-- Constant `UTF16_BOM_LE` of `characters.c`. -/
def UTF16_BOM_LE : Nat := 0xfffe
/-- Constant `UTF16_BOM_BE` of `characters.c`. -/
def UTF16_BOM_BE : Nat := 0xfeff
/-- Constant `HIGH_SURROGATE_START`. -/
def HIGH_SURROGATE_START : Nat := 0xd800
/-- Constant `HIGH_SURROGATE_END`. -/
def HIGH_SURROGATE_END : Nat := 0xdbff
/-- Constant `LOW_SURROGATE_START`. -/
def LOW_SURROGATE_START : Nat := 0xdc00
/-- Constant `LOW_SURROGATE_END`. -/
def LOW_SURROGATE_END : Nat := 0xdfff

/-- Function `codeUnit`: the 16-bit code unit at a byte offset. -/
def codeUnit (source : RcnSourceText) (offset : Nat) (littleEndian : Bool) : Nat :=
  let byte0 := byteAt source offset
  let byte1 := byteAt source (offset + 1)
  if littleEndian then (byte0 ||| (byte1 <<< 8)) % 65536
  else ((byte0 <<< 8) ||| byte1) % 65536

/-- The `while ((offset + 1) < size)` loop of `countCharactersUTF16`. -/
def charactersLoopUTF16 (source : RcnSourceText) (littleEndian : Bool) :
    Nat → Nat → Nat → Nat
  | 0, _, count => count
  | fuel + 1, offset, count =>
    if offset + 1 < source.size then
      let cu0 := codeUnit source offset littleEndian
      let offset := offset + 2
      if cu0 == UTF16_BOM_BE || cu0 == UTF16_BOM_LE then
        charactersLoopUTF16 source littleEndian fuel offset count
      else if cu0 >= HIGH_SURROGATE_START && cu0 <= HIGH_SURROGATE_END then
        if offset + 1 < source.size then
          let cu1 := codeUnit source offset littleEndian
          if cu1 >= LOW_SURROGATE_START && cu1 <= LOW_SURROGATE_END then
            charactersLoopUTF16 source littleEndian fuel (offset + 2) (count + 1)
          else charactersLoopUTF16 source littleEndian fuel offset count
        else charactersLoopUTF16 source littleEndian fuel offset count
      else if cu0 >= LOW_SURROGATE_START && cu0 <= LOW_SURROGATE_END then
        charactersLoopUTF16 source littleEndian fuel offset count
      else charactersLoopUTF16 source littleEndian fuel offset (count + 1)
    else count

/-- Function `countCharactersUTF16`. -/
def countCharactersUTF16 (source : RcnSourceText) (littleEndian : Bool) : Nat :=
  let offset :=
    if source.size >= 2 then
      let cu0 := codeUnit source 0 littleEndian
      if cu0 == UTF16_BOM_BE || cu0 == UTF16_BOM_LE then 2 else 0
    else 0
  charactersLoopUTF16 source littleEndian source.size offset 0

/-- The `while (offset < size)` loop of `countCharactersUTF8`. -/
def charactersLoopUTF8 (source : RcnSourceText) : Nat → Nat → Nat → Nat
  | 0, _, count => count
  | fuel + 1, offset, count =>
    if offset < source.size then
      let byte := byteAt source offset
      let stride :=
        if (byte &&& 0xe0) == 0xc0 && offset + 1 < source.size then 2
        else if (byte &&& 0xf0) == 0xe0 && offset + 2 < source.size then 3
        else if (byte &&& 0xf8) == 0xf0 && offset + 3 < source.size then 4
        else 1
      charactersLoopUTF8 source fuel (offset + stride) (count + 1)
    else count

/-- Function `countCharactersUTF8`. -/
def countCharactersUTF8 (source : RcnSourceText) : Nat :=
  charactersLoopUTF8 source source.size (if hasUTF8BOM source then 3 else 0) 0

/-- Function `rcnCountCharacters`. -/
def rcnCountCharacters (source : RcnSourceText) : RcnCountResult :=
  if source.size == 0 then okResult 0
  else if source.text.isNone then
    errResult .RCN_ERR_INVALID_INPUT "Text input must not be NULL"
  else if source.size > UINT32_MAX then
    errResult .RCN_ERR_INPUT_TOO_LARGE "Input exceeds maximum supported size"
  else
    let encoding := detectEncoding source
    if encoding == .TextEncodingUTF8 then okResult (countCharactersUTF8 source)
    else
      let isLittleEndian := encoding == .TextEncodingUTF16LE
      okResult (countCharactersUTF16 source isLittleEndian)

/-! ## The external collaborators -/

/-- What the calls of the C library made by `readSourceFileContent` on one
path yield: `fopen` fails (with `errno == ENOENT` or not), one of `fseek`,
`ftell`, `fread` fails, or the file is opened and holds `bytes`, where
`mallocOk` says whether the buffer is allocated and `fcloseOk` whether the
final `fclose` succeeds. -/
inductive FileAccess where
  | openFailed (enoent : Bool)
  | ioFailed
  | opened (bytes : List Nat) (mallocOk : Bool) (fcloseOk : Bool)
  deriving DecidableEq, Repr

/-- Node of a syntax tree of the grammar service, reduced to what the
visitors read: `ts_node_grammar_symbol`, the row of `ts_node_start_point`
(a `uint32_t`) and the bytes of the C string `ts_node_type`, which only the
annotating visitor reads. -/
structure TSNode where
  symbol : Nat
  row : Nat
  type : List Nat := []
  deriving DecidableEq, Repr

/-- Syntax tree of the grammar service: a node and its children, left to
right. -/
inductive TSTree where
  | node (value : TSNode) (children : List TSTree)

/-- What `ts_parser_parse_string_encoding` followed by `ts_tree_root_node`
yields: the tree and `ts_node_has_error` of its root. -/
structure ParsedSource where
  root : TSTree
  hasError : Bool

/-- The environment of the library: the file system behind `fopen` and the
grammar service behind `ts_parser_parse_string_encoding`. -/
structure Env where
  access : String → FileAccess
  parse : RcnTextFormat → TextEncoding → RcnSourceText → ParsedSource

/-! ## File content (`fileio.c`) -/

/-- Constant `FILE_MAX_PROC_SIZE`, 512 MiB. -/
def FILE_MAX_PROC_SIZE : Nat := 512 * 1024 * 1024

/-- Function `readSourceFileContent`, for a non-null `file`: the returned flag
and the file afterwards. -/
def readSourceFileContent (env : Env) (file : RcnSourceFile) : Bool × RcnSourceFile :=
  if file.status != .RCN_FILE_OP_OK then (false, file)
  else if file.isContentRead then (true, file)
  else
    match file.path with
    | none => (false, { file with status := .RCN_FILE_OP_INVALID_PATH })
    | some path =>
      match env.access path with
      | .openFailed enoent =>
        (false, { file with status :=
          if enoent then .RCN_FILE_OP_FILE_NOT_FOUND else .RCN_FILE_OP_IO_ERROR })
      | .ioFailed => (false, { file with status := .RCN_FILE_OP_IO_ERROR })
      | .opened bytes mallocOk fcloseOk =>
        let length := bytes.length
        if length > FILE_MAX_PROC_SIZE then
          (false, { file with status := .RCN_FILE_OP_FILE_TOO_LARGE })
        else if !mallocOk then
          (false, { file with status := .RCN_FILE_OP_ALLOC_FAILURE })
        else
          let file := { file with
            content := { text := some bytes, size := length },
            isContentRead := true }
          if fcloseOk then (true, { file with status := .RCN_FILE_OP_OK })
          else (false, { file with status := .RCN_FILE_OP_IO_ERROR })

/-- Function `freeSourceFileContent`, for a non-null `file`. -/
def freeSourceFileContent (file : RcnSourceFile) : RcnSourceFile :=
  { file with content := { text := none, size := 0 }, isContentRead := false }

/-! ## Format detection (`factories.c`) -/

/-- Struct `SourceFormatDetection` of `fileio.h`. -/
structure SourceFormatDetection where
  format : RcnTextFormat
  isSupportedFormat : Bool
  isProgrammingLanguage : Bool
  deriving DecidableEq, Repr

/-- Function `detectSourceFormat`, for a non-null `file`. -/
def detectSourceFormat (file : RcnSourceFile) : SourceFormatDetection :=
  match file.extension with
  | none =>
    { format := .RCN_TEXT_UNFORMATTED, isSupportedFormat := false,
      isProgrammingLanguage := false }
  | some extension =>
    if extension == "c" || extension == "h" then
      { format := .RCN_LANG_C, isSupportedFormat := true, isProgrammingLanguage := true }
    else if extension == "java" then
      { format := .RCN_LANG_JAVA, isSupportedFormat := true, isProgrammingLanguage := true }
    else if extension == "md" then
      { format := .RCN_TEXT_MARKDOWN, isSupportedFormat := true,
        isProgrammingLanguage := false }
    else if extension == "txt" then
      { format := .RCN_TEXT_UNFORMATTED, isSupportedFormat := true,
        isProgrammingLanguage := false }
    else
      { format := .RCN_TEXT_UNFORMATTED, isSupportedFormat := false,
        isProgrammingLanguage := false }

/-! ## Tree walk (`tree.c`, `evaluation.h`) -/

/-- Struct `LineCommentBuffer` of `annotation.c`: `ptr` holds the `size` bytes
of the comment text and `symbolTypes` the `symbolCount` recorded names. The
capacities are left out: whether the allocations that grow a line buffer
succeed is given with each call, from an `AnnotationMemory`. -/
structure LineCommentBuffer where
  ptr : List Nat := []
  weight : Nat := 0
  symbolTypes : List (List Nat) := []
  deriving DecidableEq, Repr

/-- Field `size` of a `LineCommentBuffer`. -/
def LineCommentBuffer.size (buffer : LineCommentBuffer) : Nat := buffer.ptr.length

/-- Field `symbolCount` of a `LineCommentBuffer`. -/
def LineCommentBuffer.symbolCount (buffer : LineCommentBuffer) : Nat :=
  buffer.symbolTypes.length

/-- Struct `AnnotationContext` of `annotation.c`, the concrete type behind
`NodeEvalContext`. Its `evaluator` is `createEvaluationFunction(language)`,
which is looked up where it is called. -/
structure AnnotationContext where
  lines : List LineCommentBuffer
  lineCount : Nat
  language : RcnTextFormat
  deriving DecidableEq, Repr

/-- Struct `NodeEvalTrace`; `count` is `trace->result->count` and `ctx` is
`none` for `NULL`. The other fields are `uint64_t`. -/
structure NodeEvalTrace where
  count : Nat
  idx : Nat
  idxLastForSym : Nat
  idxLastElse : Nat
  idxLastTypeDef : Nat
  lnLastDecl : Nat
  lnLastExpr : Nat
  lnLastSwitchLabel : Nat
  lnLastArrow : Nat
  ctx : Option AnnotationContext := none
  deriving DecidableEq, Repr

/-- The trace `{0}` a walk starts with. -/
def NodeEvalTrace.zero : NodeEvalTrace :=
  { count := 0, idx := 0, idxLastForSym := 0, idxLastElse := 0, idxLastTypeDef := 0,
    lnLastDecl := 0, lnLastExpr := 0, lnLastSwitchLabel := 0, lnLastArrow := 0 }

/-- Function `currentLine`: the one-based line of a node. -/
def currentLine (node : TSNode) : Nat := node.row + 1

/-- Subtraction `trace->idx - k` on `uint64_t`. -/
def idxMinus (idx k : Nat) : Nat := (idx + 2 ^ 64 - k) % 2 ^ 64

mutual
/-- Function `traverseTree`: the visitor is called on a node when the cursor
descends to it, before its first child, and the siblings follow left to
right. -/
def traverseTree (visitor : TSNode → NodeEvalTrace → NodeEvalTrace) :
    TSTree → NodeEvalTrace → NodeEvalTrace
  | .node value children, trace => traverseSiblings visitor children (visitor value trace)
/-- The walk of `traverseTree` over a node and its next siblings. -/
def traverseSiblings (visitor : TSNode → NodeEvalTrace → NodeEvalTrace) :
    List TSTree → NodeEvalTrace → NodeEvalTrace
  | [], trace => trace
  | child :: rest, trace =>
    traverseSiblings visitor rest (traverseTree visitor child trace)
end

/-! ## The C evaluator (`lang_c.c`) -/

namespace SymbolIdentifiersC

/-- Enumerator `sym_preproc_directive` of `SymbolIdentifiersC`. -/
def sym_preproc_directive : Nat := 19
/-- Enumerator `sym_preproc_include` of `SymbolIdentifiersC`. -/
def sym_preproc_include : Nat := 164
/-- Enumerator `sym_preproc_def` of `SymbolIdentifiersC`. -/
def sym_preproc_def : Nat := 165
/-- Enumerator `sym_preproc_function_def` of `SymbolIdentifiersC`. -/
def sym_preproc_function_def : Nat := 166
/-- Enumerator `sym_preproc_if` of `SymbolIdentifiersC`. -/
def sym_preproc_if : Nat := 169
/-- Enumerator `sym_preproc_ifdef` of `SymbolIdentifiersC`. -/
def sym_preproc_ifdef : Nat := 170
/-- Enumerator `sym_preproc_else` of `SymbolIdentifiersC`. -/
def sym_preproc_else : Nat := 171
/-- Enumerator `sym_preproc_elif` of `SymbolIdentifiersC`. -/
def sym_preproc_elif : Nat := 172
/-- Enumerator `sym_preproc_elifdef` of `SymbolIdentifiersC`. -/
def sym_preproc_elifdef : Nat := 173
/-- Enumerator `sym_function_definition` of `SymbolIdentifiersC`. -/
def sym_function_definition : Nat := 196
/-- Enumerator `sym__old_style_function_definition` of `SymbolIdentifiersC`. -/
def sym__old_style_function_definition : Nat := 197
/-- Enumerator `sym_declaration` of `SymbolIdentifiersC`. -/
def sym_declaration : Nat := 198
/-- Enumerator `sym_type_definition` of `SymbolIdentifiersC`. -/
def sym_type_definition : Nat := 199
/-- Enumerator `sym__type_definition_type` of `SymbolIdentifiersC`. -/
def sym__type_definition_type : Nat := 200
/-- Enumerator `sym__type_definition_declarators` of `SymbolIdentifiersC`. -/
def sym__type_definition_declarators : Nat := 201
/-- Enumerator `sym__declaration_modifiers` of `SymbolIdentifiersC`. -/
def sym__declaration_modifiers : Nat := 202
/-- Enumerator `sym__declaration_specifiers` of `SymbolIdentifiersC`. -/
def sym__declaration_specifiers : Nat := 203
/-- Enumerator `sym_linkage_specification` of `SymbolIdentifiersC`. -/
def sym_linkage_specification : Nat := 204
/-- Enumerator `sym_attribute_specifier` of `SymbolIdentifiersC`. -/
def sym_attribute_specifier : Nat := 205
/-- Enumerator `sym_attribute` of `SymbolIdentifiersC`. -/
def sym_attribute : Nat := 206
/-- Enumerator `sym_declaration_list` of `SymbolIdentifiersC`. -/
def sym_declaration_list : Nat := 213
/-- Enumerator `sym__declarator` of `SymbolIdentifiersC`. -/
def sym__declarator : Nat := 214
/-- Enumerator `sym__declaration_declarator` of `SymbolIdentifiersC`. -/
def sym__declaration_declarator : Nat := 215
/-- Enumerator `sym__type_declarator` of `SymbolIdentifiersC`. -/
def sym__type_declarator : Nat := 217
/-- Enumerator `sym__abstract_declarator` of `SymbolIdentifiersC`. -/
def sym__abstract_declarator : Nat := 218
/-- Enumerator `sym_attributed_declarator` of `SymbolIdentifiersC`. -/
def sym_attributed_declarator : Nat := 223
/-- Enumerator `sym_attributed_type_declarator` of `SymbolIdentifiersC`. -/
def sym_attributed_type_declarator : Nat := 225
/-- Enumerator `sym_type_specifier` of `SymbolIdentifiersC`. -/
def sym_type_specifier : Nat := 245
/-- Enumerator `sym_enum_specifier` of `SymbolIdentifiersC`. -/
def sym_enum_specifier : Nat := 247
/-- Enumerator `sym_struct_specifier` of `SymbolIdentifiersC`. -/
def sym_struct_specifier : Nat := 249
/-- Enumerator `sym_union_specifier` of `SymbolIdentifiersC`. -/
def sym_union_specifier : Nat := 250
/-- Enumerator `sym_field_declaration` of `SymbolIdentifiersC`. -/
def sym_field_declaration : Nat := 253
/-- Enumerator `sym_enumerator` of `SymbolIdentifiersC`. -/
def sym_enumerator : Nat := 256
/-- Enumerator `sym_attributed_statement` of `SymbolIdentifiersC`. -/
def sym_attributed_statement : Nat := 261
/-- Enumerator `sym_statement` of `SymbolIdentifiersC`. -/
def sym_statement : Nat := 262
/-- Enumerator `sym__top_level_statement` of `SymbolIdentifiersC`. -/
def sym__top_level_statement : Nat := 263
/-- Enumerator `sym_labeled_statement` of `SymbolIdentifiersC`. -/
def sym_labeled_statement : Nat := 264
/-- Enumerator `sym__top_level_expression_statement` of `SymbolIdentifiersC`. -/
def sym__top_level_expression_statement : Nat := 265
/-- Enumerator `sym_expression_statement` of `SymbolIdentifiersC`. -/
def sym_expression_statement : Nat := 266
/-- Enumerator `sym_if_statement` of `SymbolIdentifiersC`. -/
def sym_if_statement : Nat := 267
/-- Enumerator `sym_else_clause` of `SymbolIdentifiersC`. -/
def sym_else_clause : Nat := 268
/-- Enumerator `sym_switch_statement` of `SymbolIdentifiersC`. -/
def sym_switch_statement : Nat := 269
/-- Enumerator `sym_case_statement` of `SymbolIdentifiersC`. -/
def sym_case_statement : Nat := 270
/-- Enumerator `sym_while_statement` of `SymbolIdentifiersC`. -/
def sym_while_statement : Nat := 271
/-- Enumerator `sym_do_statement` of `SymbolIdentifiersC`. -/
def sym_do_statement : Nat := 272
/-- Enumerator `sym_for_statement` of `SymbolIdentifiersC`. -/
def sym_for_statement : Nat := 273
/-- Enumerator `sym_return_statement` of `SymbolIdentifiersC`. -/
def sym_return_statement : Nat := 275
/-- Enumerator `sym_break_statement` of `SymbolIdentifiersC`. -/
def sym_break_statement : Nat := 276
/-- Enumerator `sym_continue_statement` of `SymbolIdentifiersC`. -/
def sym_continue_statement : Nat := 277
/-- Enumerator `sym_goto_statement` of `SymbolIdentifiersC`. -/
def sym_goto_statement : Nat := 278
/-- Enumerator `sym_expression` of `SymbolIdentifiersC`. -/
def sym_expression : Nat := 283

end SymbolIdentifiersC

/-- The case labels of `evaluateNodeWeightCimpl` that share the final
`weight += 1`. -/
def plainSymbolsC : List Nat :=
  [SymbolIdentifiersC.sym_preproc_directive,
   SymbolIdentifiersC.sym_preproc_include,
   SymbolIdentifiersC.sym_preproc_def,
   SymbolIdentifiersC.sym_preproc_function_def,
   SymbolIdentifiersC.sym_preproc_if,
   SymbolIdentifiersC.sym_preproc_ifdef,
   SymbolIdentifiersC.sym_preproc_else,
   SymbolIdentifiersC.sym_preproc_elif,
   SymbolIdentifiersC.sym_preproc_elifdef,
   SymbolIdentifiersC.sym_function_definition,
   SymbolIdentifiersC.sym__old_style_function_definition,
   SymbolIdentifiersC.sym__type_definition_type,
   SymbolIdentifiersC.sym__type_definition_declarators,
   SymbolIdentifiersC.sym__declaration_modifiers,
   SymbolIdentifiersC.sym__declaration_specifiers,
   SymbolIdentifiersC.sym_linkage_specification,
   SymbolIdentifiersC.sym_attribute_specifier,
   SymbolIdentifiersC.sym_attribute,
   SymbolIdentifiersC.sym_declaration_list,
   SymbolIdentifiersC.sym__declarator,
   SymbolIdentifiersC.sym__declaration_declarator,
   SymbolIdentifiersC.sym__type_declarator,
   SymbolIdentifiersC.sym__abstract_declarator,
   SymbolIdentifiersC.sym_attributed_declarator,
   SymbolIdentifiersC.sym_attributed_type_declarator,
   SymbolIdentifiersC.sym_type_specifier,
   SymbolIdentifiersC.sym_field_declaration,
   SymbolIdentifiersC.sym_enumerator,
   SymbolIdentifiersC.sym_attributed_statement,
   SymbolIdentifiersC.sym_statement,
   SymbolIdentifiersC.sym__top_level_statement,
   SymbolIdentifiersC.sym_labeled_statement,
   SymbolIdentifiersC.sym_switch_statement,
   SymbolIdentifiersC.sym_case_statement,
   SymbolIdentifiersC.sym_while_statement,
   SymbolIdentifiersC.sym_return_statement,
   SymbolIdentifiersC.sym_break_statement,
   SymbolIdentifiersC.sym_continue_statement,
   SymbolIdentifiersC.sym_goto_statement,
   SymbolIdentifiersC.sym_expression]

open SymbolIdentifiersC in
/-- Function `evaluateNodeWeightCimpl`: the weight of the node and the trace
afterwards. -/
def evaluateNodeWeightCimpl (node : TSNode) (trace : NodeEvalTrace) : Nat × NodeEvalTrace :=
  let sym := node.symbol
  if sym == sym_for_statement then
    (1, { trace with idxLastForSym := trace.idx })
  else if sym == sym_declaration then
    let trace := { trace with lnLastDecl := currentLine node }
    if trace.idxLastForSym == idxMinus trace.idx 3 then (0, trace) else (1, trace)
  else if sym == sym_do_statement then (2, trace)
  else if sym == sym_type_definition then
    (1, { trace with idxLastTypeDef := trace.idx })
  else if sym == sym_struct_specifier then
    if trace.idxLastTypeDef == idxMinus trace.idx 2 then (0, trace)
    else if trace.lnLastDecl == currentLine node then (0, trace)
    else if trace.lnLastExpr == currentLine node then (0, trace)
    else (1, trace)
  else if sym == sym_enum_specifier || sym == sym_union_specifier then
    if trace.lnLastDecl == currentLine node then (0, trace) else (1, trace)
  else if sym == sym__top_level_expression_statement || sym == sym_expression_statement then
    (1, { trace with lnLastExpr := currentLine node })
  else if sym == sym_if_statement then
    if trace.idxLastElse == idxMinus trace.idx 2 then (0, trace) else (1, trace)
  else if sym == sym_else_clause then
    (1, { trace with idxLastElse := trace.idx })
  else if plainSymbolsC.contains sym then (1, trace)
  else (0, trace)

/-- Function `evaluateNodeC`. -/
def evaluateNodeC (node : TSNode) (trace : NodeEvalTrace) : NodeEvalTrace :=
  let r := evaluateNodeWeightCimpl node trace
  { r.2 with count := addCount r.2.count r.1, idx := (r.2.idx + 1) % 2 ^ 64 }

/-! ## The Java evaluator (`lang_java.c`) -/

namespace SymbolIdentifiersJava

/-- Enumerator `anon_sym_DASH_GT` of `SymbolIdentifiersJava`. -/
def anon_sym_DASH_GT : Nat := 56
/-- Enumerator `anon_sym_when` of `SymbolIdentifiersJava`. -/
def anon_sym_when : Nat := 76
/-- Enumerator `anon_sym_else` of `SymbolIdentifiersJava`. -/
def anon_sym_else : Nat := 91
/-- Enumerator `anon_sym_open` of `SymbolIdentifiersJava`. -/
def anon_sym_open : Nat := 94
/-- Enumerator `anon_sym_module` of `SymbolIdentifiersJava`. -/
def anon_sym_module : Nat := 95
/-- Enumerator `anon_sym_requires` of `SymbolIdentifiersJava`. -/
def anon_sym_requires : Nat := 96
/-- Enumerator `anon_sym_transitive` of `SymbolIdentifiersJava`. -/
def anon_sym_transitive : Nat := 97
/-- Enumerator `anon_sym_exports` of `SymbolIdentifiersJava`. -/
def anon_sym_exports : Nat := 99
/-- Enumerator `anon_sym_to` of `SymbolIdentifiersJava`. -/
def anon_sym_to : Nat := 100
/-- Enumerator `anon_sym_opens` of `SymbolIdentifiersJava`. -/
def anon_sym_opens : Nat := 101
/-- Enumerator `anon_sym_uses` of `SymbolIdentifiersJava`. -/
def anon_sym_uses : Nat := 102
/-- Enumerator `anon_sym_provides` of `SymbolIdentifiersJava`. -/
def anon_sym_provides : Nat := 103
/-- Enumerator `anon_sym_with` of `SymbolIdentifiersJava`. -/
def anon_sym_with : Nat := 104
/-- Enumerator `sym_expression` of `SymbolIdentifiersJava`. -/
def sym_expression : Nat := 147
/-- Enumerator `sym_switch_expression` of `SymbolIdentifiersJava`. -/
def sym_switch_expression : Nat := 174
/-- Enumerator `sym_switch_label` of `SymbolIdentifiersJava`. -/
def sym_switch_label : Nat := 178
/-- Enumerator `sym_pattern` of `SymbolIdentifiersJava`. -/
def sym_pattern : Nat := 179
/-- Enumerator `sym_type_pattern` of `SymbolIdentifiersJava`. -/
def sym_type_pattern : Nat := 180
/-- Enumerator `sym_record_pattern` of `SymbolIdentifiersJava`. -/
def sym_record_pattern : Nat := 181
/-- Enumerator `sym_record_pattern_body` of `SymbolIdentifiersJava`. -/
def sym_record_pattern_body : Nat := 182
/-- Enumerator `sym_record_pattern_component` of `SymbolIdentifiersJava`. -/
def sym_record_pattern_component : Nat := 183
/-- Enumerator `sym_guard` of `SymbolIdentifiersJava`. -/
def sym_guard : Nat := 184
/-- Enumerator `sym_statement` of `SymbolIdentifiersJava`. -/
def sym_statement : Nat := 185
/-- Enumerator `sym_expression_statement` of `SymbolIdentifiersJava`. -/
def sym_expression_statement : Nat := 187
/-- Enumerator `sym_assert_statement` of `SymbolIdentifiersJava`. -/
def sym_assert_statement : Nat := 189
/-- Enumerator `sym_do_statement` of `SymbolIdentifiersJava`. -/
def sym_do_statement : Nat := 190
/-- Enumerator `sym_break_statement` of `SymbolIdentifiersJava`. -/
def sym_break_statement : Nat := 191
/-- Enumerator `sym_continue_statement` of `SymbolIdentifiersJava`. -/
def sym_continue_statement : Nat := 192
/-- Enumerator `sym_return_statement` of `SymbolIdentifiersJava`. -/
def sym_return_statement : Nat := 193
/-- Enumerator `sym_yield_statement` of `SymbolIdentifiersJava`. -/
def sym_yield_statement : Nat := 194
/-- Enumerator `sym_synchronized_statement` of `SymbolIdentifiersJava`. -/
def sym_synchronized_statement : Nat := 195
/-- Enumerator `sym_throw_statement` of `SymbolIdentifiersJava`. -/
def sym_throw_statement : Nat := 196
/-- Enumerator `sym_try_statement` of `SymbolIdentifiersJava`. -/
def sym_try_statement : Nat := 197
/-- Enumerator `sym_catch_clause` of `SymbolIdentifiersJava`. -/
def sym_catch_clause : Nat := 198
/-- Enumerator `sym_finally_clause` of `SymbolIdentifiersJava`. -/
def sym_finally_clause : Nat := 201
/-- Enumerator `sym_try_with_resources_statement` of `SymbolIdentifiersJava`. -/
def sym_try_with_resources_statement : Nat := 202
/-- Enumerator `sym_if_statement` of `SymbolIdentifiersJava`. -/
def sym_if_statement : Nat := 205
/-- Enumerator `sym_while_statement` of `SymbolIdentifiersJava`. -/
def sym_while_statement : Nat := 206
/-- Enumerator `sym_for_statement` of `SymbolIdentifiersJava`. -/
def sym_for_statement : Nat := 207
/-- Enumerator `sym_enhanced_for_statement` of `SymbolIdentifiersJava`. -/
def sym_enhanced_for_statement : Nat := 208
/-- Enumerator `sym_marker_annotation` of `SymbolIdentifiersJava`. -/
def sym_marker_annotation : Nat := 210
/-- Enumerator `sym_annotation` of `SymbolIdentifiersJava`. -/
def sym_annotation : Nat := 211
/-- Enumerator `sym_declaration` of `SymbolIdentifiersJava`. -/
def sym_declaration : Nat := 216
/-- Enumerator `sym_module_declaration` of `SymbolIdentifiersJava`. -/
def sym_module_declaration : Nat := 217
/-- Enumerator `sym_module_directive` of `SymbolIdentifiersJava`. -/
def sym_module_directive : Nat := 219
/-- Enumerator `sym_requires_module_directive` of `SymbolIdentifiersJava`. -/
def sym_requires_module_directive : Nat := 220
/-- Enumerator `sym_requires_modifier` of `SymbolIdentifiersJava`. -/
def sym_requires_modifier : Nat := 221
/-- Enumerator `sym_exports_module_directive` of `SymbolIdentifiersJava`. -/
def sym_exports_module_directive : Nat := 222
/-- Enumerator `sym_opens_module_directive` of `SymbolIdentifiersJava`. -/
def sym_opens_module_directive : Nat := 223
/-- Enumerator `sym_uses_module_directive` of `SymbolIdentifiersJava`. -/
def sym_uses_module_directive : Nat := 224
/-- Enumerator `sym_provides_module_directive` of `SymbolIdentifiersJava`. -/
def sym_provides_module_directive : Nat := 225
/-- Enumerator `sym_package_declaration` of `SymbolIdentifiersJava`. -/
def sym_package_declaration : Nat := 226
/-- Enumerator `sym_import_declaration` of `SymbolIdentifiersJava`. -/
def sym_import_declaration : Nat := 227
/-- Enumerator `sym_enum_declaration` of `SymbolIdentifiersJava`. -/
def sym_enum_declaration : Nat := 229
/-- Enumerator `sym_enum_constant` of `SymbolIdentifiersJava`. -/
def sym_enum_constant : Nat := 232
/-- Enumerator `sym_class_declaration` of `SymbolIdentifiersJava`. -/
def sym_class_declaration : Nat := 233
/-- Enumerator `sym_permits` of `SymbolIdentifiersJava`. -/
def sym_permits : Nat := 241
/-- Enumerator `sym_static_initializer` of `SymbolIdentifiersJava`. -/
def sym_static_initializer : Nat := 243
/-- Enumerator `sym_constructor_declaration` of `SymbolIdentifiersJava`. -/
def sym_constructor_declaration : Nat := 244
/-- Enumerator `sym__constructor_declarator` of `SymbolIdentifiersJava`. -/
def sym__constructor_declarator : Nat := 245
/-- Enumerator `sym_explicit_constructor_invocation` of `SymbolIdentifiersJava`. -/
def sym_explicit_constructor_invocation : Nat := 247
/-- Enumerator `sym_field_declaration` of `SymbolIdentifiersJava`. -/
def sym_field_declaration : Nat := 249
/-- Enumerator `sym_record_declaration` of `SymbolIdentifiersJava`. -/
def sym_record_declaration : Nat := 250
/-- Enumerator `sym_annotation_type_declaration` of `SymbolIdentifiersJava`. -/
def sym_annotation_type_declaration : Nat := 251
/-- Enumerator `sym_annotation_type_element_declaration` of `SymbolIdentifiersJava`. -/
def sym_annotation_type_element_declaration : Nat := 253
/-- Enumerator `sym_interface_declaration` of `SymbolIdentifiersJava`. -/
def sym_interface_declaration : Nat := 255
/-- Enumerator `sym_constant_declaration` of `SymbolIdentifiersJava`. -/
def sym_constant_declaration : Nat := 258
/-- Enumerator `sym__method_declarator` of `SymbolIdentifiersJava`. -/
def sym__method_declarator : Nat := 272
/-- Enumerator `sym_local_variable_declaration` of `SymbolIdentifiersJava`. -/
def sym_local_variable_declaration : Nat := 278
/-- Enumerator `sym_method_declaration` of `SymbolIdentifiersJava`. -/
def sym_method_declaration : Nat := 279
/-- Enumerator `sym_compact_constructor_declaration` of `SymbolIdentifiersJava`. -/
def sym_compact_constructor_declaration : Nat := 280

end SymbolIdentifiersJava

/-- The case labels of `evaluateNodeWeightJavaImpl` that share the final
`weight += 1`, apart from `sym_for_statement`, which falls through to
them. -/
def plainSymbolsJava : List Nat :=
  [SymbolIdentifiersJava.anon_sym_when,
   SymbolIdentifiersJava.anon_sym_open,
   SymbolIdentifiersJava.anon_sym_module,
   SymbolIdentifiersJava.anon_sym_requires,
   SymbolIdentifiersJava.anon_sym_transitive,
   SymbolIdentifiersJava.anon_sym_exports,
   SymbolIdentifiersJava.anon_sym_to,
   SymbolIdentifiersJava.anon_sym_opens,
   SymbolIdentifiersJava.anon_sym_uses,
   SymbolIdentifiersJava.anon_sym_provides,
   SymbolIdentifiersJava.anon_sym_with,
   SymbolIdentifiersJava.sym_expression,
   SymbolIdentifiersJava.sym_switch_expression,
   SymbolIdentifiersJava.sym_pattern,
   SymbolIdentifiersJava.sym_type_pattern,
   SymbolIdentifiersJava.sym_record_pattern,
   SymbolIdentifiersJava.sym_record_pattern_body,
   SymbolIdentifiersJava.sym_record_pattern_component,
   SymbolIdentifiersJava.sym_guard,
   SymbolIdentifiersJava.sym_statement,
   SymbolIdentifiersJava.sym_assert_statement,
   SymbolIdentifiersJava.sym_break_statement,
   SymbolIdentifiersJava.sym_continue_statement,
   SymbolIdentifiersJava.sym_return_statement,
   SymbolIdentifiersJava.sym_yield_statement,
   SymbolIdentifiersJava.sym_synchronized_statement,
   SymbolIdentifiersJava.sym_throw_statement,
   SymbolIdentifiersJava.sym_try_statement,
   SymbolIdentifiersJava.sym_catch_clause,
   SymbolIdentifiersJava.sym_finally_clause,
   SymbolIdentifiersJava.sym_try_with_resources_statement,
   SymbolIdentifiersJava.sym_while_statement,
   SymbolIdentifiersJava.sym_enhanced_for_statement,
   SymbolIdentifiersJava.sym_marker_annotation,
   SymbolIdentifiersJava.sym_annotation,
   SymbolIdentifiersJava.sym_declaration,
   SymbolIdentifiersJava.sym_module_declaration,
   SymbolIdentifiersJava.sym_module_directive,
   SymbolIdentifiersJava.sym_requires_module_directive,
   SymbolIdentifiersJava.sym_requires_modifier,
   SymbolIdentifiersJava.sym_exports_module_directive,
   SymbolIdentifiersJava.sym_opens_module_directive,
   SymbolIdentifiersJava.sym_uses_module_directive,
   SymbolIdentifiersJava.sym_provides_module_directive,
   SymbolIdentifiersJava.sym_package_declaration,
   SymbolIdentifiersJava.sym_import_declaration,
   SymbolIdentifiersJava.sym_enum_declaration,
   SymbolIdentifiersJava.sym_enum_constant,
   SymbolIdentifiersJava.sym_class_declaration,
   SymbolIdentifiersJava.sym_permits,
   SymbolIdentifiersJava.sym_static_initializer,
   SymbolIdentifiersJava.sym_constructor_declaration,
   SymbolIdentifiersJava.sym__constructor_declarator,
   SymbolIdentifiersJava.sym_explicit_constructor_invocation,
   SymbolIdentifiersJava.sym_field_declaration,
   SymbolIdentifiersJava.sym_record_declaration,
   SymbolIdentifiersJava.sym_annotation_type_declaration,
   SymbolIdentifiersJava.sym_annotation_type_element_declaration,
   SymbolIdentifiersJava.sym_interface_declaration,
   SymbolIdentifiersJava.sym_constant_declaration,
   SymbolIdentifiersJava.sym__method_declarator,
   SymbolIdentifiersJava.sym_method_declaration,
   SymbolIdentifiersJava.sym_compact_constructor_declaration]

open SymbolIdentifiersJava in
/-- Function `evaluateNodeWeightJavaImpl`: the weight of the node and the
trace afterwards. -/
def evaluateNodeWeightJavaImpl (node : TSNode) (trace : NodeEvalTrace) :
    Nat × NodeEvalTrace :=
  let sym := node.symbol
  if sym == anon_sym_DASH_GT then
    (0, { trace with lnLastArrow := currentLine node })
  else if sym == anon_sym_else then
    (1, { trace with idxLastElse := trace.idx })
  else if sym == sym_switch_label then
    (1, { trace with lnLastSwitchLabel := currentLine node })
  else if sym == sym_expression_statement then
    let line := currentLine node
    if trace.lnLastSwitchLabel == line && trace.lnLastArrow == line then (0, trace)
    else (1, trace)
  else if sym == sym_if_statement then
    if trace.idxLastElse == idxMinus trace.idx 1 then (0, trace) else (1, trace)
  else if sym == sym_local_variable_declaration then
    if trace.idxLastForSym == idxMinus trace.idx 3 then (0, trace) else (1, trace)
  else if sym == sym_do_statement then (2, trace)
  else if sym == sym_for_statement then
    (1, { trace with idxLastForSym := trace.idx })
  else if plainSymbolsJava.contains sym then (1, trace)
  else (0, trace)

/-- Function `evaluateNodeJava`. -/
def evaluateNodeJava (node : TSNode) (trace : NodeEvalTrace) : NodeEvalTrace :=
  let r := evaluateNodeWeightJavaImpl node trace
  { r.2 with count := addCount r.2.count r.1, idx := (r.2.idx + 1) % 2 ^ 64 }

/-! ## Logical lines (`factories.c`, `tree.c`, `logical.c`) -/

/-- Function `createEvaluationFunction`; `none` is `NULL`. -/
def createEvaluationFunction (language : RcnTextFormat) :
    Option (TSNode → NodeEvalTrace → NodeEvalTrace) :=
  match language with
  | .RCN_LANG_C => some evaluateNodeC
  | .RCN_LANG_JAVA => some evaluateNodeJava
  | _ => none

/-- Function `createParser`, reduced to whether a parser exists for the
language (`false` is `NULL`). -/
def createParser (language : RcnTextFormat) : Bool :=
  match language with
  | .RCN_LANG_C => true
  | .RCN_LANG_JAVA => true
  | _ => false

/-- Function `evaluateSourceTree`: the returned state and the trace
afterwards. The size handed to the parser is `(uint32_t) source.size`. -/
def evaluateSourceTree (env : Env) (source : RcnSourceText) (language : RcnTextFormat)
    (evaluator : TSNode → NodeEvalTrace → NodeEvalTrace) (trace : NodeEvalTrace) :
    RcnResultState × NodeEvalTrace :=
  if source.size > UINT32_MAX then
    ({ errorCode := .RCN_ERR_INPUT_TOO_LARGE,
       errorMessage := some "Source input exceeds maximum supported size",
       ok := false }, trace)
  else if !createParser language then
    ({ errorCode := .RCN_ERR_UNSUPPORTED_FORMAT,
       errorMessage := some "The input language is not supported",
       ok := false }, trace)
  else
    let encoding := detectEncoding source
    let parsed := env.parse language encoding { source with size := source.size % 2 ^ 32 }
    if parsed.hasError then
      ({ errorCode := .RCN_ERR_SYNTAX_ERROR,
         errorMessage := some "Syntax error detected in source code",
         ok := false }, trace)
    else
      ({ errorCode := .RCN_ERR_NONE, errorMessage := none, ok := true },
       traverseTree evaluator parsed.root trace)

/-- Function `rcnCountLogicalLines`. -/
def rcnCountLogicalLines (env : Env) (language : RcnTextFormat) (sourceCode : RcnSourceText) :
    RcnCountResult :=
  if sourceCode.text.isNone then
    errResult .RCN_ERR_INVALID_INPUT "Source code input must not be NULL"
  else
    match createEvaluationFunction language with
    | none =>
      errResult .RCN_ERR_UNSUPPORTED_FORMAT
        "The input format or programming language is not supported"
    | some evaluator =>
      let r := evaluateSourceTree env sourceCode language evaluator NodeEvalTrace.zero
      { count := r.2.count, state := r.1 }

/-! ## The coordinator (`statistics.c`) -/

/-- Constant `DEFAULT_OPT_ENABLE_ALL`. -/
def DEFAULT_OPT_ENABLE_ALL : Nat := 0xffffffff

/-- Function `isFormatSelected`. -/
def isFormatSelected (options : RcnStatOptions) (srcFormat : RcnTextFormat) : Bool :=
  (options.formats &&& RECKON_MK_FRMT_OPT srcFormat) != 0

/-- Function `resetResultGroup`. -/
def resetResultGroup (resultGroup : RcnCountResultGroup) : RcnCountResultGroup :=
  { resultGroup with
    logicalLines := 0, physicalLines := 0, words := 0, characters := 0, sourceSize := 0,
    state := { resultGroup.state with ok := false },
    isProcessed := false }

/-- The three objects that one iteration of the loop of `rcnCount` works on
through pointers: `stats`, `&stats->count.files[i]` and
`&stats->count.results[i]`. -/
structure CountCtx where
  stats : RcnCountStatistics
  file : RcnSourceFile
  result : RcnCountResultGroup
  deriving DecidableEq, Repr

/-- Function `ensureFileContent`. -/
def ensureFileContent (env : Env) (options : RcnStatOptions) (ctx : CountCtx) :
    Bool × CountCtx :=
  let rd := if !ctx.file.isContentRead then readSourceFileContent env ctx.file
            else (true, ctx.file)
  if !rd.1 then
    (false,
     { stats := { ctx.stats with state :=
         { errorCode := .RCN_ERR_INVALID_INPUT,
           errorMessage := some "Failed to read file content",
           ok := if options.stopOnError then false else ctx.stats.state.ok } },
       file := rd.2,
       result := { ctx.result with state :=
         { errorCode := .RCN_ERR_INVALID_INPUT,
           errorMessage := some "Failed to read file content",
           ok := false } } })
  else if rd.2.status != .RCN_FILE_OP_OK || rd.2.content.text.isNone then
    (false,
     { stats := { ctx.stats with state :=
         { ctx.stats.state with
           errorCode := .RCN_ERR_INVALID_INPUT,
           ok := if options.stopOnError then false else ctx.stats.state.ok } },
       file := rd.2,
       result := { ctx.result with state :=
         { ctx.result.state with errorCode := .RCN_ERR_INVALID_INPUT, ok := false } } })
  else (true, { ctx with file := rd.2 })

/-- Function `checkIntermediateResultState`. -/
def checkIntermediateResultState (ctx : CountCtx) (state : RcnResultState) :
    Bool × CountCtx :=
  match state.errorCode with
  | .RCN_ERR_NONE => (true, ctx)
  | .RCN_ERR_ALLOC_FAILURE | .RCN_ERR_UNKNOWN =>
    (false,
     { ctx with
       stats := { ctx.stats with state :=
         { errorCode := state.errorCode, errorMessage := state.errorMessage, ok := false } },
       result := resetResultGroup { ctx.result with state := state } })
  | _ => (false, { ctx with result := resetResultGroup { ctx.result with state := state } })

/-- Function `countLogicalLines`. -/
def countLogicalLines (env : Env) (ctx : CountCtx) (language : RcnTextFormat) :
    Bool × CountCtx :=
  let result := rcnCountLogicalLines env language ctx.file.content
  let chk := checkIntermediateResultState ctx result.state
  if !chk.1 then (false, chk.2)
  else
    let ctx := chk.2
    (true,
     { ctx with
       result := { ctx.result with
         logicalLines := result.count,
         state := { ctx.result.state with ok := true, errorCode := .RCN_ERR_NONE } },
       stats := { ctx.stats with
         totalLogicalLines := addCount ctx.stats.totalLogicalLines result.count,
         logicalLines := ctx.stats.logicalLines.add language result.count } })

/-- Function `countPhysicalLines`. -/
def countPhysicalLines (ctx : CountCtx) (sourceFormat : RcnTextFormat) : Bool × CountCtx :=
  let result := rcnCountPhysicalLines ctx.file.content
  let chk := checkIntermediateResultState ctx result.state
  if !chk.1 then (false, chk.2)
  else
    let ctx := chk.2
    (true,
     { ctx with
       result := { ctx.result with
         physicalLines := result.count,
         state := { ctx.result.state with ok := true, errorCode := .RCN_ERR_NONE } },
       stats := { ctx.stats with
         totalPhysicalLines := addCount ctx.stats.totalPhysicalLines result.count,
         physicalLines := ctx.stats.physicalLines.add sourceFormat result.count } })

/-- Function `countWords`. -/
def countWords (ctx : CountCtx) (sourceFormat : RcnTextFormat) : Bool × CountCtx :=
  let result := rcnCountWords ctx.file.content
  let chk := checkIntermediateResultState ctx result.state
  if !chk.1 then (false, chk.2)
  else
    let ctx := chk.2
    (true,
     { ctx with
       result := { ctx.result with
         words := result.count,
         state := { ctx.result.state with ok := true, errorCode := .RCN_ERR_NONE } },
       stats := { ctx.stats with
         totalWords := addCount ctx.stats.totalWords result.count,
         words := ctx.stats.words.add sourceFormat result.count } })

/-- Function `countCharacters`. -/
def countCharacters (ctx : CountCtx) (sourceFormat : RcnTextFormat) : Bool × CountCtx :=
  let result := rcnCountCharacters ctx.file.content
  let chk := checkIntermediateResultState ctx result.state
  if !chk.1 then (false, chk.2)
  else
    let ctx := chk.2
    (true,
     { ctx with
       result := { ctx.result with
         characters := result.count,
         state := { ctx.result.state with ok := true, errorCode := .RCN_ERR_NONE } },
       stats := { ctx.stats with
         totalCharacters := addCount ctx.stats.totalCharacters result.count,
         characters := ctx.stats.characters.add sourceFormat result.count } })

/-- Function `countProcessedFile`; `sizeProcessed` is a `size_t`. -/
def countProcessedFile (ctx : CountCtx) (sourceFormat : RcnTextFormat) : CountCtx :=
  let fileSize := ctx.file.content.size
  { ctx with
    result := { ctx.result with isProcessed := true, sourceSize := fileSize },
    stats := { ctx.stats with
      count := { ctx.stats.count with
        sizeProcessed := (ctx.stats.count.sizeProcessed + 1) % 2 ^ 64 },
      totalSourceSize := addCount ctx.stats.totalSourceSize fileSize,
      sourceSize := ctx.stats.sourceSize.add sourceFormat fileSize } }

/-- Function `count`. -/
def count (env : Env) (options : RcnStatOptions) (ctx : CountCtx)
    (detected : SourceFormatDetection) : Bool × CountCtx :=
  let sourceFormat := detected.format
  let s0 := ensureFileContent env options ctx
  let s1 :=
    if s0.1 && (options.operations &&& RCN_OPT_COUNT_LOGICAL_LINES) != 0 then
      if detected.isProgrammingLanguage then countLogicalLines env s0.2 sourceFormat
      else s0
    else s0
  let s2 :=
    if s1.1 && (options.operations &&& RCN_OPT_COUNT_PHYSICAL_LINES) != 0 then
      countPhysicalLines s1.2 sourceFormat
    else s1
  let s3 :=
    if s2.1 && (options.operations &&& RCN_OPT_COUNT_WORDS) != 0 then
      countWords s2.2 sourceFormat
    else s2
  let s4 :=
    if s3.1 && (options.operations &&& RCN_OPT_COUNT_CHARACTERS) != 0 then
      countCharacters s3.2 sourceFormat
    else s3
  let ok := s4.1
  let c5 := if ok then countProcessedFile s4.2 sourceFormat else s4.2
  let c6 :=
    if !options.keepFileContent then { c5 with file := freeSourceFileContent c5.file }
    else c5
  let c7 :=
    if !ok && options.stopOnError then
      { c6 with stats := { c6.stats with state := { c6.result.state with ok := false } } }
    else c6
  (ok, c7)

/-- The state of the loop of `rcnCount`: `stats` (without its two arrays) and
the elements `files[i..]`, `results[i..]` still to be visited or, in the
value returned, the elements as the loop leaves them. -/
structure LoopState where
  stats : RcnCountStatistics
  files : List RcnSourceFile
  results : List RcnCountResultGroup
  deriving DecidableEq, Repr

/-- An element of `files` and of `results` that the loop is done with, put in
front of what the rest of the loop yields. -/
def LoopState.push (file : RcnSourceFile) (result : RcnCountResultGroup)
    (rest : LoopState) : LoopState :=
  { rest with files := file :: rest.files, results := result :: rest.results }

/-- The loop `for (size_t i = 0; i < stats->count.size; ++i)` of `rcnCount`,
from index `i` on: the arguments are `files[i..]` and `results[i..]`. A
`continue` goes on with the tails, `break` leaves them as they are. -/
def rcnCountLoop (env : Env) (options : RcnStatOptions) :
    RcnCountStatistics → List RcnSourceFile → List RcnCountResultGroup → LoopState
  | stats, file :: files, result :: results =>
    let result := resetResultGroup result
    let detected := detectSourceFormat file
    if !detected.isSupportedFormat then
      LoopState.push file
        { result with state :=
          { result.state with
            errorCode := .RCN_ERR_UNSUPPORTED_FORMAT,
            errorMessage := some "The source format is not supported" } }
        (rcnCountLoop env options stats files results)
    else if !isFormatSelected options detected.format then
      LoopState.push file result (rcnCountLoop env options stats files results)
    else
      let r := count env options { stats := stats, file := file, result := result } detected
      if !r.1 && (options.stopOnError || !r.2.stats.state.ok) then
        { stats := r.2.stats, files := r.2.file :: files, results := r.2.result :: results }
      else
        LoopState.push r.2.file r.2.result (rcnCountLoop env options r.2.stats files results)
  | stats, files, results => { stats := stats, files := files, results := results }

/-- The two statements of `rcnCount` that replace a zero `operations` or
`formats` by `DEFAULT_OPT_ENABLE_ALL`. -/
def enableDefaults (options : RcnStatOptions) : RcnStatOptions :=
  { options with
    operations :=
      if options.operations == 0 then DEFAULT_OPT_ENABLE_ALL else options.operations,
    formats :=
      if options.formats == 0 then DEFAULT_OPT_ENABLE_ALL else options.formats }

/-- Function `rcnCount`, for a non-null `stats`. The arrays `files` and
`results` are read and written at the indices below `stats->count.size`
only. -/
def rcnCount (env : Env) (stats : RcnCountStatistics) (options : RcnStatOptions) :
    RcnCountStatistics :=
  match stats.count.files with
  | none =>
    { stats with state :=
      { errorCode := .RCN_ERR_INVALID_INPUT,
        errorMessage := some "No input files provided", ok := false } }
  | some files =>
    match stats.count.results with
    | none =>
      { stats with state :=
        { errorCode := .RCN_ERR_INVALID_INPUT,
          errorMessage := some "No result list provided", ok := false } }
    | some results =>
      let options := enableDefaults options
      let size := stats.count.size
      let r := rcnCountLoop env options
        { stats with state := { errorCode := .RCN_ERR_NONE, errorMessage := none, ok := true } }
        (files.take size) (results.take size)
      let results := r.results ++ results.drop size
      let stats := { r.stats with count :=
        { r.stats.count with
          files := some (r.files ++ files.drop size),
          results := some results } }
      if size == 1 then
        match results with
        | result :: _ => { stats with state := result.state }
        | [] => stats
      else stats

/-! ## Statistics as they are created (`rcnCreateCountStatistics`) -/

/-- A result group as `calloc` leaves it. -/
def zeroResultGroup : RcnCountResultGroup :=
  { logicalLines := 0, physicalLines := 0, words := 0, characters := 0, sourceSize := 0,
    state := { errorCode := .RCN_ERR_NONE, errorMessage := none, ok := false },
    isProcessed := false }

/-- A counter array as `calloc` leaves it. -/
def zeroCounters : FormatCounters :=
  { unformatted := 0, langC := 0, langJava := 0, markdown := 0 }

/-- The statistics that `rcnCreateCountStatistics` returns once `collectFiles`
or `setupFile` have found the given files: `calloc`, then `count.files`,
`count.results` (one zero group for each file, `NULL` when there is none)
and `count.size`. -/
def freshStatistics (files : List RcnSourceFile) : RcnCountStatistics :=
  { totalLogicalLines := 0, totalPhysicalLines := 0, totalWords := 0,
    totalCharacters := 0, totalSourceSize := 0,
    logicalLines := zeroCounters, physicalLines := zeroCounters, words := zeroCounters,
    characters := zeroCounters, sourceSize := zeroCounters,
    count :=
      { files := if files.isEmpty then none else some files,
        results :=
          if files.isEmpty then none else some (List.replicate files.length zeroResultGroup),
        size := files.length,
        sizeProcessed := 0 },
    state := { errorCode := .RCN_ERR_NONE, errorMessage := none, ok := false } }

/-- Whether the loop of `rcnCount` calls `count` on a file and `count` returns
`false`: the format is supported and selected, and loading the content or a
counting step fails. -/
def fileFails (env : Env) (options : RcnStatOptions) (file : RcnSourceFile) : Bool :=
  let detected := detectSourceFormat file
  detected.isSupportedFormat && isFormatSelected options detected.format &&
    !(count env options
        { stats := freshStatistics [], file := file, result := zeroResultGroup } detected).1

/-! ## File names (`fileio.c`, `linux/fileio.c`) -/

/-- Function `strrchr` on the characters of a C string: the offset of the
last occurrence of `c`, `none` for `NULL`. The second argument is the offset
of the first character of the list and the third the last occurrence seen so
far. -/
def strrchrFrom (c : Char) : List Char → Nat → Option Nat → Option Nat
  | [], _, last => last
  | x :: rest, offset, last =>
    strrchrFrom c rest (offset + 1) (if x == c then some offset else last)

/-- Function `strrchr`: the offset of the last occurrence of `c` in the
string, `none` for `NULL`. -/
def strrchr (string : List Char) (c : Char) : Option Nat :=
  strrchrFrom c string 0 none

/-- Function `findFilenameImpl` of `linux/fileio.c`: the offset into `path`
of the returned pointer, which is the last slash, or `path` itself without
one. -/
def findFilenameImpl (path : List Char) : Nat :=
  match strrchr path '/' with
  | some slash => slash
  | none => 0

/-- Function `findFilename`, for a non-null `path`: the offset into `path` of
the returned pointer. The test `path == separator` compares pointers, that
is, offsets. -/
def findFilename (path : List Char) : Nat :=
  let separator := findFilenameImpl path
  if separator == 0 then separator else separator + 1

/-- Function `findExtension`, for a non-null `name`: the offset into `name` of
the returned pointer, `none` for `NULL`. -/
def findExtension (name : List Char) : Option Nat :=
  match strrchr name '.' with
  | none => none
  | some dot => if name.drop (dot + 1) == [] then none else some (dot + 1)

/-- Function `initSourceFile`, for non-null `file` and `path`. `strdupOk` says
whether `strdup` returns a copy, and `enomem` whether `errno` is `ENOMEM`
when it does not. -/
def initSourceFile (path : String) (strdupOk enomem : Bool) : RcnSourceFile :=
  if strdupOk then
    let name := path.toList.drop (findFilename path.toList)
    { path := some path,
      name := some (String.mk name),
      extension := (findExtension name).map (fun offset => String.mk (name.drop offset)),
      content := { text := none, size := 0 },
      isContentRead := false,
      status := .RCN_FILE_OP_OK }
  else
    { path := none, name := none, extension := none,
      content := { text := none, size := 0 },
      isContentRead := false,
      status :=
        if enomem then .RCN_FILE_OP_ALLOC_FAILURE else .RCN_FILE_OP_UNKNOWN_ERROR }

/-! ## Annotation (`annotation.c`) -/

/-- The bytes of a C string: the list stands for the memory from the pointer
on, the string ends before its first NUL, and a NUL follows the last byte of
the list. -/
def cstring (string : List Nat) : List Nat := string.takeWhile (fun c => c != 0)

/-- Function `strlen`. -/
def strlen (string : List Nat) : Nat := (cstring string).length

/-- Function `linebufferAppend`, for a non-null `string`. It is called in
`finalizeLineComments` only, after the reservation for the whole comment has
succeeded, so that its own `linebufferReserve` finds the capacity and does not
fail. -/
def linebufferAppend (buffer : LineCommentBuffer) (string : List Nat) : LineCommentBuffer :=
  { buffer with ptr := buffer.ptr ++ cstring string }

/-- Function `linebufferRecordType`, for a non-null `symbolName`: the copy of
the name, with every underscore replaced by a space, is appended to
`symbolTypes`. `allocated` says whether the `realloc` of `symbolTypes`, where
it has to grow, and the `malloc` of the copy succeed; when one of them fails
the function returns and the name is not recorded. -/
def linebufferRecordType (allocated : Bool) (buffer : LineCommentBuffer)
    (symbolName : List Nat) : LineCommentBuffer :=
  if !allocated then buffer
  else
    let symbolNameCopy := (cstring symbolName).map (fun character =>
      if character == 0x5f then 0x20 else character)
    { buffer with symbolTypes := buffer.symbolTypes ++ [symbolNameCopy] }

/-- Function `getInlineSourceCommentString`: the string `//` for every
language. -/
def getInlineSourceCommentString (_language : RcnTextFormat) : List Nat := [0x2f, 0x2f]

/-- What `snprintf` writes for `%llu`: the decimal digits of the value. -/
def weightBuffer (weight : Nat) : List Nat :=
  (Nat.toDigits 10 (weight % 2 ^ 64)).map Char.toNat

/-- The loop of `finalizeLineComments` that appends the recorded names, with
the separator `, ` after each name but the last. -/
def appendSymbolTypes (buffer : LineCommentBuffer) : List (List Nat) → LineCommentBuffer
  | [] => buffer
  | [symbolType] => linebufferAppend buffer symbolType
  | symbolType :: rest =>
    appendSymbolTypes
      (linebufferAppend (linebufferAppend buffer symbolType) [0x2c, 0x20]) rest

/-- The outcome of the allocations of an annotation: `malloc` of the context
and `calloc` of its line buffers in `createNodeEvalContextAnnotation`,
`malloc` of the annotated text in `buildAnnotatedSource`, the allocations of
`linebufferRecordType` in the visit of the node at which `trace->idx` is
`i` (`record i`), and `linebufferReserve` for the comment of line `i` in
`finalizeLineComments` (`reserve i`). -/
structure AnnotationMemory where
  ctx : Bool
  lines : Bool
  annotated : Bool
  record : Nat → Bool
  reserve : Nat → Bool

/-- The body of the loop of `finalizeLineComments` for one line buffer;
`reserved` says whether `linebufferReserve` succeeds for the whole comment.
When it fails, the recorded names are freed and the line is left without a
comment. -/
def finalizeLineComment (language : RcnTextFormat) (reserved : Bool)
    (buffer : LineCommentBuffer) : LineCommentBuffer :=
  if buffer.symbolCount == 0 then buffer
  else if !reserved then { buffer with symbolTypes := [] }
  else
    let buffer := linebufferAppend buffer [0x20]
    let buffer := linebufferAppend buffer (getInlineSourceCommentString language)
    let buffer := linebufferAppend buffer [0x20, 0x2b]
    let buffer := linebufferAppend buffer (weightBuffer buffer.weight)
    let buffer := linebufferAppend buffer [0x20, 0x28]
    let buffer := appendSymbolTypes buffer buffer.symbolTypes
    let buffer := linebufferAppend buffer [0x29]
    { buffer with symbolTypes := [] }

/-- The loop `for (size_t i = 0; i < ctx->lineCount; ++i)` of
`finalizeLineComments`, from line `i` on. -/
def finalizeLinesFrom (memory : AnnotationMemory) (language : RcnTextFormat) :
    Nat → List LineCommentBuffer → List LineCommentBuffer
  | _, [] => []
  | i, buffer :: rest =>
    finalizeLineComment language (memory.reserve i) buffer ::
      finalizeLinesFrom memory language (i + 1) rest

/-- Function `finalizeLineComments`; the list `lines` holds the `lineCount`
elements of the array. -/
def finalizeLineComments (memory : AnnotationMemory) (ctx : AnnotationContext) :
    AnnotationContext :=
  { ctx with lines := finalizeLinesFrom memory ctx.language 0 ctx.lines }

/-- Function `checkIsNewline`. -/
def checkIsNewline (sourceCode : List Nat) (length index : Nat) : Nat :=
  let character0 := sourceCode.getD index 0
  if character0 == 0x0a then 1
  else if character0 == 0x0d && (index + 1 < length && sourceCode.getD (index + 1) 0 == 0x0a)
  then 2
  else 0

/-- The comment of line `lineIndex` that `mergeSourceAnnotations` copies: the
bytes of `ctx->lines[lineIndex]` when `lineIndex < lineCount`, and nothing
otherwise; an empty buffer adds nothing either way. -/
def lineComment (ctx : AnnotationContext) (lineIndex : Nat) : List Nat :=
  if lineIndex < ctx.lineCount then (ctx.lines.getD lineIndex {}).ptr else []

/-- The loop `for (size_t i = 0; i < sourceLength; ++i)` of
`mergeSourceAnnotations`: the first argument bounds the number of iterations,
then come `i`, `lineIndex` and the bytes written to `annotated` so far, whose
number is `charIndex`. -/
def mergeLoop (sourceCode : List Nat) (sourceLength : Nat) (ctx : AnnotationContext) :
    Nat → Nat → Nat → List Nat → Nat × List Nat
  | 0, _, lineIndex, annotated => (lineIndex, annotated)
  | fuel + 1, i, lineIndex, annotated =>
    if i < sourceLength then
      let character := sourceCode.getD i 0
      let nlType := checkIsNewline sourceCode sourceLength i
      if nlType != 0 then
        let annotated := annotated ++ lineComment ctx lineIndex
        if nlType == 2 then
          mergeLoop sourceCode sourceLength ctx fuel (i + 2) (lineIndex + 1)
            (annotated ++ [sourceCode.getD i 0, sourceCode.getD (i + 1) 0])
        else
          mergeLoop sourceCode sourceLength ctx fuel (i + 1) (lineIndex + 1)
            (annotated ++ [sourceCode.getD i 0])
      else
        mergeLoop sourceCode sourceLength ctx fuel (i + 1) lineIndex (annotated ++ [character])
    else (lineIndex, annotated)

/-- Function `mergeSourceAnnotations`: the bytes written to `annotated`, the
terminating NUL included; the returned `charIndex` is their number. -/
def mergeSourceAnnotations (sourceCode : List Nat) (sourceLength : Nat)
    (ctx : AnnotationContext) : List Nat :=
  let merged := mergeLoop sourceCode sourceLength ctx sourceLength 0 0 []
  merged.2 ++ lineComment ctx merged.1 ++ [0]

/-- Function `createNodeEvalContextAnnotation`; `none` is `NULL`. -/
def createNodeEvalContextAnnotation (memory : AnnotationMemory) (language : RcnTextFormat)
    (lineCount : Nat) : Option AnnotationContext :=
  if !memory.ctx then none
  else
    match createEvaluationFunction language with
    | none => none
    | some _ =>
      if !memory.lines then none
      else some { lines := List.replicate lineCount {}, lineCount := lineCount,
                  language := language }

/-- The update of `ctx->lines[row]` in `annotateLineWithNodeType`: the weight
is added, then `linebufferRecordType` is called. -/
def recordOnLine (allocated : Bool) (symbolWeight : Nat) (symbolName : List Nat) :
    List LineCommentBuffer → Nat → List LineCommentBuffer
  | [], _ => []
  | buffer :: rest, 0 =>
    linebufferRecordType allocated
      { buffer with weight := addCount buffer.weight symbolWeight } symbolName :: rest
  | buffer :: rest, row + 1 =>
    buffer :: recordOnLine allocated symbolWeight symbolName rest row

/-- Function `annotateLineWithNodeType`. The evaluator adds the weight of the
node to a local result, which starts at zero; afterwards `trace->result` is
`NULL`, for which `count` is left at zero. -/
def annotateLineWithNodeType (memory : AnnotationMemory) (node : TSNode)
    (trace : NodeEvalTrace) : NodeEvalTrace :=
  match trace.ctx with
  | none => trace
  | some ctx =>
    if node.row >= ctx.lineCount then trace
    else
      match createEvaluationFunction ctx.language with
      | none => trace
      | some evaluator =>
        let evaluated := evaluator node { trace with count := 0 }
        let symbolWeight := evaluated.count
        let ctx :=
          if symbolWeight != 0 then
            { ctx with lines :=
                (recordOnLine (memory.record trace.idx) symbolWeight node.type ctx.lines
                  node.row) }
          else ctx
        { evaluated with count := 0, ctx := some ctx }

/-- The sum `spaceForComments` of `buildAnnotatedSource`. -/
def spaceForComments (ctx : AnnotationContext) : Nat :=
  (ctx.lines.map LineCommentBuffer.size).sum

/-- The value `annotatedSourceLength` of `buildAnnotatedSource`: the size of
the allocation for the annotated text. -/
def annotatedSourceLength (memory : AnnotationMemory) (sourceCode : List Nat)
    (trace : NodeEvalTrace) : Nat :=
  match trace.ctx with
  | none => 0
  | some ctx => strlen sourceCode + spaceForComments (finalizeLineComments memory ctx) + 1

/-- The bytes that `buildAnnotatedSource` has `mergeSourceAnnotations` write;
`nCharsWritten` is their number. -/
def annotatedBytes (memory : AnnotationMemory) (sourceCode : List Nat)
    (trace : NodeEvalTrace) : List Nat :=
  match trace.ctx with
  | none => []
  | some ctx =>
    mergeSourceAnnotations sourceCode (strlen sourceCode) (finalizeLineComments memory ctx)

/-- Function `buildAnnotatedSource`, for a trace with a context;
`memory.annotated` says whether the annotated text is allocated. The returned
`text` is the buffer, which holds one byte, the NUL, more than `size`. -/
def buildAnnotatedSource (memory : AnnotationMemory) (sourceCode : List Nat)
    (trace : NodeEvalTrace) : RcnSourceText :=
  if !memory.annotated then { text := none, size := 0 }
  else
    let annotated := annotatedBytes memory sourceCode trace
    let nCharsWritten := annotated.length
    { text := some annotated, size := nCharsWritten - 1 }

/-! ## Marking logical lines (`logical.c`) -/

/-- The text that `rcnMarkLogicalLinesInSourceText` works on: the source
behind its UTF-8 byte order mark (`text += 3; size -= 3`). -/
def skipUTF8BOM (sourceCode : RcnSourceText) : RcnSourceText :=
  if hasUTF8BOM sourceCode then
    { text := sourceCode.text.map (fun text => text.drop 3), size := sourceCode.size - 3 }
  else sourceCode

/-- Function `rcnMarkLogicalLinesInSourceText`. -/
def rcnMarkLogicalLinesInSourceText (env : Env) (memory : AnnotationMemory)
    (language : RcnTextFormat) (sourceCode : RcnSourceText) : RcnSourceText :=
  let resultText : RcnSourceText := { text := none, size := 0 }
  if sourceCode.text.isNone then resultText
  else if detectEncoding sourceCode != .TextEncodingUTF8 then resultText
  else
    let sourceCode := skipUTF8BOM sourceCode
    let lineCount := rcnCountPhysicalLines sourceCode
    if !lineCount.state.ok then resultText
    else
      match createNodeEvalContextAnnotation memory language lineCount.count with
      | none => resultText
      | some ctx =>
        let evaluated := evaluateSourceTree env sourceCode language
          (annotateLineWithNodeType memory) { NodeEvalTrace.zero with ctx := some ctx }
        if evaluated.1.ok then
          buildAnnotatedSource memory (sourceCode.text.getD []) evaluated.2
        else resultText

/-! ## Notions used to state the properties -/

/-- State of a successful single operation. -/
def okState : RcnResultState := { errorCode := .RCN_ERR_NONE, errorMessage := none, ok := true }

/-- State of a counter that refuses an input above `UINT32_MAX`. -/
def tooLargeState : RcnResultState :=
  { errorCode := .RCN_ERR_INPUT_TOO_LARGE,
    errorMessage := some "Input exceeds maximum supported size", ok := false }

/-- The result group that a failed step leaves: `resetResultGroup` after
`resultGroup->state = state`. -/
def failedResult (state : RcnResultState) : RcnCountResultGroup :=
  { logicalLines := 0, physicalLines := 0, words := 0, characters := 0, sourceSize := 0,
    state := { state with ok := false }, isProcessed := false }

/-- The file as `ensureFileContent` leaves it and whether it returns `true`:
the content is read unless `isContentRead` is set, and the file must then
have the status `RCN_FILE_OP_OK` and a non-null text. -/
def loadFile (env : Env) (file : RcnSourceFile) : Bool × RcnSourceFile :=
  let rd := if !file.isContentRead then readSourceFileContent env file else (true, file)
  (rd.1 && !(rd.2.status != .RCN_FILE_OP_OK || rd.2.content.text.isNone), rd.2)

/-- Whether `count` runs the logical-line step. -/
def runsLogical (options : RcnStatOptions) (detected : SourceFormatDetection) : Bool :=
  (options.operations &&& RCN_OPT_COUNT_LOGICAL_LINES) != 0 && detected.isProgrammingLanguage

/-- Whether `count` runs the physical-line step. -/
def runsPhysical (options : RcnStatOptions) : Bool :=
  (options.operations &&& RCN_OPT_COUNT_PHYSICAL_LINES) != 0

/-- Whether `count` runs the word step. -/
def runsWords (options : RcnStatOptions) : Bool :=
  (options.operations &&& RCN_OPT_COUNT_WORDS) != 0

/-- Whether `count` runs the character step. -/
def runsCharacters (options : RcnStatOptions) : Bool :=
  (options.operations &&& RCN_OPT_COUNT_CHARACTERS) != 0

/-- The state of the first counting step of `count` that fails on a loaded
content, if one does. -/
def counterFailure (env : Env) (options : RcnStatOptions) (detected : SourceFormatDetection)
    (source : RcnSourceText) : Option RcnResultState :=
  if runsLogical options detected
      && (rcnCountLogicalLines env detected.format source).state.errorCode != .RCN_ERR_NONE then
    some (rcnCountLogicalLines env detected.format source).state
  else if (runsPhysical options || runsWords options || runsCharacters options)
      && decide (source.size > UINT32_MAX) then
    some tooLargeState
  else none

/-- The end of `count` after a failed step: the content is dropped unless it
is kept, and `stopOnError` copies the state of the result to the
statistics. -/
def finishFailed (options : RcnStatOptions) (c : CountCtx) : CountCtx :=
  { stats :=
      if options.stopOnError then
        { c.stats with state := { c.result.state with ok := false } }
      else c.stats,
    file := if !options.keepFileContent then freeSourceFileContent c.file else c.file,
    result := c.result }

/-- The result group of a file on which every step of `count` succeeds. -/
def countedResult (env : Env) (options : RcnStatOptions) (detected : SourceFormatDetection)
    (source : RcnSourceText) (r : RcnCountResultGroup) : RcnCountResultGroup :=
  { logicalLines :=
      if runsLogical options detected then
        (rcnCountLogicalLines env detected.format source).count
      else r.logicalLines,
    physicalLines :=
      if runsPhysical options then (rcnCountPhysicalLines source).count else r.physicalLines,
    words := if runsWords options then (rcnCountWords source).count else r.words,
    characters :=
      if runsCharacters options then (rcnCountCharacters source).count else r.characters,
    sourceSize := source.size,
    state :=
      if runsLogical options detected || runsPhysical options || runsWords options
          || runsCharacters options then
        { r.state with ok := true, errorCode := .RCN_ERR_NONE }
      else r.state,
    isProcessed := true }

/-- The statistics after a file on which every step of `count` succeeds. -/
def countedStats (env : Env) (options : RcnStatOptions) (detected : SourceFormatDetection)
    (source : RcnSourceText) (s : RcnCountStatistics) : RcnCountStatistics :=
  { totalLogicalLines :=
      if runsLogical options detected then
        addCount s.totalLogicalLines (rcnCountLogicalLines env detected.format source).count
      else s.totalLogicalLines,
    totalPhysicalLines :=
      if runsPhysical options then
        addCount s.totalPhysicalLines (rcnCountPhysicalLines source).count
      else s.totalPhysicalLines,
    totalWords :=
      if runsWords options then addCount s.totalWords (rcnCountWords source).count
      else s.totalWords,
    totalCharacters :=
      if runsCharacters options then
        addCount s.totalCharacters (rcnCountCharacters source).count
      else s.totalCharacters,
    totalSourceSize := addCount s.totalSourceSize source.size,
    logicalLines :=
      if runsLogical options detected then
        s.logicalLines.add detected.format (rcnCountLogicalLines env detected.format source).count
      else s.logicalLines,
    physicalLines :=
      if runsPhysical options then
        s.physicalLines.add detected.format (rcnCountPhysicalLines source).count
      else s.physicalLines,
    words :=
      if runsWords options then s.words.add detected.format (rcnCountWords source).count
      else s.words,
    characters :=
      if runsCharacters options then
        s.characters.add detected.format (rcnCountCharacters source).count
      else s.characters,
    sourceSize := s.sourceSize.add detected.format source.size,
    count := { s.count with sizeProcessed := (s.count.sizeProcessed + 1) % 2 ^ 64 },
    state := s.state }

/-- One guarded step of `count`: `if (ok && cond) ok = f(...)`. -/
def countStep (cond : Bool) (f : CountCtx → Bool × CountCtx) (p : Bool × CountCtx) :
    Bool × CountCtx :=
  if p.1 && cond then f p.2 else p

/-- The end of `count`, from `if (ok) countProcessedFile(...)` on. -/
def countEnd (options : RcnStatOptions) (sourceFormat : RcnTextFormat)
    (p : Bool × CountCtx) : Bool × CountCtx :=
  let c5 := if p.1 then countProcessedFile p.2 sourceFormat else p.2
  let c6 :=
    if !options.keepFileContent then { c5 with file := freeSourceFileContent c5.file }
    else c5
  let c7 :=
    if !p.1 && options.stopOnError then
      { c6 with stats := { c6.stats with state := { c6.result.state with ok := false } } }
    else c6
  (p.1, c7)

/-- Whether `count` returns `true` on a file: the content loads and no
counting step fails. -/
def countSucceeds (env : Env) (options : RcnStatOptions) (file : RcnSourceFile)
    (detected : SourceFormatDetection) : Bool :=
  (loadFile env file).1 && (counterFailure env options detected (loadFile env file).2.content).isNone

/-- Whether the loop of `rcnCount` leaves at a file by `break`. -/
def stopsLoop (env : Env) (options : RcnStatOptions) (file : RcnSourceFile) : Bool :=
  options.stopOnError && fileFails env options file

/-- The result group of a file whose format is not supported. -/
def unsupportedResult (result : RcnCountResultGroup) : RcnCountResultGroup :=
  { resetResultGroup result with state :=
    { (resetResultGroup result).state with
      errorCode := .RCN_ERR_UNSUPPORTED_FORMAT,
      errorMessage := some "The source format is not supported" } }

/-- The effect of `count` on one total and on the field of the result that
goes with it. -/
def Tracks (tot : RcnCountStatistics → Nat) (fld : RcnCountResultGroup → Nat)
    (s : RcnCountStatistics) (c : Bool × CountCtx) : Prop :=
  tot c.2.stats % 2 ^ 64 = (tot s + fld c.2.result) % 2 ^ 64 ∧
    (tot s < 2 ^ 64 → tot c.2.stats < 2 ^ 64)

/-- The statistics the loop of `rcnCount` starts from: the state is set as
successful upfront. -/
def startStatistics (stats : RcnCountStatistics) : RcnCountStatistics :=
  { stats with state := { errorCode := .RCN_ERR_NONE, errorMessage := none, ok := true } }

/-- The end of `rcnCount`: the arrays as the loop leaves them, and the state of
the only result when there is one file. -/
def finishStatistics (size : Nat) (r : LoopState) : RcnCountStatistics :=
  let stats := { r.stats with count :=
    { r.stats.count with files := some r.files, results := some r.results } }
  if size == 1 then
    match r.results with
    | result :: _ => { stats with state := result.state }
    | [] => stats
  else stats

/-- An entry of `files` as `initSourceFile` leaves it: nothing read yet. -/
def sampleFile (path : String) (extension : String) : RcnSourceFile :=
  { path := some path, name := some path, extension := some extension,
    content := { text := none, size := 0 }, isContentRead := false,
    status := .RCN_FILE_OP_OK }

/-- A small environment: `good.c` and `notes.txt` hold the three bytes of
`x;` and a line feed, `bad.c` holds one byte on which the grammar service
reports an error, and no other path exists. -/
def sampleEnv : Env :=
  { access := fun path =>
      if path == "good.c" || path == "notes.txt" then .opened [0x78, 0x3b, 0x0a] true true
      else if path == "bad.c" then .opened [0x7b] true true
      else .openFailed true,
    parse := fun _ _ source =>
      { root := .node { symbol := 161, row := 0 } [.node { symbol := 266, row := 0 } []],
        hasError := source.size == 1 } }

/-- Whether a result records that the content of its file could not be
loaded. -/
def loadFailed (r : RcnCountResultGroup) : Bool :=
  r.state.errorCode == .RCN_ERR_INVALID_INPUT

/-- The result group that the loop of `rcnCount` leaves for a file it skips:
`resetResultGroup`, with the error code `RCN_ERR_UNSUPPORTED_FORMAT` when the
format is not supported. -/
def skippedResult (file : RcnSourceFile) (result : RcnCountResultGroup) :
    RcnCountResultGroup :=
  if (detectSourceFormat file).isSupportedFormat then resetResultGroup result
  else unsupportedResult result

/-- All the totals, the counters of every format and `sizeProcessed`. -/
def RcnCountStatistics.tallies (s : RcnCountStatistics) :
    (Nat × Nat × Nat × Nat × Nat) ×
      (FormatCounters × FormatCounters × FormatCounters × FormatCounters × FormatCounters) ×
      Nat :=
  ((s.totalLogicalLines, s.totalPhysicalLines, s.totalWords, s.totalCharacters,
      s.totalSourceSize),
    (s.logicalLines, s.physicalLines, s.words, s.characters, s.sourceSize),
    s.count.sizeProcessed)

/-- The result of the file `good.c` in `sampleEnv` with all operations. -/
def sampleCountedResult : RcnCountResultGroup :=
  { logicalLines := 1, physicalLines := 1, words := 1, characters := 3, sourceSize := 3,
    state := { errorCode := .RCN_ERR_NONE, errorMessage := none, ok := true },
    isProcessed := true }

/-- Options with every field zero: all operations, all formats, no stop on
error, content not kept. -/
def sampleOptions : RcnStatOptions :=
  { operations := 0, formats := 0, stopOnError := false, keepFileContent := false }

/-- Statistics whose results are given, as a caller may set them up. -/
def sampleStatistics (files : List RcnSourceFile) (results : List RcnCountResultGroup) :
    RcnCountStatistics :=
  { freshStatistics files with
    count := { files := some files, results := some results, size := files.length,
               sizeProcessed := 0 } }

/-- A result group with values left from an earlier use. -/
def sampleStaleResult : RcnCountResultGroup :=
  { logicalLines := 7, physicalLines := 9, words := 11, characters := 13, sourceSize := 13,
    state := { errorCode := .RCN_ERR_SYNTAX_ERROR, errorMessage := none, ok := true },
    isProcessed := true }

/-- The result of the file `bad.c` in `sampleEnv`. -/
def sampleSyntaxFailure : RcnCountResultGroup :=
  failedResult
    { errorCode := .RCN_ERR_SYNTAX_ERROR,
      errorMessage := some "Syntax error detected in source code", ok := false }

/-! ## Notions used to state the properties of the single counters -/

/-- The guards that `rcnCountPhysicalLines`, `rcnCountWords` and
`rcnCountCharacters` start with, as a property of a counter. -/
def GuardsInput (counter : RcnSourceText → RcnCountResult) (source : RcnSourceText) : Prop :=
  ((counter source).state.ok = true ↔
    source.size = 0 ∨ (source.text ≠ none ∧ source.size ≤ 2 ^ 32 - 1)) ∧
  (source.text = none → source.size ≠ 0 →
    (counter source).state.errorCode = .RCN_ERR_INVALID_INPUT) ∧
  (source.text ≠ none → source.size > 2 ^ 32 - 1 →
    (counter source).state.errorCode = .RCN_ERR_INPUT_TOO_LARGE) ∧
  ((counter source).state.ok = false → (counter source).count = 0)

/-- The tree that `evaluateSourceTree` gets from the grammar service for a
source text. -/
def parsedTree (env : Env) (language : RcnTextFormat) (source : RcnSourceText) : ParsedSource :=
  env.parse language (detectEncoding source) { source with size := source.size % 2 ^ 32 }

/-- A grammar service that yields for every text a tree made of its root node
alone, without error; no file exists. -/
def rootOnlyEnv : Env :=
  { access := fun _ => .openFailed true,
    parse := fun _ _ _ => { root := .node { symbol := 161, row := 0 } [], hasError := false } }

/-- The physical lines of a non-empty UTF-8 text as the specification counts
them: the number of `0x0A` bytes, plus 1 when the final byte is not `0x0A`. -/
def physicalLinesOfBytes (bytes : List Nat) : Nat :=
  bytes.count 0x0a + (if bytes.getLast? = some 0x0a then 0 else 1)

/-- The source text that holds the given bytes. -/
def sourceOfBytes (bytes : List Nat) : RcnSourceText :=
  { text := some bytes, size := bytes.length }

/-- The 16-bit code units of a byte sequence, in the given endianness; a
trailing odd byte belongs to no unit. -/
def utf16Units (littleEndian : Bool) : List Nat → List Nat
  | byte0 :: byte1 :: rest =>
    (if littleEndian then byte0 + 256 * byte1 else 256 * byte0 + byte1) ::
      utf16Units littleEndian rest
  | _ => []

/-- The physical lines of a UTF-16 text as the specification counts them, on
the code units that follow the BOM: the number of units `0x000A`, plus 1 when
there is at least one unit and the last one is not `0x000A`. -/
def physicalLinesOfUnits (units : List Nat) : Nat :=
  units.count 0x000a + (if units ≠ [] ∧ units.getLast? ≠ some 0x000a then 1 else 0)

/-- The byte order mark of UTF-16 in each endianness. -/
def utf16BOM (littleEndian : Bool) : List Nat :=
  if littleEndian then [0xff, 0xfe] else [0xfe, 0xff]

/-- The maximal runs of non-whitespace bytes of a text, whitespace being the
class of `isspace` applied byte-wise. -/
def maximalRuns (bytes : List Nat) : List (List Nat) :=
  (bytes.splitOnP isspace).filter (fun run => !run.isEmpty)

/-- The words of a text as the specification counts them: the number of
maximal runs of non-whitespace bytes. -/
def wordRunsOfBytes (bytes : List Nat) : Nat := (maximalRuns bytes).length

/-- The words of a text as the specification counts them, second wording: the
number of positions where a non-whitespace byte is at the start of the input or
follows a whitespace byte. The pairs are a byte and the byte before it, a
space standing before the first byte. -/
def wordStartsOfBytes (bytes : List Nat) : Nat :=
  ((0x20 :: bytes).zip bytes).countP (fun p => isspace p.1 && !isspace p.2)

/-- The words that `rcnCountWords` counts: the maximal runs of non-whitespace
bytes that hold a byte other than NUL. -/
def wordsOfBytes (bytes : List Nat) : Nat :=
  (maximalRuns bytes).countP (fun run => run.any (· != 0))

/-- The loop of `rcnCountWords` as a recursion on the bytes still to be
read. -/
def wordsScan : Bool → List Nat → Nat
  | _, [] => 0
  | inWord, character :: rest =>
    if isspace character then wordsScan false rest
    else if character != 0 && !inWord then 1 + wordsScan true rest
    else wordsScan inWord rest

/-- Whether a number is a Unicode scalar value: a code point up to `0x10FFFF`
that is not a surrogate. -/
def isScalarValue (c : Nat) : Bool :=
  c < 0x110000 && !(0xd800 ≤ c && c ≤ 0xdfff)

/-- The UTF-8 encoding of a scalar value, in one to four bytes. -/
def utf8Encode (c : Nat) : List Nat :=
  if c < 0x80 then [c]
  else if c < 0x800 then [0xc0 + c / 64, 0x80 + c % 64]
  else if c < 0x10000 then [0xe0 + c / 4096, 0x80 + c / 64 % 64, 0x80 + c % 64]
  else [0xf0 + c / 262144, 0x80 + c / 4096 % 64, 0x80 + c / 64 % 64, 0x80 + c % 64]

/-- The well-formed UTF-8 byte sequence that encodes the given code points. -/
def utf8EncodeAll : List Nat → List Nat
  | [] => []
  | c :: rest => utf8Encode c ++ utf8EncodeAll rest

/-- The characters of a UTF-8 text as the specification counts them: the
number of code points, not counting a leading byte order mark `U+FEFF`. -/
def codePointsCounted (codePoints : List Nat) : Nat :=
  if codePoints.head? = some 0xfeff then codePoints.length - 1 else codePoints.length

/-- Whether a code unit is a byte order mark, in either byte order. -/
def isBOMUnit (unit : Nat) : Bool := unit == 0xfeff || unit == 0xfffe

/-- Whether a code unit is a high surrogate. -/
def isHighSurrogate (unit : Nat) : Bool := 0xd800 ≤ unit && unit ≤ 0xdbff

/-- Whether a code unit is a low surrogate. -/
def isLowSurrogate (unit : Nat) : Bool := 0xdc00 ≤ unit && unit ≤ 0xdfff

/-- The characters of a UTF-16 text as the specification counts them, on the
code units that follow the BOM: one for a high surrogate immediately followed
by a low surrogate, nothing for a high surrogate that is not (the unit after
it is then counted on its own merits), nothing for a stray low surrogate,
nothing for an interior BOM unit, one for every other unit. -/
def charactersOfUnits : List Nat → Nat
  | [] => 0
  | [unit] =>
    if isBOMUnit unit || isHighSurrogate unit || isLowSurrogate unit then 0 else 1
  | unit :: next :: rest =>
    if isBOMUnit unit then charactersOfUnits (next :: rest)
    else if isHighSurrogate unit then
      if isLowSurrogate next then 1 + charactersOfUnits rest
      else charactersOfUnits (next :: rest)
    else if isLowSurrogate unit then charactersOfUnits (next :: rest)
    else 1 + charactersOfUnits (next :: rest)

/-- A walk: the visitor is called on the nodes in the order given, each call
on the trace that the one before left. -/
def walk (visitor : TSNode → NodeEvalTrace → NodeEvalTrace) (nodes : List TSNode)
    (trace : NodeEvalTrace) : NodeEvalTrace :=
  nodes.foldl (fun trace node => visitor node trace) trace

mutual
/-- The nodes of a tree in the order in which `traverseTree` visits them. -/
def visitOrder : TSTree → List TSNode
  | .node value children => value :: visitOrderOfSiblings children
/-- The nodes of a node and its next siblings in the order of the visits. -/
def visitOrderOfSiblings : List TSTree → List TSNode
  | [] => []
  | child :: rest => visitOrder child ++ visitOrderOfSiblings rest
end

/-- The logical lines of code that an evaluator counts on a walk that starts
with the trace `{0}`. -/
def logicalLinesOfWalk (evaluator : TSNode → NodeEvalTrace → NodeEvalTrace)
    (nodes : List TSNode) : Nat :=
  (walk evaluator nodes NodeEvalTrace.zero).count

/-- A node of a kind for which neither evaluator has a case label, such as an
identifier, a comment or a punctuation token. -/
def otherNode (row : Nat) : TSNode := { symbol := 1, row := row }

/-- The case labels of `evaluateNodeWeightJavaImpl`. -/
def caseLabelsJava : List Nat :=
  [SymbolIdentifiersJava.anon_sym_DASH_GT,
   SymbolIdentifiersJava.anon_sym_else,
   SymbolIdentifiersJava.sym_switch_label,
   SymbolIdentifiersJava.sym_expression_statement,
   SymbolIdentifiersJava.sym_if_statement,
   SymbolIdentifiersJava.sym_local_variable_declaration,
   SymbolIdentifiersJava.sym_do_statement,
   SymbolIdentifiersJava.sym_for_statement] ++ plainSymbolsJava

/-- Whether the Java evaluator has no case label for the kind of the node, so
that the node falls to the `default` of the `switch`. -/
def isOtherJava (node : TSNode) : Bool := !caseLabelsJava.contains node.symbol

/-- The trace `after` differs from `before` by `weight` more logical lines,
and the lines of the last switch label and of the last arrow are the same. -/
def AddsJava (weight : Nat) (before after : NodeEvalTrace) : Prop :=
  after.count % 2 ^ 64 = (before.count + weight) % 2 ^ 64 ∧
  after.lnLastSwitchLabel = before.lnLastSwitchLabel ∧
  after.lnLastArrow = before.lnLastArrow

/-- The bytes of an ASCII string. -/
def bytesOfString (s : String) : List Nat := s.toList.map Char.toNat

/-- A node with the given grammar symbol, row and kind name. -/
def namedNode (symbol row : Nat) (type : String) : TSNode :=
  { symbol := symbol, row := row, type := bytesOfString type }

/-- The subtree of the Java statement
`if (c == 0) a(); else if (c == 1) b(); else c();`, written on the rows 2, 3
and 4: an `if_statement` with the token `if`, the condition, the
`expression_statement`, the token `else` and the nested `if_statement`, which
ends with a second token `else` and the last `expression_statement`. -/
def javaIfElseChainTree : TSTree :=
  .node (namedNode 205 2 "if_statement")
    [ .node (otherNode 2) [],
      .node (otherNode 2) [.node (otherNode 2) [], .node (otherNode 2) [], .node (otherNode 2) []],
      .node (namedNode 187 2 "expression_statement") [.node (otherNode 2) [], .node (otherNode 2) []],
      .node (namedNode 91 3 "else") [],
      .node (namedNode 205 3 "if_statement")
        [ .node (otherNode 3) [],
          .node (otherNode 3)
            [.node (otherNode 3) [], .node (otherNode 3) [], .node (otherNode 3) []],
          .node (namedNode 187 3 "expression_statement")
            [.node (otherNode 3) [], .node (otherNode 3) []],
          .node (namedNode 91 4 "else") [],
          .node (namedNode 187 4 "expression_statement")
            [.node (otherNode 4) [], .node (otherNode 4) []] ] ]

/-- The tree of a Java class `A` with one method `f` whose body is the given
statements: the `program`, the `class_declaration` on row 0 with its
`class_body`, and the `method_declaration` on row 1 with its `block`. -/
def javaMethodTree (body : List TSTree) : TSTree :=
  .node (otherNode 0)
    [ .node (namedNode 233 0 "class_declaration")
        [ .node (otherNode 0) [], .node (otherNode 0) [],
          .node (otherNode 0)
            [ .node (otherNode 0) [],
              .node (namedNode 279 1 "method_declaration")
                [ .node (otherNode 1) [], .node (otherNode 1) [], .node (otherNode 1) [],
                  .node (otherNode 1)
                    (.node (otherNode 1) [] :: (body ++ [.node (otherNode 5) []])) ],
              .node (otherNode 6) [] ] ] ]

/-- A grammar service that yields the given tree for every text, without
error; no file exists. -/
def treeEnv (tree : TSTree) : Env :=
  { access := fun _ => .openFailed true,
    parse := fun _ _ _ => { root := tree, hasError := false } }

/-- The tree of a C text that is `comments` line comments, one per row,
followed by the declaration `int x;` on the next row: the `translation_unit`,
the comments and the `declaration` with its three children. -/
def commentsThenDeclarationTree (comments : Nat) : TSTree :=
  .node (namedNode 161 0 "translation_unit")
    ((List.range comments).map (fun row => TSTree.node (otherNode row) []) ++
      [ .node (namedNode 198 comments "declaration")
          [ .node (otherNode comments) [], .node (otherNode comments) [],
            .node (otherNode comments) [] ] ])

/-- The tree of the C text
`void f(void) { for (int i = 0; i < n; ++i) { vla[i] = i; } }` on one row:
the `function_definition` with its declarator and body, in which the
`for_statement` has the tokens `for` and `(`, the `declaration`, the
condition, the update and the `compound_statement` with the one
`expression_statement`. -/
def forLoopTree : TSTree :=
  .node (namedNode 161 0 "translation_unit")
    [ .node (namedNode 196 0 "function_definition")
        [ .node (otherNode 0) [],
          .node (otherNode 0) [.node (otherNode 0) [], .node (otherNode 0) []],
          .node (otherNode 0)
            [ .node (otherNode 0) [],
              .node (namedNode 273 0 "for_statement")
                [ .node (otherNode 0) [],
                  .node (otherNode 0) [],
                  .node (namedNode 198 0 "declaration")
                    [ .node (otherNode 0) [], .node (otherNode 0) [], .node (otherNode 0) [] ],
                  .node (otherNode 0) [.node (otherNode 0) [], .node (otherNode 0) []],
                  .node (otherNode 0) [],
                  .node (otherNode 0) [.node (otherNode 0) []],
                  .node (otherNode 0) [],
                  .node (otherNode 0)
                    [ .node (otherNode 0) [],
                      .node (namedNode 266 0 "expression_statement")
                        [.node (otherNode 0) [], .node (otherNode 0) []],
                      .node (otherNode 0) [] ] ],
              .node (otherNode 0) [] ] ] ]

open SymbolIdentifiersC in
/-- The row test of the C evaluator for one node: for a `struct_specifier`,
whether it starts on the line of the last declaration or of the last
expression statement; for an `enum_specifier` or `union_specifier`, whether
it starts on the line of the last declaration; the other kinds have no row
test. The first two arguments are the lines of the last declaration and of
the last expression statement so far, 0 when there is none. -/
def rowTestC (lastDecl lastExpr : Nat) (node : TSNode) : Bool :=
  if node.symbol = sym_struct_specifier then
    lastDecl == currentLine node || lastExpr == currentLine node
  else if node.symbol = sym_enum_specifier ∨ node.symbol = sym_union_specifier then
    lastDecl == currentLine node
  else false

open SymbolIdentifiersC in
/-- The outcome of the row tests of the C evaluator along a walk, one per
node, from the lines of the last declaration and of the last expression
statement before the walk. -/
def rowTestsCFrom (lastDecl lastExpr : Nat) : List TSNode → List Bool
  | [] => []
  | node :: rest =>
    rowTestC lastDecl lastExpr node ::
    rowTestsCFrom
      (if node.symbol = sym_declaration then currentLine node else lastDecl)
      (if node.symbol = sym__top_level_expression_statement
          ∨ node.symbol = sym_expression_statement then currentLine node else lastExpr)
      rest

/-- The outcome of the row tests of the C evaluator along a walk that starts
with the trace `{0}`. -/
def rowTestsC (nodes : List TSNode) : List Bool := rowTestsCFrom 0 0 nodes

open SymbolIdentifiersJava in
/-- The row test of the Java evaluator for one node: whether an
`expression_statement` starts on the line of both the last switch label and
the last arrow token; the other kinds have no row test. The first two
arguments are the lines of the last switch label and of the last arrow token
so far, 0 when there is none. -/
def rowTestJava (lastSwitchLabel lastArrow : Nat) (node : TSNode) : Bool :=
  if node.symbol = sym_expression_statement then
    lastSwitchLabel == currentLine node && lastArrow == currentLine node
  else false

open SymbolIdentifiersJava in
/-- The outcome of the row test of the Java evaluator along a walk, one per
node, from the lines of the last switch label and of the last arrow token
before the walk. -/
def rowTestsJavaFrom (lastSwitchLabel lastArrow : Nat) : List TSNode → List Bool
  | [] => []
  | node :: rest =>
    rowTestJava lastSwitchLabel lastArrow node ::
    rowTestsJavaFrom
      (if node.symbol = sym_switch_label then currentLine node else lastSwitchLabel)
      (if node.symbol = anon_sym_DASH_GT then currentLine node else lastArrow)
      rest

/-- The outcome of the row test of the Java evaluator along a walk that
starts with the trace `{0}`. -/
def rowTestsJava (nodes : List TSNode) : List Bool := rowTestsJavaFrom 0 0 nodes

/-- Two traces agree on the count and on every index, the lines left aside. -/
def SameButLines (t1 t2 : NodeEvalTrace) : Prop :=
  t1.count = t2.count ∧ t1.idx = t2.idx ∧ t1.idxLastForSym = t2.idxLastForSym ∧
  t1.idxLastElse = t2.idxLastElse ∧ t1.idxLastTypeDef = t2.idxLastTypeDef

/-- The tree of the C declaration `static struct S { int a; } s;`, with the
`declaration` on row 0 and the `struct_specifier` on the given row: row 0
when the text is one line, row 1 when a line break follows `static`. -/
def structDeclarationTree (row : Nat) : TSTree :=
  .node (namedNode 161 0 "translation_unit")
    [ .node (namedNode 198 0 "declaration")
        [ .node (otherNode 0) [.node (otherNode 0) []],
          .node (namedNode 249 row "struct_specifier")
            [ .node (otherNode row) [],
              .node (otherNode row) [],
              .node (otherNode row)
                [ .node (otherNode row) [],
                  .node (namedNode 253 row "field_declaration")
                    [ .node (otherNode row) [], .node (otherNode row) [],
                      .node (otherNode row) [] ],
                  .node (otherNode row) [] ] ],
          .node (otherNode row) [],
          .node (otherNode row) [] ] ]

/-- The nodes of a walk, each moved to a row of its own: the node at
position `k` starts on row `start + k`. -/
def onRowsFrom : Nat → List TSNode → List TSNode
  | _, [] => []
  | start, node :: rest => { node with row := start } :: onRowsFrom (start + 1) rest

/-- The weight that the evaluator of the language gives a node on a trace:
the local `weight` of `evaluateNodeWeightCimpl` or
`evaluateNodeWeightJavaImpl`. -/
def languageWeight (language : RcnTextFormat) (node : TSNode) (trace : NodeEvalTrace) : Nat :=
  match language with
  | .RCN_LANG_C => (evaluateNodeWeightCimpl node trace).1
  | .RCN_LANG_JAVA => (evaluateNodeWeightJavaImpl node trace).1
  | _ => 0

/-- The nodes that the annotating visitor hands to the evaluator along a walk,
each with the weight that the evaluator gives it and with the outcome of the
allocations for recording its kind name in this visit: a node that starts on
a row at or beyond the line count is passed over, and the evaluator does not
see it. -/
def evaluatedVisits (memory : AnnotationMemory) (language : RcnTextFormat)
    (evaluator : TSNode → NodeEvalTrace → NodeEvalTrace) (lineCount : Nat) :
    List TSNode → NodeEvalTrace → List (TSNode × Nat × Bool)
  | [], _ => []
  | node :: rest, trace =>
    if node.row < lineCount then
      (node, languageWeight language node trace, memory.record trace.idx) ::
        evaluatedVisits memory language evaluator lineCount rest (evaluator node trace)
    else evaluatedVisits memory language evaluator lineCount rest trace

/-- The weighted nodes that start on a row, in visit order, each with its
weight and with whether its kind name was recorded. -/
def recordedOnRow (row : Nat) (visits : List (TSNode × Nat × Bool)) :
    List (TSNode × Nat × Bool) :=
  visits.filter (fun visit => visit.1.row == row && visit.2.1 != 0)

/-- The decimal digits of a number, as bytes. -/
def decimalDigits (n : Nat) : List Nat := (Nat.toDigits 10 n).map Char.toNat

/-- The kind name as the comment shows it: every underscore replaced by a
space. -/
def shownKindName (node : TSNode) : List Nat :=
  (cstring node.type).map (fun c => if c = 0x5f then 0x20 else c)

/-- The kind names recorded for the given weighted nodes, as the comment shows
them: the names of the nodes for which the recording succeeded. -/
def recordedNames (recorded : List (TSNode × Nat × Bool)) : List (List Nat) :=
  (recorded.filter (fun visit => visit.2.2)).map (fun visit => shownKindName visit.1)

/-- The annotation comment of a line as the specification renders it from the
weighted nodes that start on the line: nothing when no kind name was recorded
or when the space for the comment could not be reserved, and else one space,
`//`, a space, `+`, the decimal sum of the weights of all these nodes (a
64-bit sum), a space, `(`, the recorded kind names in visit order joined by
`, `, and `)`. -/
def renderedComment (reserved : Bool) (recorded : List (TSNode × Nat × Bool)) : List Nat :=
  if recordedNames recorded = [] ∨ reserved = false then []
  else
    [0x20, 0x2f, 0x2f, 0x20, 0x2b] ++
      decimalDigits ((recorded.map (fun visit => visit.2.1)).sum % 2 ^ 64) ++
      [0x20, 0x28] ++
      List.intercalate [0x2c, 0x20] (recordedNames recorded) ++
      [0x29]

/-- The line buffers after the visits: each weighted visit is recorded on the
line of its row. -/
def recordVisits (lines : List LineCommentBuffer) (visits : List (TSNode × Nat × Bool)) :
    List LineCommentBuffer :=
  visits.foldl (fun lines visit =>
    if visit.2.1 ≠ 0 then
      recordOnLine visit.2.2 visit.2.1 visit.1.type lines visit.1.row
    else lines) lines

/-- The context that `createNodeEvalContextAnnotation` returns when its
allocations succeed and the language has an evaluator. -/
def freshContext (language : RcnTextFormat) (lineCount : Nat) : AnnotationContext :=
  { lines := List.replicate lineCount {}, lineCount := lineCount, language := language }

/-- The context of an annotation after the walk over the given nodes and after
`finalizeLineComments`, from a fresh context. -/
def annotatedContext (memory : AnnotationMemory) (language : RcnTextFormat) (lineCount : Nat)
    (nodes : List TSNode) : AnnotationContext :=
  match (walk (annotateLineWithNodeType memory) nodes
      { NodeEvalTrace.zero with ctx := some (freshContext language lineCount) }).ctx with
  | some ctx => finalizeLineComments memory ctx
  | none => freshContext language lineCount

/-- A memory in which every allocation of an annotation succeeds. -/
def sampleMemory : AnnotationMemory :=
  { ctx := true, lines := true, annotated := true, record := fun _ => true,
    reserve := fun _ => true }

/-- A memory in which the allocations of `linebufferRecordType` fail in the
visit at which `trace->idx` is `index`, and every other allocation
succeeds. -/
def failingRecord (index : Nat) : AnnotationMemory :=
  { sampleMemory with record := fun i => i != index }

/-- A memory in which the reservation for the comment of the line `row`
fails, and every other allocation succeeds. -/
def failingReserve (row : Nat) : AnnotationMemory :=
  { sampleMemory with reserve := fun i => i != row }

/-- The lines of a text, each with its line end. A line ends at a `0x0A`
byte; its line end is CR LF when a `0x0D` byte stands right before the
`0x0A`, and LF otherwise. What follows the last `0x0A` is the last line,
which has no line end. The first argument holds the bytes of the current line
read so far. -/
def sourceLinesFrom (body : List Nat) : List Nat → List (List Nat × List Nat)
  | [] => [(body, [])]
  | b :: rest =>
    if b = 0x0a then
      (if body.getLast? = some 0x0d then (body.dropLast, [0x0d, 0x0a]) else (body, [0x0a])) ::
        sourceLinesFrom [] rest
    else sourceLinesFrom (body ++ [b]) rest

/-- The lines of a text, each a pair of its bytes and its line end. -/
def sourceLines (text : List Nat) : List (List Nat × List Nat) := sourceLinesFrom [] text

/-- The text made of the given lines with the comment of each line inserted
between the bytes of the line and its line end; the comment of the last
line, which has no line end, comes at the end. The first argument is the
index of the first of the lines. -/
def insertComments (comment : Nat → List Nat) : Nat → List (List Nat × List Nat) → List Nat
  | _, [] => []
  | lineIndex, line :: rest =>
    line.1 ++ comment lineIndex ++ line.2 ++ insertComments comment (lineIndex + 1) rest

/-- The text made of the given lines, without any comment. -/
def joinLines (lines : List (List Nat × List Nat)) : List Nat :=
  insertComments (fun _ => []) 0 lines

/-- The loop of `mergeSourceAnnotations` on the bytes that are still to be
read: the line index and the bytes written, from those so far. -/
def mergeTail (comment : Nat → List Nat) : Nat → List Nat → List Nat → Nat × List Nat
  | lineIndex, annotated, [] => (lineIndex, annotated)
  | lineIndex, annotated, [b] =>
    if b = 0x0a then (lineIndex + 1, annotated ++ comment lineIndex ++ [b])
    else (lineIndex, annotated ++ [b])
  | lineIndex, annotated, b :: c :: rest =>
    if b = 0x0a then
      mergeTail comment (lineIndex + 1) (annotated ++ comment lineIndex ++ [b]) (c :: rest)
    else if b = 0x0d ∧ c = 0x0a then
      mergeTail comment (lineIndex + 1) (annotated ++ comment lineIndex ++ [b, c]) rest
    else mergeTail comment lineIndex (annotated ++ [b]) (c :: rest)

/-- The bytes of a text behind its UTF-8 byte order mark, which is what
`rcnMarkLogicalLinesInSourceText` counts, parses and annotates. -/
def behindBOM (bytes : List Nat) : List Nat :=
  if hasUTF8BOM (sourceOfBytes bytes) then bytes.drop 3 else bytes

/-- The context of the annotation of a text after the walk over its parsed
tree and after `finalizeLineComments`: its line buffers hold the comments of
the lines. -/
def annotationContextOf (env : Env) (memory : AnnotationMemory) (language : RcnTextFormat)
    (bytes : List Nat) : AnnotationContext :=
  annotatedContext memory language
    (rcnCountPhysicalLines (sourceOfBytes (behindBOM bytes))).count
    (visitOrder (parsedTree env language (sourceOfBytes (behindBOM bytes))).root)

/-- The result `(RcnSourceText){0}`. -/
def emptyText : RcnSourceText := { text := none, size := 0 }

/-- The annotation comment of a line with the kind names of all the weighted
nodes that start on it: nothing for a line without a weighted node, and else
one space, `//`, a space, `+`, the decimal sum of the weights (a 64-bit sum),
a space, `(`, the kind names in visit order joined by `, `, and `)`. -/
def completeComment (recorded : List (TSNode × Nat × Bool)) : List Nat :=
  if recorded = [] then []
  else
    [0x20, 0x2f, 0x2f, 0x20, 0x2b] ++
      decimalDigits ((recorded.map (fun visit => visit.2.1)).sum % 2 ^ 64) ++
      [0x20, 0x28] ++
      List.intercalate [0x2c, 0x20] (recorded.map (fun visit => shownKindName visit.1)) ++
      [0x29]

/-- A text with the comment of each of its lines below the line count inserted
before the line end, or appended to an unterminated last line, and the
terminating NUL. -/
def commentedText (comment : Nat → List Nat) (lineCount : Nat) (bytes : List Nat) :
    List Nat :=
  insertComments (fun row => if row < lineCount then comment row else []) 0
    (sourceLines bytes) ++ [0]

/-- The nodes that the annotating visitor hands to the evaluator in the walk
over the parsed tree of a text, behind its byte order mark. -/
def visitsOf (env : Env) (memory : AnnotationMemory) (language : RcnTextFormat)
    (evaluator : TSNode → NodeEvalTrace → NodeEvalTrace) (bytes : List Nat) :
    List (TSNode × Nat × Bool) :=
  evaluatedVisits memory language evaluator
    (rcnCountPhysicalLines (sourceOfBytes (behindBOM bytes))).count
    (visitOrder (parsedTree env language (sourceOfBytes (behindBOM bytes))).root)
    NodeEvalTrace.zero

/-- The tree of a C text made of one expression statement on each of the
first `statements` rows, such as `x;` and `y;`: the `translation_unit` and
the `expression_statement` nodes, each with an identifier and the
semicolon. -/
def statementsTree (statements : Nat) : TSTree :=
  .node (namedNode 161 0 "translation_unit")
    ((List.range statements).map (fun row =>
      TSTree.node (namedNode 266 row "expression_statement")
        [.node (otherNode row) [], .node (otherNode row) []]))

/-- The trace that `rcnMarkLogicalLinesInSourceText` starts the annotating
walk with: `{0}` with the fresh context. -/
def annotationStart (language : RcnTextFormat) (lineCount : Nat) : NodeEvalTrace :=
  { NodeEvalTrace.zero with ctx := some (freshContext language lineCount) }

/-- The trace after the annotating walk of `rcnMarkLogicalLinesInSourceText`
over the parsed tree of a text. -/
def annotationTrace (env : Env) (memory : AnnotationMemory) (language : RcnTextFormat)
    (bytes : List Nat) : NodeEvalTrace :=
  traverseTree (annotateLineWithNodeType memory)
    (parsedTree env language (sourceOfBytes (behindBOM bytes))).root
    (annotationStart language (rcnCountPhysicalLines (sourceOfBytes (behindBOM bytes))).count)

/-- The tree of a C text that is `comments` line comments, one per row,
followed by the definition `struct S { int a; };` on the next row: the
`translation_unit`, the comments, the `struct_specifier` with the token
`struct`, the name and the `field_declaration_list` that holds one
`field_declaration`, and the semicolon. -/
def commentsThenStructTree (comments : Nat) : TSTree :=
  .node (namedNode 161 0 "translation_unit")
    ((List.range comments).map (fun row => TSTree.node (otherNode row) []) ++
      [ .node (namedNode 249 comments "struct_specifier")
          [ .node (otherNode comments) [],
            .node (otherNode comments) [],
            .node (otherNode comments)
              [ .node (otherNode comments) [],
                .node (namedNode 253 comments "field_declaration")
                  [ .node (otherNode comments) [], .node (otherNode comments) [],
                    .node (otherNode comments) [] ],
                .node (otherNode comments) [] ] ],
        .node (otherNode comments) [] ])

/-- The tree of the C text `typedef struct { int a; } T;` on one row: the
`translation_unit`, the `type_definition` with the token `typedef`, the
`struct_specifier` with its one `field_declaration`, the name and the
semicolon. -/
def typedefStructTree : TSTree :=
  .node (namedNode 161 0 "translation_unit")
    [ .node (namedNode 199 0 "type_definition")
        [ .node (otherNode 0) [],
          .node (namedNode 249 0 "struct_specifier")
            [ .node (otherNode 0) [],
              .node (otherNode 0)
                [ .node (otherNode 0) [],
                  .node (namedNode 253 0 "field_declaration")
                    [ .node (otherNode 0) [], .node (otherNode 0) [], .node (otherNode 0) [] ],
                  .node (otherNode 0) [] ] ],
          .node (otherNode 0) [],
          .node (otherNode 0) [] ] ]

/-- The subtree of the Java statement `if (c) a();` on the given row: the
`if_statement` with the token `if`, the condition in parentheses and the
`expression_statement`. -/
def javaIfTree (row : Nat) : TSTree :=
  .node (namedNode 205 row "if_statement")
    [ .node (otherNode row) [],
      .node (otherNode row) [.node (otherNode row) [], .node (otherNode row) [],
        .node (otherNode row) []],
      .node (namedNode 187 row "expression_statement")
        [.node (otherNode row) [], .node (otherNode row) []] ]

/-- The tree of a Java text whose first statement stands at the top level:
the `program` with the given statements as its children. -/
def javaProgramTree (statements : List TSTree) : TSTree :=
  .node (otherNode 0) statements

/-- The sum of a counter array over the formats. -/
def FormatCounters.total (x : FormatCounters) : Nat :=
  x.unformatted + x.langC + x.langJava + x.markdown

/-- Each total of the statistics is the sum of its per-format counters, in
`RcnCount` arithmetic. -/
def TotalsMatchFormats (s : RcnCountStatistics) : Prop :=
  s.totalLogicalLines = s.logicalLines.total % 2 ^ 64 ∧
  s.totalPhysicalLines = s.physicalLines.total % 2 ^ 64 ∧
  s.totalWords = s.words.total % 2 ^ 64 ∧
  s.totalCharacters = s.characters.total % 2 ^ 64 ∧
  s.totalSourceSize = s.sourceSize.total % 2 ^ 64

/-- The bytes of a UTF-16 text with the two bytes of every code unit swapped;
a trailing odd byte stays. -/
def swapBytes : List Nat → List Nat
  | byte0 :: byte1 :: rest => byte1 :: byte0 :: swapBytes rest
  | rest => rest

/-- Enumeration `TraversalState` of `tree.c`. -/
inductive TraversalState where
  | DESCEND
  | NEXT_SIBLING
  | ASCEND
  deriving DecidableEq, Repr

/-- Type `TSTreeCursor` of the tree-sitter library, over a tree: the path from
the current node up to the node the cursor was created on, each node with its
next siblings. The first frame is the current node. -/
structure TSTreeCursor where
  frames : List (TSTree × List TSTree)

/-- Function `ts_tree_cursor_new`: the cursor stands on the given node and
cannot leave its subtree. -/
def ts_tree_cursor_new (root : TSTree) : TSTreeCursor := { frames := [(root, [])] }

/-- Function `ts_tree_cursor_current_node`. -/
def ts_tree_cursor_current_node (cursor : TSTreeCursor) : Option TSNode :=
  match cursor.frames with
  | (.node value _, _) :: _ => some value
  | [] => none

/-- Function `ts_tree_cursor_goto_first_child`; `none` is the return value
`false`, for which the cursor stays where it is. -/
def ts_tree_cursor_goto_first_child (cursor : TSTreeCursor) : Option TSTreeCursor :=
  match cursor.frames with
  | (.node _ (child :: rest), _) :: _ => some { frames := (child, rest) :: cursor.frames }
  | _ => none

/-- Function `ts_tree_cursor_goto_next_sibling`; `none` is the return value
`false`. -/
def ts_tree_cursor_goto_next_sibling (cursor : TSTreeCursor) : Option TSTreeCursor :=
  match cursor.frames with
  | (_, sibling :: rest) :: above => some { frames := (sibling, rest) :: above }
  | _ => none

/-- Function `ts_tree_cursor_goto_parent`; `none` is the return value `false`,
which the node the cursor was created on gives. -/
def ts_tree_cursor_goto_parent (cursor : TSTreeCursor) : Option TSTreeCursor :=
  match cursor.frames with
  | _ :: parent :: above => some { frames := parent :: above }
  | _ => none

/-- The `for (;;)` loop of `traverseTree` as it is written, for a non-null
visitor. One unit of the first argument is spent for each iteration, and
`none` means that the iterations allowed did not reach the `break`. An
iteration that starts in the state `DESCEND` calls the visitor and passes to
the blocks of `NEXT_SIBLING` and `ASCEND` when the cursor cannot move; one
that starts in `NEXT_SIBLING` passes to the block of `ASCEND` likewise. The
last argument records the nodes on which the visitor was called; the result
is the trace and this record. -/
def traverseTreeLoop (visitor : TSNode → NodeEvalTrace → NodeEvalTrace) :
    Nat → TraversalState → TSTreeCursor → NodeEvalTrace → List TSNode →
      Option (NodeEvalTrace × List TSNode)
  | 0, _, _, _, _ => none
  | fuel + 1, .DESCEND, cursor, trace, calls =>
    match ts_tree_cursor_current_node cursor with
    | none => none
    | some node =>
      match ts_tree_cursor_goto_first_child cursor with
      | some cursor =>
        traverseTreeLoop visitor fuel .DESCEND cursor (visitor node trace) (calls ++ [node])
      | none =>
        match ts_tree_cursor_goto_next_sibling cursor with
        | some cursor =>
          traverseTreeLoop visitor fuel .DESCEND cursor (visitor node trace) (calls ++ [node])
        | none =>
          match ts_tree_cursor_goto_parent cursor with
          | none => some (visitor node trace, calls ++ [node])
          | some cursor =>
            traverseTreeLoop visitor fuel .NEXT_SIBLING cursor (visitor node trace)
              (calls ++ [node])
  | fuel + 1, .NEXT_SIBLING, cursor, trace, calls =>
    match ts_tree_cursor_goto_next_sibling cursor with
    | some cursor => traverseTreeLoop visitor fuel .DESCEND cursor trace calls
    | none =>
      match ts_tree_cursor_goto_parent cursor with
      | none => some (trace, calls)
      | some cursor => traverseTreeLoop visitor fuel .NEXT_SIBLING cursor trace calls
  | fuel + 1, .ASCEND, cursor, trace, calls =>
    match ts_tree_cursor_goto_parent cursor with
    | none => some (trace, calls)
    | some cursor => traverseTreeLoop visitor fuel .NEXT_SIBLING cursor trace calls

/-- Function `traverseTree` as it is written in `tree.c`, with the cursor and
the three states, for at most `fuel` iterations of its loop. -/
def traverseTreeWithCursor (visitor : TSNode → NodeEvalTrace → NodeEvalTrace) (fuel : Nat)
    (root : TSTree) (trace : NodeEvalTrace) : Option (NodeEvalTrace × List TSNode) :=
  traverseTreeLoop visitor fuel .DESCEND (ts_tree_cursor_new root) trace []

/-- The number of nodes of a tree. -/
def nodeCount (tree : TSTree) : Nat := (visitOrder tree).length

/-- An entry of the file system as `readdir` and `lstat` show it: its name,
and whether it is a regular file, a directory, or something else (a symbolic
link, a device, an entry on which `lstat` fails). A directory has its entries
in the order of `readdir`, and `opens` says whether `opendir` succeeds on
it. The tree is finite. -/
inductive FsNode where
  | regular (name : String)
  | other (name : String)
  | directory (name : String) (opens : Bool) (entries : List FsNode)

/-- Field `d_name` of the entry. -/
def FsNode.name : FsNode → String
  | .regular name => name
  | .other name => name
  | .directory name _ _ => name

/-- Struct `SourceFileList`: `files` holds the `size` elements of the array,
and the capacity is left out, every allocation being taken to succeed. -/
structure SourceFileList where
  files : List RcnSourceFile
  ok : Bool
  deriving DecidableEq, Repr

/-- Field `size` of a `SourceFileList`. -/
def SourceFileList.size (list : SourceFileList) : Nat := list.files.length

mutual
/-- The number of entries of a tree of the file system, the root included. -/
def FsNode.count : FsNode → Nat
  | .regular _ => 1
  | .other _ => 1
  | .directory _ _ entries => 1 + FsNode.countAll entries
/-- The number of entries of a list of trees. -/
def FsNode.countAll : List FsNode → Nat
  | [] => 0
  | entry :: rest => entry.count + FsNode.countAll rest
end

/-- The indices `i` of the reads `source.text[i]` of `hasUTF8BOM`, in the
order of the reads. -/
def hasUTF8BOMReads (source : RcnSourceText) : List Nat :=
  if source.size >= 3 then [0, 1, 2] else []

/-- The indices of the reads of `detectEncoding`. -/
def detectEncodingReads (source : RcnSourceText) : List Nat :=
  hasUTF8BOMReads source ++
    (if hasUTF8BOM source then []
     else if source.size >= 2 then [0, 1]
     else [])

/-- The indices of the reads of the UTF-8 loop of `rcnCountPhysicalLines`,
with the iterations of `physicalLoopUTF8`. -/
def physicalLoopUTF8Reads (source : RcnSourceText) : Nat → Nat → List Nat
  | 0, _ => []
  | fuel + 1, i =>
    if i < source.size then i :: physicalLoopUTF8Reads source fuel (i + 1)
    else []

/-- The indices of the reads of the UTF-16 loop of `rcnCountPhysicalLines`,
with the iterations of `physicalLoopUTF16`: `content[i + 1]` is read when
`content[i] == nlByte0`. -/
def physicalLoopUTF16Reads (source : RcnSourceText) (nlByte0 : Nat) : Nat → Nat → List Nat
  | 0, _ => []
  | fuel + 1, i =>
    if i < source.size - 1 then
      (if byteAt source i == nlByte0 then [i, i + 1] else [i]) ++
        physicalLoopUTF16Reads source nlByte0 fuel (i + 2)
    else []

/-- The indices of the reads of `rcnCountPhysicalLines`, branch by branch as
in the function. -/
def rcnCountPhysicalLinesReads (source : RcnSourceText) : List Nat :=
  if source.size == 0 then []
  else if source.text.isNone then []
  else if source.size > UINT32_MAX then []
  else
    let encoding := detectEncoding source
    detectEncodingReads source ++
      (if encoding == .TextEncodingUTF8 then
        physicalLoopUTF8Reads source source.size 0 ++ [source.size - 1]
      else
        let isLittleEndian := encoding == .TextEncodingUTF16LE
        let nlByte0 := if isLittleEndian then 0x0a else 0x00
        physicalLoopUTF16Reads source nlByte0 source.size 2 ++
          (if source.size > 2 then
            (if byteAt source (source.size - 2) != nlByte0 then [source.size - 2]
             else [source.size - 2, source.size - 1])
           else []))

/-- The indices of the two reads of `codeUnit`. -/
def codeUnitReads (offset : Nat) : List Nat := [offset, offset + 1]

/-- The indices of the reads of the loop of `countCharactersUTF16`, with the
iterations of `charactersLoopUTF16`. -/
def charactersLoopUTF16Reads (source : RcnSourceText) (littleEndian : Bool) :
    Nat → Nat → List Nat
  | 0, _ => []
  | fuel + 1, offset =>
    if offset + 1 < source.size then
      let cu0 := codeUnit source offset littleEndian
      let reads := codeUnitReads offset
      let offset := offset + 2
      if cu0 == UTF16_BOM_BE || cu0 == UTF16_BOM_LE then
        reads ++ charactersLoopUTF16Reads source littleEndian fuel offset
      else if cu0 >= HIGH_SURROGATE_START && cu0 <= HIGH_SURROGATE_END then
        if offset + 1 < source.size then
          let cu1 := codeUnit source offset littleEndian
          if cu1 >= LOW_SURROGATE_START && cu1 <= LOW_SURROGATE_END then
            reads ++ codeUnitReads offset ++
              charactersLoopUTF16Reads source littleEndian fuel (offset + 2)
          else
            reads ++ codeUnitReads offset ++
              charactersLoopUTF16Reads source littleEndian fuel offset
        else reads ++ charactersLoopUTF16Reads source littleEndian fuel offset
      else reads ++ charactersLoopUTF16Reads source littleEndian fuel offset
    else []

/-- The indices of the reads of `countCharactersUTF16`. -/
def countCharactersUTF16Reads (source : RcnSourceText) (littleEndian : Bool) : List Nat :=
  let offset :=
    if source.size >= 2 then
      let cu0 := codeUnit source 0 littleEndian
      if cu0 == UTF16_BOM_BE || cu0 == UTF16_BOM_LE then 2 else 0
    else 0
  (if source.size >= 2 then codeUnitReads 0 else []) ++
    charactersLoopUTF16Reads source littleEndian source.size offset

/-- The stride that `countCharactersUTF8` takes at an offset below the
size. -/
def utf8Stride (source : RcnSourceText) (offset : Nat) : Nat :=
  let byte := byteAt source offset
  if (byte &&& 0xe0) == 0xc0 && offset + 1 < source.size then 2
  else if (byte &&& 0xf0) == 0xe0 && offset + 2 < source.size then 3
  else if (byte &&& 0xf8) == 0xf0 && offset + 3 < source.size then 4
  else 1

/-- The indices of the reads of the loop of `countCharactersUTF8`, with the
iterations of `charactersLoopUTF8`: the byte at the offset is the one read
of an iteration. -/
def charactersLoopUTF8Reads (source : RcnSourceText) : Nat → Nat → List Nat
  | 0, _ => []
  | fuel + 1, offset =>
    if offset < source.size then
      offset :: charactersLoopUTF8Reads source fuel (offset + utf8Stride source offset)
    else []

/-- The indices of the reads of `countCharactersUTF8`. -/
def countCharactersUTF8Reads (source : RcnSourceText) : List Nat :=
  hasUTF8BOMReads source ++
    charactersLoopUTF8Reads source source.size (if hasUTF8BOM source then 3 else 0)

/-- The indices of the reads of `rcnCountCharacters`, branch by branch as in
the function. -/
def rcnCountCharactersReads (source : RcnSourceText) : List Nat :=
  if source.size == 0 then []
  else if source.text.isNone then []
  else if source.size > UINT32_MAX then []
  else
    let encoding := detectEncoding source
    detectEncodingReads source ++
      (if encoding == .TextEncodingUTF8 then countCharactersUTF8Reads source
       else countCharactersUTF16Reads source (encoding == .TextEncodingUTF16LE))

/-! ## Lemmas on the counting steps and on the loop -/

theorem physical_state (source : RcnSourceText) (h : source.text.isNone = false) :
    (rcnCountPhysicalLines source).state =
      if source.size ≤ UINT32_MAX then okState else tooLargeState := by
  unfold rcnCountPhysicalLines
  by_cases h0 : source.size = 0
  · simp [h0, okResult, okState, UINT32_MAX]
  · by_cases h1 : source.size ≤ UINT32_MAX
    · have h2 : ¬ source.size > UINT32_MAX := by omega
      simp only [h0, h, h1, h2, beq_iff_eq]
      simp only [okResult, okState]
      split_ifs <;> rfl
    · have h2 : source.size > UINT32_MAX := by omega
      simp [h0, h, h1, h2, errResult, tooLargeState]

theorem words_state (source : RcnSourceText) (h : source.text.isNone = false) :
    (rcnCountWords source).state =
      if source.size ≤ UINT32_MAX then okState else tooLargeState := by
  unfold rcnCountWords
  by_cases h0 : source.size = 0
  · simp [h0, okResult, okState, UINT32_MAX]
  · by_cases h1 : source.size ≤ UINT32_MAX
    · have h2 : ¬ source.size > UINT32_MAX := by omega
      simp [h0, h, h1, h2, okResult, okState]
    · have h2 : source.size > UINT32_MAX := by omega
      simp [h0, h, h1, h2, errResult, tooLargeState]

theorem characters_state (source : RcnSourceText) (h : source.text.isNone = false) :
    (rcnCountCharacters source).state =
      if source.size ≤ UINT32_MAX then okState else tooLargeState := by
  unfold rcnCountCharacters
  by_cases h0 : source.size = 0
  · simp [h0, okResult, okState, UINT32_MAX]
  · by_cases h1 : source.size ≤ UINT32_MAX
    · have h2 : ¬ source.size > UINT32_MAX := by omega
      simp only [h0, h, h1, h2, beq_iff_eq]
      simp only [okResult, okState]
      split_ifs <;> rfl
    · have h2 : source.size > UINT32_MAX := by omega
      simp [h0, h, h1, h2, errResult, tooLargeState]

/-- The states `rcnCountLogicalLines` can return. -/
theorem logical_state (env : Env) (language : RcnTextFormat) (source : RcnSourceText) :
    ((rcnCountLogicalLines env language source).state = okState ∧ source.size ≤ UINT32_MAX
        ∧ source.text.isNone = false) ∨
    ((rcnCountLogicalLines env language source).state.ok = false ∧
      (rcnCountLogicalLines env language source).count = 0 ∧
      ((rcnCountLogicalLines env language source).state.errorCode = .RCN_ERR_INVALID_INPUT ∨
       (rcnCountLogicalLines env language source).state.errorCode = .RCN_ERR_UNSUPPORTED_FORMAT ∨
       (rcnCountLogicalLines env language source).state.errorCode = .RCN_ERR_INPUT_TOO_LARGE ∨
       (rcnCountLogicalLines env language source).state.errorCode = .RCN_ERR_SYNTAX_ERROR)) := by
  unfold rcnCountLogicalLines
  by_cases h : source.text.isNone = true
  · simp [h, errResult]
  · simp only [h]
    cases language <;> simp [createEvaluationFunction, errResult, evaluateSourceTree, createParser, okState, NodeEvalTrace.zero]
      <;> split_ifs <;> simp_all <;> omega

theorem reset_with_state (r : RcnCountResultGroup) (state : RcnResultState) :
    resetResultGroup { r with state := state } = failedResult state := rfl

theorem reset_eq_failed (r : RcnCountResultGroup) :
    resetResultGroup r = failedResult r.state := rfl

theorem check_ok (ctx : CountCtx) (state : RcnResultState)
    (h : state.errorCode = .RCN_ERR_NONE) :
    checkIntermediateResultState ctx state = (true, ctx) := by
  unfold checkIntermediateResultState
  simp [h]

theorem check_okState (ctx : CountCtx) :
    checkIntermediateResultState ctx okState = (true, ctx) := check_ok ctx okState rfl

theorem check_tooLarge (ctx : CountCtx) :
    checkIntermediateResultState ctx tooLargeState =
      (false, { ctx with result := failedResult tooLargeState }) := rfl

theorem check_noncritical (ctx : CountCtx) (state : RcnResultState)
    (h0 : state.errorCode ≠ .RCN_ERR_NONE)
    (h1 : state.errorCode ≠ .RCN_ERR_ALLOC_FAILURE)
    (h2 : state.errorCode ≠ .RCN_ERR_UNKNOWN) :
    checkIntermediateResultState ctx state =
      (false, { ctx with result := failedResult state }) := by
  unfold checkIntermediateResultState
  cases h : state.errorCode <;> simp_all [reset_with_state]

theorem countPhysicalLines_eq (ctx : CountCtx) (sourceFormat : RcnTextFormat)
    (h : ctx.file.content.text.isNone = false) :
    countPhysicalLines ctx sourceFormat =
      if ctx.file.content.size ≤ UINT32_MAX then
        (true,
         { ctx with
           result := { ctx.result with
             physicalLines := (rcnCountPhysicalLines ctx.file.content).count,
             state := { ctx.result.state with ok := true, errorCode := .RCN_ERR_NONE } },
           stats := { ctx.stats with
             totalPhysicalLines :=
               addCount ctx.stats.totalPhysicalLines (rcnCountPhysicalLines ctx.file.content).count,
             physicalLines :=
               ctx.stats.physicalLines.add sourceFormat
                 (rcnCountPhysicalLines ctx.file.content).count } })
      else (false, { ctx with result := failedResult tooLargeState }) := by
  unfold countPhysicalLines
  have hs := physical_state _ h
  by_cases h1 : ctx.file.content.size ≤ UINT32_MAX
  · rw [if_pos h1] at hs
    simp [hs, check_okState, h1]
  · rw [if_neg h1] at hs
    simp [hs, check_tooLarge, h1]

theorem countWords_eq (ctx : CountCtx) (sourceFormat : RcnTextFormat)
    (h : ctx.file.content.text.isNone = false) :
    countWords ctx sourceFormat =
      if ctx.file.content.size ≤ UINT32_MAX then
        (true,
         { ctx with
           result := { ctx.result with
             words := (rcnCountWords ctx.file.content).count,
             state := { ctx.result.state with ok := true, errorCode := .RCN_ERR_NONE } },
           stats := { ctx.stats with
             totalWords := addCount ctx.stats.totalWords (rcnCountWords ctx.file.content).count,
             words := ctx.stats.words.add sourceFormat (rcnCountWords ctx.file.content).count } })
      else (false, { ctx with result := failedResult tooLargeState }) := by
  unfold countWords
  have hs := words_state _ h
  by_cases h1 : ctx.file.content.size ≤ UINT32_MAX
  · rw [if_pos h1] at hs
    simp [hs, check_okState, h1]
  · rw [if_neg h1] at hs
    simp [hs, check_tooLarge, h1]

theorem countCharacters_eq (ctx : CountCtx) (sourceFormat : RcnTextFormat)
    (h : ctx.file.content.text.isNone = false) :
    countCharacters ctx sourceFormat =
      if ctx.file.content.size ≤ UINT32_MAX then
        (true,
         { ctx with
           result := { ctx.result with
             characters := (rcnCountCharacters ctx.file.content).count,
             state := { ctx.result.state with ok := true, errorCode := .RCN_ERR_NONE } },
           stats := { ctx.stats with
             totalCharacters :=
               addCount ctx.stats.totalCharacters (rcnCountCharacters ctx.file.content).count,
             characters :=
               ctx.stats.characters.add sourceFormat (rcnCountCharacters ctx.file.content).count } })
      else (false, { ctx with result := failedResult tooLargeState }) := by
  unfold countCharacters
  have hs := characters_state _ h
  by_cases h1 : ctx.file.content.size ≤ UINT32_MAX
  · rw [if_pos h1] at hs
    simp [hs, check_okState, h1]
  · rw [if_neg h1] at hs
    simp [hs, check_tooLarge, h1]

theorem countLogicalLines_eq (env : Env) (ctx : CountCtx) (language : RcnTextFormat) :
    countLogicalLines env ctx language =
      if (rcnCountLogicalLines env language ctx.file.content).state.errorCode = .RCN_ERR_NONE then
        (true,
         { ctx with
           result := { ctx.result with
             logicalLines := (rcnCountLogicalLines env language ctx.file.content).count,
             state := { ctx.result.state with ok := true, errorCode := .RCN_ERR_NONE } },
           stats := { ctx.stats with
             totalLogicalLines :=
               addCount ctx.stats.totalLogicalLines
                 (rcnCountLogicalLines env language ctx.file.content).count,
             logicalLines :=
               ctx.stats.logicalLines.add language
                 (rcnCountLogicalLines env language ctx.file.content).count } })
      else
        (false,
         { ctx with
           result := failedResult (rcnCountLogicalLines env language ctx.file.content).state }) := by
  unfold countLogicalLines
  by_cases h1 : (rcnCountLogicalLines env language ctx.file.content).state.errorCode = .RCN_ERR_NONE
  · simp [check_ok _ _ h1, h1]
  · have h2 := logical_state env language ctx.file.content
    have h3 : (rcnCountLogicalLines env language ctx.file.content).state.errorCode
        ≠ .RCN_ERR_ALLOC_FAILURE := by
      rcases h2 with h2 | ⟨-, -, h2 | h2 | h2 | h2⟩ <;> simp_all [okState]
    have h4 : (rcnCountLogicalLines env language ctx.file.content).state.errorCode
        ≠ .RCN_ERR_UNKNOWN := by
      rcases h2 with h2 | ⟨-, -, h2 | h2 | h2 | h2⟩ <;> simp_all [okState]
    simp [check_noncritical _ _ h1 h3 h4, h1]

theorem ensure_fst (env : Env) (options : RcnStatOptions) (ctx : CountCtx) :
    (ensureFileContent env options ctx).1 = (loadFile env ctx.file).1 := by
  unfold ensureFileContent loadFile
  simp only []
  generalize (if (!ctx.file.isContentRead) = true then readSourceFileContent env ctx.file
    else (true, ctx.file)) = rd
  obtain ⟨b, f⟩ := rd
  cases b
  · simp
  · by_cases hs : f.status = .RCN_FILE_OP_OK <;> cases ht : f.content.text <;> simp [hs, ht]

theorem ensure_file (env : Env) (options : RcnStatOptions) (ctx : CountCtx) :
    (ensureFileContent env options ctx).2.file = (loadFile env ctx.file).2 := by
  unfold ensureFileContent loadFile
  simp only []
  generalize (if (!ctx.file.isContentRead) = true then readSourceFileContent env ctx.file
    else (true, ctx.file)) = rd
  obtain ⟨b, f⟩ := rd
  cases b
  · simp
  · by_cases hs : f.status = .RCN_FILE_OP_OK <;> cases ht : f.content.text <;> simp [hs, ht]

theorem ensure_true (env : Env) (options : RcnStatOptions) (ctx : CountCtx)
    (h : (loadFile env ctx.file).1 = true) :
    ensureFileContent env options ctx = (true, { ctx with file := (loadFile env ctx.file).2 }) := by
  unfold loadFile at h
  unfold ensureFileContent loadFile
  simp only [] at h ⊢
  generalize (if (!ctx.file.isContentRead) = true then readSourceFileContent env ctx.file
    else (true, ctx.file)) = rd at h ⊢
  obtain ⟨b, f⟩ := rd
  cases b
  · simp at h
  · by_cases hs : f.status = .RCN_FILE_OP_OK <;> cases ht : f.content.text <;>
      simp [hs, ht] at h ⊢

theorem loadFile_true (env : Env) (file : RcnSourceFile) (h : (loadFile env file).1 = true) :
    (loadFile env file).2.content.text.isNone = false ∧
      (loadFile env file).2.status = .RCN_FILE_OP_OK := by
  unfold loadFile at h ⊢
  simp only [] at h ⊢
  generalize (if (!file.isContentRead) = true then readSourceFileContent env file
    else (true, file)) = rd at h ⊢
  obtain ⟨b, f⟩ := rd
  cases b
  · simp at h
  · by_cases hs : f.status = .RCN_FILE_OP_OK <;> cases ht : f.content.text <;>
      simp [hs, ht] at h ⊢

/-- The result and the statistics after a failed `ensureFileContent`. -/
theorem ensure_false (env : Env) (options : RcnStatOptions) (ctx : CountCtx)
    (h : (loadFile env ctx.file).1 = false) :
    ∃ m1 m2, ensureFileContent env options ctx =
      (false,
       { stats := { ctx.stats with state :=
           { errorCode := .RCN_ERR_INVALID_INPUT, errorMessage := m1,
             ok := if options.stopOnError then false else ctx.stats.state.ok } },
         file := (loadFile env ctx.file).2,
         result := { ctx.result with state :=
           { errorCode := .RCN_ERR_INVALID_INPUT, errorMessage := m2, ok := false } } }) := by
  unfold loadFile at h
  unfold ensureFileContent loadFile
  simp only [] at h ⊢
  generalize (if (!ctx.file.isContentRead) = true then readSourceFileContent env ctx.file
    else (true, ctx.file)) = rd at h ⊢
  obtain ⟨b, f⟩ := rd
  cases b
  · exact ⟨some "Failed to read file content", some "Failed to read file content", by simp⟩
  · by_cases hs : f.status = .RCN_FILE_OP_OK <;> cases ht : f.content.text <;>
      simp [hs, ht] at h ⊢ <;> exact ⟨_, _, rfl, rfl⟩

theorem count_eq_steps (env : Env) (options : RcnStatOptions) (ctx : CountCtx)
    (detected : SourceFormatDetection) :
    count env options ctx detected =
      countEnd options detected.format
        (countStep (runsCharacters options) (fun c => countCharacters c detected.format)
          (countStep (runsWords options) (fun c => countWords c detected.format)
            (countStep (runsPhysical options) (fun c => countPhysicalLines c detected.format)
              (countStep (runsLogical options detected)
                (fun c => countLogicalLines env c detected.format)
                (ensureFileContent env options ctx))))) := by
  unfold count countEnd countStep runsCharacters runsWords runsPhysical runsLogical
  cases detected.isProgrammingLanguage <;> simp only [Bool.and_true, Bool.and_false,
    Bool.false_eq_true, if_false, if_true, ite_self] <;> rfl

theorem countStep_false (cond : Bool) (f : CountCtx → Bool × CountCtx) (c : CountCtx) :
    countStep cond f (false, c) = (false, c) := by
  simp [countStep]

theorem countStep_skip (f : CountCtx → Bool × CountCtx) (p : Bool × CountCtx) :
    countStep false f p = p := by
  simp [countStep]

theorem countStep_run (f : CountCtx → Bool × CountCtx) (c : CountCtx) :
    countStep true f (true, c) = f c := by
  simp [countStep]

theorem countEnd_false (options : RcnStatOptions) (sourceFormat : RcnTextFormat) (c : CountCtx) :
    countEnd options sourceFormat (false, c) = (false, finishFailed options c) := by
  unfold countEnd finishFailed
  cases options.keepFileContent <;> cases options.stopOnError <;> simp

theorem count_of_load_fail (env : Env) (options : RcnStatOptions) (ctx : CountCtx)
    (detected : SourceFormatDetection) (h : (loadFile env ctx.file).1 = false) :
    count env options ctx detected =
      (false, finishFailed options (ensureFileContent env options ctx).2) := by
  have h1 : ensureFileContent env options ctx = (false, (ensureFileContent env options ctx).2) := by
    rw [← h, ← ensure_fst env options ctx]
  rw [count_eq_steps, h1]
  simp only [countStep_false, countEnd_false]

theorem count_of_counter_fail (env : Env) (options : RcnStatOptions) (ctx : CountCtx)
    (detected : SourceFormatDetection) (state : RcnResultState)
    (h : (loadFile env ctx.file).1 = true)
    (hf : counterFailure env options detected (loadFile env ctx.file).2.content = some state) :
    count env options ctx detected =
      (false, finishFailed options
        { stats := ctx.stats, file := (loadFile env ctx.file).2,
          result := failedResult state }) := by
  have ht := (loadFile_true env ctx.file h).1
  have hl := logical_state env detected.format (loadFile env ctx.file).2.content
  unfold counterFailure at hf
  rw [count_eq_steps, ensure_true env options ctx h]
  by_cases c7 : (rcnCountLogicalLines env detected.format
      (loadFile env ctx.file).2.content).state.errorCode = .RCN_ERR_NONE
  · -- the logical-line step, if it runs, succeeds: the size is within bounds
    have hsz : (loadFile env ctx.file).2.content.size ≤ UINT32_MAX := by
      rcases hl with hl | hl
      · exact hl.2.1
      · rcases hl.2.2 with e | e | e | e <;> rw [e] at c7 <;> cases c7
    cases c1 : runsLogical options detected
    · simp only [c1, c7, Bool.false_and, Bool.false_eq_true, if_false] at hf
      have : ¬ ((loadFile env ctx.file).2.content.size > UINT32_MAX) := by omega
      simp [this] at hf
    · simp only [c1, c7, bne_self_eq_false, Bool.and_false, Bool.false_eq_true, if_false] at hf
      have : ¬ ((loadFile env ctx.file).2.content.size > UINT32_MAX) := by omega
      simp [this] at hf
  · cases c1 : runsLogical options detected
    · by_cases c6 : (loadFile env ctx.file).2.content.size ≤ UINT32_MAX
      · have : ¬ ((loadFile env ctx.file).2.content.size > UINT32_MAX) := by omega
        simp [c1, this] at hf
      · have c6' : (loadFile env ctx.file).2.content.size > UINT32_MAX := by omega
        simp only [c1, Bool.false_and, Bool.false_eq_true, if_false, c6', decide_True,
          Bool.and_true] at hf
        cases c2 : runsPhysical options <;> cases c3 : runsWords options <;>
          cases c4 : runsCharacters options <;> simp [c2, c3, c4] at hf <;> subst hf <;>
          simp [countStep_run, countStep_skip, countStep_false, countEnd_false,
            countPhysicalLines_eq, countWords_eq, countCharacters_eq, ht, c6]
    · have c7' : ((rcnCountLogicalLines env detected.format
          (loadFile env ctx.file).2.content).state.errorCode != .RCN_ERR_NONE) = true := by
        simpa using c7
      simp only [c1, c7', Bool.and_self, if_true, Option.some.injEq] at hf
      subst hf
      simp [countStep_run, countStep_false, countEnd_false, countLogicalLines_eq, c7]

theorem count_of_success (env : Env) (options : RcnStatOptions) (ctx : CountCtx)
    (detected : SourceFormatDetection)
    (h : (loadFile env ctx.file).1 = true)
    (hf : counterFailure env options detected (loadFile env ctx.file).2.content = none) :
    count env options ctx detected =
      (true,
       { stats := countedStats env options detected (loadFile env ctx.file).2.content ctx.stats,
         file :=
           if !options.keepFileContent then freeSourceFileContent (loadFile env ctx.file).2
           else (loadFile env ctx.file).2,
         result :=
           countedResult env options detected (loadFile env ctx.file).2.content ctx.result }) := by
  have ht := (loadFile_true env ctx.file h).1
  unfold counterFailure at hf
  rw [count_eq_steps, ensure_true env options ctx h]
  unfold countedStats countedResult
  by_cases c7 : (rcnCountLogicalLines env detected.format
      (loadFile env ctx.file).2.content).state.errorCode = .RCN_ERR_NONE <;>
  by_cases c6 : (loadFile env ctx.file).2.content.size ≤ UINT32_MAX
  · have c6' := Nat.not_lt.mpr c6
    cases c1 : runsLogical options detected <;>
    cases c2 : runsPhysical options <;>
    cases c3 : runsWords options <;>
    cases c4 : runsCharacters options <;>
    cases hk : options.keepFileContent <;>
    simp [c1, c2, c3, c4, c6, c6', c7] at hf <;>
    simp [countStep_run, countStep_skip, countStep_false, countEnd, countProcessedFile,
        countLogicalLines_eq, countPhysicalLines_eq, countWords_eq, countCharacters_eq,
        ht, hk, c6, c7]
  · have c6' := Nat.lt_of_not_le c6
    cases c1 : runsLogical options detected <;>
    cases c2 : runsPhysical options <;>
    cases c3 : runsWords options <;>
    cases c4 : runsCharacters options <;>
    cases hk : options.keepFileContent <;>
    simp [c1, c2, c3, c4, c6, c6', c7] at hf <;>
    simp [countStep_run, countStep_skip, countStep_false, countEnd, countProcessedFile,
        countLogicalLines_eq, countPhysicalLines_eq, countWords_eq, countCharacters_eq,
        ht, hk, c6, c7]
  · have c6' := Nat.not_lt.mpr c6
    cases c1 : runsLogical options detected <;>
    cases c2 : runsPhysical options <;>
    cases c3 : runsWords options <;>
    cases c4 : runsCharacters options <;>
    cases hk : options.keepFileContent <;>
    simp [c1, c2, c3, c4, c6, c6', c7] at hf <;>
    simp [countStep_run, countStep_skip, countStep_false, countEnd, countProcessedFile,
        countLogicalLines_eq, countPhysicalLines_eq, countWords_eq, countCharacters_eq,
        ht, hk, c6, c7]
  · have c6' := Nat.lt_of_not_le c6
    cases c1 : runsLogical options detected <;>
    cases c2 : runsPhysical options <;>
    cases c3 : runsWords options <;>
    cases c4 : runsCharacters options <;>
    cases hk : options.keepFileContent <;>
    simp [c1, c2, c3, c4, c6, c6', c7] at hf <;>
    simp [countStep_run, countStep_skip, countStep_false, countEnd, countProcessedFile,
        countLogicalLines_eq, countPhysicalLines_eq, countWords_eq, countCharacters_eq,
        ht, hk, c6, c7]

theorem count_fst (env : Env) (options : RcnStatOptions) (ctx : CountCtx)
    (detected : SourceFormatDetection) :
    (count env options ctx detected).1 = countSucceeds env options ctx.file detected := by
  unfold countSucceeds
  cases h : (loadFile env ctx.file).1
  · rw [count_of_load_fail env options ctx detected h]; rfl
  · cases hf : counterFailure env options detected (loadFile env ctx.file).2.content with
    | none => rw [count_of_success env options ctx detected h hf]; rfl
    | some st => rw [count_of_counter_fail env options ctx detected st h hf]; rfl

theorem fileFails_eq (env : Env) (options : RcnStatOptions) (file : RcnSourceFile) :
    fileFails env options file =
      ((detectSourceFormat file).isSupportedFormat &&
        isFormatSelected options (detectSourceFormat file).format &&
        !countSucceeds env options file (detectSourceFormat file)) := by
  unfold fileFails
  simp only [count_fst]

/-- A failing counting step never reports a critical error, and never none. -/
theorem counterFailure_code (env : Env) (options : RcnStatOptions)
    (detected : SourceFormatDetection) (source : RcnSourceText) (state : RcnResultState)
    (h : counterFailure env options detected source = some state) :
    state.errorCode = .RCN_ERR_INVALID_INPUT ∨ state.errorCode = .RCN_ERR_UNSUPPORTED_FORMAT ∨
      state.errorCode = .RCN_ERR_INPUT_TOO_LARGE ∨ state.errorCode = .RCN_ERR_SYNTAX_ERROR := by
  unfold counterFailure at h
  have hl := logical_state env detected.format source
  split_ifs at h with h1 h2
  · simp only [Option.some.injEq] at h
    subst h
    rcases hl with hl | hl
    · simp [hl.1, okState] at h1
    · exact hl.2.2
  · simp only [Option.some.injEq] at h
    subst h
    simp [tooLargeState]

/-- The state of the statistics after `count`. -/
theorem count_stats_state (env : Env) (options : RcnStatOptions) (ctx : CountCtx)
    (detected : SourceFormatDetection) :
    ((count env options ctx detected).1 = true →
        (count env options ctx detected).2.stats.state = ctx.stats.state) ∧
    ((count env options ctx detected).1 = false → options.stopOnError = true →
        (count env options ctx detected).2.stats.state =
          { (count env options ctx detected).2.result.state with ok := false }) ∧
    (options.stopOnError = false →
        (count env options ctx detected).2.stats.state.ok = ctx.stats.state.ok) := by
  cases h : (loadFile env ctx.file).1
  · obtain ⟨m1, m2, he⟩ := ensure_false env options ctx h
    rw [count_of_load_fail env options ctx detected h, he]
    cases hs : options.stopOnError <;> simp [finishFailed, hs]
  · cases hf : counterFailure env options detected (loadFile env ctx.file).2.content with
    | none =>
      rw [count_of_success env options ctx detected h hf]
      simp [countedStats]
    | some st =>
      rw [count_of_counter_fail env options ctx detected st h hf]
      cases hs : options.stopOnError <;> simp [finishFailed, hs]

theorem loop_nil_left (env : Env) (options : RcnStatOptions) (s : RcnCountStatistics)
    (rs : List RcnCountResultGroup) :
    rcnCountLoop env options s [] rs = { stats := s, files := [], results := rs } := by
  cases rs <;> rfl

theorem loop_nil_right (env : Env) (options : RcnStatOptions) (s : RcnCountStatistics)
    (fs : List RcnSourceFile) :
    rcnCountLoop env options s fs [] = { stats := s, files := fs, results := [] } := by
  cases fs <;> rfl

theorem loop_cons_unsupported (env : Env) (options : RcnStatOptions) (s : RcnCountStatistics)
    (f : RcnSourceFile) (fs : List RcnSourceFile) (r : RcnCountResultGroup)
    (rs : List RcnCountResultGroup) (h : (detectSourceFormat f).isSupportedFormat = false) :
    rcnCountLoop env options s (f :: fs) (r :: rs) =
      LoopState.push f (unsupportedResult r) (rcnCountLoop env options s fs rs) := by
  rw [rcnCountLoop]
  simp [h, unsupportedResult]

theorem loop_cons_unselected (env : Env) (options : RcnStatOptions) (s : RcnCountStatistics)
    (f : RcnSourceFile) (fs : List RcnSourceFile) (r : RcnCountResultGroup)
    (rs : List RcnCountResultGroup) (h : (detectSourceFormat f).isSupportedFormat = true)
    (h2 : isFormatSelected options (detectSourceFormat f).format = false) :
    rcnCountLoop env options s (f :: fs) (r :: rs) =
      LoopState.push f (resetResultGroup r) (rcnCountLoop env options s fs rs) := by
  rw [rcnCountLoop]
  simp [h, h2]

theorem loop_cons_count (env : Env) (options : RcnStatOptions) (s : RcnCountStatistics)
    (f : RcnSourceFile) (fs : List RcnSourceFile) (r : RcnCountResultGroup)
    (rs : List RcnCountResultGroup) (h : (detectSourceFormat f).isSupportedFormat = true)
    (h2 : isFormatSelected options (detectSourceFormat f).format = true) :
    rcnCountLoop env options s (f :: fs) (r :: rs) =
      let c := count env options
        { stats := s, file := f, result := resetResultGroup r } (detectSourceFormat f)
      if !c.1 && (options.stopOnError || !c.2.stats.state.ok) then
        { stats := c.2.stats, files := c.2.file :: fs, results := c.2.result :: rs }
      else LoopState.push c.2.file c.2.result (rcnCountLoop env options c.2.stats fs rs) := by
  rw [rcnCountLoop]
  simp [h, h2]

/-- The loop over `pre ++ fs`, in terms of the loop over `pre` and the loop
over `fs`: when a file of `pre` stops the loop, the rest is left as it is,
otherwise the loop goes on over `fs` with the statistics reached. -/
theorem loop_append (env : Env) (options : RcnStatOptions) (pre fs : List RcnSourceFile) :
    ∀ (s : RcnCountStatistics) (rpre rs : List RcnCountResultGroup),
      rpre.length = pre.length → s.state.ok = true →
      (pre.any (stopsLoop env options) = true →
        rcnCountLoop env options s (pre ++ fs) (rpre ++ rs) =
          { stats := (rcnCountLoop env options s pre rpre).stats,
            files := (rcnCountLoop env options s pre rpre).files ++ fs,
            results := (rcnCountLoop env options s pre rpre).results ++ rs }) ∧
      (pre.any (stopsLoop env options) = false →
        (rcnCountLoop env options s pre rpre).stats.state.ok = true ∧
        rcnCountLoop env options s (pre ++ fs) (rpre ++ rs) =
          { stats :=
              (rcnCountLoop env options (rcnCountLoop env options s pre rpre).stats fs rs).stats,
            files := (rcnCountLoop env options s pre rpre).files ++
              (rcnCountLoop env options (rcnCountLoop env options s pre rpre).stats fs rs).files,
            results := (rcnCountLoop env options s pre rpre).results ++
              (rcnCountLoop env options
                (rcnCountLoop env options s pre rpre).stats fs rs).results }) := by
  induction pre with
  | nil =>
    intro s rpre rs hlen hok
    have : rpre = [] := List.length_eq_zero.mp hlen
    subst this
    simp [loop_nil_left, hok]
  | cons g pre ih =>
    intro s rpre rs hlen hok
    cases rpre with
    | nil => simp at hlen
    | cons r rpre =>
      have hlen' : rpre.length = pre.length := by simpa using hlen
      simp only [List.cons_append, List.any_cons]
      cases hsup : (detectSourceFormat g).isSupportedFormat
      · -- unsupported format
        have hstop : stopsLoop env options g = false := by
          simp [stopsLoop, fileFails_eq, hsup]
        rw [loop_cons_unsupported _ _ _ _ _ _ _ hsup, loop_cons_unsupported _ _ _ _ _ _ _ hsup]
        obtain ⟨ih1, ih2⟩ := ih s rpre rs hlen' hok
        simp only [hstop, Bool.false_or]
        constructor
        · intro h; rw [ih1 h]; simp [LoopState.push]
        · intro h
          obtain ⟨h1, h2⟩ := ih2 h
          refine ⟨by simpa [LoopState.push] using h1, ?_⟩
          rw [h2]; simp [LoopState.push]
      · cases hsel : isFormatSelected options (detectSourceFormat g).format
        · -- format not selected
          have hstop : stopsLoop env options g = false := by
            simp [stopsLoop, fileFails_eq, hsup, hsel]
          rw [loop_cons_unselected _ _ _ _ _ _ _ hsup hsel,
            loop_cons_unselected _ _ _ _ _ _ _ hsup hsel]
          obtain ⟨ih1, ih2⟩ := ih s rpre rs hlen' hok
          simp only [hstop, Bool.false_or]
          constructor
          · intro h; rw [ih1 h]; simp [LoopState.push]
          · intro h
            obtain ⟨h1, h2⟩ := ih2 h
            refine ⟨by simpa [LoopState.push] using h1, ?_⟩
            rw [h2]; simp [LoopState.push]
        · -- the file is counted
          rw [loop_cons_count _ _ _ _ _ _ _ hsup hsel, loop_cons_count _ _ _ _ _ _ _ hsup hsel]
          have hst := count_stats_state env options
            { stats := s, file := g, result := resetResultGroup r } (detectSourceFormat g)
          have hfst := count_fst env options
            { stats := s, file := g, result := resetResultGroup r } (detectSourceFormat g)
          simp only [] at hst hfst ⊢
          generalize count env options
            { stats := s, file := g, result := resetResultGroup r } (detectSourceFormat g) = c
            at hst hfst ⊢
          have hstop : stopsLoop env options g = (options.stopOnError && !c.1) := by
            simp [stopsLoop, fileFails_eq, hsup, hsel, hfst]
          obtain ⟨hst1, hst2, hst3⟩ := hst
          cases hc : c.1
          · cases hso : options.stopOnError
            · -- a failure that does not stop the loop
              have hok' : c.2.stats.state.ok = true := by rw [hst3 hso]; exact hok
              obtain ⟨ih1, ih2⟩ := ih c.2.stats rpre rs hlen' hok'
              simp only [hstop, hc, hso, hok', Bool.false_and, Bool.false_or, Bool.not_false,
                Bool.not_true, Bool.or_false, Bool.and_false, Bool.false_eq_true, if_false]
              constructor
              · intro h; rw [ih1 h]; simp [LoopState.push]
              · intro h
                obtain ⟨h1, h2⟩ := ih2 h
                refine ⟨by simpa [LoopState.push] using h1, ?_⟩
                rw [h2]; simp [LoopState.push]
            · -- a failure that stops the loop
              simp [hstop, hc, hso]
          · have hok' : c.2.stats.state.ok = true := by rw [hst1 hc]; exact hok
            obtain ⟨ih1, ih2⟩ := ih c.2.stats rpre rs hlen' hok'
            simp only [hstop, hc, Bool.not_true, Bool.false_and, Bool.and_false, Bool.false_or,
              Bool.false_eq_true, if_false]
            constructor
            · intro h; rw [ih1 h]; simp [LoopState.push]
            · intro h
              obtain ⟨h1, h2⟩ := ih2 h
              refine ⟨by simpa [LoopState.push] using h1, ?_⟩
              rw [h2]; simp [LoopState.push]

/-- The three ways `count` ends on a result group that was just reset. -/
theorem count_cases (env : Env) (options : RcnStatOptions) (s : RcnCountStatistics)
    (f : RcnSourceFile) (r : RcnCountResultGroup) (d : SourceFormatDetection) :
    (∃ m1 m2, (loadFile env f).1 = false ∧
      count env options { stats := s, file := f, result := resetResultGroup r } d =
        (false, finishFailed options
          { stats := { s with state :=
              { errorCode := .RCN_ERR_INVALID_INPUT, errorMessage := m1,
                ok := if options.stopOnError then false else s.state.ok } },
            file := (loadFile env f).2,
            result := failedResult
              { errorCode := .RCN_ERR_INVALID_INPUT, errorMessage := m2, ok := false } })) ∨
    (∃ st, (loadFile env f).1 = true ∧
      counterFailure env options d (loadFile env f).2.content = some st ∧
      count env options { stats := s, file := f, result := resetResultGroup r } d =
        (false, finishFailed options
          { stats := s, file := (loadFile env f).2, result := failedResult st })) ∨
    ((loadFile env f).1 = true ∧
      counterFailure env options d (loadFile env f).2.content = none ∧
      count env options { stats := s, file := f, result := resetResultGroup r } d =
        (true,
         { stats := countedStats env options d (loadFile env f).2.content s,
           file :=
             if !options.keepFileContent then freeSourceFileContent (loadFile env f).2
             else (loadFile env f).2,
           result := countedResult env options d (loadFile env f).2.content
             (resetResultGroup r) })) := by
  cases h : (loadFile env f).1
  · left
    obtain ⟨m1, m2, he⟩ := ensure_false env options
      { stats := s, file := f, result := resetResultGroup r } h
    refine ⟨m1, m2, rfl, ?_⟩
    rw [count_of_load_fail env options _ d h, he]
    rfl
  · right
    cases hf : counterFailure env options d (loadFile env f).2.content with
    | none =>
      right
      exact ⟨rfl, rfl, count_of_success env options _ d h hf⟩
    | some st =>
      left
      exact ⟨st, rfl, rfl, count_of_counter_fail env options _ d st h hf⟩

theorem addCount_lt (a b : Nat) : addCount a b < 2 ^ 64 := by
  unfold addCount
  exact Nat.mod_lt _ (by norm_num)

theorem addCount_mod (a b : Nat) : addCount a b % 2 ^ 64 = (a + b) % 2 ^ 64 := by
  unfold addCount
  exact Nat.mod_mod _ _

theorem count_totals (env : Env) (options : RcnStatOptions) (s : RcnCountStatistics)
    (f : RcnSourceFile) (r : RcnCountResultGroup) (d : SourceFormatDetection) :
    Tracks (·.totalLogicalLines) (·.logicalLines) s
      (count env options { stats := s, file := f, result := resetResultGroup r } d) ∧
    Tracks (·.totalPhysicalLines) (·.physicalLines) s
      (count env options { stats := s, file := f, result := resetResultGroup r } d) ∧
    Tracks (·.totalWords) (·.words) s
      (count env options { stats := s, file := f, result := resetResultGroup r } d) ∧
    Tracks (·.totalCharacters) (·.characters) s
      (count env options { stats := s, file := f, result := resetResultGroup r } d) ∧
    Tracks (·.totalSourceSize) (·.sourceSize) s
      (count env options { stats := s, file := f, result := resetResultGroup r } d) := by
  unfold Tracks
  rcases count_cases env options s f r d with ⟨m1, m2, -, h⟩ | ⟨st, -, -, h⟩ | ⟨-, -, h⟩
  · rw [h]
    cases hs : options.stopOnError <;> simp [finishFailed, failedResult, hs]
  · rw [h]
    cases hs : options.stopOnError <;> simp [finishFailed, failedResult, hs]
  · rw [h]
    simp only [countedStats, countedResult, resetResultGroup]
    refine ⟨⟨?_, ?_⟩, ⟨?_, ?_⟩, ⟨?_, ?_⟩, ⟨?_, ?_⟩, ⟨?_, ?_⟩⟩ <;>
      (try split_ifs) <;>
      first
        | exact addCount_mod _ _
        | exact fun _ => addCount_lt _ _
        | rfl
        | exact fun h => h

theorem sum_map_replicate_zero (fld : RcnCountResultGroup → Nat) (hz : fld zeroResultGroup = 0)
    (n : Nat) : ((List.replicate n zeroResultGroup).map fld).sum = 0 := by
  induction n with
  | zero => rfl
  | succ n ih => simp [List.replicate_succ, hz, ih]

/-- A total of the statistics follows the sum of a field of the results
through the loop, when `count` keeps the two in step. -/
theorem loop_sum (env : Env) (options : RcnStatOptions)
    (tot : RcnCountStatistics → Nat) (fld : RcnCountResultGroup → Nat)
    (hr : ∀ r, fld (resetResultGroup r) = 0)
    (hu : ∀ r, fld (unsupportedResult r) = 0)
    (hc : ∀ s f r d, Tracks tot fld s
      (count env options { stats := s, file := f, result := resetResultGroup r } d)) :
    ∀ (fs : List RcnSourceFile) (s : RcnCountStatistics),
      tot (rcnCountLoop env options s fs (List.replicate fs.length zeroResultGroup)).stats
          % 2 ^ 64 =
        (tot s + ((rcnCountLoop env options s fs
          (List.replicate fs.length zeroResultGroup)).results.map fld).sum) % 2 ^ 64 ∧
      (tot s < 2 ^ 64 →
        tot (rcnCountLoop env options s fs (List.replicate fs.length zeroResultGroup)).stats
          < 2 ^ 64) := by
  have hz : fld zeroResultGroup = 0 := hr zeroResultGroup
  intro fs
  induction fs with
  | nil => intro s; simp [loop_nil_left]
  | cons f fs ih =>
    intro s
    simp only [List.length_cons, List.replicate_succ]
    cases hsup : (detectSourceFormat f).isSupportedFormat
    · rw [loop_cons_unsupported _ _ _ _ _ _ _ hsup]
      simpa [LoopState.push, hu] using ih s
    · cases hsel : isFormatSelected options (detectSourceFormat f).format
      · rw [loop_cons_unselected _ _ _ _ _ _ _ hsup hsel]
        simpa [LoopState.push, hr] using ih s
      · rw [loop_cons_count _ _ _ _ _ _ _ hsup hsel]
        have h := hc s f zeroResultGroup (detectSourceFormat f)
        unfold Tracks at h
        simp only []
        generalize count env options
          { stats := s, file := f, result := resetResultGroup zeroResultGroup }
          (detectSourceFormat f) = c at h ⊢
        obtain ⟨h1, h2⟩ := h
        split_ifs
        · simp only [List.map_cons, List.sum_cons, sum_map_replicate_zero fld hz, Nat.add_zero]
          exact ⟨h1, h2⟩
        · obtain ⟨i1, i2⟩ := ih c.2.stats
          simp only [LoopState.push, List.map_cons, List.sum_cons]
          refine ⟨?_, fun hs => i2 (h2 hs)⟩
          rw [i1, Nat.add_mod, h1, ← Nat.add_mod, Nat.add_assoc]

/-- On statistics whose two arrays hold `size` elements, `rcnCount` is the
loop between `startStatistics` and `finishStatistics`. -/
theorem rcnCount_eq (env : Env) (stats : RcnCountStatistics) (options : RcnStatOptions)
    (fs : List RcnSourceFile) (rs : List RcnCountResultGroup)
    (hf : stats.count.files = some fs) (hr : stats.count.results = some rs)
    (hfs : stats.count.size = fs.length) (hrs : rs.length = fs.length) :
    rcnCount env stats options =
      finishStatistics fs.length
        (rcnCountLoop env (enableDefaults options) (startStatistics stats) fs rs) := by
  unfold rcnCount
  simp only [hf, hr, hfs]
  rw [← hrs, List.take_length, List.drop_length]
  rw [hrs, List.take_length, List.drop_length]
  simp only [List.append_nil]
  rfl

theorem rcnCount_fresh (env : Env) (files : List RcnSourceFile) (options : RcnStatOptions)
    (h : files ≠ []) :
    rcnCount env (freshStatistics files) options =
      finishStatistics files.length
        (rcnCountLoop env (enableDefaults options) (startStatistics (freshStatistics files))
          files (List.replicate files.length zeroResultGroup)) := by
  apply rcnCount_eq
  · cases files with
    | nil => exact absurd rfl h
    | cons f fs => rfl
  · cases files with
    | nil => exact absurd rfl h
    | cons f fs => rfl
  · rfl
  · simp

theorem rcnCount_fresh_nil (env : Env) (options : RcnStatOptions) :
    rcnCount env (freshStatistics []) options =
      { freshStatistics [] with state :=
        { errorCode := .RCN_ERR_INVALID_INPUT,
          errorMessage := some "No input files provided", ok := false } } := rfl

theorem finishStatistics_results (size : Nat) (r : LoopState) :
    (finishStatistics size r).count.results = some r.results := by
  unfold finishStatistics
  simp only []
  split_ifs
  · cases r.results <;> rfl
  · rfl

theorem finishStatistics_files (size : Nat) (r : LoopState) :
    (finishStatistics size r).count.files = some r.files := by
  unfold finishStatistics
  simp only []
  split_ifs
  · cases r.results <;> rfl
  · rfl

/-- Apart from the state and the two arrays, `finishStatistics` keeps the
statistics of the loop. -/
theorem finishStatistics_totals (size : Nat) (r : LoopState) :
    (finishStatistics size r).totalLogicalLines = r.stats.totalLogicalLines ∧
    (finishStatistics size r).totalPhysicalLines = r.stats.totalPhysicalLines ∧
    (finishStatistics size r).totalWords = r.stats.totalWords ∧
    (finishStatistics size r).totalCharacters = r.stats.totalCharacters ∧
    (finishStatistics size r).totalSourceSize = r.stats.totalSourceSize ∧
    (finishStatistics size r).logicalLines = r.stats.logicalLines ∧
    (finishStatistics size r).physicalLines = r.stats.physicalLines ∧
    (finishStatistics size r).words = r.stats.words ∧
    (finishStatistics size r).characters = r.stats.characters ∧
    (finishStatistics size r).sourceSize = r.stats.sourceSize ∧
    (finishStatistics size r).count.sizeProcessed = r.stats.count.sizeProcessed ∧
    (finishStatistics size r).count.size = r.stats.count.size := by
  unfold finishStatistics
  simp only []
  split_ifs
  · cases r.results <;> simp
  · simp

theorem reset_zero : resetResultGroup zeroResultGroup = zeroResultGroup := rfl

theorem untouched_forall (Pre : RcnSourceFile → Prop)
    (Q : RcnSourceFile → RcnSourceFile → RcnCountResultGroup → Prop)
    (hz : ∀ f, Pre f → Q f f zeroResultGroup) :
    ∀ (fs : List RcnSourceFile), (∀ f ∈ fs, Pre f) →
      ∀ x ∈ List.zip fs (List.zip fs (List.replicate fs.length zeroResultGroup)),
        Q x.1 x.2.1 x.2.2 := by
  intro fs
  induction fs with
  | nil => intro _ x hx; simp at hx
  | cons f fs ih =>
    intro hpre x hx
    simp only [List.length_cons, List.replicate_succ, List.zip_cons_cons, List.mem_cons] at hx
    rcases hx with rfl | hx
    · exact hz f (hpre f (List.mem_cons_self f fs))
    · exact ih (fun g hg => hpre g (List.mem_cons_of_mem f hg)) x hx

/-- A property of a file as it was, the file as the loop leaves it and its
result, which holds for every index once it holds for a file that is left
untouched or skipped and for a file that `count` has worked on. -/
theorem loop_forall (env : Env) (options : RcnStatOptions)
    (Pre : RcnSourceFile → Prop)
    (Q : RcnSourceFile → RcnSourceFile → RcnCountResultGroup → Prop)
    (hz : ∀ f, Pre f → Q f f zeroResultGroup)
    (hu : ∀ f, Pre f → (detectSourceFormat f).isSupportedFormat = false →
      Q f f (unsupportedResult zeroResultGroup))
    (hc : ∀ s f, Pre f → (detectSourceFormat f).isSupportedFormat = true →
      isFormatSelected options (detectSourceFormat f).format = true →
      Q f
        (count env options { stats := s, file := f, result := zeroResultGroup }
          (detectSourceFormat f)).2.file
        (count env options { stats := s, file := f, result := zeroResultGroup }
          (detectSourceFormat f)).2.result) :
    ∀ (fs : List RcnSourceFile) (s : RcnCountStatistics), (∀ f ∈ fs, Pre f) →
      ∀ x ∈ List.zip fs (List.zip
          (rcnCountLoop env options s fs (List.replicate fs.length zeroResultGroup)).files
          (rcnCountLoop env options s fs (List.replicate fs.length zeroResultGroup)).results),
        Q x.1 x.2.1 x.2.2 := by
  intro fs
  induction fs with
  | nil => intro s _ x hx; simp at hx
  | cons f fs ih =>
    intro s hpre
    have hf : Pre f := hpre f (List.mem_cons_self f fs)
    have hfs : ∀ g ∈ fs, Pre g := fun g hg => hpre g (List.mem_cons_of_mem f hg)
    simp only [List.length_cons, List.replicate_succ]
    cases hsup : (detectSourceFormat f).isSupportedFormat
    · rw [loop_cons_unsupported _ _ _ _ _ _ _ hsup]
      intro x hx
      simp only [LoopState.push, List.zip_cons_cons, List.mem_cons] at hx
      rcases hx with rfl | hx
      · exact hu f hf hsup
      · exact ih s hfs x hx
    · cases hsel : isFormatSelected options (detectSourceFormat f).format
      · rw [loop_cons_unselected _ _ _ _ _ _ _ hsup hsel]
        intro x hx
        simp only [LoopState.push, List.zip_cons_cons, List.mem_cons] at hx
        rcases hx with rfl | hx
        · exact hz f hf
        · exact ih s hfs x hx
      · rw [loop_cons_count _ _ _ _ _ _ _ hsup hsel]
        have h := hc s f hf hsup hsel
        simp only [reset_zero]
        generalize count env options
          { stats := s, file := f, result := zeroResultGroup }
          (detectSourceFormat f) = c at h ⊢
        intro x hx
        split_ifs at hx
        · simp only [List.zip_cons_cons, List.mem_cons] at hx
          rcases hx with rfl | hx
          · exact h
          · exact untouched_forall Pre Q hz fs hfs x hx
        · simp only [LoopState.push, List.zip_cons_cons, List.mem_cons] at hx
          rcases hx with rfl | hx
          · exact h
          · exact ih c.2.stats hfs x hx

/-- The two arrays keep their length through the loop. -/
theorem loop_length (env : Env) (options : RcnStatOptions) :
    ∀ (fs : List RcnSourceFile) (s : RcnCountStatistics) (rs : List RcnCountResultGroup),
      (rcnCountLoop env options s fs rs).files.length = fs.length ∧
      (rcnCountLoop env options s fs rs).results.length = rs.length := by
  intro fs
  induction fs with
  | nil => intro s rs; simp [loop_nil_left]
  | cons f fs ih =>
    intro s rs
    cases rs with
    | nil => simp [loop_nil_right]
    | cons r rs =>
      rw [rcnCountLoop]
      simp only []
      split_ifs <;> simp [LoopState.push, ih]

theorem zip_of_index {α β γ : Type} (fs : List α) (gs : List β) (hs : List γ) (k : Nat)
    (f : α) (g : β) (h : γ) (h1 : fs[k]? = some f) (h2 : gs[k]? = some g)
    (h3 : hs[k]? = some h) : (f, g, h) ∈ List.zip fs (List.zip gs hs) := by
  rw [List.mem_iff_getElem?]
  refine ⟨k, ?_⟩
  rw [List.getElem?_zip_eq_some]
  refine ⟨h1, ?_⟩
  rw [List.getElem?_zip_eq_some]
  exact ⟨h2, h3⟩

/-- The form of `loop_forall` for `rcnCount` on statistics as they are
created: the property holds at every index. -/
theorem rcnCount_forall (env : Env) (files : List RcnSourceFile) (options : RcnStatOptions)
    (Pre : RcnSourceFile → Prop)
    (Q : RcnSourceFile → RcnSourceFile → RcnCountResultGroup → Prop)
    (hz : ∀ f, Pre f → Q f f zeroResultGroup)
    (hu : ∀ f, Pre f → (detectSourceFormat f).isSupportedFormat = false →
      Q f f (unsupportedResult zeroResultGroup))
    (hc : ∀ s f, Pre f → (detectSourceFormat f).isSupportedFormat = true →
      isFormatSelected (enableDefaults options) (detectSourceFormat f).format = true →
      Q f
        (count env (enableDefaults options)
          { stats := s, file := f, result := zeroResultGroup } (detectSourceFormat f)).2.file
        (count env (enableDefaults options)
          { stats := s, file := f, result := zeroResultGroup } (detectSourceFormat f)).2.result)
    (hpre : ∀ f ∈ files, Pre f)
    (k : Nat) (f f' : RcnSourceFile) (r : RcnCountResultGroup)
    (h1 : files[k]? = some f)
    (h2 : ((rcnCount env (freshStatistics files) options).count.files.getD [])[k]? = some f')
    (h3 : ((rcnCount env (freshStatistics files) options).count.results.getD [])[k]? = some r) :
    Q f f' r := by
  cases files with
  | nil => simp at h1
  | cons g gs =>
    rw [rcnCount_fresh env (g :: gs) options (List.cons_ne_nil g gs)] at h2 h3
    rw [finishStatistics_files, Option.getD_some] at h2
    rw [finishStatistics_results, Option.getD_some] at h3
    exact loop_forall env (enableDefaults options) Pre Q hz hu hc (g :: gs)
      (startStatistics (freshStatistics (g :: gs))) hpre (f, f', r)
      (zip_of_index _ _ _ k f f' r h1 h2 h3)

/-- Every result of `rcnCount` on statistics as they are created sits at an
index that holds a file, before and after. -/
theorem rcnCount_result_index (env : Env) (files : List RcnSourceFile)
    (options : RcnStatOptions) (r : RcnCountResultGroup)
    (hr : r ∈ (rcnCount env (freshStatistics files) options).count.results.getD []) :
    ∃ (k : Nat) (f f' : RcnSourceFile), files[k]? = some f ∧
      ((rcnCount env (freshStatistics files) options).count.files.getD [])[k]? = some f' ∧
      ((rcnCount env (freshStatistics files) options).count.results.getD [])[k]? = some r := by
  cases files with
  | nil => rw [rcnCount_fresh_nil] at hr; simp [freshStatistics] at hr
  | cons g gs =>
    obtain ⟨k, hk⟩ := List.mem_iff_getElem?.mp hr
    rw [rcnCount_fresh env (g :: gs) options (List.cons_ne_nil g gs)] at hk ⊢
    rw [finishStatistics_results, Option.getD_some] at hk ⊢
    rw [finishStatistics_files, Option.getD_some]
    have hlen := loop_length env (enableDefaults options) (g :: gs)
      (startStatistics (freshStatistics (g :: gs)))
      (List.replicate (g :: gs).length zeroResultGroup)
    have hk' : k < (g :: gs).length := by
      have := (List.getElem?_eq_some.mp hk).1
      rw [hlen.2] at this
      simpa using this
    exact ⟨k, (g :: gs)[k], _, List.getElem?_eq_getElem hk',
      List.getElem?_eq_getElem (by rw [hlen.1]; exact hk'), hk⟩

/-- Every file of the statistics has a file and a result at its index after
`rcnCount`. -/
theorem rcnCount_file_index (env : Env) (files : List RcnSourceFile)
    (options : RcnStatOptions) (k : Nat) (f : RcnSourceFile) (h1 : files[k]? = some f) :
    ∃ (f' : RcnSourceFile) (r : RcnCountResultGroup),
      ((rcnCount env (freshStatistics files) options).count.files.getD [])[k]? = some f' ∧
      ((rcnCount env (freshStatistics files) options).count.results.getD [])[k]? = some r := by
  cases files with
  | nil => simp at h1
  | cons g gs =>
    rw [rcnCount_fresh env (g :: gs) options (List.cons_ne_nil g gs)]
    rw [finishStatistics_results, finishStatistics_files, Option.getD_some, Option.getD_some]
    have hlen := loop_length env (enableDefaults options) (g :: gs)
      (startStatistics (freshStatistics (g :: gs)))
      (List.replicate (g :: gs).length zeroResultGroup)
    have hk' : k < (g :: gs).length := (List.getElem?_eq_some.mp h1).1
    exact ⟨_, _, List.getElem?_eq_getElem (by rw [hlen.1]; exact hk'),
      List.getElem?_eq_getElem (by rw [hlen.2, List.length_replicate]; exact hk')⟩

/-- On a content that is loaded, no counting step reports an invalid input. -/
theorem counterFailure_not_invalid (env : Env) (options : RcnStatOptions)
    (detected : SourceFormatDetection) (source : RcnSourceText) (state : RcnResultState)
    (ht : source.text.isNone = false)
    (h : counterFailure env options detected source = some state) :
    state.errorCode ≠ .RCN_ERR_INVALID_INPUT ∧ state.errorCode ≠ .RCN_ERR_NONE := by
  unfold counterFailure at h
  split_ifs at h with h1 h2
  · simp only [Option.some.injEq] at h
    subst h
    have h3 : (rcnCountLogicalLines env detected.format source).state.errorCode
        ≠ .RCN_ERR_NONE := by
      simp only [Bool.and_eq_true, bne_iff_ne] at h1
      exact h1.2
    refine ⟨?_, h3⟩
    unfold rcnCountLogicalLines at h3 ⊢
    simp only [ht, Bool.false_eq_true, if_false] at h3 ⊢
    cases hl : createEvaluationFunction detected.format with
    | none => simp [errResult]
    | some ev =>
      simp only [evaluateSourceTree]
      split_ifs <;> simp
  · simp only [Option.some.injEq] at h
    subst h
    simp [tooLargeState]

/-- Without `stopOnError`, `count` keeps `state.ok` of the statistics, and it
sets their error code exactly when the content cannot be loaded. -/
theorem count_nostop (env : Env) (options : RcnStatOptions) (s : RcnCountStatistics)
    (f : RcnSourceFile) (d : SourceFormatDetection) (hs : options.stopOnError = false) :
    (count env options { stats := s, file := f, result := zeroResultGroup } d).2.stats.state.ok
        = s.state.ok ∧
    (((count env options { stats := s, file := f, result := zeroResultGroup }
          d).2.result.state.errorCode = .RCN_ERR_INVALID_INPUT ∧
      (count env options { stats := s, file := f, result := zeroResultGroup }
          d).2.stats.state.errorCode = .RCN_ERR_INVALID_INPUT) ∨
     ((count env options { stats := s, file := f, result := zeroResultGroup }
          d).2.result.state.errorCode ≠ .RCN_ERR_INVALID_INPUT ∧
      (count env options { stats := s, file := f, result := zeroResultGroup }
          d).2.stats.state = s.state)) := by
  rcases count_cases env options s f zeroResultGroup d with
    ⟨m1, m2, -, h⟩ | ⟨st, hl, hf, h⟩ | ⟨-, -, h⟩
  · rw [reset_zero] at h; rw [h]
    simp [finishFailed, failedResult, hs]
  · rw [reset_zero] at h; rw [h]
    have hc := counterFailure_not_invalid env options d _ st (loadFile_true env f hl).1 hf
    simp [finishFailed, failedResult, hs, hc.1]
  · rw [reset_zero] at h; rw [h]
    refine ⟨rfl, Or.inr ⟨?_, rfl⟩⟩
    simp only [countedResult]
    split_ifs <;> simp [zeroResultGroup]

/-- Without `stopOnError` the loop keeps `state.ok`, and the error code of the
statistics becomes `RCN_ERR_INVALID_INPUT` exactly when a content cannot be
loaded. -/
theorem loop_nostop_state (env : Env) (options : RcnStatOptions)
    (hs : options.stopOnError = false) :
    ∀ (fs : List RcnSourceFile) (s : RcnCountStatistics), s.state.ok = true →
      (rcnCountLoop env options s fs (List.replicate fs.length zeroResultGroup)).stats.state.ok
          = true ∧
      (rcnCountLoop env options s fs
          (List.replicate fs.length zeroResultGroup)).stats.state.errorCode =
        if (rcnCountLoop env options s fs
            (List.replicate fs.length zeroResultGroup)).results.any loadFailed
        then .RCN_ERR_INVALID_INPUT else s.state.errorCode := by
  intro fs
  induction fs with
  | nil => intro s hok; simp [loop_nil_left, hok]
  | cons f fs ih =>
    intro s hok
    simp only [List.length_cons, List.replicate_succ]
    cases hsup : (detectSourceFormat f).isSupportedFormat
    · simp only [loop_cons_unsupported _ _ _ _ _ _ _ hsup]
      simpa [LoopState.push, loadFailed, unsupportedResult] using ih s hok
    · cases hsel : isFormatSelected options (detectSourceFormat f).format
      · simp only [loop_cons_unselected _ _ _ _ _ _ _ hsup hsel]
        simpa [LoopState.push, loadFailed, resetResultGroup, zeroResultGroup] using ih s hok
      · simp only [loop_cons_count _ _ _ _ _ _ _ hsup hsel]
        have h := count_nostop env options s f (detectSourceFormat f) hs
        simp only [reset_zero]
        generalize count env options
          { stats := s, file := f, result := zeroResultGroup }
          (detectSourceFormat f) = c at h ⊢
        obtain ⟨h1, h2⟩ := h
        have hok' : c.2.stats.state.ok = true := by rw [h1]; exact hok
        obtain ⟨i1, i2⟩ := ih c.2.stats hok'
        simp only [hs, hok', Bool.not_true, Bool.or_false, Bool.and_false, Bool.false_eq_true,
          if_false, LoopState.push, List.any_cons]
        refine ⟨i1, ?_⟩
        rw [i2]
        rcases h2 with ⟨a, b⟩ | ⟨a, b⟩
        · simp [loadFailed, a, b]
        · simp [loadFailed, a, b]

/-- The result of a file on which `count` fails. -/
theorem count_fail_result (env : Env) (options : RcnStatOptions) (s : RcnCountStatistics)
    (f : RcnSourceFile) (r : RcnCountResultGroup) (d : SourceFormatDetection)
    (h : (count env options { stats := s, file := f, result := resetResultGroup r } d).1
      = false) :
    (count env options { stats := s, file := f, result := resetResultGroup r }
        d).2.result.state.ok = false ∧
    (count env options { stats := s, file := f, result := resetResultGroup r }
        d).2.result.state.errorCode ≠ .RCN_ERR_NONE ∧
    (count env options { stats := s, file := f, result := resetResultGroup r }
        d).2.result.isProcessed = false := by
  rcases count_cases env options s f r d with
    ⟨m1, m2, -, h'⟩ | ⟨st, hl, hf, h'⟩ | ⟨-, -, h'⟩
  · rw [h']; simp [finishFailed, failedResult]
  · rw [h']
    have hc := counterFailure_not_invalid env options d _ st (loadFile_true env f hl).1 hf
    simp [finishFailed, failedResult, hc.2]
  · rw [h'] at h; simp at h

/-- With `stopOnError`, the loop ends at the first file that fails: what
comes before is the loop over the files before it, and what comes after is
left as it was. -/
theorem loop_stop_at (env : Env) (options : RcnStatOptions) (hs : options.stopOnError = true)
    (pre post : List RcnSourceFile) (f : RcnSourceFile)
    (rpre rpost : List RcnCountResultGroup) (r : RcnCountResultGroup)
    (s : RcnCountStatistics) (hlen : rpre.length = pre.length) (hok : s.state.ok = true)
    (hpre : ∀ g ∈ pre, fileFails env options g = false)
    (hf : fileFails env options f = true) :
    ∃ c : CountCtx,
      c.result.state.ok = false ∧ c.result.state.errorCode ≠ .RCN_ERR_NONE ∧
      c.result.isProcessed = false ∧
      c.stats.state = { c.result.state with ok := false } ∧
      rcnCountLoop env options s (pre ++ f :: post) (rpre ++ r :: rpost) =
        { stats := c.stats,
          files := (rcnCountLoop env options s pre rpre).files ++ c.file :: post,
          results := (rcnCountLoop env options s pre rpre).results ++ c.result :: rpost } := by
  have hany : pre.any (stopsLoop env options) = false := by
    rw [List.any_eq_false]
    intro g hg
    simp [stopsLoop, hpre g hg]
  obtain ⟨hok', happ⟩ := (loop_append env options pre (f :: post) s rpre (r :: rpost) hlen hok).2 hany
  rw [fileFails_eq] at hf
  simp only [Bool.and_eq_true, Bool.not_eq_true'] at hf
  obtain ⟨⟨hsup, hsel⟩, hfail⟩ := hf
  rw [loop_cons_count _ _ _ _ _ _ _ hsup hsel] at happ
  have hfst := count_fst env options
    { stats := (rcnCountLoop env options s pre rpre).stats, file := f,
      result := resetResultGroup r } (detectSourceFormat f)
  simp only [] at hfst
  rw [hfail] at hfst
  have hres := count_fail_result env options _ f r (detectSourceFormat f) hfst
  have hst := (count_stats_state env options
    { stats := (rcnCountLoop env options s pre rpre).stats, file := f,
      result := resetResultGroup r } (detectSourceFormat f)).2.1 hfst hs
  simp only [hfst, hs, Bool.not_false, Bool.true_or, Bool.and_self, if_true] at happ
  exact ⟨_, hres.1, hres.2.1, hres.2.2, hst, happ⟩

theorem loop_cons_skipped (env : Env) (options : RcnStatOptions) (s : RcnCountStatistics)
    (f : RcnSourceFile) (fs : List RcnSourceFile) (r : RcnCountResultGroup)
    (rs : List RcnCountResultGroup)
    (h : (detectSourceFormat f).isSupportedFormat = false ∨
      isFormatSelected options (detectSourceFormat f).format = false) :
    rcnCountLoop env options s (f :: fs) (r :: rs) =
      LoopState.push f (skippedResult f r) (rcnCountLoop env options s fs rs) := by
  unfold skippedResult
  cases hsup : (detectSourceFormat f).isSupportedFormat
  · rw [loop_cons_unsupported _ _ _ _ _ _ _ hsup]; simp
  · rcases h with h | h
    · rw [hsup] at h; cases h
    · rw [loop_cons_unselected _ _ _ _ _ _ _ hsup h]; simp

/-- A file that the loop skips (format not supported, or not selected) can be
taken out of the arrays without any other change: the statistics are the same,
and so are the other files and results. Its own result is the skipped one
when the loop gets to it, and is left as it was when the loop stops before. -/
theorem loop_skip (env : Env) (options : RcnStatOptions)
    (pre post : List RcnSourceFile) (f : RcnSourceFile)
    (rpre rpost : List RcnCountResultGroup) (r : RcnCountResultGroup)
    (s : RcnCountStatistics) (hlen : rpre.length = pre.length) (hok : s.state.ok = true)
    (h : (detectSourceFormat f).isSupportedFormat = false ∨
      isFormatSelected options (detectSourceFormat f).format = false) :
    rcnCountLoop env options s (pre ++ f :: post) (rpre ++ r :: rpost) =
      { stats := (rcnCountLoop env options s (pre ++ post) (rpre ++ rpost)).stats,
        files := (rcnCountLoop env options s (pre ++ post) (rpre ++ rpost)).files.take pre.length
          ++ f :: (rcnCountLoop env options s (pre ++ post) (rpre ++ rpost)).files.drop pre.length,
        results :=
          (rcnCountLoop env options s (pre ++ post) (rpre ++ rpost)).results.take pre.length
          ++ (if pre.any (stopsLoop env options) then r else skippedResult f r)
          :: (rcnCountLoop env options s (pre ++ post) (rpre ++ rpost)).results.drop pre.length }
    := by
  have hl := loop_length env options pre s rpre
  have hfl : (rcnCountLoop env options s pre rpre).files.length = pre.length := hl.1
  have hrl : (rcnCountLoop env options s pre rpre).results.length = pre.length := by
    rw [hl.2, hlen]
  have hA := loop_append env options pre (f :: post) s rpre (r :: rpost) hlen hok
  have hB := loop_append env options pre post s rpre rpost hlen hok
  cases hany : pre.any (stopsLoop env options)
  · obtain ⟨-, hA⟩ := hA.2 hany
    obtain ⟨-, hB⟩ := hB.2 hany
    rw [hA, hB, loop_cons_skipped _ _ _ _ _ _ _ h]
    simp only [LoopState.push, Bool.false_eq_true, if_false]
    rw [← hfl, List.take_left, List.drop_left]
    rw [hfl, ← hrl, List.take_left, List.drop_left]
  · rw [hA.1 hany, hB.1 hany]
    simp only [if_true]
    rw [← hfl, List.take_left, List.drop_left]
    rw [hfl, ← hrl, List.take_left, List.drop_left]

theorem insert_at {α : Type} (l : List α) (k : Nat) (x : α) (hk : k ≤ l.length) :
    (l.take k ++ x :: l.drop k)[k]? = some x ∧
      (l.take k ++ x :: l.drop k).eraseIdx k = l := by
  have hlen : (l.take k).length = k := by simp [List.length_take, hk]
  constructor
  · rw [List.getElem?_append_right (by rw [hlen]), hlen]
    simp
  · rw [List.eraseIdx_append_of_length_le (by rw [hlen]), hlen]
    simp

/-- On two or more files `finishStatistics` only stores the two arrays. -/
theorem finishStatistics_many (size : Nat) (r : LoopState) (h : size ≠ 1) :
    finishStatistics size r =
      { r.stats with count :=
        { r.stats.count with files := some r.files, results := some r.results } } := by
  unfold finishStatistics
  have : (size == 1) = false := by simpa using h
  simp only [this, Bool.false_eq_true, if_false]

theorem finishStatistics_tallies (size : Nat) (r : LoopState) :
    (finishStatistics size r).tallies = r.stats.tallies := by
  obtain ⟨h1, h2, h3, h4, h5, h6, h7, h8, h9, h10, h11, -⟩ := finishStatistics_totals size r
  simp only [RcnCountStatistics.tallies, h1, h2, h3, h4, h5, h6, h7, h8, h9, h10, h11]

/-- The function `count` reads the options through the four operation bits and
the two flags only. -/
theorem count_congr (env : Env) (o1 o2 : RcnStatOptions)
    (h1 : ((o1.operations &&& RCN_OPT_COUNT_LOGICAL_LINES) != 0) =
      ((o2.operations &&& RCN_OPT_COUNT_LOGICAL_LINES) != 0))
    (h2 : ((o1.operations &&& RCN_OPT_COUNT_PHYSICAL_LINES) != 0) =
      ((o2.operations &&& RCN_OPT_COUNT_PHYSICAL_LINES) != 0))
    (h3 : ((o1.operations &&& RCN_OPT_COUNT_WORDS) != 0) =
      ((o2.operations &&& RCN_OPT_COUNT_WORDS) != 0))
    (h4 : ((o1.operations &&& RCN_OPT_COUNT_CHARACTERS) != 0) =
      ((o2.operations &&& RCN_OPT_COUNT_CHARACTERS) != 0))
    (hs : o1.stopOnError = o2.stopOnError) (hk : o1.keepFileContent = o2.keepFileContent)
    (ctx : CountCtx) (d : SourceFormatDetection) :
    count env o1 ctx d = count env o2 ctx d := by
  have e1 : runsLogical o1 d = runsLogical o2 d := by unfold runsLogical; rw [h1]
  have e2 : runsPhysical o1 = runsPhysical o2 := h2
  have e3 : runsWords o1 = runsWords o2 := h3
  have e4 : runsCharacters o1 = runsCharacters o2 := h4
  have e5 : ensureFileContent env o1 ctx = ensureFileContent env o2 ctx := by
    unfold ensureFileContent; rw [hs]
  have e6 : countEnd o1 d.format = countEnd o2 d.format := by
    funext p; unfold countEnd; rw [hs, hk]
  rw [count_eq_steps, count_eq_steps, e1, e2, e3, e4, e5, e6]

/-- The loop of `rcnCount` reads the options through `count`,
`isFormatSelected` and `stopOnError` only. -/
theorem loop_congr (env : Env) (o1 o2 : RcnStatOptions)
    (hc : ∀ ctx d, count env o1 ctx d = count env o2 ctx d)
    (hsel : ∀ format, isFormatSelected o1 format = isFormatSelected o2 format)
    (hs : o1.stopOnError = o2.stopOnError) :
    ∀ (fs : List RcnSourceFile) (s : RcnCountStatistics) (rs : List RcnCountResultGroup),
      rcnCountLoop env o1 s fs rs = rcnCountLoop env o2 s fs rs := by
  intro fs
  induction fs with
  | nil => intro s rs; rw [loop_nil_left, loop_nil_left]
  | cons f fs ih =>
    intro s rs
    cases rs with
    | nil => rw [loop_nil_right, loop_nil_right]
    | cons r rs =>
      rw [rcnCountLoop, rcnCountLoop]
      simp only [hc, hsel, hs, ih]

/-- The programming languages are C and Java. -/
theorem detect_programming (file : RcnSourceFile) :
    (detectSourceFormat file).isProgrammingLanguage =
      ((detectSourceFormat file).format == .RCN_LANG_C
        || (detectSourceFormat file).format == .RCN_LANG_JAVA) := by
  unfold detectSourceFormat
  cases file.extension with
  | none => rfl
  | some e =>
    simp only []
    split_ifs <;> rfl

theorem counters_get_add (x : FormatCounters) (a b : RcnTextFormat) (n : Nat) (h : a ≠ b) :
    (x.add a n).get b = x.get b := by
  cases a <;> cases b <;> first | rfl | exact absurd rfl h

/-- The function `count` leaves the logical-line counter of a format that is
not a programming language as it is. -/
theorem count_logical_counter (env : Env) (options : RcnStatOptions) (s : RcnCountStatistics)
    (g : RcnSourceFile) (r : RcnCountResultGroup) (format : RcnTextFormat)
    (h1 : format ≠ .RCN_LANG_C) (h2 : format ≠ .RCN_LANG_JAVA) :
    (count env options { stats := s, file := g, result := resetResultGroup r }
      (detectSourceFormat g)).2.stats.logicalLines.get format = s.logicalLines.get format := by
  rcases count_cases env options s g r (detectSourceFormat g) with
    ⟨m1, m2, -, h⟩ | ⟨st, -, -, h⟩ | ⟨-, -, h⟩
  · rw [h]; cases hs : options.stopOnError <;> simp [finishFailed, hs]
  · rw [h]; cases hs : options.stopOnError <;> simp [finishFailed, hs]
  · rw [h]
    simp only [countedStats]
    split_ifs with hr
    · apply counters_get_add
      intro he
      unfold runsLogical at hr
      simp only [Bool.and_eq_true] at hr
      have hp := hr.2
      rw [detect_programming, he] at hp
      cases format <;> simp_all
    · rfl

/-- A property of the statistics that `count` keeps holds after the loop. -/
theorem loop_stats_inv (env : Env) (options : RcnStatOptions)
    (P : RcnCountStatistics → Prop)
    (hc : ∀ s g r, P s →
      P (count env options { stats := s, file := g, result := resetResultGroup r }
        (detectSourceFormat g)).2.stats) :
    ∀ (fs : List RcnSourceFile) (s : RcnCountStatistics) (rs : List RcnCountResultGroup),
      P s → P (rcnCountLoop env options s fs rs).stats := by
  intro fs
  induction fs with
  | nil => intro s rs h; rw [loop_nil_left]; exact h
  | cons f fs ih =>
    intro s rs h
    cases rs with
    | nil => rw [loop_nil_right]; exact h
    | cons r rs =>
      rw [rcnCountLoop]
      simp only []
      split_ifs
      · exact ih s rs h
      · exact ih s rs h
      · exact hc s f r h
      · exact ih _ rs (hc s f r h)

/-- A file that is read by `readSourceFileContent` holds at most
`FILE_MAX_PROC_SIZE` bytes. -/
theorem loadFile_size (env : Env) (file : RcnSourceFile) (hr : file.isContentRead = false)
    (h : (loadFile env file).1 = true) :
    (loadFile env file).2.content.size ≤ FILE_MAX_PROC_SIZE := by
  unfold loadFile readSourceFileContent at h ⊢
  simp only [hr, Bool.not_false, if_true, Bool.false_eq_true, if_false] at h ⊢
  split_ifs at h ⊢ with h1
  · simp at h
  · cases hp : file.path with
    | none => simp [hp] at h
    | some p =>
      simp only [hp] at h ⊢
      cases ha : env.access p with
      | openFailed e => simp [ha] at h
      | ioFailed => simp [ha] at h
      | opened bytes m c =>
        simp only [ha] at h ⊢
        split_ifs at h ⊢ with h2 h3 h4 <;> simp_all <;> omega

/-- When the loop gets to a file on which `count` succeeds, its result is the
counted one. -/
theorem loop_counted_at (env : Env) (options : RcnStatOptions)
    (pre post : List RcnSourceFile) (f : RcnSourceFile) (s : RcnCountStatistics)
    (hok : s.state.ok = true)
    (hpre : options.stopOnError = true → ∀ g ∈ pre, fileFails env options g = false)
    (hsup : (detectSourceFormat f).isSupportedFormat = true)
    (hsel : isFormatSelected options (detectSourceFormat f).format = true)
    (hload : (loadFile env f).1 = true)
    (hcf : counterFailure env options (detectSourceFormat f) (loadFile env f).2.content = none) :
    (rcnCountLoop env options s (pre ++ f :: post)
        (List.replicate (pre ++ f :: post).length zeroResultGroup)).results[pre.length]? =
      some (countedResult env options (detectSourceFormat f) (loadFile env f).2.content
        zeroResultGroup) ∧
    (rcnCountLoop env options s (pre ++ f :: post)
        (List.replicate (pre ++ f :: post).length zeroResultGroup)).files[pre.length]? =
      some (if !options.keepFileContent then freeSourceFileContent (loadFile env f).2
        else (loadFile env f).2) := by
  have hany : pre.any (stopsLoop env options) = false := by
    rw [List.any_eq_false]
    intro g hg
    cases hs : options.stopOnError
    · simp [stopsLoop, hs]
    · simp [stopsLoop, hpre hs g hg]
  have hrep : List.replicate (pre ++ f :: post).length zeroResultGroup =
      List.replicate pre.length zeroResultGroup ++
        zeroResultGroup :: List.replicate post.length zeroResultGroup := by
    rw [List.length_append, List.length_cons, List.replicate_add, List.replicate_succ]
  obtain ⟨-, happ⟩ := (loop_append env options pre (f :: post) s
    (List.replicate pre.length zeroResultGroup)
    (zeroResultGroup :: List.replicate post.length zeroResultGroup)
    (List.length_replicate _ _) hok).2 hany
  have hl := loop_length env options pre s (List.replicate pre.length zeroResultGroup)
  have hfl : (rcnCountLoop env options s pre
      (List.replicate pre.length zeroResultGroup)).files.length = pre.length := hl.1
  have hrl : (rcnCountLoop env options s pre
      (List.replicate pre.length zeroResultGroup)).results.length = pre.length := by
    rw [hl.2, List.length_replicate]
  rw [hrep, happ, loop_cons_count _ _ _ _ _ _ _ hsup hsel]
  rcases count_cases env options
      (rcnCountLoop env options s pre (List.replicate pre.length zeroResultGroup)).stats
      f zeroResultGroup (detectSourceFormat f) with
    ⟨m1, m2, hl', -⟩ | ⟨st, -, hf', -⟩ | ⟨-, -, h⟩
  · rw [hload] at hl'; cases hl'
  · rw [hcf] at hf'; cases hf'
  · rw [reset_zero] at h
    simp only [reset_zero, h, Bool.not_true, Bool.false_and, Bool.false_eq_true, if_false,
      LoopState.push]
    constructor
    · rw [List.getElem?_append_right (by rw [hrl]), hrl]
      simp
    · rw [List.getElem?_append_right (by rw [hfl]), hfl]
      simp

/-- The flag, the result and the statistics that `count` yields do not
depend on `keepFileContent`. -/
theorem count_keep (env : Env) (options : RcnStatOptions) (b : Bool) (ctx : CountCtx)
    (d : SourceFormatDetection) :
    (count env { options with keepFileContent := b } ctx d).1 = (count env options ctx d).1 ∧
    (count env { options with keepFileContent := b } ctx d).2.stats =
      (count env options ctx d).2.stats ∧
    (count env { options with keepFileContent := b } ctx d).2.result =
      (count env options ctx d).2.result := by
  rw [count_eq_steps, count_eq_steps]
  have e1 : runsLogical { options with keepFileContent := b } d = runsLogical options d := rfl
  have e2 : runsPhysical { options with keepFileContent := b } = runsPhysical options := rfl
  have e3 : runsWords { options with keepFileContent := b } = runsWords options := rfl
  have e4 : runsCharacters { options with keepFileContent := b } = runsCharacters options := rfl
  have e5 : ensureFileContent env { options with keepFileContent := b } ctx =
      ensureFileContent env options ctx := rfl
  rw [e1, e2, e3, e4, e5]
  generalize countStep (runsCharacters options) (fun c => countCharacters c d.format)
    (countStep (runsWords options) (fun c => countWords c d.format)
      (countStep (runsPhysical options) (fun c => countPhysicalLines c d.format)
        (countStep (runsLogical options d) (fun c => countLogicalLines env c d.format)
          (ensureFileContent env options ctx)))) = p
  unfold countEnd
  cases p.1 <;> cases b <;> cases options.keepFileContent <;> cases options.stopOnError <;>
    simp

/-- The statistics and the results that the loop yields do not depend on
`keepFileContent`. -/
theorem loop_keep (env : Env) (options : RcnStatOptions) (b : Bool) :
    ∀ (fs : List RcnSourceFile) (s : RcnCountStatistics) (rs : List RcnCountResultGroup),
      (rcnCountLoop env { options with keepFileContent := b } s fs rs).stats =
        (rcnCountLoop env options s fs rs).stats ∧
      (rcnCountLoop env { options with keepFileContent := b } s fs rs).results =
        (rcnCountLoop env options s fs rs).results := by
  intro fs
  induction fs with
  | nil => intro s rs; simp [loop_nil_left]
  | cons f fs ih =>
    intro s rs
    cases rs with
    | nil => simp [loop_nil_right]
    | cons r rs =>
      rw [rcnCountLoop, rcnCountLoop]
      have hk := count_keep env options b
        { stats := s, file := f, result := resetResultGroup r } (detectSourceFormat f)
      have hsel : isFormatSelected { options with keepFileContent := b }
          (detectSourceFormat f).format =
          isFormatSelected options (detectSourceFormat f).format := rfl
      simp only [hsel]
      generalize count env { options with keepFileContent := b }
        { stats := s, file := f, result := resetResultGroup r } (detectSourceFormat f) = c1
        at hk ⊢
      generalize count env options
        { stats := s, file := f, result := resetResultGroup r } (detectSourceFormat f) = c2
        at hk ⊢
      obtain ⟨k1, k2, k3⟩ := hk
      rw [k1, k2, k3]
      split_ifs <;> simp [LoopState.push, ih]

/-- A file that `ensureFileContent` accepts has its content read. -/
theorem loadFile_read (env : Env) (file : RcnSourceFile) (h : (loadFile env file).1 = true) :
    (loadFile env file).2.isContentRead = true := by
  unfold loadFile readSourceFileContent at h ⊢
  cases hr : file.isContentRead
  · simp only [hr, Bool.not_false, if_true, Bool.false_eq_true, if_false] at h ⊢
    split_ifs at h ⊢ with h1
    · simp at h
    · cases hp : file.path with
      | none => simp [hp] at h
      | some p =>
        simp only [hp] at h ⊢
        cases ha : env.access p with
        | openFailed e => simp [ha] at h
        | ioFailed => simp [ha] at h
        | opened bytes m c =>
          simp only [ha] at h ⊢
          split_ifs at h ⊢ <;> simp_all
  · simp [hr]

/-- Every file of the statistics after `rcnCount` sits at an index that held a
file before and that holds a result. -/
theorem rcnCount_out_file_index (env : Env) (files : List RcnSourceFile)
    (options : RcnStatOptions) (k : Nat) (f' : RcnSourceFile)
    (h : ((rcnCount env (freshStatistics files) options).count.files.getD [])[k]? = some f') :
    ∃ (f : RcnSourceFile) (r : RcnCountResultGroup), files[k]? = some f ∧
      ((rcnCount env (freshStatistics files) options).count.results.getD [])[k]? = some r := by
  cases files with
  | nil => rw [rcnCount_fresh_nil] at h; simp [freshStatistics] at h
  | cons g gs =>
    rw [rcnCount_fresh env (g :: gs) options (List.cons_ne_nil g gs)] at h ⊢
    rw [finishStatistics_files, Option.getD_some] at h
    rw [finishStatistics_results, Option.getD_some]
    have hlen := loop_length env (enableDefaults options) (g :: gs)
      (startStatistics (freshStatistics (g :: gs)))
      (List.replicate (g :: gs).length zeroResultGroup)
    have hk' : k < (g :: gs).length := by
      have := (List.getElem?_eq_some.mp h).1
      rw [hlen.1] at this
      exact this
    exact ⟨(g :: gs)[k], _, List.getElem?_eq_getElem hk',
      List.getElem?_eq_getElem (by rw [hlen.2, List.length_replicate]; exact hk')⟩

/-- When the loop gets to a file with a supported and selected format and
`keepFileContent` is not set, the file is left with its content freed, whether
`count` succeeds on it or not. -/
theorem loop_freed_at (env : Env) (options : RcnStatOptions)
    (pre post : List RcnSourceFile) (f : RcnSourceFile) (s : RcnCountStatistics)
    (hok : s.state.ok = true)
    (hpre : options.stopOnError = true → ∀ g ∈ pre, fileFails env options g = false)
    (hsup : (detectSourceFormat f).isSupportedFormat = true)
    (hsel : isFormatSelected options (detectSourceFormat f).format = true)
    (hk : options.keepFileContent = false) :
    (rcnCountLoop env options s (pre ++ f :: post)
        (List.replicate (pre ++ f :: post).length zeroResultGroup)).files[pre.length]? =
      some (freeSourceFileContent (loadFile env f).2) := by
  have hany : pre.any (stopsLoop env options) = false := by
    rw [List.any_eq_false]
    intro g hg
    cases hs : options.stopOnError
    · simp [stopsLoop, hs]
    · simp [stopsLoop, hpre hs g hg]
  have hrep : List.replicate (pre ++ f :: post).length zeroResultGroup =
      List.replicate pre.length zeroResultGroup ++
        zeroResultGroup :: List.replicate post.length zeroResultGroup := by
    rw [List.length_append, List.length_cons, List.replicate_add, List.replicate_succ]
  obtain ⟨-, happ⟩ := (loop_append env options pre (f :: post) s
    (List.replicate pre.length zeroResultGroup)
    (zeroResultGroup :: List.replicate post.length zeroResultGroup)
    (List.length_replicate _ _) hok).2 hany
  have hfl : (rcnCountLoop env options s pre
      (List.replicate pre.length zeroResultGroup)).files.length = pre.length :=
    (loop_length env options pre s (List.replicate pre.length zeroResultGroup)).1
  rw [hrep, happ, loop_cons_count _ _ _ _ _ _ _ hsup hsel]
  simp only []
  rw [List.getElem?_append_right (by rw [hfl]), hfl, Nat.sub_self]
  rcases count_cases env options
      (rcnCountLoop env options s pre (List.replicate pre.length zeroResultGroup)).stats
      f zeroResultGroup (detectSourceFormat f) with
    ⟨m1, m2, -, h⟩ | ⟨st, -, -, h⟩ | ⟨-, -, h⟩
  · rw [h]; split_ifs <;> simp [finishFailed, hk, LoopState.push]
  · rw [h]; split_ifs <;> simp [finishFailed, hk, LoopState.push]
  · rw [h]; simp [hk, LoopState.push]

/-- `count` keeps `sizeProcessed` in step with the `isProcessed` flag of the
result. -/
theorem count_sizeProcessed (env : Env) (options : RcnStatOptions) (s : RcnCountStatistics)
    (f : RcnSourceFile) (r : RcnCountResultGroup) (d : SourceFormatDetection) :
    Tracks (·.count.sizeProcessed) (fun r => if r.isProcessed then 1 else 0) s
      (count env options { stats := s, file := f, result := resetResultGroup r } d) := by
  unfold Tracks
  rcases count_cases env options s f r d with ⟨m1, m2, -, h⟩ | ⟨st, -, -, h⟩ | ⟨-, -, h⟩
  · rw [h]
    cases hs : options.stopOnError <;> simp [finishFailed, failedResult, hs]
  · rw [h]
    cases hs : options.stopOnError <;> simp [finishFailed, failedResult, hs]
  · rw [h]
    simp only [countedStats, countedResult, resetResultGroup]
    refine ⟨?_, ?_⟩
    · simp
    · intro _
      exact Nat.mod_lt _ (by norm_num)

theorem sum_flags_eq_countP (p : RcnCountResultGroup → Bool) (l : List RcnCountResultGroup) :
    (l.map (fun r => if p r then 1 else 0)).sum = l.countP p := by
  induction l with
  | nil => rfl
  | cons a l ih =>
    rw [List.map_cons, List.sum_cons, ih, List.countP_cons]
    cases p a <;> simp [Nat.add_comm]

/-! ## Lemmas on the single counters -/

theorem guards_of_shape (counter : RcnSourceText → RcnCountResult) (source : RcnSourceText)
    (h0 : source.size = 0 → counter source = okResult 0)
    (h1 : source.size ≠ 0 → source.text = none →
      counter source = errResult .RCN_ERR_INVALID_INPUT "Text input must not be NULL")
    (h2 : source.size ≠ 0 → source.text ≠ none → source.size > UINT32_MAX →
      counter source =
        errResult .RCN_ERR_INPUT_TOO_LARGE "Input exceeds maximum supported size")
    (h3 : source.size ≠ 0 → source.text ≠ none → source.size ≤ UINT32_MAX →
      (counter source).state = okState) :
    GuardsInput counter source := by
  unfold GuardsInput
  have hm : UINT32_MAX = 2 ^ 32 - 1 := by unfold UINT32_MAX; norm_num
  rw [← hm]
  by_cases c0 : source.size = 0
  · rw [h0 c0]
    refine ⟨?_, ?_, ?_, ?_⟩
    · simp [okResult, c0]
    · intro _ h; exact absurd c0 h
    · intro _ h; rw [c0] at h; simp [UINT32_MAX] at h
    · intro h; simp [okResult] at h
  · by_cases c1 : source.text = none
    · rw [h1 c0 c1]
      refine ⟨?_, ?_, ?_, ?_⟩
      · simp [errResult, c0, c1]
      · intro _ _; rfl
      · intro h; exact absurd c1 h
      · intro _; rfl
    · by_cases c2 : source.size > UINT32_MAX
      · rw [h2 c0 c1 c2]
        refine ⟨?_, ?_, ?_, ?_⟩
        · simp [errResult, c0]; intro _; omega
        · intro h; exact absurd h c1
        · intro _ _; rfl
        · intro _; rfl
      · have c3 : source.size ≤ UINT32_MAX := by omega
        have hs := h3 c0 c1 c3
        refine ⟨?_, ?_, ?_, ?_⟩
        · rw [hs]; simp [okState, c1, c3]
        · intro h; exact absurd h c1
        · intro _ h; exact absurd h c2
        · rw [hs]; intro h; simp [okState] at h

theorem byteAt_sourceOfBytes (bytes : List Nat) (i : Nat) (h : i < bytes.length) :
    byteAt (sourceOfBytes bytes) i = bytes[i] := by
  simp [byteAt, sourceOfBytes, List.getD_eq_getElem?_getD, List.getElem?_eq_getElem h]

theorem byteAt_append (pre : List Nat) (b : Nat) (rest : List Nat) :
    byteAt (sourceOfBytes (pre ++ b :: rest)) pre.length = b := by
  have h : (pre ++ b :: rest)[pre.length]? = some b := by
    rw [List.getElem?_append_right (Nat.le_refl _)]
    simp
  simp [byteAt, sourceOfBytes, List.getD_eq_getElem?_getD, h]

theorem physicalLoopUTF8_eq (bytes : List Nat) :
    ∀ (fuel i count : Nat), bytes.length ≤ i + fuel →
      physicalLoopUTF8 (sourceOfBytes bytes) fuel i count =
        count + (bytes.drop i).count 0x0a := by
  intro fuel
  induction fuel with
  | zero =>
    intro i count h
    simp [physicalLoopUTF8, List.drop_eq_nil_of_le (Nat.add_zero i ▸ h)]
  | succ fuel ih =>
    intro i count h
    unfold physicalLoopUTF8
    by_cases hi : i < bytes.length
    · have hs : i < (sourceOfBytes bytes).size := hi
      rw [if_pos hs, ih (i + 1) _ (by omega), byteAt_sourceOfBytes bytes i hi,
        List.drop_eq_getElem_cons hi, List.count_cons]
      by_cases hb : bytes[i] = 0x0a
      · simp [hb]; omega
      · simp [hb]
    · have hs : ¬ i < (sourceOfBytes bytes).size := hi
      rw [if_neg hs, List.drop_eq_nil_of_le (by omega)]
      simp

theorem physicalLinesOfBytes_pos (bytes : List Nat) :
    0 < physicalLinesOfBytes bytes := by
  unfold physicalLinesOfBytes
  by_cases h : bytes.getLast? = some 0x0a
  · have hm : 0x0a ∈ bytes := List.mem_of_getLast?_eq_some h
    have := List.count_pos_iff.mpr hm
    omega
  · simp [h]

/-- A text of `n` letters `A`, for `n` above `UINT32_MAX`: it is detected as
UTF-8 and `rcnCountPhysicalLines` refuses it. -/
theorem physical_of_large (n : Nat) (hn : UINT32_MAX < n) :
    List.replicate n 0x41 ≠ [] ∧
    detectEncoding (sourceOfBytes (List.replicate n 0x41)) = .TextEncodingUTF8 ∧
    (rcnCountPhysicalLines (sourceOfBytes (List.replicate n 0x41))).count = 0 := by
  have hpos : 0 < n := by unfold UINT32_MAX at hn; omega
  refine ⟨?_, ?_, ?_⟩
  · intro he
    have := congrArg List.length he
    rw [List.length_replicate, List.length_nil] at this
    omega
  · have b0 : byteAt (sourceOfBytes (List.replicate n 0x41)) 0 = 0x41 := by
      rw [byteAt_sourceOfBytes _ _ (by rw [List.length_replicate]; exact hpos)]
      simp
    unfold detectEncoding hasUTF8BOM
    simp only [b0]
    simp
  · have h0 : ((sourceOfBytes (List.replicate n 0x41)).size == 0) = false := by
      simp [sourceOfBytes]; omega
    have h1 : (sourceOfBytes (List.replicate n 0x41)).text.isNone = false := rfl
    have h2 : (sourceOfBytes (List.replicate n 0x41)).size > UINT32_MAX := by
      simp only [sourceOfBytes, List.length_replicate]; exact hn
    unfold rcnCountPhysicalLines
    simp only [h0, h1, h2, Bool.false_eq_true, if_false, if_true]
    rfl

theorem utf16Units_length (littleEndian : Bool) :
    ∀ bytes : List Nat, (utf16Units littleEndian bytes).length = bytes.length / 2
  | [] => rfl
  | [_] => by simp [utf16Units]
  | _ :: _ :: rest => by
    simp only [utf16Units, List.length_cons, utf16Units_length littleEndian rest]
    omega

theorem utf16Units_getElem? (littleEndian : Bool) :
    ∀ (bytes : List Nat) (k : Nat),
      (utf16Units littleEndian bytes)[k]? =
        if 2 * k + 1 < bytes.length then
          some (if littleEndian then bytes.getD (2 * k) 0 + 256 * bytes.getD (2 * k + 1) 0
            else 256 * bytes.getD (2 * k) 0 + bytes.getD (2 * k + 1) 0)
        else none
  | [], k => by simp [utf16Units]
  | [_], k => by simp [utf16Units]
  | a :: b :: rest, 0 => by simp [utf16Units]
  | a :: b :: rest, k + 1 => by
    have ih := utf16Units_getElem? littleEndian rest k
    have e1 : 2 * (k + 1) = 2 * k + 1 + 1 := by omega
    have e2 : 2 * (k + 1) + 1 = 2 * k + 1 + 1 + 1 := by omega
    simp only [utf16Units, List.getElem?_cons_succ, ih, List.length_cons, e1, e2,
      List.getD_cons_succ]
    by_cases h : 2 * k + 1 < rest.length
    · have h' : 2 * k + 1 + 1 + 1 < rest.length + 1 + 1 := by omega
      rw [if_pos h, if_pos h']
    · have h' : ¬ 2 * k + 1 + 1 + 1 < rest.length + 1 + 1 := by omega
      rw [if_neg h, if_neg h']

/-- The bytes of the unit `0x000A` in each endianness. -/
theorem newline_unit (littleEndian : Bool) (b0 b1 : Nat) :
    ((b0 == (if littleEndian then 0x0a else 0x00)) &&
        (b1 == (if littleEndian then 0x00 else 0x0a))) =
      ((if littleEndian then b0 + 256 * b1 else 256 * b0 + b1) == 0x000a) := by
  cases littleEndian
  · rw [Bool.eq_iff_iff]
    simp only [Bool.false_eq_true, if_false, Bool.and_eq_true, beq_iff_eq]
    omega
  · rw [Bool.eq_iff_iff]
    simp only [if_true, Bool.and_eq_true, beq_iff_eq]
    omega

theorem physicalLoopUTF16_eq (littleEndian : Bool) (bytes : List Nat) :
    ∀ (fuel : Nat) (pre tail : List Nat) (count : Nat), pre ++ tail = bytes →
      tail.length ≤ 2 * fuel →
      physicalLoopUTF16 (sourceOfBytes bytes)
          (if littleEndian then 0x0a else 0x00) (if littleEndian then 0x00 else 0x0a)
          fuel pre.length count =
        count + (utf16Units littleEndian tail).count 0x000a := by
  intro fuel
  induction fuel with
  | zero =>
    intro pre tail count _ h
    have : tail = [] := List.length_eq_zero.mp (by omega)
    subst this
    simp [physicalLoopUTF16, utf16Units]
  | succ fuel ih =>
    intro pre tail count hb h
    unfold physicalLoopUTF16
    match tail, hb, h with
    | [], hb, _ =>
      have hs : ¬ pre.length < (sourceOfBytes bytes).size - 1 := by
        rw [← hb]; simp [sourceOfBytes]
      rw [if_neg hs]; simp [utf16Units]
    | [a], hb, _ =>
      have hs : ¬ pre.length < (sourceOfBytes bytes).size - 1 := by
        rw [← hb]; simp [sourceOfBytes]
      rw [if_neg hs]; simp [utf16Units]
    | a :: b :: rest, hb, h =>
      have hs : pre.length < (sourceOfBytes bytes).size - 1 := by
        rw [← hb]; simp [sourceOfBytes]
      have ha : byteAt (sourceOfBytes bytes) pre.length = a := by
        rw [← hb]; exact byteAt_append pre a (b :: rest)
      have hb' : byteAt (sourceOfBytes bytes) (pre.length + 1) = b := by
        have := byteAt_append (pre ++ [a]) b rest
        simp only [List.append_assoc, List.singleton_append, List.length_append,
          List.length_singleton] at this
        rw [← hb]; exact this
      have hnext := ih (pre ++ [a, b]) rest
        (if (a == (if littleEndian then 0x0a else 0x00)) &&
            (b == (if littleEndian then 0x00 else 0x0a)) then count + 1 else count)
        (by rw [← hb]; simp) (by simp only [List.length_cons] at h; omega)
      simp only [List.length_append, List.length_cons, List.length_nil] at hnext
      rw [if_pos hs, ha, hb', hnext, newline_unit]
      simp only [utf16Units, List.count_cons]
      by_cases hu : (if littleEndian then a + 256 * b else 256 * a + b) = 0x000a
      · simp [hu]; omega
      · simp [hu]

theorem detectEncoding_utf16 (littleEndian : Bool) (rest : List Nat) :
    detectEncoding (sourceOfBytes (utf16BOM littleEndian ++ rest)) =
      if littleEndian then .TextEncodingUTF16LE else .TextEncodingUTF16BE := by
  cases littleEndian <;> cases rest <;>
    simp [utf16BOM, detectEncoding, hasUTF8BOM, byteAt, sourceOfBytes]

theorem physicalLinesOfUnits_last (littleEndian : Bool) (rest : List Nat)
    (heven : rest.length % 2 = 0) (hne : rest ≠ []) :
    (utf16Units littleEndian rest).getLast? =
      some (if littleEndian then
          rest.getD (rest.length - 2) 0 + 256 * rest.getD (rest.length - 1) 0
        else 256 * rest.getD (rest.length - 2) 0 + rest.getD (rest.length - 1) 0) := by
  have hlen : 0 < rest.length := List.length_pos.mpr hne
  have h2 : 2 ≤ rest.length := by omega
  rw [List.getLast?_eq_getElem?, utf16Units_getElem?, utf16Units_length]
  have e1 : 2 * (rest.length / 2 - 1) = rest.length - 2 := by omega
  have e2 : rest.length - 2 + 1 = rest.length - 1 := by omega
  rw [e1, e2, if_pos (by omega)]

theorem wordsLoop_eq (bytes : List Nat) :
    ∀ (fuel i : Nat) (inWord : Bool) (count : Nat), bytes.length ≤ i + fuel →
      wordsLoop (sourceOfBytes bytes) fuel i inWord count =
        count + wordsScan inWord (bytes.drop i) := by
  intro fuel
  induction fuel with
  | zero =>
    intro i inWord count h
    simp [wordsLoop, List.drop_eq_nil_of_le (Nat.add_zero i ▸ h), wordsScan]
  | succ fuel ih =>
    intro i inWord count h
    unfold wordsLoop
    by_cases hi : i < bytes.length
    · have hs : i < (sourceOfBytes bytes).size := hi
      simp only [hs, if_true]
      rw [byteAt_sourceOfBytes bytes i hi, List.drop_eq_getElem_cons hi]
      simp only [wordsScan]
      by_cases hw : isspace bytes[i] = true
      · simp only [hw, if_true]
        exact ih (i + 1) false count (by omega)
      · simp only [hw, Bool.false_eq_true, if_false]
        by_cases hz : (bytes[i] != 0 && !inWord) = true
        · simp only [hz, if_true]
          rw [ih (i + 1) true (count + 1) (by omega)]
          omega
        · simp only [hz, Bool.false_eq_true, if_false]
          exact ih (i + 1) inWord count (by omega)
    · have hs : ¬ i < (sourceOfBytes bytes).size := hi
      simp only [hs, if_false]
      rw [List.drop_eq_nil_of_le (by omega)]
      simp [wordsScan]

/-- The scan in terms of the runs: outside a word every run with a byte other
than NUL counts, inside a word the run that is being read counts no more. -/
theorem wordsScan_runs (bytes : List Nat) :
    wordsScan false bytes =
        (bytes.splitOnP isspace).countP (fun run => run.any (· != 0)) ∧
    wordsScan true bytes =
        ((bytes.splitOnP isspace).tail).countP (fun run => run.any (· != 0)) := by
  induction bytes with
  | nil => simp [wordsScan, List.splitOnP_nil]
  | cons b rest ih =>
    obtain ⟨ih1, ih2⟩ := ih
    rw [List.splitOnP_cons]
    by_cases hw : isspace b = true
    · simp only [wordsScan, hw, if_true, List.tail_cons]
      refine ⟨?_, ih1⟩
      rw [ih1, List.countP_cons]
      simp
    · simp only [wordsScan, hw, Bool.false_eq_true, if_false]
      cases hsp : rest.splitOnP isspace with
      | nil => exact absurd hsp (List.splitOnP_ne_nil _ _)
      | cons r0 rs =>
        rw [hsp] at ih1 ih2
        simp only [List.modifyHead_cons, List.tail_cons, List.countP_cons, List.any_cons] at ih1 ih2 ⊢
        by_cases hz : b = 0
        · subst hz
          simp only [bne_self_eq_false, Bool.false_and, Bool.false_eq_true, if_false,
            Bool.false_or]
          exact ⟨ih1, ih2⟩
        · have hz' : (b != 0) = true := by simpa using hz
          simp only [hz', Bool.true_and, Bool.not_false, Bool.not_true, Bool.true_or, if_true,
            Bool.false_eq_true, if_false]
          refine ⟨?_, ih2⟩
          rw [ih2]; omega

theorem countP_filter_nonempty (runs : List (List Nat)) :
    (runs.filter (fun run => !run.isEmpty)).countP (fun run => run.any (· != 0)) =
      runs.countP (fun run => run.any (· != 0)) := by
  induction runs with
  | nil => rfl
  | cons r rs ih =>
    cases r with
    | nil => simpa using ih
    | cons a as => simp [List.filter_cons, List.countP_cons, ih]

theorem wordsScan_eq_wordsOfBytes (bytes : List Nat) :
    wordsScan false bytes = wordsOfBytes bytes := by
  unfold wordsOfBytes maximalRuns
  rw [countP_filter_nonempty]
  exact (wordsScan_runs bytes).1

theorem mem_of_mem_splitOnP (p : Nat → Bool) :
    ∀ (bytes run : List Nat), run ∈ bytes.splitOnP p → ∀ b ∈ run, b ∈ bytes := by
  intro bytes
  induction bytes with
  | nil =>
    intro run hr b hb
    simp [List.splitOnP_nil] at hr
    subst hr
    simp at hb
  | cons a rest ih =>
    intro run hr b hb
    rw [List.splitOnP_cons] at hr
    by_cases hp : p a = true
    · simp only [hp, if_true, List.mem_cons] at hr
      rcases hr with hr | hr
      · subst hr; simp at hb
      · exact List.mem_cons_of_mem _ (ih run hr b hb)
    · simp only [hp, Bool.false_eq_true, if_false] at hr
      cases hsp : rest.splitOnP p with
      | nil => exact absurd hsp (List.splitOnP_ne_nil _ _)
      | cons r0 rs =>
        rw [hsp] at hr ih
        simp only [List.modifyHead_cons, List.mem_cons] at hr
        rcases hr with hr | hr
        · subst hr
          rcases List.mem_cons.mp hb with hb | hb
          · subst hb; exact List.mem_cons_self _ _
          · exact List.mem_cons_of_mem _ (ih r0 (List.mem_cons_self _ _) b hb)
        · exact List.mem_cons_of_mem _ (ih run (List.mem_cons_of_mem _ hr) b hb)

theorem wordsOfBytes_eq_runs (bytes : List Nat) (hnz : ∀ b ∈ bytes, b ≠ 0) :
    wordsOfBytes bytes = wordRunsOfBytes bytes := by
  unfold wordsOfBytes wordRunsOfBytes
  rw [List.countP_eq_length]
  intro run hr
  unfold maximalRuns at hr
  rw [List.mem_filter] at hr
  obtain ⟨hm, hne⟩ := hr
  cases run with
  | nil => simp at hne
  | cons a as =>
    have := hnz a (mem_of_mem_splitOnP isspace bytes (a :: as) hm a (List.mem_cons_self _ _))
    simp [this]

theorem wordsScan_starts :
    ∀ (rest : List Nat) (prev : Nat), (∀ b ∈ rest, b ≠ 0) →
      wordsScan (!isspace prev) rest =
        ((prev :: rest).zip rest).countP (fun p => isspace p.1 && !isspace p.2) := by
  intro rest
  induction rest with
  | nil => intro prev _; simp [wordsScan]
  | cons b rest ih =>
    intro prev hnz
    have hb : (b != 0) = true := by simpa using hnz b (List.mem_cons_self _ _)
    have ih' := ih b (fun x hx => hnz x (List.mem_cons_of_mem _ hx))
    simp only [List.zip_cons_cons, List.countP_cons, wordsScan, hb, Bool.true_and,
      Bool.not_not]
    rw [← ih']
    cases hw : isspace b <;> cases hp : isspace prev <;> simp [Nat.add_comm]

set_option maxRecDepth 100000 in
theorem lead_byte_bits : ∀ b : Nat, b < 256 →
    ((b &&& 0xe0) == 0xc0) = decide (0xc0 ≤ b ∧ b < 0xe0) ∧
    ((b &&& 0xf0) == 0xe0) = decide (0xe0 ≤ b ∧ b < 0xf0) ∧
    ((b &&& 0xf8) == 0xf0) = decide (0xf0 ≤ b ∧ b < 0xf8) := by
  decide

theorem utf8Encode_length_pos (c : Nat) : 0 < (utf8Encode c).length := by
  unfold utf8Encode
  split_ifs <;> simp

/-- The stride that `countCharactersUTF8` takes at the first byte of an
encoded code point is the length of the encoding. -/
theorem utf8Encode_stride (c : Nat) (hc : c < 0x110000) (offset size : Nat)
    (hfit : offset + (utf8Encode c).length ≤ size) :
    (if ((utf8Encode c).headD 0 &&& 0xe0) == 0xc0 && decide (offset + 1 < size) then 2
      else if ((utf8Encode c).headD 0 &&& 0xf0) == 0xe0 && decide (offset + 2 < size) then 3
      else if ((utf8Encode c).headD 0 &&& 0xf8) == 0xf0 && decide (offset + 3 < size) then 4
      else 1) = (utf8Encode c).length := by
  unfold utf8Encode at hfit ⊢
  by_cases h1 : c < 0x80
  · simp only [h1, if_true, List.headD_cons, List.length_singleton] at hfit ⊢
    obtain ⟨b1, b2, b3⟩ := lead_byte_bits c (by omega)
    rw [b1, b2, b3]
    have e1 : decide (0xc0 ≤ c ∧ c < 0xe0) = false := by
      rw [decide_eq_false_iff_not]; omega
    have e2 : decide (0xe0 ≤ c ∧ c < 0xf0) = false := by
      rw [decide_eq_false_iff_not]; omega
    have e3 : decide (0xf0 ≤ c ∧ c < 0xf8) = false := by
      rw [decide_eq_false_iff_not]; omega
    rw [e1, e2, e3]
    rfl
  · by_cases h2 : c < 0x800
    · simp only [h1, h2, if_true, if_false, List.headD_cons, List.length_cons,
        List.length_nil] at hfit ⊢
      obtain ⟨b1, -, -⟩ := lead_byte_bits (0xc0 + c / 64) (by omega)
      rw [b1]
      have e1 : decide (0xc0 ≤ 0xc0 + c / 64 ∧ 0xc0 + c / 64 < 0xe0) = true := by
        rw [decide_eq_true_iff]; omega
      have e2 : decide (offset + 1 < size) = true := by
        rw [decide_eq_true_iff]; omega
      rw [e1, e2]
      rfl
    · by_cases h3 : c < 0x10000
      · simp only [h1, h2, h3, if_true, if_false, List.headD_cons, List.length_cons,
          List.length_nil] at hfit ⊢
        obtain ⟨b1, b2, -⟩ := lead_byte_bits (0xe0 + c / 4096) (by omega)
        rw [b1, b2]
        have e1 : decide (0xc0 ≤ 0xe0 + c / 4096 ∧ 0xe0 + c / 4096 < 0xe0) = false := by
          rw [decide_eq_false_iff_not]; omega
        have e2 : decide (0xe0 ≤ 0xe0 + c / 4096 ∧ 0xe0 + c / 4096 < 0xf0) = true := by
          rw [decide_eq_true_iff]; omega
        have e3 : decide (offset + 2 < size) = true := by
          rw [decide_eq_true_iff]; omega
        rw [e1, e2, e3]
        rfl
      · simp only [h1, h2, h3, if_false, List.headD_cons, List.length_cons,
          List.length_nil] at hfit ⊢
        obtain ⟨b1, b2, b3⟩ := lead_byte_bits (0xf0 + c / 262144) (by omega)
        rw [b1, b2, b3]
        have e1 : decide (0xc0 ≤ 0xf0 + c / 262144 ∧ 0xf0 + c / 262144 < 0xe0) = false := by
          rw [decide_eq_false_iff_not]; omega
        have e2 : decide (0xe0 ≤ 0xf0 + c / 262144 ∧ 0xf0 + c / 262144 < 0xf0) = false := by
          rw [decide_eq_false_iff_not]; omega
        have e3 : decide (0xf0 ≤ 0xf0 + c / 262144 ∧ 0xf0 + c / 262144 < 0xf8) = true := by
          rw [decide_eq_true_iff]; omega
        have e4 : decide (offset + 3 < size) = true := by
          rw [decide_eq_true_iff]; omega
        rw [e1, e2, e3, e4]
        rfl

theorem charactersLoopUTF8_eq (bytes : List Nat) :
    ∀ (codePoints : List Nat) (fuel : Nat) (pre : List Nat) (count : Nat),
      (∀ c ∈ codePoints, c < 0x110000) → pre ++ utf8EncodeAll codePoints = bytes →
      (utf8EncodeAll codePoints).length ≤ fuel →
      charactersLoopUTF8 (sourceOfBytes bytes) fuel pre.length count =
        count + codePoints.length := by
  intro codePoints
  induction codePoints with
  | nil =>
    intro fuel pre count _ hb _
    simp only [utf8EncodeAll, List.append_nil] at hb
    subst hb
    cases fuel with
    | zero => simp [charactersLoopUTF8]
    | succ fuel => simp [charactersLoopUTF8, sourceOfBytes]
  | cons c cs ih =>
    intro fuel pre count hc hb hfuel
    have hpos := utf8Encode_length_pos c
    simp only [utf8EncodeAll, List.length_append] at hfuel
    cases fuel with
    | zero => omega
    | succ fuel =>
      have hsize : (sourceOfBytes bytes).size =
          pre.length + (utf8Encode c).length + (utf8EncodeAll cs).length := by
        rw [← hb]; simp [sourceOfBytes, utf8EncodeAll, Nat.add_assoc]
      have hlt : pre.length < (sourceOfBytes bytes).size := by omega
      have hbyte : byteAt (sourceOfBytes bytes) pre.length = (utf8Encode c).headD 0 := by
        cases he : utf8Encode c with
        | nil => rw [he] at hpos; simp at hpos
        | cons l conts =>
          rw [← hb]
          simp only [utf8EncodeAll, he, List.cons_append, List.headD_cons]
          exact byteAt_append pre l _
      unfold charactersLoopUTF8
      simp only [hlt, if_true, hbyte]
      rw [utf8Encode_stride c (hc c (List.mem_cons_self _ _)) pre.length _ (by omega)]
      have hnext := ih fuel (pre ++ utf8Encode c) (count + 1)
        (fun x hx => hc x (List.mem_cons_of_mem _ hx))
        (by rw [← hb]; simp [utf8EncodeAll]) (by omega)
      rw [List.length_append] at hnext
      rw [hnext, List.length_cons]
      omega

/-- The first byte of the encoding of a code point is below `0xF8`, and the
encoding starts with EF BB BF for the byte order mark `U+FEFF` only. -/
theorem utf8Encode_head (c : Nat) (hc : c < 0x110000) (rest : List Nat) :
    ∃ (l : Nat) (conts : List Nat), utf8Encode c ++ rest = l :: conts ∧ l < 0xf8 ∧
      (c ≠ 0xfeff → ¬ ∃ tail, l :: conts = 0xef :: 0xbb :: 0xbf :: tail) := by
  unfold utf8Encode
  by_cases h1 : c < 0x80
  · refine ⟨c, rest, by simp [h1], by omega, ?_⟩
    intro _ ⟨tail, ht⟩
    simp only [List.cons.injEq] at ht
    omega
  · by_cases h2 : c < 0x800
    · refine ⟨0xc0 + c / 64, (0x80 + c % 64) :: rest, by simp [h1, h2], by omega, ?_⟩
      intro _ ⟨tail, ht⟩
      simp only [List.cons.injEq] at ht
      omega
    · by_cases h3 : c < 0x10000
      · refine ⟨0xe0 + c / 4096, (0x80 + c / 64 % 64) :: (0x80 + c % 64) :: rest,
          by simp [h1, h2, h3], by omega, ?_⟩
        intro hne ⟨tail, ht⟩
        simp only [List.cons.injEq] at ht
        omega
      · refine ⟨0xf0 + c / 262144,
          (0x80 + c / 4096 % 64) :: (0x80 + c / 64 % 64) :: (0x80 + c % 64) :: rest,
          by simp [h1, h2, h3], by omega, ?_⟩
        intro _ ⟨tail, ht⟩
        simp only [List.cons.injEq] at ht
        omega

theorem hasUTF8BOM_iff (bytes : List Nat) :
    hasUTF8BOM (sourceOfBytes bytes) = true ↔ ∃ tail, bytes = 0xef :: 0xbb :: 0xbf :: tail := by
  match bytes with
  | [] => simp [hasUTF8BOM, sourceOfBytes]
  | [a] => simp [hasUTF8BOM, sourceOfBytes]
  | [a, b] => simp [hasUTF8BOM, sourceOfBytes]
  | a :: b :: c :: rest =>
    simp [hasUTF8BOM, sourceOfBytes, byteAt, and_assoc]

/-- A text that does not start with FF or FE and has no UTF-8 byte order mark
is detected as UTF-8. -/
theorem detectEncoding_of_lead (l : Nat) (conts : List Nat) (hl : l < 0xf8) :
    detectEncoding (sourceOfBytes (l :: conts)) = .TextEncodingUTF8 := by
  have hb0 : byteAt (sourceOfBytes (l :: conts)) 0 = l := rfl
  have n1 : (l == 0xff) = false := by
    rw [beq_eq_false_iff_ne]; omega
  have n2 : (l == 0xfe) = false := by
    rw [beq_eq_false_iff_ne]; omega
  unfold detectEncoding
  simp only [hb0, n1, n2, Bool.false_and, Bool.false_eq_true, if_false]
  split_ifs <;> rfl

theorem shift_or_eq (x y : Nat) (hy : y < 256) : (x <<< 8 ||| y) = 256 * x + y := by
  have h := Nat.mul_add_lt_is_or (i := 8) (b := y) (by omega) x
  rw [Nat.shiftLeft_eq, Nat.mul_comm x, ← h]

/-- The code unit that `codeUnit` reads from two bytes. -/
theorem codeUnit_eq (pre : List Nat) (b0 b1 : Nat) (rest : List Nat) (littleEndian : Bool)
    (h0 : b0 < 256) (h1 : b1 < 256) :
    codeUnit (sourceOfBytes (pre ++ b0 :: b1 :: rest)) pre.length littleEndian =
      if littleEndian then b0 + 256 * b1 else 256 * b0 + b1 := by
  have e0 : byteAt (sourceOfBytes (pre ++ b0 :: b1 :: rest)) pre.length = b0 :=
    byteAt_append pre b0 (b1 :: rest)
  have e1 : byteAt (sourceOfBytes (pre ++ b0 :: b1 :: rest)) (pre.length + 1) = b1 := by
    have := byteAt_append (pre ++ [b0]) b1 rest
    simpa using this
  unfold codeUnit
  simp only [e0, e1]
  cases littleEndian
  · simp only [Bool.false_eq_true, if_false]
    rw [shift_or_eq b0 b1 h1]
    omega
  · simp only [if_true]
    rw [Nat.lor_comm, shift_or_eq b1 b0 h0]
    omega

theorem charactersOfUnits_cons (unit : Nat) (units : List Nat) :
    charactersOfUnits (unit :: units) =
      if isBOMUnit unit then charactersOfUnits units
      else if isHighSurrogate unit then
        match units with
        | next :: rest =>
          if isLowSurrogate next then 1 + charactersOfUnits rest else charactersOfUnits units
        | [] => 0
      else if isLowSurrogate unit then charactersOfUnits units
      else 1 + charactersOfUnits units := by
  cases units with
  | nil =>
    simp only [charactersOfUnits]
    cases isBOMUnit unit <;> cases isHighSurrogate unit <;> cases isLowSurrogate unit <;> rfl
  | cons next rest => simp only [charactersOfUnits]

theorem codeUnit_at (littleEndian : Bool) (bytes : List Nat) (hbyte : ∀ b ∈ bytes, b < 256)
    (pre : List Nat) (b0 b1 : Nat) (rest : List Nat) (h : pre ++ b0 :: b1 :: rest = bytes) :
    codeUnit (sourceOfBytes bytes) pre.length littleEndian =
      if littleEndian then b0 + 256 * b1 else 256 * b0 + b1 := by
  subst h
  exact codeUnit_eq pre b0 b1 rest littleEndian (hbyte b0 (by simp)) (hbyte b1 (by simp))

theorem charactersLoopUTF16_eq (littleEndian : Bool) (bytes : List Nat)
    (hbyte : ∀ b ∈ bytes, b < 256) :
    ∀ (fuel : Nat) (pre tail : List Nat) (count : Nat), pre ++ tail = bytes →
      tail.length ≤ 2 * fuel →
      charactersLoopUTF16 (sourceOfBytes bytes) littleEndian fuel pre.length count =
        count + charactersOfUnits (utf16Units littleEndian tail) := by
  intro fuel
  induction fuel with
  | zero =>
    intro pre tail count _ h
    have : tail = [] := List.length_eq_zero.mp (by omega)
    subst this
    simp [charactersLoopUTF16, utf16Units, charactersOfUnits]
  | succ fuel ih =>
    intro pre tail count hb h
    unfold charactersLoopUTF16
    match tail, hb, h with
    | [], hb, _ =>
      have hs : ¬ pre.length + 1 < (sourceOfBytes bytes).size := by
        rw [← hb]; simp [sourceOfBytes]
      rw [if_neg hs]; simp [utf16Units, charactersOfUnits]
    | [a], hb, _ =>
      have hs : ¬ pre.length + 1 < (sourceOfBytes bytes).size := by
        rw [← hb]; simp [sourceOfBytes]
      rw [if_neg hs]; simp [utf16Units, charactersOfUnits]
    | a :: b :: rest, hb, h =>
      have hs : pre.length + 1 < (sourceOfBytes bytes).size := by
        rw [← hb]; simp [sourceOfBytes]
      have hcu := codeUnit_at littleEndian bytes hbyte pre a b rest hb
      have hpre : pre ++ [a, b] ++ rest = bytes := by rw [← hb]; simp
      have hlen : (pre ++ [a, b]).length = pre.length + 2 := by simp
      have hrest : rest.length ≤ 2 * fuel := by simp only [List.length_cons] at h; omega
      have ih0 := fun count => ih (pre ++ [a, b]) rest count hpre hrest
      simp only [hlen] at ih0
      rw [if_pos hs]
      simp only [hcu, utf16Units]
      rw [charactersOfUnits_cons]
      generalize (if littleEndian then a + 256 * b else 256 * a + b) = unit
      have hB : (unit == UTF16_BOM_BE || unit == UTF16_BOM_LE) = isBOMUnit unit := rfl
      have hH : (decide (unit ≥ HIGH_SURROGATE_START) && decide (unit ≤ HIGH_SURROGATE_END)) =
          isHighSurrogate unit := rfl
      have hL : (decide (unit ≥ LOW_SURROGATE_START) && decide (unit ≤ LOW_SURROGATE_END)) =
          isLowSurrogate unit := rfl
      rw [hB, hH, hL]
      cases isBOMUnit unit
      · cases isHighSurrogate unit
        · cases isLowSurrogate unit
          · simp only [Bool.false_eq_true, if_false]
            rw [ih0]; omega
          · simp only [Bool.false_eq_true, if_false, if_true]
            exact ih0 count
        · simp only [Bool.false_eq_true, if_false, if_true]
          match rest, hpre, hrest, ih0 with
          | [], _, _, ih0 =>
            have hs2 : ¬ pre.length + 2 + 1 < (sourceOfBytes bytes).size := by
              rw [← hb]; simp [sourceOfBytes]
            rw [if_neg hs2, ih0]
            simp [utf16Units, charactersOfUnits]
          | [c], _, _, ih0 =>
            have hs2 : ¬ pre.length + 2 + 1 < (sourceOfBytes bytes).size := by
              rw [← hb]; simp [sourceOfBytes]
            rw [if_neg hs2, ih0]
            simp [utf16Units, charactersOfUnits]
          | c :: d :: rest2, hpre, hrest, ih0 =>
            have hs2 : pre.length + 2 + 1 < (sourceOfBytes bytes).size := by
              rw [← hb]; simp [sourceOfBytes]; omega
            have hcu1 := codeUnit_at littleEndian bytes hbyte (pre ++ [a, b]) c d rest2
              (by rw [← hb]; simp)
            rw [hlen] at hcu1
            rw [if_pos hs2]
            simp only [hcu1, utf16Units] at ih0 ⊢
            generalize (if littleEndian then c + 256 * d else 256 * c + d) = next at ih0 ⊢
            have hL1 : (decide (next ≥ LOW_SURROGATE_START) &&
                decide (next ≤ LOW_SURROGATE_END)) = isLowSurrogate next := rfl
            rw [hL1]
            cases isLowSurrogate next
            · simp only [Bool.false_eq_true, if_false]
              exact ih0 count
            · simp only [if_true]
              have := ih (pre ++ [a, b, c, d]) rest2 (count + 1) (by rw [← hb]; simp)
                (by simp only [List.length_cons] at hrest; omega)
              simp only [List.length_append, List.length_cons, List.length_nil] at this
              rw [this]; omega
      · simp only [if_true]
        exact ih0 count

theorem utf16Units_append_odd (littleEndian : Bool) (b : Nat) :
    ∀ rest : List Nat, rest.length % 2 = 0 →
      utf16Units littleEndian (rest ++ [b]) = utf16Units littleEndian rest
  | [], _ => rfl
  | [_], h => by simp at h
  | x :: y :: rest, h => by
    have h' : rest.length % 2 = 0 := by simp only [List.length_cons] at h; omega
    have ih := utf16Units_append_odd littleEndian b rest h'
    show utf16Units littleEndian (x :: y :: (rest ++ [b])) = _
    simp only [utf16Units, ih]

/-- A text of a little-endian BOM and `n` bytes `A`, for `n` above
`UINT32_MAX`: `rcnCountCharacters` refuses it. -/
theorem characters_of_large (n : Nat) (hn : UINT32_MAX < n) :
    (rcnCountCharacters (sourceOfBytes (utf16BOM true ++ List.replicate n 0x41))).count = 0 := by
  have hsize : (sourceOfBytes (utf16BOM true ++ List.replicate n 0x41)).size = n + 2 := by
    simp only [sourceOfBytes, utf16BOM, if_true, List.length_append, List.length_cons,
      List.length_nil, List.length_replicate]
    omega
  have h0 : ((sourceOfBytes (utf16BOM true ++ List.replicate n 0x41)).size == 0) = false := by
    rw [hsize]; simp
  have h1 : (sourceOfBytes (utf16BOM true ++ List.replicate n 0x41)).text.isNone = false := rfl
  have h2 : (sourceOfBytes (utf16BOM true ++ List.replicate n 0x41)).size > UINT32_MAX := by
    rw [hsize]; omega
  unfold rcnCountCharacters
  simp only [h0, h1, h2, Bool.false_eq_true, if_false, if_true]
  rfl

theorem charactersOfUnits_letters (littleEndian : Bool) (n : Nat) :
    charactersOfUnits (utf16Units littleEndian (List.replicate (2 * (n + 1)) 0x41)) > 0 := by
  have e : 2 * (n + 1) = 2 * n + 1 + 1 := by omega
  rw [e, List.replicate_succ, List.replicate_succ]
  simp only [utf16Units]
  rw [charactersOfUnits_cons]
  have hu : (if littleEndian then 0x41 + 256 * 0x41 else 256 * 0x41 + 0x41) = 0x4141 := by
    cases littleEndian <;> rfl
  rw [hu]
  have b1 : isBOMUnit 0x4141 = false := by decide
  have b2 : isHighSurrogate 0x4141 = false := by decide
  have b3 : isLowSurrogate 0x4141 = false := by decide
  simp only [b1, b2, b3, Bool.false_eq_true, if_false]
  omega

mutual
theorem traverseTree_eq_walk (visitor : TSNode → NodeEvalTrace → NodeEvalTrace) :
    ∀ (tree : TSTree) (trace : NodeEvalTrace),
      traverseTree visitor tree trace = walk visitor (visitOrder tree) trace
  | .node value children, trace => by
    rw [traverseTree, visitOrder, traverseSiblings_eq_walk visitor children]
    rfl
theorem traverseSiblings_eq_walk (visitor : TSNode → NodeEvalTrace → NodeEvalTrace) :
    ∀ (trees : List TSTree) (trace : NodeEvalTrace),
      traverseSiblings visitor trees trace = walk visitor (visitOrderOfSiblings trees) trace
  | [], trace => by rw [traverseSiblings, visitOrderOfSiblings]; rfl
  | child :: rest, trace => by
    rw [traverseSiblings, visitOrderOfSiblings, traverseTree_eq_walk visitor child,
      traverseSiblings_eq_walk visitor rest]
    simp [walk, List.foldl_append]
end

theorem walk_append (visitor : TSNode → NodeEvalTrace → NodeEvalTrace)
    (xs ys : List TSNode) (trace : NodeEvalTrace) :
    walk visitor (xs ++ ys) trace = walk visitor ys (walk visitor xs trace) := by
  simp [walk, List.foldl_append]

theorem walk_cons (visitor : TSNode → NodeEvalTrace → NodeEvalTrace)
    (x : TSNode) (ys : List TSNode) (trace : NodeEvalTrace) :
    walk visitor (x :: ys) trace = walk visitor ys (visitor x trace) := rfl

theorem walk_nil (visitor : TSNode → NodeEvalTrace → NodeEvalTrace) (trace : NodeEvalTrace) :
    walk visitor [] trace = trace := rfl

theorem AddsJava.trans {a b : Nat} {t1 t2 t3 : NodeEvalTrace}
    (h1 : AddsJava a t1 t2) (h2 : AddsJava b t2 t3) : AddsJava (a + b) t1 t3 := by
  obtain ⟨c1, s1, r1⟩ := h1
  obtain ⟨c2, s2, r2⟩ := h2
  refine ⟨?_, by rw [s2, s1], by rw [r2, r1]⟩
  rw [c2, Nat.add_mod, c1]
  omega

theorem evaluateNodeJava_idx_lt (node : TSNode) (trace : NodeEvalTrace) :
    (evaluateNodeJava node trace).idx < 2 ^ 64 := by
  simp only [evaluateNodeJava]
  exact Nat.mod_lt _ (by norm_num)

theorem evaluateNodeJava_count_lt (node : TSNode) (trace : NodeEvalTrace) :
    (evaluateNodeJava node trace).count < 2 ^ 64 := by
  simp only [evaluateNodeJava, addCount]
  exact Nat.mod_lt _ (by norm_num)

theorem evaluateNodeJava_other (node : TSNode) (trace : NodeEvalTrace)
    (h : isOtherJava node = true) :
    evaluateNodeJava node trace =
      { trace with count := trace.count % 2 ^ 64, idx := (trace.idx + 1) % 2 ^ 64 } := by
  have hmem : ¬ node.symbol ∈ caseLabelsJava := by
    simpa [isOtherJava] using h
  simp only [caseLabelsJava, List.mem_append, List.mem_cons, List.mem_singleton, not_or,
    List.not_mem_nil, or_false] at hmem
  obtain ⟨⟨h1, h2, h3, h4, h5, h6, h7, h8⟩, h9⟩ := hmem
  simp [evaluateNodeJava, evaluateNodeWeightJavaImpl, h1, h2, h3, h4, h5, h6, h7, h8, h9,
    addCount]

theorem walk_other_java (nodes : List TSNode) (h : ∀ n ∈ nodes, isOtherJava n = true) :
    ∀ trace : NodeEvalTrace,
      AddsJava 0 trace (walk evaluateNodeJava nodes trace) ∧
      (walk evaluateNodeJava nodes trace).idxLastElse = trace.idxLastElse ∧
      (trace.idx < 2 ^ 64 → (walk evaluateNodeJava nodes trace).idx < 2 ^ 64) ∧
      (trace.count < 2 ^ 64 → (walk evaluateNodeJava nodes trace).count < 2 ^ 64) := by
  induction nodes with
  | nil => intro trace; exact ⟨⟨rfl, rfl, rfl⟩, rfl, id, id⟩
  | cons x rest ih =>
    intro trace
    have hx := evaluateNodeJava_other x trace (h x (List.mem_cons_self _ _))
    obtain ⟨⟨c, s, r⟩, e, i, k⟩ := ih (fun n hn => h n (List.mem_cons_of_mem _ hn))
      (evaluateNodeJava x trace)
    rw [walk_cons]
    refine ⟨⟨?_, ?_, ?_⟩, ?_, ?_, ?_⟩
    · rw [c, hx]; simp
    · rw [s, hx]
    · rw [r, hx]
    · rw [e, hx]
    · intro _; exact i (evaluateNodeJava_idx_lt _ _)
    · intro _; exact k (evaluateNodeJava_count_lt _ _)

open SymbolIdentifiersJava in
theorem evaluateNodeJava_if (node : TSNode) (trace : NodeEvalTrace)
    (h : node.symbol = sym_if_statement) :
    evaluateNodeJava node trace =
      { trace with
        count := (trace.count + (if trace.idxLastElse = idxMinus trace.idx 1 then 0 else 1))
          % 2 ^ 64,
        idx := (trace.idx + 1) % 2 ^ 64 } := by
  by_cases hc : trace.idxLastElse = idxMinus trace.idx 1
  · simp [evaluateNodeJava, evaluateNodeWeightJavaImpl, h, sym_if_statement, anon_sym_DASH_GT,
      anon_sym_else, sym_switch_label, sym_expression_statement, addCount, hc]
  · simp [evaluateNodeJava, evaluateNodeWeightJavaImpl, h, sym_if_statement, anon_sym_DASH_GT,
      anon_sym_else, sym_switch_label, sym_expression_statement, addCount, hc]

open SymbolIdentifiersJava in
theorem evaluateNodeJava_else (node : TSNode) (trace : NodeEvalTrace)
    (h : node.symbol = anon_sym_else) :
    evaluateNodeJava node trace =
      { trace with
        count := (trace.count + 1) % 2 ^ 64,
        idxLastElse := trace.idx,
        idx := (trace.idx + 1) % 2 ^ 64 } := by
  simp [evaluateNodeJava, evaluateNodeWeightJavaImpl, h, anon_sym_DASH_GT, anon_sym_else,
    addCount]

open SymbolIdentifiersJava in
theorem evaluateNodeJava_expression_statement (node : TSNode) (trace : NodeEvalTrace)
    (h : node.symbol = sym_expression_statement) :
    evaluateNodeJava node trace =
      { trace with
        count := (trace.count +
          (if trace.lnLastSwitchLabel = currentLine node ∧ trace.lnLastArrow = currentLine node
           then 0 else 1)) % 2 ^ 64,
        idx := (trace.idx + 1) % 2 ^ 64 } := by
  by_cases hc : trace.lnLastSwitchLabel = currentLine node ∧ trace.lnLastArrow = currentLine node
  · simp [evaluateNodeJava, evaluateNodeWeightJavaImpl, h, sym_expression_statement,
      anon_sym_DASH_GT, anon_sym_else, sym_switch_label, addCount, hc]
  · have hc' : ¬ (trace.lnLastSwitchLabel = currentLine node ∧
        trace.lnLastArrow = currentLine node) := hc
    rw [if_neg hc]
    rw [not_and] at hc'
    by_cases h1 : trace.lnLastSwitchLabel = currentLine node
    · have h2 := hc' h1
      simp [evaluateNodeJava, evaluateNodeWeightJavaImpl, h, sym_expression_statement,
        anon_sym_DASH_GT, anon_sym_else, sym_switch_label, addCount, h2]
    · simp [evaluateNodeJava, evaluateNodeWeightJavaImpl, h, sym_expression_statement,
        anon_sym_DASH_GT, anon_sym_else, sym_switch_label, addCount, h1]

open SymbolIdentifiersJava in
theorem addsJava_if (node : TSNode) (trace : NodeEvalTrace)
    (h : node.symbol = sym_if_statement)
    (hne : trace.idxLastElse ≠ idxMinus trace.idx 1) :
    AddsJava 1 trace (evaluateNodeJava node trace) := by
  rw [evaluateNodeJava_if node trace h, if_neg hne]
  exact ⟨by simp, rfl, rfl⟩

open SymbolIdentifiersJava in
theorem addsJava_expression_statement (node : TSNode) (trace : NodeEvalTrace)
    (h : node.symbol = sym_expression_statement)
    (hrow : ¬ (trace.lnLastSwitchLabel = currentLine node ∧
      trace.lnLastArrow = currentLine node)) :
    AddsJava 1 trace (evaluateNodeJava node trace) := by
  rw [evaluateNodeJava_expression_statement node trace h, if_neg hrow]
  exact ⟨by simp, rfl, rfl⟩

open SymbolIdentifiersJava in
theorem addsJava_else (node : TSNode) (trace : NodeEvalTrace)
    (h : node.symbol = anon_sym_else) :
    AddsJava 1 trace (evaluateNodeJava node trace) := by
  rw [evaluateNodeJava_else node trace h]
  exact ⟨by simp, rfl, rfl⟩

open SymbolIdentifiersJava in
theorem addsJava_else_if (elseToken ifStatement : TSNode) (trace : NodeEvalTrace)
    (he : elseToken.symbol = anon_sym_else) (hi : ifStatement.symbol = sym_if_statement)
    (hidx : trace.idx < 2 ^ 64) :
    AddsJava 1 trace (evaluateNodeJava ifStatement (evaluateNodeJava elseToken trace)) := by
  rw [evaluateNodeJava_else elseToken trace he, evaluateNodeJava_if _ _ hi]
  have hskip : trace.idx = idxMinus ((trace.idx + 1) % 2 ^ 64) 1 := by
    unfold idxMinus
    omega
  simp only []
  rw [if_pos hskip]
  exact ⟨by simp, rfl, rfl⟩

open SymbolIdentifiersC in
theorem evaluateNodeWeightCimpl_trace (node : TSNode) (trace : NodeEvalTrace) :
    (evaluateNodeWeightCimpl node trace).2 =
      { trace with
        idxLastForSym :=
          if node.symbol = sym_for_statement then trace.idx else trace.idxLastForSym,
        idxLastElse :=
          if node.symbol = sym_else_clause then trace.idx else trace.idxLastElse,
        idxLastTypeDef :=
          if node.symbol = sym_type_definition then trace.idx else trace.idxLastTypeDef,
        lnLastDecl :=
          if node.symbol = sym_declaration then currentLine node else trace.lnLastDecl,
        lnLastExpr :=
          if node.symbol = sym__top_level_expression_statement
              ∨ node.symbol = sym_expression_statement
          then currentLine node else trace.lnLastExpr } := by
  by_cases h1 : node.symbol = sym_for_statement
  · simp only [evaluateNodeWeightCimpl, h1, sym_for_statement, sym_declaration, sym_do_statement, sym_type_definition, sym_struct_specifier, sym_enum_specifier, sym_union_specifier, sym__top_level_expression_statement, sym_expression_statement, sym_if_statement, sym_else_clause]
    simp only [Nat.reduceBEq, Nat.reduceEqDiff, Bool.false_eq_true, if_false, if_true, beq_self_eq_true, Bool.or_false, Bool.or_true, Bool.false_or, Bool.true_or, Bool.or_self, or_false, or_true, false_or, true_or, or_self, ite_true, ite_false, beq_iff_eq, Bool.or_eq_true, Bool.and_eq_true]
    all_goals (first | rfl | (split_ifs <;> rfl))
  by_cases h2 : node.symbol = sym_declaration
  · simp only [evaluateNodeWeightCimpl, h2, sym_for_statement, sym_declaration, sym_do_statement, sym_type_definition, sym_struct_specifier, sym_enum_specifier, sym_union_specifier, sym__top_level_expression_statement, sym_expression_statement, sym_if_statement, sym_else_clause]
    simp only [Nat.reduceBEq, Nat.reduceEqDiff, Bool.false_eq_true, if_false, if_true, beq_self_eq_true, Bool.or_false, Bool.or_true, Bool.false_or, Bool.true_or, Bool.or_self, or_false, or_true, false_or, true_or, or_self, ite_true, ite_false, beq_iff_eq, Bool.or_eq_true, Bool.and_eq_true]
    all_goals (first | rfl | (split_ifs <;> rfl))
  by_cases h3 : node.symbol = sym_do_statement
  · simp only [evaluateNodeWeightCimpl, h3, sym_for_statement, sym_declaration, sym_do_statement, sym_type_definition, sym_struct_specifier, sym_enum_specifier, sym_union_specifier, sym__top_level_expression_statement, sym_expression_statement, sym_if_statement, sym_else_clause]
    simp only [Nat.reduceBEq, Nat.reduceEqDiff, Bool.false_eq_true, if_false, if_true, beq_self_eq_true, Bool.or_false, Bool.or_true, Bool.false_or, Bool.true_or, Bool.or_self, or_false, or_true, false_or, true_or, or_self, ite_true, ite_false, beq_iff_eq, Bool.or_eq_true, Bool.and_eq_true]
    all_goals (first | rfl | (split_ifs <;> rfl))
  by_cases h4 : node.symbol = sym_type_definition
  · simp only [evaluateNodeWeightCimpl, h4, sym_for_statement, sym_declaration, sym_do_statement, sym_type_definition, sym_struct_specifier, sym_enum_specifier, sym_union_specifier, sym__top_level_expression_statement, sym_expression_statement, sym_if_statement, sym_else_clause]
    simp only [Nat.reduceBEq, Nat.reduceEqDiff, Bool.false_eq_true, if_false, if_true, beq_self_eq_true, Bool.or_false, Bool.or_true, Bool.false_or, Bool.true_or, Bool.or_self, or_false, or_true, false_or, true_or, or_self, ite_true, ite_false, beq_iff_eq, Bool.or_eq_true, Bool.and_eq_true]
    all_goals (first | rfl | (split_ifs <;> rfl))
  by_cases h5 : node.symbol = sym_struct_specifier
  · simp only [evaluateNodeWeightCimpl, h5, sym_for_statement, sym_declaration, sym_do_statement, sym_type_definition, sym_struct_specifier, sym_enum_specifier, sym_union_specifier, sym__top_level_expression_statement, sym_expression_statement, sym_if_statement, sym_else_clause]
    simp only [Nat.reduceBEq, Nat.reduceEqDiff, Bool.false_eq_true, if_false, if_true, beq_self_eq_true, Bool.or_false, Bool.or_true, Bool.false_or, Bool.true_or, Bool.or_self, or_false, or_true, false_or, true_or, or_self, ite_true, ite_false, beq_iff_eq, Bool.or_eq_true, Bool.and_eq_true]
    all_goals (first | rfl | (split_ifs <;> rfl))
  by_cases h6 : node.symbol = sym_enum_specifier
  · simp only [evaluateNodeWeightCimpl, h6, sym_for_statement, sym_declaration, sym_do_statement, sym_type_definition, sym_struct_specifier, sym_enum_specifier, sym_union_specifier, sym__top_level_expression_statement, sym_expression_statement, sym_if_statement, sym_else_clause]
    simp only [Nat.reduceBEq, Nat.reduceEqDiff, Bool.false_eq_true, if_false, if_true, beq_self_eq_true, Bool.or_false, Bool.or_true, Bool.false_or, Bool.true_or, Bool.or_self, or_false, or_true, false_or, true_or, or_self, ite_true, ite_false, beq_iff_eq, Bool.or_eq_true, Bool.and_eq_true]
    all_goals (first | rfl | (split_ifs <;> rfl))
  by_cases h7 : node.symbol = sym_union_specifier
  · simp only [evaluateNodeWeightCimpl, h7, sym_for_statement, sym_declaration, sym_do_statement, sym_type_definition, sym_struct_specifier, sym_enum_specifier, sym_union_specifier, sym__top_level_expression_statement, sym_expression_statement, sym_if_statement, sym_else_clause]
    simp only [Nat.reduceBEq, Nat.reduceEqDiff, Bool.false_eq_true, if_false, if_true, beq_self_eq_true, Bool.or_false, Bool.or_true, Bool.false_or, Bool.true_or, Bool.or_self, or_false, or_true, false_or, true_or, or_self, ite_true, ite_false, beq_iff_eq, Bool.or_eq_true, Bool.and_eq_true]
    all_goals (first | rfl | (split_ifs <;> rfl))
  by_cases h8 : node.symbol = sym__top_level_expression_statement
  · simp only [evaluateNodeWeightCimpl, h8, sym_for_statement, sym_declaration, sym_do_statement, sym_type_definition, sym_struct_specifier, sym_enum_specifier, sym_union_specifier, sym__top_level_expression_statement, sym_expression_statement, sym_if_statement, sym_else_clause]
    simp only [Nat.reduceBEq, Nat.reduceEqDiff, Bool.false_eq_true, if_false, if_true, beq_self_eq_true, Bool.or_false, Bool.or_true, Bool.false_or, Bool.true_or, Bool.or_self, or_false, or_true, false_or, true_or, or_self, ite_true, ite_false, beq_iff_eq, Bool.or_eq_true, Bool.and_eq_true]
    all_goals (first | rfl | (split_ifs <;> rfl))
  by_cases h9 : node.symbol = sym_expression_statement
  · simp only [evaluateNodeWeightCimpl, h9, sym_for_statement, sym_declaration, sym_do_statement, sym_type_definition, sym_struct_specifier, sym_enum_specifier, sym_union_specifier, sym__top_level_expression_statement, sym_expression_statement, sym_if_statement, sym_else_clause]
    simp only [Nat.reduceBEq, Nat.reduceEqDiff, Bool.false_eq_true, if_false, if_true, beq_self_eq_true, Bool.or_false, Bool.or_true, Bool.false_or, Bool.true_or, Bool.or_self, or_false, or_true, false_or, true_or, or_self, ite_true, ite_false, beq_iff_eq, Bool.or_eq_true, Bool.and_eq_true]
    all_goals (first | rfl | (split_ifs <;> rfl))
  by_cases h10 : node.symbol = sym_if_statement
  · simp only [evaluateNodeWeightCimpl, h10, sym_for_statement, sym_declaration, sym_do_statement, sym_type_definition, sym_struct_specifier, sym_enum_specifier, sym_union_specifier, sym__top_level_expression_statement, sym_expression_statement, sym_if_statement, sym_else_clause]
    simp only [Nat.reduceBEq, Nat.reduceEqDiff, Bool.false_eq_true, if_false, if_true, beq_self_eq_true, Bool.or_false, Bool.or_true, Bool.false_or, Bool.true_or, Bool.or_self, or_false, or_true, false_or, true_or, or_self, ite_true, ite_false, beq_iff_eq, Bool.or_eq_true, Bool.and_eq_true]
    all_goals (first | rfl | (split_ifs <;> rfl))
  by_cases h11 : node.symbol = sym_else_clause
  · simp only [evaluateNodeWeightCimpl, h11, sym_for_statement, sym_declaration, sym_do_statement, sym_type_definition, sym_struct_specifier, sym_enum_specifier, sym_union_specifier, sym__top_level_expression_statement, sym_expression_statement, sym_if_statement, sym_else_clause]
    simp only [Nat.reduceBEq, Nat.reduceEqDiff, Bool.false_eq_true, if_false, if_true, beq_self_eq_true, Bool.or_false, Bool.or_true, Bool.false_or, Bool.true_or, Bool.or_self, or_false, or_true, false_or, true_or, or_self, ite_true, ite_false, beq_iff_eq, Bool.or_eq_true, Bool.and_eq_true]
    all_goals (first | rfl | (split_ifs <;> rfl))
  simp only [evaluateNodeWeightCimpl, beq_iff_eq, Bool.or_eq_true, h1, h2, h3, h4, h5, h6, h7, h8, h9, h10, h11, if_false, or_self, ite_false]
  all_goals (first | rfl | (split_ifs <;> rfl))

open SymbolIdentifiersC in
theorem evaluateNodeWeightCimpl_frame (node : TSNode) (trace : NodeEvalTrace) (count : Nat)
    (ctx : Option AnnotationContext) :
    evaluateNodeWeightCimpl node { trace with count := count, ctx := ctx } =
      ((evaluateNodeWeightCimpl node trace).1,
       { (evaluateNodeWeightCimpl node trace).2 with count := count, ctx := ctx }) := by
  by_cases h1 : node.symbol = sym_for_statement
  · simp only [evaluateNodeWeightCimpl, h1, sym_for_statement, sym_declaration, sym_do_statement, sym_type_definition, sym_struct_specifier, sym_enum_specifier, sym_union_specifier, sym__top_level_expression_statement, sym_expression_statement, sym_if_statement, sym_else_clause]
    simp only [Nat.reduceBEq, Nat.reduceEqDiff, Bool.false_eq_true, if_false, if_true, beq_self_eq_true, Bool.or_false, Bool.or_true, Bool.false_or, Bool.true_or, Bool.or_self, or_false, or_true, false_or, true_or, or_self, ite_true, ite_false, beq_iff_eq, Bool.or_eq_true, Bool.and_eq_true]
    all_goals (first | rfl | (split_ifs <;> rfl))
  by_cases h2 : node.symbol = sym_declaration
  · simp only [evaluateNodeWeightCimpl, h2, sym_for_statement, sym_declaration, sym_do_statement, sym_type_definition, sym_struct_specifier, sym_enum_specifier, sym_union_specifier, sym__top_level_expression_statement, sym_expression_statement, sym_if_statement, sym_else_clause]
    simp only [Nat.reduceBEq, Nat.reduceEqDiff, Bool.false_eq_true, if_false, if_true, beq_self_eq_true, Bool.or_false, Bool.or_true, Bool.false_or, Bool.true_or, Bool.or_self, or_false, or_true, false_or, true_or, or_self, ite_true, ite_false, beq_iff_eq, Bool.or_eq_true, Bool.and_eq_true]
    all_goals (first | rfl | (split_ifs <;> rfl))
  by_cases h3 : node.symbol = sym_do_statement
  · simp only [evaluateNodeWeightCimpl, h3, sym_for_statement, sym_declaration, sym_do_statement, sym_type_definition, sym_struct_specifier, sym_enum_specifier, sym_union_specifier, sym__top_level_expression_statement, sym_expression_statement, sym_if_statement, sym_else_clause]
    simp only [Nat.reduceBEq, Nat.reduceEqDiff, Bool.false_eq_true, if_false, if_true, beq_self_eq_true, Bool.or_false, Bool.or_true, Bool.false_or, Bool.true_or, Bool.or_self, or_false, or_true, false_or, true_or, or_self, ite_true, ite_false, beq_iff_eq, Bool.or_eq_true, Bool.and_eq_true]
    all_goals (first | rfl | (split_ifs <;> rfl))
  by_cases h4 : node.symbol = sym_type_definition
  · simp only [evaluateNodeWeightCimpl, h4, sym_for_statement, sym_declaration, sym_do_statement, sym_type_definition, sym_struct_specifier, sym_enum_specifier, sym_union_specifier, sym__top_level_expression_statement, sym_expression_statement, sym_if_statement, sym_else_clause]
    simp only [Nat.reduceBEq, Nat.reduceEqDiff, Bool.false_eq_true, if_false, if_true, beq_self_eq_true, Bool.or_false, Bool.or_true, Bool.false_or, Bool.true_or, Bool.or_self, or_false, or_true, false_or, true_or, or_self, ite_true, ite_false, beq_iff_eq, Bool.or_eq_true, Bool.and_eq_true]
    all_goals (first | rfl | (split_ifs <;> rfl))
  by_cases h5 : node.symbol = sym_struct_specifier
  · simp only [evaluateNodeWeightCimpl, h5, sym_for_statement, sym_declaration, sym_do_statement, sym_type_definition, sym_struct_specifier, sym_enum_specifier, sym_union_specifier, sym__top_level_expression_statement, sym_expression_statement, sym_if_statement, sym_else_clause]
    simp only [Nat.reduceBEq, Nat.reduceEqDiff, Bool.false_eq_true, if_false, if_true, beq_self_eq_true, Bool.or_false, Bool.or_true, Bool.false_or, Bool.true_or, Bool.or_self, or_false, or_true, false_or, true_or, or_self, ite_true, ite_false, beq_iff_eq, Bool.or_eq_true, Bool.and_eq_true]
    all_goals (first | rfl | (split_ifs <;> rfl))
  by_cases h6 : node.symbol = sym_enum_specifier
  · simp only [evaluateNodeWeightCimpl, h6, sym_for_statement, sym_declaration, sym_do_statement, sym_type_definition, sym_struct_specifier, sym_enum_specifier, sym_union_specifier, sym__top_level_expression_statement, sym_expression_statement, sym_if_statement, sym_else_clause]
    simp only [Nat.reduceBEq, Nat.reduceEqDiff, Bool.false_eq_true, if_false, if_true, beq_self_eq_true, Bool.or_false, Bool.or_true, Bool.false_or, Bool.true_or, Bool.or_self, or_false, or_true, false_or, true_or, or_self, ite_true, ite_false, beq_iff_eq, Bool.or_eq_true, Bool.and_eq_true]
    all_goals (first | rfl | (split_ifs <;> rfl))
  by_cases h7 : node.symbol = sym_union_specifier
  · simp only [evaluateNodeWeightCimpl, h7, sym_for_statement, sym_declaration, sym_do_statement, sym_type_definition, sym_struct_specifier, sym_enum_specifier, sym_union_specifier, sym__top_level_expression_statement, sym_expression_statement, sym_if_statement, sym_else_clause]
    simp only [Nat.reduceBEq, Nat.reduceEqDiff, Bool.false_eq_true, if_false, if_true, beq_self_eq_true, Bool.or_false, Bool.or_true, Bool.false_or, Bool.true_or, Bool.or_self, or_false, or_true, false_or, true_or, or_self, ite_true, ite_false, beq_iff_eq, Bool.or_eq_true, Bool.and_eq_true]
    all_goals (first | rfl | (split_ifs <;> rfl))
  by_cases h8 : node.symbol = sym__top_level_expression_statement
  · simp only [evaluateNodeWeightCimpl, h8, sym_for_statement, sym_declaration, sym_do_statement, sym_type_definition, sym_struct_specifier, sym_enum_specifier, sym_union_specifier, sym__top_level_expression_statement, sym_expression_statement, sym_if_statement, sym_else_clause]
    simp only [Nat.reduceBEq, Nat.reduceEqDiff, Bool.false_eq_true, if_false, if_true, beq_self_eq_true, Bool.or_false, Bool.or_true, Bool.false_or, Bool.true_or, Bool.or_self, or_false, or_true, false_or, true_or, or_self, ite_true, ite_false, beq_iff_eq, Bool.or_eq_true, Bool.and_eq_true]
    all_goals (first | rfl | (split_ifs <;> rfl))
  by_cases h9 : node.symbol = sym_expression_statement
  · simp only [evaluateNodeWeightCimpl, h9, sym_for_statement, sym_declaration, sym_do_statement, sym_type_definition, sym_struct_specifier, sym_enum_specifier, sym_union_specifier, sym__top_level_expression_statement, sym_expression_statement, sym_if_statement, sym_else_clause]
    simp only [Nat.reduceBEq, Nat.reduceEqDiff, Bool.false_eq_true, if_false, if_true, beq_self_eq_true, Bool.or_false, Bool.or_true, Bool.false_or, Bool.true_or, Bool.or_self, or_false, or_true, false_or, true_or, or_self, ite_true, ite_false, beq_iff_eq, Bool.or_eq_true, Bool.and_eq_true]
    all_goals (first | rfl | (split_ifs <;> rfl))
  by_cases h10 : node.symbol = sym_if_statement
  · simp only [evaluateNodeWeightCimpl, h10, sym_for_statement, sym_declaration, sym_do_statement, sym_type_definition, sym_struct_specifier, sym_enum_specifier, sym_union_specifier, sym__top_level_expression_statement, sym_expression_statement, sym_if_statement, sym_else_clause]
    simp only [Nat.reduceBEq, Nat.reduceEqDiff, Bool.false_eq_true, if_false, if_true, beq_self_eq_true, Bool.or_false, Bool.or_true, Bool.false_or, Bool.true_or, Bool.or_self, or_false, or_true, false_or, true_or, or_self, ite_true, ite_false, beq_iff_eq, Bool.or_eq_true, Bool.and_eq_true]
    all_goals (first | rfl | (split_ifs <;> rfl))
  by_cases h11 : node.symbol = sym_else_clause
  · simp only [evaluateNodeWeightCimpl, h11, sym_for_statement, sym_declaration, sym_do_statement, sym_type_definition, sym_struct_specifier, sym_enum_specifier, sym_union_specifier, sym__top_level_expression_statement, sym_expression_statement, sym_if_statement, sym_else_clause]
    simp only [Nat.reduceBEq, Nat.reduceEqDiff, Bool.false_eq_true, if_false, if_true, beq_self_eq_true, Bool.or_false, Bool.or_true, Bool.false_or, Bool.true_or, Bool.or_self, or_false, or_true, false_or, true_or, or_self, ite_true, ite_false, beq_iff_eq, Bool.or_eq_true, Bool.and_eq_true]
    all_goals (first | rfl | (split_ifs <;> rfl))
  simp only [evaluateNodeWeightCimpl, beq_iff_eq, Bool.or_eq_true, h1, h2, h3, h4, h5, h6, h7, h8, h9, h10, h11, if_false, or_self, ite_false]
  all_goals (first | rfl | (split_ifs <;> rfl))

open SymbolIdentifiersC in
theorem evaluateNodeWeightCimpl_le (node : TSNode) (trace : NodeEvalTrace) :
    (evaluateNodeWeightCimpl node trace).1 ≤ 2 := by
  by_cases h1 : node.symbol = sym_for_statement
  · simp only [evaluateNodeWeightCimpl, h1, sym_for_statement, sym_declaration, sym_do_statement, sym_type_definition, sym_struct_specifier, sym_enum_specifier, sym_union_specifier, sym__top_level_expression_statement, sym_expression_statement, sym_if_statement, sym_else_clause]
    simp only [Nat.reduceBEq, Nat.reduceEqDiff, Bool.false_eq_true, if_false, if_true, beq_self_eq_true, Bool.or_false, Bool.or_true, Bool.false_or, Bool.true_or, Bool.or_self, or_false, or_true, false_or, true_or, or_self, ite_true, ite_false, beq_iff_eq, Bool.or_eq_true, Bool.and_eq_true]
    all_goals (first | (split_ifs <;> simp) | simp)
  by_cases h2 : node.symbol = sym_declaration
  · simp only [evaluateNodeWeightCimpl, h2, sym_for_statement, sym_declaration, sym_do_statement, sym_type_definition, sym_struct_specifier, sym_enum_specifier, sym_union_specifier, sym__top_level_expression_statement, sym_expression_statement, sym_if_statement, sym_else_clause]
    simp only [Nat.reduceBEq, Nat.reduceEqDiff, Bool.false_eq_true, if_false, if_true, beq_self_eq_true, Bool.or_false, Bool.or_true, Bool.false_or, Bool.true_or, Bool.or_self, or_false, or_true, false_or, true_or, or_self, ite_true, ite_false, beq_iff_eq, Bool.or_eq_true, Bool.and_eq_true]
    all_goals (first | (split_ifs <;> simp) | simp)
  by_cases h3 : node.symbol = sym_do_statement
  · simp only [evaluateNodeWeightCimpl, h3, sym_for_statement, sym_declaration, sym_do_statement, sym_type_definition, sym_struct_specifier, sym_enum_specifier, sym_union_specifier, sym__top_level_expression_statement, sym_expression_statement, sym_if_statement, sym_else_clause]
    simp only [Nat.reduceBEq, Nat.reduceEqDiff, Bool.false_eq_true, if_false, if_true, beq_self_eq_true, Bool.or_false, Bool.or_true, Bool.false_or, Bool.true_or, Bool.or_self, or_false, or_true, false_or, true_or, or_self, ite_true, ite_false, beq_iff_eq, Bool.or_eq_true, Bool.and_eq_true]
    all_goals (first | (split_ifs <;> simp) | simp)
  by_cases h4 : node.symbol = sym_type_definition
  · simp only [evaluateNodeWeightCimpl, h4, sym_for_statement, sym_declaration, sym_do_statement, sym_type_definition, sym_struct_specifier, sym_enum_specifier, sym_union_specifier, sym__top_level_expression_statement, sym_expression_statement, sym_if_statement, sym_else_clause]
    simp only [Nat.reduceBEq, Nat.reduceEqDiff, Bool.false_eq_true, if_false, if_true, beq_self_eq_true, Bool.or_false, Bool.or_true, Bool.false_or, Bool.true_or, Bool.or_self, or_false, or_true, false_or, true_or, or_self, ite_true, ite_false, beq_iff_eq, Bool.or_eq_true, Bool.and_eq_true]
    all_goals (first | (split_ifs <;> simp) | simp)
  by_cases h5 : node.symbol = sym_struct_specifier
  · simp only [evaluateNodeWeightCimpl, h5, sym_for_statement, sym_declaration, sym_do_statement, sym_type_definition, sym_struct_specifier, sym_enum_specifier, sym_union_specifier, sym__top_level_expression_statement, sym_expression_statement, sym_if_statement, sym_else_clause]
    simp only [Nat.reduceBEq, Nat.reduceEqDiff, Bool.false_eq_true, if_false, if_true, beq_self_eq_true, Bool.or_false, Bool.or_true, Bool.false_or, Bool.true_or, Bool.or_self, or_false, or_true, false_or, true_or, or_self, ite_true, ite_false, beq_iff_eq, Bool.or_eq_true, Bool.and_eq_true]
    all_goals (first | (split_ifs <;> simp) | simp)
  by_cases h6 : node.symbol = sym_enum_specifier
  · simp only [evaluateNodeWeightCimpl, h6, sym_for_statement, sym_declaration, sym_do_statement, sym_type_definition, sym_struct_specifier, sym_enum_specifier, sym_union_specifier, sym__top_level_expression_statement, sym_expression_statement, sym_if_statement, sym_else_clause]
    simp only [Nat.reduceBEq, Nat.reduceEqDiff, Bool.false_eq_true, if_false, if_true, beq_self_eq_true, Bool.or_false, Bool.or_true, Bool.false_or, Bool.true_or, Bool.or_self, or_false, or_true, false_or, true_or, or_self, ite_true, ite_false, beq_iff_eq, Bool.or_eq_true, Bool.and_eq_true]
    all_goals (first | (split_ifs <;> simp) | simp)
  by_cases h7 : node.symbol = sym_union_specifier
  · simp only [evaluateNodeWeightCimpl, h7, sym_for_statement, sym_declaration, sym_do_statement, sym_type_definition, sym_struct_specifier, sym_enum_specifier, sym_union_specifier, sym__top_level_expression_statement, sym_expression_statement, sym_if_statement, sym_else_clause]
    simp only [Nat.reduceBEq, Nat.reduceEqDiff, Bool.false_eq_true, if_false, if_true, beq_self_eq_true, Bool.or_false, Bool.or_true, Bool.false_or, Bool.true_or, Bool.or_self, or_false, or_true, false_or, true_or, or_self, ite_true, ite_false, beq_iff_eq, Bool.or_eq_true, Bool.and_eq_true]
    all_goals (first | (split_ifs <;> simp) | simp)
  by_cases h8 : node.symbol = sym__top_level_expression_statement
  · simp only [evaluateNodeWeightCimpl, h8, sym_for_statement, sym_declaration, sym_do_statement, sym_type_definition, sym_struct_specifier, sym_enum_specifier, sym_union_specifier, sym__top_level_expression_statement, sym_expression_statement, sym_if_statement, sym_else_clause]
    simp only [Nat.reduceBEq, Nat.reduceEqDiff, Bool.false_eq_true, if_false, if_true, beq_self_eq_true, Bool.or_false, Bool.or_true, Bool.false_or, Bool.true_or, Bool.or_self, or_false, or_true, false_or, true_or, or_self, ite_true, ite_false, beq_iff_eq, Bool.or_eq_true, Bool.and_eq_true]
    all_goals (first | (split_ifs <;> simp) | simp)
  by_cases h9 : node.symbol = sym_expression_statement
  · simp only [evaluateNodeWeightCimpl, h9, sym_for_statement, sym_declaration, sym_do_statement, sym_type_definition, sym_struct_specifier, sym_enum_specifier, sym_union_specifier, sym__top_level_expression_statement, sym_expression_statement, sym_if_statement, sym_else_clause]
    simp only [Nat.reduceBEq, Nat.reduceEqDiff, Bool.false_eq_true, if_false, if_true, beq_self_eq_true, Bool.or_false, Bool.or_true, Bool.false_or, Bool.true_or, Bool.or_self, or_false, or_true, false_or, true_or, or_self, ite_true, ite_false, beq_iff_eq, Bool.or_eq_true, Bool.and_eq_true]
    all_goals (first | (split_ifs <;> simp) | simp)
  by_cases h10 : node.symbol = sym_if_statement
  · simp only [evaluateNodeWeightCimpl, h10, sym_for_statement, sym_declaration, sym_do_statement, sym_type_definition, sym_struct_specifier, sym_enum_specifier, sym_union_specifier, sym__top_level_expression_statement, sym_expression_statement, sym_if_statement, sym_else_clause]
    simp only [Nat.reduceBEq, Nat.reduceEqDiff, Bool.false_eq_true, if_false, if_true, beq_self_eq_true, Bool.or_false, Bool.or_true, Bool.false_or, Bool.true_or, Bool.or_self, or_false, or_true, false_or, true_or, or_self, ite_true, ite_false, beq_iff_eq, Bool.or_eq_true, Bool.and_eq_true]
    all_goals (first | (split_ifs <;> simp) | simp)
  by_cases h11 : node.symbol = sym_else_clause
  · simp only [evaluateNodeWeightCimpl, h11, sym_for_statement, sym_declaration, sym_do_statement, sym_type_definition, sym_struct_specifier, sym_enum_specifier, sym_union_specifier, sym__top_level_expression_statement, sym_expression_statement, sym_if_statement, sym_else_clause]
    simp only [Nat.reduceBEq, Nat.reduceEqDiff, Bool.false_eq_true, if_false, if_true, beq_self_eq_true, Bool.or_false, Bool.or_true, Bool.false_or, Bool.true_or, Bool.or_self, or_false, or_true, false_or, true_or, or_self, ite_true, ite_false, beq_iff_eq, Bool.or_eq_true, Bool.and_eq_true]
    all_goals (first | (split_ifs <;> simp) | simp)
  simp only [evaluateNodeWeightCimpl, beq_iff_eq, Bool.or_eq_true, h1, h2, h3, h4, h5, h6, h7, h8, h9, h10, h11, if_false, or_self, ite_false]
  all_goals (first | (split_ifs <;> simp) | simp)

open SymbolIdentifiersC in
theorem evaluateNodeWeightCimpl_congr (n1 n2 : TSNode) (t1 t2 : NodeEvalTrace)
    (hs : n2.symbol = n1.symbol) (hi : t2.idx = t1.idx)
    (hf : t2.idxLastForSym = t1.idxLastForSym) (he : t2.idxLastElse = t1.idxLastElse)
    (ht : t2.idxLastTypeDef = t1.idxLastTypeDef)
    (htest : rowTestC t2.lnLastDecl t2.lnLastExpr n2 = rowTestC t1.lnLastDecl t1.lnLastExpr n1) :
    (evaluateNodeWeightCimpl n2 t2).1 = (evaluateNodeWeightCimpl n1 t1).1 := by
  by_cases h1 : n1.symbol = sym_for_statement
  · simp only [evaluateNodeWeightCimpl, hs, hi, hf, he, ht, h1, sym_for_statement, sym_declaration, sym_do_statement, sym_type_definition, sym_struct_specifier, sym_enum_specifier, sym_union_specifier, sym__top_level_expression_statement, sym_expression_statement, sym_if_statement, sym_else_clause]
    simp only [Nat.reduceBEq, Nat.reduceEqDiff, Bool.false_eq_true, if_false, if_true, beq_self_eq_true, Bool.or_false, Bool.or_true, Bool.false_or, Bool.true_or, Bool.or_self, or_false, or_true, false_or, true_or, or_self, ite_true, ite_false, beq_iff_eq, Bool.or_eq_true, Bool.and_eq_true]
    all_goals (first | rfl | (simp only [rowTestC, hs, *, sym_for_statement, sym_declaration, sym_do_statement, sym_type_definition, sym_struct_specifier, sym_enum_specifier, sym_union_specifier, Nat.reduceBEq, Nat.reduceEqDiff, Bool.false_eq_true, if_false, if_true, beq_self_eq_true, Bool.or_false, Bool.or_true, Bool.false_or, Bool.true_or, Bool.or_self, or_false, or_true, false_or, true_or, or_self, ite_true, ite_false, beq_iff_eq, Bool.or_eq_true, Bool.and_eq_true] at htest; split_ifs at htest ⊢ <;> simp_all))
  by_cases h2 : n1.symbol = sym_declaration
  · simp only [evaluateNodeWeightCimpl, hs, hi, hf, he, ht, h2, sym_for_statement, sym_declaration, sym_do_statement, sym_type_definition, sym_struct_specifier, sym_enum_specifier, sym_union_specifier, sym__top_level_expression_statement, sym_expression_statement, sym_if_statement, sym_else_clause]
    simp only [Nat.reduceBEq, Nat.reduceEqDiff, Bool.false_eq_true, if_false, if_true, beq_self_eq_true, Bool.or_false, Bool.or_true, Bool.false_or, Bool.true_or, Bool.or_self, or_false, or_true, false_or, true_or, or_self, ite_true, ite_false, beq_iff_eq, Bool.or_eq_true, Bool.and_eq_true]
    all_goals (first | rfl | (simp only [rowTestC, hs, *, sym_for_statement, sym_declaration, sym_do_statement, sym_type_definition, sym_struct_specifier, sym_enum_specifier, sym_union_specifier, Nat.reduceBEq, Nat.reduceEqDiff, Bool.false_eq_true, if_false, if_true, beq_self_eq_true, Bool.or_false, Bool.or_true, Bool.false_or, Bool.true_or, Bool.or_self, or_false, or_true, false_or, true_or, or_self, ite_true, ite_false, beq_iff_eq, Bool.or_eq_true, Bool.and_eq_true] at htest; split_ifs at htest ⊢ <;> simp_all))
  by_cases h3 : n1.symbol = sym_do_statement
  · simp only [evaluateNodeWeightCimpl, hs, hi, hf, he, ht, h3, sym_for_statement, sym_declaration, sym_do_statement, sym_type_definition, sym_struct_specifier, sym_enum_specifier, sym_union_specifier, sym__top_level_expression_statement, sym_expression_statement, sym_if_statement, sym_else_clause]
    simp only [Nat.reduceBEq, Nat.reduceEqDiff, Bool.false_eq_true, if_false, if_true, beq_self_eq_true, Bool.or_false, Bool.or_true, Bool.false_or, Bool.true_or, Bool.or_self, or_false, or_true, false_or, true_or, or_self, ite_true, ite_false, beq_iff_eq, Bool.or_eq_true, Bool.and_eq_true]
    all_goals (first | rfl | (simp only [rowTestC, hs, *, sym_for_statement, sym_declaration, sym_do_statement, sym_type_definition, sym_struct_specifier, sym_enum_specifier, sym_union_specifier, Nat.reduceBEq, Nat.reduceEqDiff, Bool.false_eq_true, if_false, if_true, beq_self_eq_true, Bool.or_false, Bool.or_true, Bool.false_or, Bool.true_or, Bool.or_self, or_false, or_true, false_or, true_or, or_self, ite_true, ite_false, beq_iff_eq, Bool.or_eq_true, Bool.and_eq_true] at htest; split_ifs at htest ⊢ <;> simp_all))
  by_cases h4 : n1.symbol = sym_type_definition
  · simp only [evaluateNodeWeightCimpl, hs, hi, hf, he, ht, h4, sym_for_statement, sym_declaration, sym_do_statement, sym_type_definition, sym_struct_specifier, sym_enum_specifier, sym_union_specifier, sym__top_level_expression_statement, sym_expression_statement, sym_if_statement, sym_else_clause]
    simp only [Nat.reduceBEq, Nat.reduceEqDiff, Bool.false_eq_true, if_false, if_true, beq_self_eq_true, Bool.or_false, Bool.or_true, Bool.false_or, Bool.true_or, Bool.or_self, or_false, or_true, false_or, true_or, or_self, ite_true, ite_false, beq_iff_eq, Bool.or_eq_true, Bool.and_eq_true]
    all_goals (first | rfl | (simp only [rowTestC, hs, *, sym_for_statement, sym_declaration, sym_do_statement, sym_type_definition, sym_struct_specifier, sym_enum_specifier, sym_union_specifier, Nat.reduceBEq, Nat.reduceEqDiff, Bool.false_eq_true, if_false, if_true, beq_self_eq_true, Bool.or_false, Bool.or_true, Bool.false_or, Bool.true_or, Bool.or_self, or_false, or_true, false_or, true_or, or_self, ite_true, ite_false, beq_iff_eq, Bool.or_eq_true, Bool.and_eq_true] at htest; split_ifs at htest ⊢ <;> simp_all))
  by_cases h5 : n1.symbol = sym_struct_specifier
  · simp only [evaluateNodeWeightCimpl, hs, hi, hf, he, ht, h5, sym_for_statement, sym_declaration, sym_do_statement, sym_type_definition, sym_struct_specifier, sym_enum_specifier, sym_union_specifier, sym__top_level_expression_statement, sym_expression_statement, sym_if_statement, sym_else_clause]
    simp only [Nat.reduceBEq, Nat.reduceEqDiff, Bool.false_eq_true, if_false, if_true, beq_self_eq_true, Bool.or_false, Bool.or_true, Bool.false_or, Bool.true_or, Bool.or_self, or_false, or_true, false_or, true_or, or_self, ite_true, ite_false, beq_iff_eq, Bool.or_eq_true, Bool.and_eq_true]
    all_goals (first | rfl | (simp only [rowTestC, hs, *, sym_for_statement, sym_declaration, sym_do_statement, sym_type_definition, sym_struct_specifier, sym_enum_specifier, sym_union_specifier, Nat.reduceBEq, Nat.reduceEqDiff, Bool.false_eq_true, if_false, if_true, beq_self_eq_true, Bool.or_false, Bool.or_true, Bool.false_or, Bool.true_or, Bool.or_self, or_false, or_true, false_or, true_or, or_self, ite_true, ite_false, beq_iff_eq, Bool.or_eq_true, Bool.and_eq_true] at htest; split_ifs at htest ⊢ <;> simp_all))
  by_cases h6 : n1.symbol = sym_enum_specifier
  · simp only [evaluateNodeWeightCimpl, hs, hi, hf, he, ht, h6, sym_for_statement, sym_declaration, sym_do_statement, sym_type_definition, sym_struct_specifier, sym_enum_specifier, sym_union_specifier, sym__top_level_expression_statement, sym_expression_statement, sym_if_statement, sym_else_clause]
    simp only [Nat.reduceBEq, Nat.reduceEqDiff, Bool.false_eq_true, if_false, if_true, beq_self_eq_true, Bool.or_false, Bool.or_true, Bool.false_or, Bool.true_or, Bool.or_self, or_false, or_true, false_or, true_or, or_self, ite_true, ite_false, beq_iff_eq, Bool.or_eq_true, Bool.and_eq_true]
    all_goals (first | rfl | (simp only [rowTestC, hs, *, sym_for_statement, sym_declaration, sym_do_statement, sym_type_definition, sym_struct_specifier, sym_enum_specifier, sym_union_specifier, Nat.reduceBEq, Nat.reduceEqDiff, Bool.false_eq_true, if_false, if_true, beq_self_eq_true, Bool.or_false, Bool.or_true, Bool.false_or, Bool.true_or, Bool.or_self, or_false, or_true, false_or, true_or, or_self, ite_true, ite_false, beq_iff_eq, Bool.or_eq_true, Bool.and_eq_true] at htest; split_ifs at htest ⊢ <;> simp_all))
  by_cases h7 : n1.symbol = sym_union_specifier
  · simp only [evaluateNodeWeightCimpl, hs, hi, hf, he, ht, h7, sym_for_statement, sym_declaration, sym_do_statement, sym_type_definition, sym_struct_specifier, sym_enum_specifier, sym_union_specifier, sym__top_level_expression_statement, sym_expression_statement, sym_if_statement, sym_else_clause]
    simp only [Nat.reduceBEq, Nat.reduceEqDiff, Bool.false_eq_true, if_false, if_true, beq_self_eq_true, Bool.or_false, Bool.or_true, Bool.false_or, Bool.true_or, Bool.or_self, or_false, or_true, false_or, true_or, or_self, ite_true, ite_false, beq_iff_eq, Bool.or_eq_true, Bool.and_eq_true]
    all_goals (first | rfl | (simp only [rowTestC, hs, *, sym_for_statement, sym_declaration, sym_do_statement, sym_type_definition, sym_struct_specifier, sym_enum_specifier, sym_union_specifier, Nat.reduceBEq, Nat.reduceEqDiff, Bool.false_eq_true, if_false, if_true, beq_self_eq_true, Bool.or_false, Bool.or_true, Bool.false_or, Bool.true_or, Bool.or_self, or_false, or_true, false_or, true_or, or_self, ite_true, ite_false, beq_iff_eq, Bool.or_eq_true, Bool.and_eq_true] at htest; split_ifs at htest ⊢ <;> simp_all))
  by_cases h8 : n1.symbol = sym__top_level_expression_statement
  · simp only [evaluateNodeWeightCimpl, hs, hi, hf, he, ht, h8, sym_for_statement, sym_declaration, sym_do_statement, sym_type_definition, sym_struct_specifier, sym_enum_specifier, sym_union_specifier, sym__top_level_expression_statement, sym_expression_statement, sym_if_statement, sym_else_clause]
    simp only [Nat.reduceBEq, Nat.reduceEqDiff, Bool.false_eq_true, if_false, if_true, beq_self_eq_true, Bool.or_false, Bool.or_true, Bool.false_or, Bool.true_or, Bool.or_self, or_false, or_true, false_or, true_or, or_self, ite_true, ite_false, beq_iff_eq, Bool.or_eq_true, Bool.and_eq_true]
    all_goals (first | rfl | (simp only [rowTestC, hs, *, sym_for_statement, sym_declaration, sym_do_statement, sym_type_definition, sym_struct_specifier, sym_enum_specifier, sym_union_specifier, Nat.reduceBEq, Nat.reduceEqDiff, Bool.false_eq_true, if_false, if_true, beq_self_eq_true, Bool.or_false, Bool.or_true, Bool.false_or, Bool.true_or, Bool.or_self, or_false, or_true, false_or, true_or, or_self, ite_true, ite_false, beq_iff_eq, Bool.or_eq_true, Bool.and_eq_true] at htest; split_ifs at htest ⊢ <;> simp_all))
  by_cases h9 : n1.symbol = sym_expression_statement
  · simp only [evaluateNodeWeightCimpl, hs, hi, hf, he, ht, h9, sym_for_statement, sym_declaration, sym_do_statement, sym_type_definition, sym_struct_specifier, sym_enum_specifier, sym_union_specifier, sym__top_level_expression_statement, sym_expression_statement, sym_if_statement, sym_else_clause]
    simp only [Nat.reduceBEq, Nat.reduceEqDiff, Bool.false_eq_true, if_false, if_true, beq_self_eq_true, Bool.or_false, Bool.or_true, Bool.false_or, Bool.true_or, Bool.or_self, or_false, or_true, false_or, true_or, or_self, ite_true, ite_false, beq_iff_eq, Bool.or_eq_true, Bool.and_eq_true]
    all_goals (first | rfl | (simp only [rowTestC, hs, *, sym_for_statement, sym_declaration, sym_do_statement, sym_type_definition, sym_struct_specifier, sym_enum_specifier, sym_union_specifier, Nat.reduceBEq, Nat.reduceEqDiff, Bool.false_eq_true, if_false, if_true, beq_self_eq_true, Bool.or_false, Bool.or_true, Bool.false_or, Bool.true_or, Bool.or_self, or_false, or_true, false_or, true_or, or_self, ite_true, ite_false, beq_iff_eq, Bool.or_eq_true, Bool.and_eq_true] at htest; split_ifs at htest ⊢ <;> simp_all))
  by_cases h10 : n1.symbol = sym_if_statement
  · simp only [evaluateNodeWeightCimpl, hs, hi, hf, he, ht, h10, sym_for_statement, sym_declaration, sym_do_statement, sym_type_definition, sym_struct_specifier, sym_enum_specifier, sym_union_specifier, sym__top_level_expression_statement, sym_expression_statement, sym_if_statement, sym_else_clause]
    simp only [Nat.reduceBEq, Nat.reduceEqDiff, Bool.false_eq_true, if_false, if_true, beq_self_eq_true, Bool.or_false, Bool.or_true, Bool.false_or, Bool.true_or, Bool.or_self, or_false, or_true, false_or, true_or, or_self, ite_true, ite_false, beq_iff_eq, Bool.or_eq_true, Bool.and_eq_true]
    all_goals (first | rfl | (simp only [rowTestC, hs, *, sym_for_statement, sym_declaration, sym_do_statement, sym_type_definition, sym_struct_specifier, sym_enum_specifier, sym_union_specifier, Nat.reduceBEq, Nat.reduceEqDiff, Bool.false_eq_true, if_false, if_true, beq_self_eq_true, Bool.or_false, Bool.or_true, Bool.false_or, Bool.true_or, Bool.or_self, or_false, or_true, false_or, true_or, or_self, ite_true, ite_false, beq_iff_eq, Bool.or_eq_true, Bool.and_eq_true] at htest; split_ifs at htest ⊢ <;> simp_all))
  by_cases h11 : n1.symbol = sym_else_clause
  · simp only [evaluateNodeWeightCimpl, hs, hi, hf, he, ht, h11, sym_for_statement, sym_declaration, sym_do_statement, sym_type_definition, sym_struct_specifier, sym_enum_specifier, sym_union_specifier, sym__top_level_expression_statement, sym_expression_statement, sym_if_statement, sym_else_clause]
    simp only [Nat.reduceBEq, Nat.reduceEqDiff, Bool.false_eq_true, if_false, if_true, beq_self_eq_true, Bool.or_false, Bool.or_true, Bool.false_or, Bool.true_or, Bool.or_self, or_false, or_true, false_or, true_or, or_self, ite_true, ite_false, beq_iff_eq, Bool.or_eq_true, Bool.and_eq_true]
    all_goals (first | rfl | (simp only [rowTestC, hs, *, sym_for_statement, sym_declaration, sym_do_statement, sym_type_definition, sym_struct_specifier, sym_enum_specifier, sym_union_specifier, Nat.reduceBEq, Nat.reduceEqDiff, Bool.false_eq_true, if_false, if_true, beq_self_eq_true, Bool.or_false, Bool.or_true, Bool.false_or, Bool.true_or, Bool.or_self, or_false, or_true, false_or, true_or, or_self, ite_true, ite_false, beq_iff_eq, Bool.or_eq_true, Bool.and_eq_true] at htest; split_ifs at htest ⊢ <;> simp_all))
  simp only [evaluateNodeWeightCimpl, hs, hi, hf, he, ht, beq_iff_eq, Bool.or_eq_true, h1, h2, h3, h4, h5, h6, h7, h8, h9, h10, h11, if_false, or_self, ite_false]
  all_goals (first | rfl | (simp only [rowTestC, hs, *, sym_for_statement, sym_declaration, sym_do_statement, sym_type_definition, sym_struct_specifier, sym_enum_specifier, sym_union_specifier, Nat.reduceBEq, Nat.reduceEqDiff, Bool.false_eq_true, if_false, if_true, beq_self_eq_true, Bool.or_false, Bool.or_true, Bool.false_or, Bool.true_or, Bool.or_self, or_false, or_true, false_or, true_or, or_self, ite_true, ite_false, beq_iff_eq, Bool.or_eq_true, Bool.and_eq_true] at htest; split_ifs at htest ⊢ <;> simp_all))

open SymbolIdentifiersJava in
theorem evaluateNodeWeightJavaImpl_trace (node : TSNode) (trace : NodeEvalTrace) :
    (evaluateNodeWeightJavaImpl node trace).2 =
      { trace with
        idxLastForSym :=
          if node.symbol = sym_for_statement then trace.idx else trace.idxLastForSym,
        idxLastElse :=
          if node.symbol = anon_sym_else then trace.idx else trace.idxLastElse,
        lnLastSwitchLabel :=
          if node.symbol = sym_switch_label then currentLine node
          else trace.lnLastSwitchLabel,
        lnLastArrow :=
          if node.symbol = anon_sym_DASH_GT then currentLine node else trace.lnLastArrow } := by
  by_cases h1 : node.symbol = anon_sym_DASH_GT
  · simp only [evaluateNodeWeightJavaImpl, h1, anon_sym_DASH_GT, anon_sym_else, sym_switch_label, sym_expression_statement, sym_if_statement, sym_local_variable_declaration, sym_do_statement, sym_for_statement]
    simp only [Nat.reduceBEq, Nat.reduceEqDiff, Bool.false_eq_true, if_false, if_true, beq_self_eq_true, Bool.or_false, Bool.or_true, Bool.false_or, Bool.true_or, Bool.or_self, or_false, or_true, false_or, true_or, or_self, ite_true, ite_false, beq_iff_eq, Bool.or_eq_true, Bool.and_eq_true]
    all_goals (first | rfl | (split_ifs <;> rfl))
  by_cases h2 : node.symbol = anon_sym_else
  · simp only [evaluateNodeWeightJavaImpl, h2, anon_sym_DASH_GT, anon_sym_else, sym_switch_label, sym_expression_statement, sym_if_statement, sym_local_variable_declaration, sym_do_statement, sym_for_statement]
    simp only [Nat.reduceBEq, Nat.reduceEqDiff, Bool.false_eq_true, if_false, if_true, beq_self_eq_true, Bool.or_false, Bool.or_true, Bool.false_or, Bool.true_or, Bool.or_self, or_false, or_true, false_or, true_or, or_self, ite_true, ite_false, beq_iff_eq, Bool.or_eq_true, Bool.and_eq_true]
    all_goals (first | rfl | (split_ifs <;> rfl))
  by_cases h3 : node.symbol = sym_switch_label
  · simp only [evaluateNodeWeightJavaImpl, h3, anon_sym_DASH_GT, anon_sym_else, sym_switch_label, sym_expression_statement, sym_if_statement, sym_local_variable_declaration, sym_do_statement, sym_for_statement]
    simp only [Nat.reduceBEq, Nat.reduceEqDiff, Bool.false_eq_true, if_false, if_true, beq_self_eq_true, Bool.or_false, Bool.or_true, Bool.false_or, Bool.true_or, Bool.or_self, or_false, or_true, false_or, true_or, or_self, ite_true, ite_false, beq_iff_eq, Bool.or_eq_true, Bool.and_eq_true]
    all_goals (first | rfl | (split_ifs <;> rfl))
  by_cases h4 : node.symbol = sym_expression_statement
  · simp only [evaluateNodeWeightJavaImpl, h4, anon_sym_DASH_GT, anon_sym_else, sym_switch_label, sym_expression_statement, sym_if_statement, sym_local_variable_declaration, sym_do_statement, sym_for_statement]
    simp only [Nat.reduceBEq, Nat.reduceEqDiff, Bool.false_eq_true, if_false, if_true, beq_self_eq_true, Bool.or_false, Bool.or_true, Bool.false_or, Bool.true_or, Bool.or_self, or_false, or_true, false_or, true_or, or_self, ite_true, ite_false, beq_iff_eq, Bool.or_eq_true, Bool.and_eq_true]
    all_goals (first | rfl | (split_ifs <;> rfl))
  by_cases h5 : node.symbol = sym_if_statement
  · simp only [evaluateNodeWeightJavaImpl, h5, anon_sym_DASH_GT, anon_sym_else, sym_switch_label, sym_expression_statement, sym_if_statement, sym_local_variable_declaration, sym_do_statement, sym_for_statement]
    simp only [Nat.reduceBEq, Nat.reduceEqDiff, Bool.false_eq_true, if_false, if_true, beq_self_eq_true, Bool.or_false, Bool.or_true, Bool.false_or, Bool.true_or, Bool.or_self, or_false, or_true, false_or, true_or, or_self, ite_true, ite_false, beq_iff_eq, Bool.or_eq_true, Bool.and_eq_true]
    all_goals (first | rfl | (split_ifs <;> rfl))
  by_cases h6 : node.symbol = sym_local_variable_declaration
  · simp only [evaluateNodeWeightJavaImpl, h6, anon_sym_DASH_GT, anon_sym_else, sym_switch_label, sym_expression_statement, sym_if_statement, sym_local_variable_declaration, sym_do_statement, sym_for_statement]
    simp only [Nat.reduceBEq, Nat.reduceEqDiff, Bool.false_eq_true, if_false, if_true, beq_self_eq_true, Bool.or_false, Bool.or_true, Bool.false_or, Bool.true_or, Bool.or_self, or_false, or_true, false_or, true_or, or_self, ite_true, ite_false, beq_iff_eq, Bool.or_eq_true, Bool.and_eq_true]
    all_goals (first | rfl | (split_ifs <;> rfl))
  by_cases h7 : node.symbol = sym_do_statement
  · simp only [evaluateNodeWeightJavaImpl, h7, anon_sym_DASH_GT, anon_sym_else, sym_switch_label, sym_expression_statement, sym_if_statement, sym_local_variable_declaration, sym_do_statement, sym_for_statement]
    simp only [Nat.reduceBEq, Nat.reduceEqDiff, Bool.false_eq_true, if_false, if_true, beq_self_eq_true, Bool.or_false, Bool.or_true, Bool.false_or, Bool.true_or, Bool.or_self, or_false, or_true, false_or, true_or, or_self, ite_true, ite_false, beq_iff_eq, Bool.or_eq_true, Bool.and_eq_true]
    all_goals (first | rfl | (split_ifs <;> rfl))
  by_cases h8 : node.symbol = sym_for_statement
  · simp only [evaluateNodeWeightJavaImpl, h8, anon_sym_DASH_GT, anon_sym_else, sym_switch_label, sym_expression_statement, sym_if_statement, sym_local_variable_declaration, sym_do_statement, sym_for_statement]
    simp only [Nat.reduceBEq, Nat.reduceEqDiff, Bool.false_eq_true, if_false, if_true, beq_self_eq_true, Bool.or_false, Bool.or_true, Bool.false_or, Bool.true_or, Bool.or_self, or_false, or_true, false_or, true_or, or_self, ite_true, ite_false, beq_iff_eq, Bool.or_eq_true, Bool.and_eq_true]
    all_goals (first | rfl | (split_ifs <;> rfl))
  simp only [evaluateNodeWeightJavaImpl, beq_iff_eq, Bool.or_eq_true, h1, h2, h3, h4, h5, h6, h7, h8, if_false, or_self, ite_false]
  all_goals (first | rfl | (split_ifs <;> rfl))

open SymbolIdentifiersJava in
theorem evaluateNodeWeightJavaImpl_frame (node : TSNode) (trace : NodeEvalTrace) (count : Nat)
    (ctx : Option AnnotationContext) :
    evaluateNodeWeightJavaImpl node { trace with count := count, ctx := ctx } =
      ((evaluateNodeWeightJavaImpl node trace).1,
       { (evaluateNodeWeightJavaImpl node trace).2 with count := count, ctx := ctx }) := by
  by_cases h1 : node.symbol = anon_sym_DASH_GT
  · simp only [evaluateNodeWeightJavaImpl, h1, anon_sym_DASH_GT, anon_sym_else, sym_switch_label, sym_expression_statement, sym_if_statement, sym_local_variable_declaration, sym_do_statement, sym_for_statement]
    simp only [Nat.reduceBEq, Nat.reduceEqDiff, Bool.false_eq_true, if_false, if_true, beq_self_eq_true, Bool.or_false, Bool.or_true, Bool.false_or, Bool.true_or, Bool.or_self, or_false, or_true, false_or, true_or, or_self, ite_true, ite_false, beq_iff_eq, Bool.or_eq_true, Bool.and_eq_true]
    all_goals (first | rfl | (split_ifs <;> rfl))
  by_cases h2 : node.symbol = anon_sym_else
  · simp only [evaluateNodeWeightJavaImpl, h2, anon_sym_DASH_GT, anon_sym_else, sym_switch_label, sym_expression_statement, sym_if_statement, sym_local_variable_declaration, sym_do_statement, sym_for_statement]
    simp only [Nat.reduceBEq, Nat.reduceEqDiff, Bool.false_eq_true, if_false, if_true, beq_self_eq_true, Bool.or_false, Bool.or_true, Bool.false_or, Bool.true_or, Bool.or_self, or_false, or_true, false_or, true_or, or_self, ite_true, ite_false, beq_iff_eq, Bool.or_eq_true, Bool.and_eq_true]
    all_goals (first | rfl | (split_ifs <;> rfl))
  by_cases h3 : node.symbol = sym_switch_label
  · simp only [evaluateNodeWeightJavaImpl, h3, anon_sym_DASH_GT, anon_sym_else, sym_switch_label, sym_expression_statement, sym_if_statement, sym_local_variable_declaration, sym_do_statement, sym_for_statement]
    simp only [Nat.reduceBEq, Nat.reduceEqDiff, Bool.false_eq_true, if_false, if_true, beq_self_eq_true, Bool.or_false, Bool.or_true, Bool.false_or, Bool.true_or, Bool.or_self, or_false, or_true, false_or, true_or, or_self, ite_true, ite_false, beq_iff_eq, Bool.or_eq_true, Bool.and_eq_true]
    all_goals (first | rfl | (split_ifs <;> rfl))
  by_cases h4 : node.symbol = sym_expression_statement
  · simp only [evaluateNodeWeightJavaImpl, h4, anon_sym_DASH_GT, anon_sym_else, sym_switch_label, sym_expression_statement, sym_if_statement, sym_local_variable_declaration, sym_do_statement, sym_for_statement]
    simp only [Nat.reduceBEq, Nat.reduceEqDiff, Bool.false_eq_true, if_false, if_true, beq_self_eq_true, Bool.or_false, Bool.or_true, Bool.false_or, Bool.true_or, Bool.or_self, or_false, or_true, false_or, true_or, or_self, ite_true, ite_false, beq_iff_eq, Bool.or_eq_true, Bool.and_eq_true]
    all_goals (first | rfl | (split_ifs <;> rfl))
  by_cases h5 : node.symbol = sym_if_statement
  · simp only [evaluateNodeWeightJavaImpl, h5, anon_sym_DASH_GT, anon_sym_else, sym_switch_label, sym_expression_statement, sym_if_statement, sym_local_variable_declaration, sym_do_statement, sym_for_statement]
    simp only [Nat.reduceBEq, Nat.reduceEqDiff, Bool.false_eq_true, if_false, if_true, beq_self_eq_true, Bool.or_false, Bool.or_true, Bool.false_or, Bool.true_or, Bool.or_self, or_false, or_true, false_or, true_or, or_self, ite_true, ite_false, beq_iff_eq, Bool.or_eq_true, Bool.and_eq_true]
    all_goals (first | rfl | (split_ifs <;> rfl))
  by_cases h6 : node.symbol = sym_local_variable_declaration
  · simp only [evaluateNodeWeightJavaImpl, h6, anon_sym_DASH_GT, anon_sym_else, sym_switch_label, sym_expression_statement, sym_if_statement, sym_local_variable_declaration, sym_do_statement, sym_for_statement]
    simp only [Nat.reduceBEq, Nat.reduceEqDiff, Bool.false_eq_true, if_false, if_true, beq_self_eq_true, Bool.or_false, Bool.or_true, Bool.false_or, Bool.true_or, Bool.or_self, or_false, or_true, false_or, true_or, or_self, ite_true, ite_false, beq_iff_eq, Bool.or_eq_true, Bool.and_eq_true]
    all_goals (first | rfl | (split_ifs <;> rfl))
  by_cases h7 : node.symbol = sym_do_statement
  · simp only [evaluateNodeWeightJavaImpl, h7, anon_sym_DASH_GT, anon_sym_else, sym_switch_label, sym_expression_statement, sym_if_statement, sym_local_variable_declaration, sym_do_statement, sym_for_statement]
    simp only [Nat.reduceBEq, Nat.reduceEqDiff, Bool.false_eq_true, if_false, if_true, beq_self_eq_true, Bool.or_false, Bool.or_true, Bool.false_or, Bool.true_or, Bool.or_self, or_false, or_true, false_or, true_or, or_self, ite_true, ite_false, beq_iff_eq, Bool.or_eq_true, Bool.and_eq_true]
    all_goals (first | rfl | (split_ifs <;> rfl))
  by_cases h8 : node.symbol = sym_for_statement
  · simp only [evaluateNodeWeightJavaImpl, h8, anon_sym_DASH_GT, anon_sym_else, sym_switch_label, sym_expression_statement, sym_if_statement, sym_local_variable_declaration, sym_do_statement, sym_for_statement]
    simp only [Nat.reduceBEq, Nat.reduceEqDiff, Bool.false_eq_true, if_false, if_true, beq_self_eq_true, Bool.or_false, Bool.or_true, Bool.false_or, Bool.true_or, Bool.or_self, or_false, or_true, false_or, true_or, or_self, ite_true, ite_false, beq_iff_eq, Bool.or_eq_true, Bool.and_eq_true]
    all_goals (first | rfl | (split_ifs <;> rfl))
  simp only [evaluateNodeWeightJavaImpl, beq_iff_eq, Bool.or_eq_true, h1, h2, h3, h4, h5, h6, h7, h8, if_false, or_self, ite_false]
  all_goals (first | rfl | (split_ifs <;> rfl))

open SymbolIdentifiersJava in
theorem evaluateNodeWeightJavaImpl_le (node : TSNode) (trace : NodeEvalTrace) :
    (evaluateNodeWeightJavaImpl node trace).1 ≤ 2 := by
  by_cases h1 : node.symbol = anon_sym_DASH_GT
  · simp only [evaluateNodeWeightJavaImpl, h1, anon_sym_DASH_GT, anon_sym_else, sym_switch_label, sym_expression_statement, sym_if_statement, sym_local_variable_declaration, sym_do_statement, sym_for_statement]
    simp only [Nat.reduceBEq, Nat.reduceEqDiff, Bool.false_eq_true, if_false, if_true, beq_self_eq_true, Bool.or_false, Bool.or_true, Bool.false_or, Bool.true_or, Bool.or_self, or_false, or_true, false_or, true_or, or_self, ite_true, ite_false, beq_iff_eq, Bool.or_eq_true, Bool.and_eq_true]
    all_goals (first | (split_ifs <;> simp) | simp)
  by_cases h2 : node.symbol = anon_sym_else
  · simp only [evaluateNodeWeightJavaImpl, h2, anon_sym_DASH_GT, anon_sym_else, sym_switch_label, sym_expression_statement, sym_if_statement, sym_local_variable_declaration, sym_do_statement, sym_for_statement]
    simp only [Nat.reduceBEq, Nat.reduceEqDiff, Bool.false_eq_true, if_false, if_true, beq_self_eq_true, Bool.or_false, Bool.or_true, Bool.false_or, Bool.true_or, Bool.or_self, or_false, or_true, false_or, true_or, or_self, ite_true, ite_false, beq_iff_eq, Bool.or_eq_true, Bool.and_eq_true]
    all_goals (first | (split_ifs <;> simp) | simp)
  by_cases h3 : node.symbol = sym_switch_label
  · simp only [evaluateNodeWeightJavaImpl, h3, anon_sym_DASH_GT, anon_sym_else, sym_switch_label, sym_expression_statement, sym_if_statement, sym_local_variable_declaration, sym_do_statement, sym_for_statement]
    simp only [Nat.reduceBEq, Nat.reduceEqDiff, Bool.false_eq_true, if_false, if_true, beq_self_eq_true, Bool.or_false, Bool.or_true, Bool.false_or, Bool.true_or, Bool.or_self, or_false, or_true, false_or, true_or, or_self, ite_true, ite_false, beq_iff_eq, Bool.or_eq_true, Bool.and_eq_true]
    all_goals (first | (split_ifs <;> simp) | simp)
  by_cases h4 : node.symbol = sym_expression_statement
  · simp only [evaluateNodeWeightJavaImpl, h4, anon_sym_DASH_GT, anon_sym_else, sym_switch_label, sym_expression_statement, sym_if_statement, sym_local_variable_declaration, sym_do_statement, sym_for_statement]
    simp only [Nat.reduceBEq, Nat.reduceEqDiff, Bool.false_eq_true, if_false, if_true, beq_self_eq_true, Bool.or_false, Bool.or_true, Bool.false_or, Bool.true_or, Bool.or_self, or_false, or_true, false_or, true_or, or_self, ite_true, ite_false, beq_iff_eq, Bool.or_eq_true, Bool.and_eq_true]
    all_goals (first | (split_ifs <;> simp) | simp)
  by_cases h5 : node.symbol = sym_if_statement
  · simp only [evaluateNodeWeightJavaImpl, h5, anon_sym_DASH_GT, anon_sym_else, sym_switch_label, sym_expression_statement, sym_if_statement, sym_local_variable_declaration, sym_do_statement, sym_for_statement]
    simp only [Nat.reduceBEq, Nat.reduceEqDiff, Bool.false_eq_true, if_false, if_true, beq_self_eq_true, Bool.or_false, Bool.or_true, Bool.false_or, Bool.true_or, Bool.or_self, or_false, or_true, false_or, true_or, or_self, ite_true, ite_false, beq_iff_eq, Bool.or_eq_true, Bool.and_eq_true]
    all_goals (first | (split_ifs <;> simp) | simp)
  by_cases h6 : node.symbol = sym_local_variable_declaration
  · simp only [evaluateNodeWeightJavaImpl, h6, anon_sym_DASH_GT, anon_sym_else, sym_switch_label, sym_expression_statement, sym_if_statement, sym_local_variable_declaration, sym_do_statement, sym_for_statement]
    simp only [Nat.reduceBEq, Nat.reduceEqDiff, Bool.false_eq_true, if_false, if_true, beq_self_eq_true, Bool.or_false, Bool.or_true, Bool.false_or, Bool.true_or, Bool.or_self, or_false, or_true, false_or, true_or, or_self, ite_true, ite_false, beq_iff_eq, Bool.or_eq_true, Bool.and_eq_true]
    all_goals (first | (split_ifs <;> simp) | simp)
  by_cases h7 : node.symbol = sym_do_statement
  · simp only [evaluateNodeWeightJavaImpl, h7, anon_sym_DASH_GT, anon_sym_else, sym_switch_label, sym_expression_statement, sym_if_statement, sym_local_variable_declaration, sym_do_statement, sym_for_statement]
    simp only [Nat.reduceBEq, Nat.reduceEqDiff, Bool.false_eq_true, if_false, if_true, beq_self_eq_true, Bool.or_false, Bool.or_true, Bool.false_or, Bool.true_or, Bool.or_self, or_false, or_true, false_or, true_or, or_self, ite_true, ite_false, beq_iff_eq, Bool.or_eq_true, Bool.and_eq_true]
    all_goals (first | (split_ifs <;> simp) | simp)
  by_cases h8 : node.symbol = sym_for_statement
  · simp only [evaluateNodeWeightJavaImpl, h8, anon_sym_DASH_GT, anon_sym_else, sym_switch_label, sym_expression_statement, sym_if_statement, sym_local_variable_declaration, sym_do_statement, sym_for_statement]
    simp only [Nat.reduceBEq, Nat.reduceEqDiff, Bool.false_eq_true, if_false, if_true, beq_self_eq_true, Bool.or_false, Bool.or_true, Bool.false_or, Bool.true_or, Bool.or_self, or_false, or_true, false_or, true_or, or_self, ite_true, ite_false, beq_iff_eq, Bool.or_eq_true, Bool.and_eq_true]
    all_goals (first | (split_ifs <;> simp) | simp)
  simp only [evaluateNodeWeightJavaImpl, beq_iff_eq, Bool.or_eq_true, h1, h2, h3, h4, h5, h6, h7, h8, if_false, or_self, ite_false]
  all_goals (first | (split_ifs <;> simp) | simp)

open SymbolIdentifiersJava in
theorem evaluateNodeWeightJavaImpl_congr (n1 n2 : TSNode) (t1 t2 : NodeEvalTrace)
    (hs : n2.symbol = n1.symbol) (hi : t2.idx = t1.idx)
    (hf : t2.idxLastForSym = t1.idxLastForSym) (he : t2.idxLastElse = t1.idxLastElse)
    (htest : rowTestJava t2.lnLastSwitchLabel t2.lnLastArrow n2
      = rowTestJava t1.lnLastSwitchLabel t1.lnLastArrow n1) :
    (evaluateNodeWeightJavaImpl n2 t2).1 = (evaluateNodeWeightJavaImpl n1 t1).1 := by
  by_cases h1 : n1.symbol = anon_sym_DASH_GT
  · simp only [evaluateNodeWeightJavaImpl, hs, hi, hf, he, h1, anon_sym_DASH_GT, anon_sym_else, sym_switch_label, sym_expression_statement, sym_if_statement, sym_local_variable_declaration, sym_do_statement, sym_for_statement]
    simp only [Nat.reduceBEq, Nat.reduceEqDiff, Bool.false_eq_true, if_false, if_true, beq_self_eq_true, Bool.or_false, Bool.or_true, Bool.false_or, Bool.true_or, Bool.or_self, or_false, or_true, false_or, true_or, or_self, ite_true, ite_false, beq_iff_eq, Bool.or_eq_true, Bool.and_eq_true]
    all_goals (first | rfl | (simp only [rowTestJava, hs, *, anon_sym_DASH_GT, anon_sym_else, sym_switch_label, sym_expression_statement, Nat.reduceBEq, Nat.reduceEqDiff, Bool.false_eq_true, if_false, if_true, beq_self_eq_true, Bool.or_false, Bool.or_true, Bool.false_or, Bool.true_or, Bool.or_self, or_false, or_true, false_or, true_or, or_self, ite_true, ite_false, beq_iff_eq, Bool.or_eq_true, Bool.and_eq_true] at htest; split_ifs at htest ⊢ <;> simp_all))
  by_cases h2 : n1.symbol = anon_sym_else
  · simp only [evaluateNodeWeightJavaImpl, hs, hi, hf, he, h2, anon_sym_DASH_GT, anon_sym_else, sym_switch_label, sym_expression_statement, sym_if_statement, sym_local_variable_declaration, sym_do_statement, sym_for_statement]
    simp only [Nat.reduceBEq, Nat.reduceEqDiff, Bool.false_eq_true, if_false, if_true, beq_self_eq_true, Bool.or_false, Bool.or_true, Bool.false_or, Bool.true_or, Bool.or_self, or_false, or_true, false_or, true_or, or_self, ite_true, ite_false, beq_iff_eq, Bool.or_eq_true, Bool.and_eq_true]
    all_goals (first | rfl | (simp only [rowTestJava, hs, *, anon_sym_DASH_GT, anon_sym_else, sym_switch_label, sym_expression_statement, Nat.reduceBEq, Nat.reduceEqDiff, Bool.false_eq_true, if_false, if_true, beq_self_eq_true, Bool.or_false, Bool.or_true, Bool.false_or, Bool.true_or, Bool.or_self, or_false, or_true, false_or, true_or, or_self, ite_true, ite_false, beq_iff_eq, Bool.or_eq_true, Bool.and_eq_true] at htest; split_ifs at htest ⊢ <;> simp_all))
  by_cases h3 : n1.symbol = sym_switch_label
  · simp only [evaluateNodeWeightJavaImpl, hs, hi, hf, he, h3, anon_sym_DASH_GT, anon_sym_else, sym_switch_label, sym_expression_statement, sym_if_statement, sym_local_variable_declaration, sym_do_statement, sym_for_statement]
    simp only [Nat.reduceBEq, Nat.reduceEqDiff, Bool.false_eq_true, if_false, if_true, beq_self_eq_true, Bool.or_false, Bool.or_true, Bool.false_or, Bool.true_or, Bool.or_self, or_false, or_true, false_or, true_or, or_self, ite_true, ite_false, beq_iff_eq, Bool.or_eq_true, Bool.and_eq_true]
    all_goals (first | rfl | (simp only [rowTestJava, hs, *, anon_sym_DASH_GT, anon_sym_else, sym_switch_label, sym_expression_statement, Nat.reduceBEq, Nat.reduceEqDiff, Bool.false_eq_true, if_false, if_true, beq_self_eq_true, Bool.or_false, Bool.or_true, Bool.false_or, Bool.true_or, Bool.or_self, or_false, or_true, false_or, true_or, or_self, ite_true, ite_false, beq_iff_eq, Bool.or_eq_true, Bool.and_eq_true] at htest; split_ifs at htest ⊢ <;> simp_all))
  by_cases h4 : n1.symbol = sym_expression_statement
  · simp only [evaluateNodeWeightJavaImpl, hs, hi, hf, he, h4, anon_sym_DASH_GT, anon_sym_else, sym_switch_label, sym_expression_statement, sym_if_statement, sym_local_variable_declaration, sym_do_statement, sym_for_statement]
    simp only [Nat.reduceBEq, Nat.reduceEqDiff, Bool.false_eq_true, if_false, if_true, beq_self_eq_true, Bool.or_false, Bool.or_true, Bool.false_or, Bool.true_or, Bool.or_self, or_false, or_true, false_or, true_or, or_self, ite_true, ite_false, beq_iff_eq, Bool.or_eq_true, Bool.and_eq_true]
    all_goals (first | rfl | (simp only [rowTestJava, hs, *, anon_sym_DASH_GT, anon_sym_else, sym_switch_label, sym_expression_statement, Nat.reduceBEq, Nat.reduceEqDiff, Bool.false_eq_true, if_false, if_true, beq_self_eq_true, Bool.or_false, Bool.or_true, Bool.false_or, Bool.true_or, Bool.or_self, or_false, or_true, false_or, true_or, or_self, ite_true, ite_false, beq_iff_eq, Bool.or_eq_true, Bool.and_eq_true] at htest; split_ifs at htest ⊢ <;> simp_all))
  by_cases h5 : n1.symbol = sym_if_statement
  · simp only [evaluateNodeWeightJavaImpl, hs, hi, hf, he, h5, anon_sym_DASH_GT, anon_sym_else, sym_switch_label, sym_expression_statement, sym_if_statement, sym_local_variable_declaration, sym_do_statement, sym_for_statement]
    simp only [Nat.reduceBEq, Nat.reduceEqDiff, Bool.false_eq_true, if_false, if_true, beq_self_eq_true, Bool.or_false, Bool.or_true, Bool.false_or, Bool.true_or, Bool.or_self, or_false, or_true, false_or, true_or, or_self, ite_true, ite_false, beq_iff_eq, Bool.or_eq_true, Bool.and_eq_true]
    all_goals (first | rfl | (simp only [rowTestJava, hs, *, anon_sym_DASH_GT, anon_sym_else, sym_switch_label, sym_expression_statement, Nat.reduceBEq, Nat.reduceEqDiff, Bool.false_eq_true, if_false, if_true, beq_self_eq_true, Bool.or_false, Bool.or_true, Bool.false_or, Bool.true_or, Bool.or_self, or_false, or_true, false_or, true_or, or_self, ite_true, ite_false, beq_iff_eq, Bool.or_eq_true, Bool.and_eq_true] at htest; split_ifs at htest ⊢ <;> simp_all))
  by_cases h6 : n1.symbol = sym_local_variable_declaration
  · simp only [evaluateNodeWeightJavaImpl, hs, hi, hf, he, h6, anon_sym_DASH_GT, anon_sym_else, sym_switch_label, sym_expression_statement, sym_if_statement, sym_local_variable_declaration, sym_do_statement, sym_for_statement]
    simp only [Nat.reduceBEq, Nat.reduceEqDiff, Bool.false_eq_true, if_false, if_true, beq_self_eq_true, Bool.or_false, Bool.or_true, Bool.false_or, Bool.true_or, Bool.or_self, or_false, or_true, false_or, true_or, or_self, ite_true, ite_false, beq_iff_eq, Bool.or_eq_true, Bool.and_eq_true]
    all_goals (first | rfl | (simp only [rowTestJava, hs, *, anon_sym_DASH_GT, anon_sym_else, sym_switch_label, sym_expression_statement, Nat.reduceBEq, Nat.reduceEqDiff, Bool.false_eq_true, if_false, if_true, beq_self_eq_true, Bool.or_false, Bool.or_true, Bool.false_or, Bool.true_or, Bool.or_self, or_false, or_true, false_or, true_or, or_self, ite_true, ite_false, beq_iff_eq, Bool.or_eq_true, Bool.and_eq_true] at htest; split_ifs at htest ⊢ <;> simp_all))
  by_cases h7 : n1.symbol = sym_do_statement
  · simp only [evaluateNodeWeightJavaImpl, hs, hi, hf, he, h7, anon_sym_DASH_GT, anon_sym_else, sym_switch_label, sym_expression_statement, sym_if_statement, sym_local_variable_declaration, sym_do_statement, sym_for_statement]
    simp only [Nat.reduceBEq, Nat.reduceEqDiff, Bool.false_eq_true, if_false, if_true, beq_self_eq_true, Bool.or_false, Bool.or_true, Bool.false_or, Bool.true_or, Bool.or_self, or_false, or_true, false_or, true_or, or_self, ite_true, ite_false, beq_iff_eq, Bool.or_eq_true, Bool.and_eq_true]
    all_goals (first | rfl | (simp only [rowTestJava, hs, *, anon_sym_DASH_GT, anon_sym_else, sym_switch_label, sym_expression_statement, Nat.reduceBEq, Nat.reduceEqDiff, Bool.false_eq_true, if_false, if_true, beq_self_eq_true, Bool.or_false, Bool.or_true, Bool.false_or, Bool.true_or, Bool.or_self, or_false, or_true, false_or, true_or, or_self, ite_true, ite_false, beq_iff_eq, Bool.or_eq_true, Bool.and_eq_true] at htest; split_ifs at htest ⊢ <;> simp_all))
  by_cases h8 : n1.symbol = sym_for_statement
  · simp only [evaluateNodeWeightJavaImpl, hs, hi, hf, he, h8, anon_sym_DASH_GT, anon_sym_else, sym_switch_label, sym_expression_statement, sym_if_statement, sym_local_variable_declaration, sym_do_statement, sym_for_statement]
    simp only [Nat.reduceBEq, Nat.reduceEqDiff, Bool.false_eq_true, if_false, if_true, beq_self_eq_true, Bool.or_false, Bool.or_true, Bool.false_or, Bool.true_or, Bool.or_self, or_false, or_true, false_or, true_or, or_self, ite_true, ite_false, beq_iff_eq, Bool.or_eq_true, Bool.and_eq_true]
    all_goals (first | rfl | (simp only [rowTestJava, hs, *, anon_sym_DASH_GT, anon_sym_else, sym_switch_label, sym_expression_statement, Nat.reduceBEq, Nat.reduceEqDiff, Bool.false_eq_true, if_false, if_true, beq_self_eq_true, Bool.or_false, Bool.or_true, Bool.false_or, Bool.true_or, Bool.or_self, or_false, or_true, false_or, true_or, or_self, ite_true, ite_false, beq_iff_eq, Bool.or_eq_true, Bool.and_eq_true] at htest; split_ifs at htest ⊢ <;> simp_all))
  simp only [evaluateNodeWeightJavaImpl, hs, hi, hf, he, beq_iff_eq, Bool.or_eq_true, h1, h2, h3, h4, h5, h6, h7, h8, if_false, or_self, ite_false]
  all_goals (first | rfl | (simp only [rowTestJava, hs, *, anon_sym_DASH_GT, anon_sym_else, sym_switch_label, sym_expression_statement, Nat.reduceBEq, Nat.reduceEqDiff, Bool.false_eq_true, if_false, if_true, beq_self_eq_true, Bool.or_false, Bool.or_true, Bool.false_or, Bool.true_or, Bool.or_self, or_false, or_true, false_or, true_or, or_self, ite_true, ite_false, beq_iff_eq, Bool.or_eq_true, Bool.and_eq_true] at htest; split_ifs at htest ⊢ <;> simp_all))

open SymbolIdentifiersC in
theorem evaluateNodeC_fields (node : TSNode) (trace : NodeEvalTrace) :
    (evaluateNodeC node trace).count
      = addCount trace.count (evaluateNodeWeightCimpl node trace).1 ∧
    (evaluateNodeC node trace).idx = (trace.idx + 1) % 2 ^ 64 ∧
    (evaluateNodeC node trace).idxLastForSym
      = (if node.symbol = sym_for_statement then trace.idx else trace.idxLastForSym) ∧
    (evaluateNodeC node trace).idxLastElse
      = (if node.symbol = sym_else_clause then trace.idx else trace.idxLastElse) ∧
    (evaluateNodeC node trace).idxLastTypeDef
      = (if node.symbol = sym_type_definition then trace.idx else trace.idxLastTypeDef) ∧
    (evaluateNodeC node trace).lnLastDecl
      = (if node.symbol = sym_declaration then currentLine node else trace.lnLastDecl) ∧
    (evaluateNodeC node trace).lnLastExpr
      = (if node.symbol = sym__top_level_expression_statement
            ∨ node.symbol = sym_expression_statement
         then currentLine node else trace.lnLastExpr) ∧
    (evaluateNodeC node trace).lnLastSwitchLabel = trace.lnLastSwitchLabel ∧
    (evaluateNodeC node trace).lnLastArrow = trace.lnLastArrow ∧
    (evaluateNodeC node trace).ctx = trace.ctx := by
  simp only [evaluateNodeC]
  rw [evaluateNodeWeightCimpl_trace]
  exact ⟨rfl, rfl, rfl, rfl, rfl, rfl, rfl, rfl, rfl, rfl⟩

open SymbolIdentifiersJava in
theorem evaluateNodeJava_fields (node : TSNode) (trace : NodeEvalTrace) :
    (evaluateNodeJava node trace).count
      = addCount trace.count (evaluateNodeWeightJavaImpl node trace).1 ∧
    (evaluateNodeJava node trace).idx = (trace.idx + 1) % 2 ^ 64 ∧
    (evaluateNodeJava node trace).idxLastForSym
      = (if node.symbol = sym_for_statement then trace.idx else trace.idxLastForSym) ∧
    (evaluateNodeJava node trace).idxLastElse
      = (if node.symbol = anon_sym_else then trace.idx else trace.idxLastElse) ∧
    (evaluateNodeJava node trace).idxLastTypeDef = trace.idxLastTypeDef ∧
    (evaluateNodeJava node trace).lnLastDecl = trace.lnLastDecl ∧
    (evaluateNodeJava node trace).lnLastExpr = trace.lnLastExpr ∧
    (evaluateNodeJava node trace).lnLastSwitchLabel
      = (if node.symbol = sym_switch_label then currentLine node
         else trace.lnLastSwitchLabel) ∧
    (evaluateNodeJava node trace).lnLastArrow
      = (if node.symbol = anon_sym_DASH_GT then currentLine node else trace.lnLastArrow) ∧
    (evaluateNodeJava node trace).ctx = trace.ctx := by
  simp only [evaluateNodeJava]
  rw [evaluateNodeWeightJavaImpl_trace]
  exact ⟨rfl, rfl, rfl, rfl, rfl, rfl, rfl, rfl, rfl, rfl⟩

theorem walk_evaluateNodeC_same :
    ∀ (nodes1 nodes2 : List TSNode) (t1 t2 : NodeEvalTrace),
      nodes1.map (fun node => node.symbol) = nodes2.map (fun node => node.symbol) →
      SameButLines t1 t2 →
      rowTestsCFrom t1.lnLastDecl t1.lnLastExpr nodes1
        = rowTestsCFrom t2.lnLastDecl t2.lnLastExpr nodes2 →
      SameButLines (walk evaluateNodeC nodes1 t1) (walk evaluateNodeC nodes2 t2)
  | [], [], _, _, _, h, _ => h
  | [], _ :: _, _, _, hk, _, _ => by simp at hk
  | _ :: _, [], _, _, hk, _, _ => by simp at hk
  | n1 :: rest1, n2 :: rest2, t1, t2, hk, h, ht => by
    simp only [List.map_cons, List.cons.injEq] at hk
    simp only [rowTestsCFrom, List.cons.injEq] at ht
    obtain ⟨hc, hi, hf, he, htd⟩ := h
    obtain ⟨c1, i1, f1, e1, d1, ld1, le1, _, _, _⟩ := evaluateNodeC_fields n1 t1
    obtain ⟨c2, i2, f2, e2, d2, ld2, le2, _, _, _⟩ := evaluateNodeC_fields n2 t2
    have hw := evaluateNodeWeightCimpl_congr n1 n2 t1 t2 hk.1.symm hi.symm hf.symm he.symm
      htd.symm ht.1.symm
    rw [walk_cons, walk_cons]
    apply walk_evaluateNodeC_same rest1 rest2 _ _ hk.2
    · refine ⟨?_, ?_, ?_, ?_, ?_⟩
      · rw [c1, c2, hw, hc]
      · rw [i1, i2, hi]
      · rw [f1, f2, hk.1, hi, hf]
      · rw [e1, e2, hk.1, hi, he]
      · rw [d1, d2, hk.1, hi, htd]
    · rw [ld1, le1, ld2, le2]
      exact ht.2

theorem walk_evaluateNodeJava_same :
    ∀ (nodes1 nodes2 : List TSNode) (t1 t2 : NodeEvalTrace),
      nodes1.map (fun node => node.symbol) = nodes2.map (fun node => node.symbol) →
      SameButLines t1 t2 →
      rowTestsJavaFrom t1.lnLastSwitchLabel t1.lnLastArrow nodes1
        = rowTestsJavaFrom t2.lnLastSwitchLabel t2.lnLastArrow nodes2 →
      SameButLines (walk evaluateNodeJava nodes1 t1) (walk evaluateNodeJava nodes2 t2)
  | [], [], _, _, _, h, _ => h
  | [], _ :: _, _, _, hk, _, _ => by simp at hk
  | _ :: _, [], _, _, hk, _, _ => by simp at hk
  | n1 :: rest1, n2 :: rest2, t1, t2, hk, h, ht => by
    simp only [List.map_cons, List.cons.injEq] at hk
    simp only [rowTestsJavaFrom, List.cons.injEq] at ht
    obtain ⟨hc, hi, hf, he, htd⟩ := h
    obtain ⟨c1, i1, f1, e1, d1, _, _, ls1, la1, _⟩ := evaluateNodeJava_fields n1 t1
    obtain ⟨c2, i2, f2, e2, d2, _, _, ls2, la2, _⟩ := evaluateNodeJava_fields n2 t2
    have hw := evaluateNodeWeightJavaImpl_congr n1 n2 t1 t2 hk.1.symm hi.symm hf.symm he.symm
      ht.1.symm
    rw [walk_cons, walk_cons]
    apply walk_evaluateNodeJava_same rest1 rest2 _ _ hk.2
    · refine ⟨?_, ?_, ?_, ?_, ?_⟩
      · rw [c1, c2, hw, hc]
      · rw [i1, i2, hi]
      · rw [f1, f2, hk.1, hi, hf]
      · rw [e1, e2, hk.1, hi, he]
      · rw [d1, d2, htd]
    · rw [ls1, la1, ls2, la2]
      exact ht.2

open SymbolIdentifiersC in
theorem rowTestsCFrom_without_specifier (lastDecl lastExpr : Nat) :
    ∀ (nodes : List TSNode) (a b : Nat),
      (∀ node ∈ nodes, node.symbol ≠ sym_struct_specifier ∧
        node.symbol ≠ sym_enum_specifier ∧ node.symbol ≠ sym_union_specifier) →
      rowTestsCFrom a b nodes = List.replicate nodes.length false
  | [], _, _, _ => rfl
  | node :: rest, a, b, h => by
    obtain ⟨h1, h2, h3⟩ := h node (List.mem_cons_self _ _)
    simp only [rowTestsCFrom, rowTestC, h1, h2, h3, if_false, or_self, List.length_cons,
      List.replicate_succ, List.cons.injEq, true_and]
    exact rowTestsCFrom_without_specifier lastDecl lastExpr rest _ _
      (fun n hn => h n (List.mem_cons_of_mem _ hn))

open SymbolIdentifiersJava in
theorem rowTestsJavaFrom_without_statement (lastSwitchLabel lastArrow : Nat) :
    ∀ (nodes : List TSNode) (a b : Nat),
      (∀ node ∈ nodes, node.symbol ≠ sym_expression_statement) →
      rowTestsJavaFrom a b nodes = List.replicate nodes.length false
  | [], _, _, _ => rfl
  | node :: rest, a, b, h => by
    have h1 := h node (List.mem_cons_self _ _)
    simp only [rowTestsJavaFrom, rowTestJava, h1, if_false, List.length_cons,
      List.replicate_succ, List.cons.injEq, true_and]
    exact rowTestsJavaFrom_without_statement lastSwitchLabel lastArrow rest _ _
      (fun n hn => h n (List.mem_cons_of_mem _ hn))

theorem kinds_transfer (p : Nat → Prop) (nodes1 nodes2 : List TSNode)
    (hk : nodes1.map (fun node => node.symbol) = nodes2.map (fun node => node.symbol))
    (h : ∀ node ∈ nodes1, p node.symbol) : ∀ node ∈ nodes2, p node.symbol := by
  intro node hn
  have hm : node.symbol ∈ nodes2.map (fun node => node.symbol) :=
    List.mem_map_of_mem (fun node => node.symbol) hn
  rw [← hk, List.mem_map] at hm
  obtain ⟨n1, hn1, he⟩ := hm
  rw [← he]
  exact h n1 hn1

theorem evaluateNodeC_frame (node : TSNode) (trace : NodeEvalTrace) (count : Nat)
    (ctx : Option AnnotationContext) :
    evaluateNodeC node { trace with count := count, ctx := ctx } =
      { evaluateNodeC node trace with
        count := addCount count (evaluateNodeWeightCimpl node trace).1, ctx := ctx } := by
  simp only [evaluateNodeC]
  rw [evaluateNodeWeightCimpl_frame]

theorem evaluateNodeJava_frame (node : TSNode) (trace : NodeEvalTrace) (count : Nat)
    (ctx : Option AnnotationContext) :
    evaluateNodeJava node { trace with count := count, ctx := ctx } =
      { evaluateNodeJava node trace with
        count := addCount count (evaluateNodeWeightJavaImpl node trace).1, ctx := ctx } := by
  simp only [evaluateNodeJava]
  rw [evaluateNodeWeightJavaImpl_frame]

theorem evaluator_frame (language : RcnTextFormat)
    (evaluator : TSNode → NodeEvalTrace → NodeEvalTrace)
    (h : createEvaluationFunction language = some evaluator)
    (node : TSNode) (trace : NodeEvalTrace) (count : Nat) (ctx : Option AnnotationContext) :
    evaluator node { trace with count := count, ctx := ctx } =
      { evaluator node trace with
        count := addCount count (languageWeight language node trace), ctx := ctx } := by
  cases language with
  | RCN_TEXT_UNFORMATTED => simp [createEvaluationFunction] at h
  | RCN_TEXT_MARKDOWN => simp [createEvaluationFunction] at h
  | RCN_LANG_C =>
    simp only [createEvaluationFunction, Option.some.injEq] at h
    subst h; exact evaluateNodeC_frame node trace count ctx
  | RCN_LANG_JAVA =>
    simp only [createEvaluationFunction, Option.some.injEq] at h
    subst h; exact evaluateNodeJava_frame node trace count ctx

theorem evaluator_fields (language : RcnTextFormat)
    (evaluator : TSNode → NodeEvalTrace → NodeEvalTrace)
    (h : createEvaluationFunction language = some evaluator)
    (node : TSNode) (trace : NodeEvalTrace) :
    (evaluator node trace).count = addCount trace.count (languageWeight language node trace) ∧
    (evaluator node trace).idx = (trace.idx + 1) % 2 ^ 64 ∧
    (evaluator node trace).ctx = trace.ctx ∧
    languageWeight language node trace ≤ 2 := by
  cases language with
  | RCN_TEXT_UNFORMATTED => simp [createEvaluationFunction] at h
  | RCN_TEXT_MARKDOWN => simp [createEvaluationFunction] at h
  | RCN_LANG_C =>
    simp only [createEvaluationFunction, Option.some.injEq] at h
    subst h
    have f := evaluateNodeC_fields node trace
    exact ⟨f.1, f.2.1, f.2.2.2.2.2.2.2.2.2, evaluateNodeWeightCimpl_le node trace⟩
  | RCN_LANG_JAVA =>
    simp only [createEvaluationFunction, Option.some.injEq] at h
    subst h
    have f := evaluateNodeJava_fields node trace
    exact ⟨f.1, f.2.1, f.2.2.2.2.2.2.2.2.2, evaluateNodeWeightJavaImpl_le node trace⟩

theorem languageWeight_frame (language : RcnTextFormat) (node : TSNode)
    (trace : NodeEvalTrace) (count : Nat) (ctx : Option AnnotationContext) :
    languageWeight language node { trace with count := count, ctx := ctx }
      = languageWeight language node trace := by
  cases language with
  | RCN_TEXT_UNFORMATTED => rfl
  | RCN_TEXT_MARKDOWN => rfl
  | RCN_LANG_C => simp only [languageWeight]; rw [evaluateNodeWeightCimpl_frame]
  | RCN_LANG_JAVA => simp only [languageWeight]; rw [evaluateNodeWeightJavaImpl_frame]

theorem annotate_step (memory : AnnotationMemory) (node : TSNode) (trace : NodeEvalTrace)
    (ctx : AnnotationContext)
    (evaluator : TSNode → NodeEvalTrace → NodeEvalTrace)
    (hctx : trace.ctx = some ctx)
    (he : createEvaluationFunction ctx.language = some evaluator)
    (hrow : node.row < ctx.lineCount) :
    annotateLineWithNodeType memory node trace =
      { evaluator node trace with
        count := 0,
        ctx := some
          (if languageWeight ctx.language node trace ≠ 0 then
            { ctx with lines :=
                (recordOnLine (memory.record trace.idx)
                  (languageWeight ctx.language node trace) node.type ctx.lines node.row) }
           else ctx) } := by
  have hw := (evaluator_fields ctx.language evaluator he node trace).2.2.2
  have hf := evaluator_frame ctx.language evaluator he node trace 0 (some ctx)
  have hz : addCount 0 (languageWeight ctx.language node trace)
      = languageWeight ctx.language node trace := by
    unfold addCount
    omega
  unfold annotateLineWithNodeType
  simp only [hctx, he, ge_iff_le, Nat.not_le.mpr hrow, if_false]
  rw [hf, hz]
  by_cases h0 : languageWeight ctx.language node trace = 0
  · simp [h0]
  · simp [h0]

theorem annotate_skip (memory : AnnotationMemory) (node : TSNode) (trace : NodeEvalTrace)
    (ctx : AnnotationContext)
    (hctx : trace.ctx = some ctx) (hrow : ctx.lineCount ≤ node.row) :
    annotateLineWithNodeType memory node trace = trace := by
  unfold annotateLineWithNodeType
  simp only [hctx, ge_iff_le, hrow, if_true]

theorem evaluatedVisits_frame (memory : AnnotationMemory) (language : RcnTextFormat)
    (evaluator : TSNode → NodeEvalTrace → NodeEvalTrace)
    (he : createEvaluationFunction language = some evaluator) (lineCount : Nat) :
    ∀ (nodes : List TSNode) (trace : NodeEvalTrace) (count : Nat)
      (ctx : Option AnnotationContext),
      evaluatedVisits memory language evaluator lineCount nodes
          { trace with count := count, ctx := ctx }
        = evaluatedVisits memory language evaluator lineCount nodes trace
  | [], _, _, _ => rfl
  | node :: rest, trace, count, ctx => by
    simp only [evaluatedVisits]
    rw [languageWeight_frame, evaluator_frame language evaluator he,
      evaluatedVisits_frame memory language evaluator he lineCount rest (evaluator node trace),
      evaluatedVisits_frame memory language evaluator he lineCount rest trace]

theorem walk_annotate (memory : AnnotationMemory)
    (evaluator : TSNode → NodeEvalTrace → NodeEvalTrace) :
    ∀ (nodes : List TSNode) (trace : NodeEvalTrace) (ctx : AnnotationContext),
      trace.ctx = some ctx →
      createEvaluationFunction ctx.language = some evaluator →
      (walk (annotateLineWithNodeType memory) nodes trace).ctx =
        some { ctx with lines :=
          (recordVisits ctx.lines
            (evaluatedVisits memory ctx.language evaluator ctx.lineCount nodes trace)) }
  | [], trace, ctx, hctx, _ => by
    rw [walk_nil, hctx]; rfl
  | node :: rest, trace, ctx, hctx, he => by
    rw [walk_cons]
    by_cases hrow : node.row < ctx.lineCount
    · rw [annotate_step memory node trace ctx evaluator hctx he hrow]
      by_cases h0 : languageWeight ctx.language node trace = 0
      · rw [walk_annotate memory evaluator rest _ ctx (by simp [h0]) he]
        simp only [evaluatedVisits, hrow, if_true, recordVisits, List.foldl_cons, h0, ne_eq,
          not_true_eq_false, if_false]
        rw [evaluatedVisits_frame memory ctx.language evaluator he]
      · rw [walk_annotate memory evaluator rest _
          { ctx with lines :=
              (recordOnLine (memory.record trace.idx)
                (languageWeight ctx.language node trace) node.type ctx.lines
                node.row) } (by simp [h0]) he]
        simp only [evaluatedVisits, hrow, if_true, recordVisits, List.foldl_cons, h0, ne_eq,
          not_false_eq_true]
        rw [evaluatedVisits_frame memory ctx.language evaluator he]
    · rw [annotate_skip memory node trace ctx hctx (Nat.le_of_not_lt hrow)]
      rw [walk_annotate memory evaluator rest trace ctx hctx he]
      simp only [evaluatedVisits, hrow, if_false]

theorem recordOnLine_length (allocated : Bool) (w : Nat) (name : List Nat) :
    ∀ (lines : List LineCommentBuffer) (row : Nat),
      (recordOnLine allocated w name lines row).length = lines.length
  | [], _ => rfl
  | _ :: _, 0 => rfl
  | _ :: rest, row + 1 => by
    simp only [recordOnLine, List.length_cons, recordOnLine_length allocated w name rest row]

theorem recordOnLine_getD (allocated : Bool) (w : Nat) (name : List Nat) :
    ∀ (lines : List LineCommentBuffer) (row r : Nat),
      (recordOnLine allocated w name lines row).getD r {} =
        if r = row ∧ r < lines.length then
          linebufferRecordType allocated
            { lines.getD r {} with weight := addCount (lines.getD r {}).weight w } name
        else lines.getD r {}
  | [], _, _ => by simp [recordOnLine]
  | buffer :: rest, 0, 0 => by simp [recordOnLine]
  | buffer :: rest, 0, r + 1 => by simp [recordOnLine]
  | buffer :: rest, row + 1, 0 => by simp [recordOnLine]
  | buffer :: rest, row + 1, r + 1 => by
    simp only [recordOnLine, List.getD_cons_succ, recordOnLine_getD allocated w name rest row r,
      List.length_cons, Nat.add_lt_add_iff_right, Nat.add_right_cancel_iff]

theorem recordVisits_length :
    ∀ (visits : List (TSNode × Nat × Bool)) (lines : List LineCommentBuffer),
      (recordVisits lines visits).length = lines.length
  | [], _ => rfl
  | visit :: rest, lines => by
    simp only [recordVisits, List.foldl_cons]
    have := recordVisits_length rest
      (if visit.2.1 ≠ 0 then
        recordOnLine visit.2.2 visit.2.1 visit.1.type lines visit.1.row else lines)
    simp only [recordVisits] at this
    rw [this]
    split_ifs
    · exact recordOnLine_length _ _ _ _ _
    · rfl

theorem recordedOnRow_cons_skip (r : Nat) (visit : TSNode × Nat × Bool)
    (rest : List (TSNode × Nat × Bool))
    (h : (visit.1.row == r && visit.2.1 != 0) = false) :
    recordedOnRow r (visit :: rest) = recordedOnRow r rest := by
  simp only [recordedOnRow, List.filter_cons, h, Bool.false_eq_true, if_false]

theorem recordedOnRow_cons_keep (r : Nat) (visit : TSNode × Nat × Bool)
    (rest : List (TSNode × Nat × Bool))
    (h : (visit.1.row == r && visit.2.1 != 0) = true) :
    recordedOnRow r (visit :: rest) = visit :: recordedOnRow r rest := by
  simp only [recordedOnRow, List.filter_cons, h, if_true]

theorem recordedNames_cons (visit : TSNode × Nat × Bool) (rest : List (TSNode × Nat × Bool)) :
    recordedNames (visit :: rest) =
      (if visit.2.2 = true then [shownKindName visit.1] else []) ++ recordedNames rest := by
  unfold recordedNames
  by_cases h : visit.2.2 = true
  · simp [List.filter_cons, h]
  · simp [List.filter_cons, h]

theorem recordVisits_getD (r : Nat) :
    ∀ (visits : List (TSNode × Nat × Bool)) (lines : List LineCommentBuffer),
      r < lines.length →
      ((recordVisits lines visits).getD r {}).ptr = (lines.getD r {}).ptr ∧
      ((recordVisits lines visits).getD r {}).symbolTypes =
        (lines.getD r {}).symbolTypes ++ recordedNames (recordedOnRow r visits) ∧
      ((recordVisits lines visits).getD r {}).weight % 2 ^ 64 =
        ((lines.getD r {}).weight +
          ((recordedOnRow r visits).map (fun visit => visit.2.1)).sum) % 2 ^ 64
  | [], lines, _ => by simp [recordVisits, recordedOnRow, recordedNames]
  | visit :: rest, lines, hr => by
    have hfold : recordVisits lines (visit :: rest) = recordVisits
        (if visit.2.1 ≠ 0 then
          recordOnLine visit.2.2 visit.2.1 visit.1.type lines visit.1.row else lines)
        rest := rfl
    rw [hfold]
    by_cases h0 : visit.2.1 = 0
    · have hskip : (visit.1.row == r && visit.2.1 != 0) = false := by simp [h0]
      rw [recordedOnRow_cons_skip r visit rest hskip]
      simp only [h0, ne_eq, not_true_eq_false, if_false]
      exact recordVisits_getD r rest lines hr
    · simp only [ne_eq, h0, not_false_eq_true, if_true]
      obtain ⟨ih1, ih2, ih3⟩ := recordVisits_getD r rest
        (recordOnLine visit.2.2 visit.2.1 visit.1.type lines visit.1.row)
        (by rw [recordOnLine_length]; exact hr)
      rw [ih1, ih2, ih3, recordOnLine_getD]
      by_cases hrow : visit.1.row = r
      · have hkeep : (visit.1.row == r && visit.2.1 != 0) = true := by simp [h0, hrow]
        rw [recordedOnRow_cons_keep r visit rest hkeep, recordedNames_cons]
        rw [if_pos ⟨hrow.symm, hr⟩]
        by_cases ha : visit.2.2 = true
        · refine ⟨by simp [linebufferRecordType, ha], ?_, ?_⟩
          · simp only [linebufferRecordType, ha, Bool.not_true, Bool.false_eq_true, if_false,
              if_true, shownKindName, List.append_assoc, List.singleton_append]
            congr 2
            simp
          · simp only [linebufferRecordType, ha, Bool.not_true, Bool.false_eq_true, if_false,
              addCount, List.map_cons, List.sum_cons]
            omega
        · have ha' : visit.2.2 = false := by simpa using ha
          refine ⟨by simp [linebufferRecordType, ha'], ?_, ?_⟩
          · simp [linebufferRecordType, ha']
          · simp only [linebufferRecordType, ha', Bool.not_false, if_true, addCount,
              List.map_cons, List.sum_cons]
            omega
      · have hskip : (visit.1.row == r && visit.2.1 != 0) = false := by simp [hrow]
        rw [recordedOnRow_cons_skip r visit rest hskip]
        rw [if_neg (fun h => hrow h.1.symm)]
        exact ⟨rfl, rfl, rfl⟩

theorem cstring_of_nonzero (l : List Nat) (h : ∀ c ∈ l, c ≠ 0) : cstring l = l := by
  unfold cstring
  rw [List.takeWhile_eq_self_iff]
  intro c hc
  simpa using h c hc

theorem cstring_nonzero (l : List Nat) : ∀ c ∈ cstring l, c ≠ 0 := by
  intro c hc
  have := List.mem_takeWhile_imp hc
  simpa using this

theorem shownKindName_nonzero (node : TSNode) : ∀ c ∈ shownKindName node, c ≠ 0 := by
  intro c hc
  simp only [shownKindName, List.mem_map] at hc
  obtain ⟨d, hd, he⟩ := hc
  have hd0 := cstring_nonzero _ d hd
  rw [← he]
  split_ifs
  · decide
  · exact hd0

theorem digitChar_toNat_ne_zero : ∀ d < 10, (Nat.digitChar d).toNat ≠ 0 := by
  decide

theorem toDigitsCore_nonzero :
    ∀ (fuel n : Nat) (acc : List Char), (∀ c ∈ acc, c.toNat ≠ 0) →
      ∀ c ∈ Nat.toDigitsCore 10 fuel n acc, c.toNat ≠ 0
  | 0, _, acc, h => by simpa [Nat.toDigitsCore] using h
  | fuel + 1, n, acc, h => by
    have hacc : ∀ c ∈ Nat.digitChar (n % 10) :: acc, c.toNat ≠ 0 := by
      intro c hc
      rcases List.mem_cons.mp hc with hc | hc
      · rw [hc]; exact digitChar_toNat_ne_zero _ (Nat.mod_lt _ (by decide))
      · exact h c hc
    simp only [Nat.toDigitsCore]
    split_ifs
    · exact hacc
    · exact toDigitsCore_nonzero fuel _ _ hacc

theorem decimalDigits_nonzero (n : Nat) : ∀ c ∈ decimalDigits n, c ≠ 0 := by
  intro c hc
  simp only [decimalDigits, Nat.toDigits, List.mem_map] at hc
  obtain ⟨d, hd, he⟩ := hc
  rw [← he]
  exact toDigitsCore_nonzero _ _ [] (by simp) d hd

theorem appendSymbolTypes_ptr :
    ∀ (names : List (List Nat)) (buffer : LineCommentBuffer),
      (∀ name ∈ names, ∀ c ∈ name, c ≠ 0) →
      appendSymbolTypes buffer names =
        { buffer with ptr := buffer.ptr ++ List.intercalate [0x2c, 0x20] names }
  | [], buffer, _ => by simp [appendSymbolTypes, List.intercalate]
  | [name], buffer, h => by
    have hn := cstring_of_nonzero name (h name (by simp))
    simp [appendSymbolTypes, linebufferAppend, hn, List.intercalate]
  | name :: next :: rest, buffer, h => by
    have hn := cstring_of_nonzero name (h name (by simp))
    have hs : cstring [0x2c, 0x20] = [0x2c, 0x20] := by decide
    rw [appendSymbolTypes, appendSymbolTypes_ptr (next :: rest) _
      (fun n hm => h n (List.mem_cons_of_mem _ hm))]
    simp only [linebufferAppend, hn, hs, List.append_assoc]
    congr 1
    simp [List.intercalate, List.intersperse]

theorem finalizeLineComment_ptr (language : RcnTextFormat) (reserved : Bool) (weight : Nat)
    (names : List (List Nat)) (h : ∀ name ∈ names, ∀ c ∈ name, c ≠ 0) :
    (finalizeLineComment language reserved
        { ptr := [], weight := weight, symbolTypes := names }).ptr =
      if names = [] ∨ reserved = false then []
      else [0x20, 0x2f, 0x2f, 0x20, 0x2b] ++ decimalDigits (weight % 2 ^ 64) ++ [0x20, 0x28] ++
        List.intercalate [0x2c, 0x20] names ++ [0x29] := by
  by_cases hn : names = []
  · subst hn
    simp [finalizeLineComment, LineCommentBuffer.symbolCount]
  · have hc : (names.length == 0) = false := by
      cases names with
      | nil => exact absurd rfl hn
      | cons _ _ => rfl
    cases reserved with
    | false =>
      simp [finalizeLineComment, LineCommentBuffer.symbolCount, hc]
    | true =>
      have hd : cstring (weightBuffer weight) = decimalDigits (weight % 2 ^ 64) :=
        cstring_of_nonzero _ (decimalDigits_nonzero _)
      have h1 : cstring [0x20] = [0x20] := by decide
      have h2 : cstring [0x2f, 0x2f] = [0x2f, 0x2f] := by decide
      have h3 : cstring [0x20, 0x2b] = [0x20, 0x2b] := by decide
      have h4 : cstring [0x20, 0x28] = [0x20, 0x28] := by decide
      have h5 : cstring [0x29] = [0x29] := by decide
      have hor : ¬ (names = [] ∨ true = false) := by simp [hn]
      simp only [finalizeLineComment, LineCommentBuffer.symbolCount, hc, Bool.false_eq_true,
        Bool.not_true, if_false, linebufferAppend, getInlineSourceCommentString, h1, h2, h3, h4,
        h5, hd, appendSymbolTypes_ptr names _ h, if_neg hor, List.nil_append,
        List.append_assoc, List.cons_append, List.singleton_append]

theorem finalizeLinesFrom_length (memory : AnnotationMemory) (language : RcnTextFormat) :
    ∀ (lines : List LineCommentBuffer) (i : Nat),
      (finalizeLinesFrom memory language i lines).length = lines.length
  | [], _ => rfl
  | _ :: rest, i => by
    simp only [finalizeLinesFrom, List.length_cons,
      finalizeLinesFrom_length memory language rest (i + 1)]

theorem finalizeLinesFrom_getD (memory : AnnotationMemory) (language : RcnTextFormat) :
    ∀ (lines : List LineCommentBuffer) (i r : Nat), r < lines.length →
      (finalizeLinesFrom memory language i lines).getD r {} =
        finalizeLineComment language (memory.reserve (i + r)) (lines.getD r {})
  | [], _, _, h => by simp at h
  | _ :: _, i, 0, _ => by simp [finalizeLinesFrom]
  | _ :: rest, i, r + 1, h => by
    simp only [finalizeLinesFrom, List.getD_cons_succ]
    rw [finalizeLinesFrom_getD memory language rest (i + 1) r (by simpa using h)]
    congr 2
    omega

theorem annotatedContext_eq (memory : AnnotationMemory) (language : RcnTextFormat)
    (evaluator : TSNode → NodeEvalTrace → NodeEvalTrace)
    (hlang : createEvaluationFunction language = some evaluator)
    (lineCount : Nat) (nodes : List TSNode) :
    annotatedContext memory language lineCount nodes =
      finalizeLineComments memory
        { freshContext language lineCount with lines :=
            (recordVisits (List.replicate lineCount {})
              (evaluatedVisits memory language evaluator lineCount nodes
                NodeEvalTrace.zero)) } := by
  unfold annotatedContext
  rw [walk_annotate memory evaluator nodes _ (freshContext language lineCount) rfl hlang]
  have hf := evaluatedVisits_frame memory language evaluator hlang lineCount nodes
    NodeEvalTrace.zero 0 (some (freshContext language lineCount))
  simp only [freshContext] at hf ⊢
  rw [← hf]
  rfl

theorem lineComment_annotatedContext (memory : AnnotationMemory) (language : RcnTextFormat)
    (evaluator : TSNode → NodeEvalTrace → NodeEvalTrace)
    (hlang : createEvaluationFunction language = some evaluator)
    (lineCount : Nat) (nodes : List TSNode) (row : Nat) (hrow : row < lineCount) :
    lineComment (annotatedContext memory language lineCount nodes) row =
      renderedComment (memory.reserve row) (recordedOnRow row
        (evaluatedVisits memory language evaluator lineCount nodes NodeEvalTrace.zero)) := by
  rw [annotatedContext_eq memory language evaluator hlang]
  generalize evaluatedVisits memory language evaluator lineCount nodes NodeEvalTrace.zero
    = visits
  have hlen : row < (List.replicate lineCount ({} : LineCommentBuffer)).length := by
    simpa using hrow
  obtain ⟨h1, h2, h3⟩ := recordVisits_getD row visits (List.replicate lineCount {}) hlen
  have hget : (List.replicate lineCount ({} : LineCommentBuffer)).getD row {} = {} := by
    simp [List.getD, List.getElem?_replicate, hrow]
  rw [hget] at h1 h2 h3
  simp only [List.nil_append, Nat.zero_add] at h1 h2 h3
  have hlen2 : row < (recordVisits (List.replicate lineCount {}) visits).length := by
    rw [recordVisits_length]; exact hlen
  have hmap : (finalizeLinesFrom memory language 0
      (recordVisits (List.replicate lineCount {}) visits)).getD row {} =
      finalizeLineComment language (memory.reserve row)
        ((recordVisits (List.replicate lineCount {}) visits).getD row {}) := by
    rw [finalizeLinesFrom_getD memory language _ 0 row hlen2, Nat.zero_add]
  simp only [lineComment, finalizeLineComments, freshContext, hrow, if_true, hmap]
  generalize (recordVisits (List.replicate lineCount {}) visits).getD row {} = buffer
    at h1 h2 h3
  obtain ⟨ptr, weight, symbolTypes⟩ := buffer
  simp only at h1 h2 h3
  subst h1 h2
  rw [finalizeLineComment_ptr language (memory.reserve row) weight _ (by
    intro name hname c hc
    simp only [recordedNames, List.mem_map] at hname
    obtain ⟨visit, _, hv⟩ := hname
    rw [← hv] at hc
    exact shownKindName_nonzero visit.1 c hc)]
  unfold renderedComment
  by_cases he : recordedNames (recordedOnRow row visits) = [] ∨ memory.reserve row = false
  · rw [if_pos he, if_pos he]
  · rw [if_neg he, if_neg he, h3]

theorem recordedNames_of_recorded (recorded : List (TSNode × Nat × Bool))
    (h : ∀ visit ∈ recorded, visit.2.2 = true) :
    recordedNames recorded = recorded.map (fun visit => shownKindName visit.1) := by
  unfold recordedNames
  rw [List.filter_eq_self.mpr h]

theorem renderedComment_of_recorded (reserved : Bool) (recorded : List (TSNode × Nat × Bool))
    (h : ∀ visit ∈ recorded, visit.2.2 = true) :
    renderedComment reserved recorded =
      if recorded = [] ∨ reserved = false then []
      else
        [0x20, 0x2f, 0x2f, 0x20, 0x2b] ++
          decimalDigits ((recorded.map (fun visit => visit.2.1)).sum % 2 ^ 64) ++
          [0x20, 0x28] ++
          List.intercalate [0x2c, 0x20] (recorded.map (fun visit => shownKindName visit.1)) ++
          [0x29] := by
  unfold renderedComment
  rw [recordedNames_of_recorded recorded h]
  simp only [List.map_eq_nil_iff]

theorem getD_append_length (pre : List Nat) (b : Nat) (rest : List Nat) :
    (pre ++ b :: rest).getD pre.length 0 = b := by
  have h : (pre ++ b :: rest)[pre.length]? = some b := by
    rw [List.getElem?_append_right (Nat.le_refl _)]
    simp
  simp [List.getD_eq_getElem?_getD, h]

theorem getD_append_length_succ (pre : List Nat) (b c : Nat) (rest : List Nat) :
    (pre ++ b :: c :: rest).getD (pre.length + 1) 0 = c := by
  have h := getD_append_length (pre ++ [b]) c rest
  simpa using h

theorem mergeLoop_eq (ctx : AnnotationContext) (src : List Nat) :
    ∀ (fuel : Nat) (tail pre : List Nat) (i lineIndex : Nat) (annotated : List Nat),
      src = pre ++ tail → i = pre.length → tail.length ≤ fuel →
      mergeLoop src src.length ctx fuel i lineIndex annotated
        = mergeTail (lineComment ctx) lineIndex annotated tail := by
  intro fuel
  induction fuel using Nat.strong_induction_on with
  | _ fuel ih =>
    intro tail pre i lineIndex annotated hsrc hi hfuel
    match tail, fuel, hfuel with
    | [], 0, _ => simp [mergeLoop, mergeTail]
    | [], fuel + 1, _ =>
      have hge : ¬ i < src.length := by rw [hsrc, hi]; simp
      unfold mergeLoop
      simp only [hge, if_false, mergeTail]
    | [b], fuel + 1, _ =>
      have hlt : i < src.length := by rw [hsrc, hi]; simp
      have hb : src.getD i 0 = b := by rw [hsrc, hi]; exact getD_append_length pre b []
      have hnext : ¬ (i + 1 < src.length) := by rw [hsrc, hi]; simp
      have hrec := fun k a => ih fuel (Nat.lt_succ_self _) [] (pre ++ [b]) (i + 1) k a
        (by rw [hsrc]; simp) (by rw [hi]; simp) (Nat.zero_le _)
      simp only [mergeTail] at hrec
      unfold mergeLoop
      simp only [hlt, if_true, checkIsNewline, hb, hnext, decide_False, Bool.false_and,
        Bool.and_false, Bool.false_eq_true, if_false, mergeTail]
      by_cases h : b = 0x0a
      · subst h
        simp only [beq_self_eq_true, if_true, bne_iff_ne, ne_eq, one_ne_zero,
          not_false_eq_true, Nat.reduceBEq, Bool.false_eq_true, if_false]
        rw [hrec]
      · have hb' : (b == 0x0a) = false := by simpa using h
        simp only [hb', Bool.false_eq_true, if_false, bne_self_eq_false, h]
        rw [hrec]
    | b :: c :: rest, fuel + 1, hfuel =>
      have hlen : (b :: c :: rest).length ≤ fuel + 1 := hfuel
      simp only [List.length_cons] at hlen
      have hlt : i < src.length := by rw [hsrc, hi]; simp
      have hb : src.getD i 0 = b := by rw [hsrc, hi]; exact getD_append_length pre b (c :: rest)
      have hc : src.getD (i + 1) 0 = c := by
        rw [hsrc, hi]; exact getD_append_length_succ pre b c rest
      have hnext : i + 1 < src.length := by rw [hsrc, hi]; simp
      unfold mergeLoop
      simp only [hlt, if_true, checkIsNewline, hb, hc, hnext, decide_True, Bool.true_and,
        mergeTail]
      by_cases h : b = 0x0a
      · subst h
        simp only [beq_self_eq_true, if_true, bne_iff_ne, ne_eq, one_ne_zero,
          not_false_eq_true, Nat.reduceBEq, Bool.false_eq_true, if_false]
        rw [ih fuel (Nat.lt_succ_self _) (c :: rest) (pre ++ [10]) (i + 1) (lineIndex + 1) _
          (by rw [hsrc]; simp) (by rw [hi]; simp)
          (by simp only [List.length_cons]; omega)]
      · have hb' : (b == 0x0a) = false := by simpa using h
        by_cases h2 : b = 0x0d ∧ c = 0x0a
        · obtain ⟨h3, h4⟩ := h2
          subst h3 h4
          simp only [Nat.reduceBEq, Bool.false_eq_true, if_false, beq_self_eq_true,
            Bool.and_self, if_true, bne_iff_ne, ne_eq, OfNat.ofNat_ne_zero, not_false_eq_true,
            Nat.reduceEqDiff, and_self]
          rw [ih fuel (Nat.lt_succ_self _) rest (pre ++ [13, 10]) (i + 2) (lineIndex + 1) _
            (by rw [hsrc]; simp) (by rw [hi]; simp) (by omega)]
        · have hcr : (b == 0x0d && c == 0x0a) = false := by
            simpa using h2
          simp only [hb', Bool.false_eq_true, if_false, hcr, bne_self_eq_false, h, h2]
          rw [ih fuel (Nat.lt_succ_self _) (c :: rest) (pre ++ [b]) (i + 1) lineIndex _
            (by rw [hsrc]; simp) (by rw [hi]; simp)
            (by simp only [List.length_cons]; omega)]

theorem sourceLinesFrom_length : ∀ (tail body : List Nat),
    (sourceLinesFrom body tail).length = tail.count 0x0a + 1
  | [], _ => rfl
  | b :: rest, body => by
    by_cases h : b = 0x0a
    · subst h
      simp only [sourceLinesFrom, if_true, List.length_cons, sourceLinesFrom_length rest,
        List.count_cons_self]
    · have hb : (b == 0x0a) = false := by simpa using h
      simp only [sourceLinesFrom, h, if_false, sourceLinesFrom_length rest, List.count_cons,
        hb, Bool.false_eq_true, Nat.add_zero]

theorem insertComments_nil_from (k : Nat) : ∀ (tail body : List Nat),
    insertComments (fun _ => []) k (sourceLinesFrom body tail) = body ++ tail
  | [], body => by simp [sourceLinesFrom, insertComments]
  | b :: rest, body => by
    by_cases h : b = 0x0a
    · subst h
      by_cases hcr : body.getLast? = some 0x0d
      · have hd : body.dropLast ++ [0x0d] = body := by
          have := List.dropLast_append_getLast? 0x0d (by simpa using hcr)
          simpa using this
        rw [sourceLinesFrom, if_pos rfl, if_pos hcr, insertComments,
          insertComments_nil_from (k + 1) rest []]
        conv_rhs => rw [← hd]
        simp
      · rw [sourceLinesFrom, if_pos rfl, if_neg hcr, insertComments,
          insertComments_nil_from (k + 1) rest []]
        simp
    · rw [sourceLinesFrom, if_neg h, insertComments_nil_from k rest (body ++ [b])]
      simp

theorem joinLines_sourceLines (text : List Nat) : joinLines (sourceLines text) = text := by
  unfold joinLines sourceLines
  rw [insertComments_nil_from]
  rfl

theorem insertComments_length (comment : Nat → List Nat) :
    ∀ (lines : List (List Nat × List Nat)) (k : Nat),
      (insertComments comment k lines).length =
        (insertComments (fun _ => []) k lines).length +
          ((List.range lines.length).map (fun j => (comment (k + j)).length)).sum
  | [], _ => rfl
  | line :: rest, k => by
    simp only [insertComments, List.length_append, insertComments_length comment rest (k + 1),
      List.length_nil, List.length_cons, List.range_succ_eq_map, List.map_cons, List.map_map,
      List.sum_cons, Nat.add_zero]
    have hfun : ((fun j => (comment (k + j)).length) ∘ Nat.succ)
        = (fun j => (comment (k + 1 + j)).length) := by
      funext j
      simp only [Function.comp, Nat.succ_eq_add_one]
      congr 2
      omega
    rw [hfun]
    have h0 := insertComments_length (fun _ => []) rest (k + 1)
    simp only [List.length_nil, List.map_const', List.sum_replicate, smul_eq_mul,
      Nat.mul_zero, Nat.add_zero] at h0
    omega

theorem sourceLinesFrom_lf (body rest : List Nat) :
    sourceLinesFrom body (0x0a :: rest) =
      (if body.getLast? = some 0x0d then (body.dropLast, [0x0d, 0x0a]) else (body, [0x0a])) ::
        sourceLinesFrom [] rest := by
  rw [sourceLinesFrom, if_pos rfl]

theorem sourceLinesFrom_ne (body : List Nat) (b : Nat) (rest : List Nat) (h : b ≠ 0x0a) :
    sourceLinesFrom body (b :: rest) = sourceLinesFrom (body ++ [b]) rest := by
  rw [sourceLinesFrom, if_neg h]

theorem getLast?_concat_eq (l : List Nat) (b : Nat) : (l ++ [b]).getLast? = some b := by
  simp

theorem mergeTail_spec (comment : Nat → List Nat) :
    ∀ (n : Nat) (tail body done : List Nat) (k : Nat), tail.length ≤ n →
      (body.getLast? = some 0x0d → tail.head? ≠ some 0x0a) →
      (mergeTail comment k (done ++ body) tail).2 ++
          comment (mergeTail comment k (done ++ body) tail).1
        = done ++ insertComments comment k (sourceLinesFrom body tail) := by
  intro n
  induction n with
  | zero =>
    intro tail body done k hn _
    have : tail = [] := List.length_eq_zero.mp (by omega)
    subst this
    simp [mergeTail, sourceLinesFrom, insertComments]
  | succ n ih =>
    intro tail body done k hn hinv
    match tail, hn, hinv with
    | [], _, _ => simp [mergeTail, sourceLinesFrom, insertComments]
    | [b], _, hinv =>
      by_cases h : b = 0x0a
      · subst h
        have hcr : ¬ body.getLast? = some 0x0d := fun hc => hinv hc rfl
        rw [sourceLinesFrom_lf, if_neg hcr]
        simp [mergeTail, sourceLinesFrom, insertComments]
      · rw [sourceLinesFrom_ne body b [] h]
        simp [mergeTail, sourceLinesFrom, insertComments, h]
    | b :: c :: rest, hn, hinv =>
      simp only [List.length_cons] at hn
      by_cases h : b = 0x0a
      · subst h
        have hcr : ¬ body.getLast? = some 0x0d := fun hc => hinv hc rfl
        have := ih (c :: rest) [] (done ++ body ++ comment k ++ [0x0a]) (k + 1)
          (by simp only [List.length_cons]; omega) (by simp)
        rw [List.append_nil] at this
        rw [sourceLinesFrom_lf, if_neg hcr, mergeTail, if_pos rfl, insertComments]
        simp only [← List.append_assoc] at this ⊢
        exact this
      · by_cases h2 : b = 0x0d ∧ c = 0x0a
        · obtain ⟨h3, h4⟩ := h2
          subst h3 h4
          have := ih rest [] (done ++ body ++ comment k ++ [0x0d, 0x0a]) (k + 1)
            (by omega) (by simp)
          rw [List.append_nil] at this
          rw [sourceLinesFrom_ne body 0x0d _ (by decide), sourceLinesFrom_lf,
            if_pos (getLast?_concat_eq body 0x0d), List.dropLast_concat, mergeTail,
            if_neg (by decide), if_pos ⟨rfl, rfl⟩, insertComments]
          simp only [← List.append_assoc] at this ⊢
          exact this
        · have hinv' : (body ++ [b]).getLast? = some 0x0d → (c :: rest).head? ≠ some 0x0a := by
            intro hl hc
            rw [getLast?_concat_eq] at hl
            simp only [Option.some.injEq] at hl
            simp only [List.head?_cons, Option.some.injEq] at hc
            exact h2 ⟨hl, hc⟩
          have := ih (c :: rest) (body ++ [b]) done k
            (by simp only [List.length_cons]; omega) hinv'
          rw [sourceLinesFrom_ne body b _ h, mergeTail, if_neg h, if_neg h2]
          simp only [← List.append_assoc] at this ⊢
          exact this

theorem byteAt_ne_zero (bytes : List Nat) (h0 : 0 ∉ bytes) (i : Nat) (hi : i < bytes.length) :
    byteAt (sourceOfBytes bytes) i ≠ 0 := by
  rw [byteAt_sourceOfBytes bytes i hi]
  intro hz
  exact h0 (hz ▸ List.getElem_mem hi)

theorem physicalLoopUTF16_nul_free (bytes : List Nat) (h0 : 0 ∉ bytes) (nlByte0 nlByte1 : Nat)
    (hz : nlByte0 = 0 ∨ nlByte1 = 0) :
    ∀ (fuel i count : Nat),
      physicalLoopUTF16 (sourceOfBytes bytes) nlByte0 nlByte1 fuel i count = count := by
  intro fuel
  induction fuel with
  | zero => intro i count; rfl
  | succ fuel ih =>
    intro i count
    unfold physicalLoopUTF16
    by_cases hi : i < (sourceOfBytes bytes).size - 1
    · have hlen : i + 1 < bytes.length := by
        simp only [sourceOfBytes] at hi
        omega
      have ha := byteAt_ne_zero bytes h0 i (by omega)
      have hb := byteAt_ne_zero bytes h0 (i + 1) hlen
      have hcond : (byteAt (sourceOfBytes bytes) i == nlByte0
          && byteAt (sourceOfBytes bytes) (i + 1) == nlByte1) = false := by
        rcases hz with hz | hz
        · subst hz
          simp [ha]
        · subst hz
          simp [hb]
      rw [if_pos hi, hcond, ih]
      rfl
    · rw [if_neg hi]

theorem physical_count_le (bytes : List Nat) (h0 : 0 ∉ bytes) :
    (rcnCountPhysicalLines (sourceOfBytes bytes)).count ≤ bytes.count 0x0a + 1 := by
  unfold rcnCountPhysicalLines
  by_cases hs : (sourceOfBytes bytes).size = 0
  · simp [hs, okResult]
  · by_cases hl : (sourceOfBytes bytes).size > UINT32_MAX
    · have ht : (sourceOfBytes bytes).text.isNone = false := rfl
      simp only [hs, beq_iff_eq, if_false, ht, Bool.false_eq_true, hl, if_true, errResult]
      omega
    · have ht : (sourceOfBytes bytes).text.isNone = false := rfl
      simp only [hs, beq_iff_eq, if_false, ht, Bool.false_eq_true, hl]
      by_cases he : detectEncoding (sourceOfBytes bytes) = .TextEncodingUTF8
      · simp only [he, if_true, okResult]
        have hloop := physicalLoopUTF8_eq bytes bytes.length 0 0 (by omega)
        simp only [List.drop_zero, Nat.zero_add] at hloop
        have hsz : (sourceOfBytes bytes).size = bytes.length := rfl
        rw [hsz, hloop]
        split_ifs <;> omega
      · simp only [he, if_false, okResult]
        rw [physicalLoopUTF16_nul_free bytes h0 _ _ (by
          by_cases hle : detectEncoding (sourceOfBytes bytes) = .TextEncodingUTF16LE
          · right; simp [hle]
          · left; simp [hle])]
        split_ifs <;> omega

theorem sum_lineComment_lengths :
    ∀ (lines : List LineCommentBuffer) (n : Nat), lines.length ≤ n →
      ((List.range n).map (fun j => ((lines.getD j {}).ptr).length)).sum
        = (lines.map LineCommentBuffer.size).sum
  | [], n, _ => by
    simp [List.getD]
  | buffer :: rest, 0, h => by simp at h
  | buffer :: rest, n + 1, h => by
    have ih := sum_lineComment_lengths rest n (by simpa using h)
    rw [List.range_succ_eq_map, List.map_cons, List.sum_cons, List.map_map, List.map_cons,
      List.sum_cons, ← ih]
    rfl

theorem lineComment_eq_getD (ctx : AnnotationContext) (h : ctx.lines.length = ctx.lineCount)
    (j : Nat) : lineComment ctx j = (ctx.lines.getD j {}).ptr := by
  unfold lineComment
  by_cases hj : j < ctx.lineCount
  · rw [if_pos hj]
  · rw [if_neg hj]
    have : ctx.lines.length ≤ j := by omega
    simp [List.getD, List.getElem?_eq_none this]

theorem annotatedContext_length (memory : AnnotationMemory) (language : RcnTextFormat)
    (evaluator : TSNode → NodeEvalTrace → NodeEvalTrace)
    (hlang : createEvaluationFunction language = some evaluator)
    (lineCount : Nat) (nodes : List TSNode) :
    (annotatedContext memory language lineCount nodes).lines.length
      = (annotatedContext memory language lineCount nodes).lineCount ∧
    (annotatedContext memory language lineCount nodes).lineCount = lineCount := by
  rw [annotatedContext_eq memory language evaluator hlang]
  simp [finalizeLineComments, freshContext, recordVisits_length, finalizeLinesFrom_length]

theorem mergeSourceAnnotations_eq (ctx : AnnotationContext) (text : List Nat) :
    mergeSourceAnnotations text text.length ctx
      = insertComments (lineComment ctx) 0 (sourceLines text) ++ [0] := by
  unfold mergeSourceAnnotations
  simp only []
  rw [mergeLoop_eq ctx text text.length text [] 0 0 [] rfl rfl (Nat.le_refl _)]
  have h := mergeTail_spec (lineComment ctx) text.length text [] [] 0 (Nat.le_refl _) (by simp)
  simp only [List.append_nil, List.nil_append] at h
  rw [h]
  rfl

theorem skipUTF8BOM_sourceOfBytes (bytes : List Nat) :
    skipUTF8BOM (sourceOfBytes bytes) = sourceOfBytes (behindBOM bytes) := by
  unfold skipUTF8BOM behindBOM
  by_cases h : hasUTF8BOM (sourceOfBytes bytes) = true
  · rw [if_pos h, if_pos h]
    simp [sourceOfBytes]
  · rw [if_neg h, if_neg h]

theorem annotatedBytes_of_walk (memory : AnnotationMemory) (language : RcnTextFormat)
    (evaluator : TSNode → NodeEvalTrace → NodeEvalTrace)
    (hlang : createEvaluationFunction language = some evaluator)
    (lineCount : Nat) (tree : TSTree) (text : List Nat) :
    annotatedBytes memory text (traverseTree (annotateLineWithNodeType memory) tree
        { NodeEvalTrace.zero with ctx := some (freshContext language lineCount) })
      = mergeSourceAnnotations text (strlen text)
          (annotatedContext memory language lineCount (visitOrder tree)) := by
  rw [traverseTree_eq_walk]
  unfold annotatedBytes annotatedContext
  rw [walk_annotate memory evaluator (visitOrder tree) _ (freshContext language lineCount) rfl hlang]

theorem evaluateSourceTree_sourceOfBytes (env : Env) (bytes : List Nat)
    (language : RcnTextFormat) (visitor : TSNode → NodeEvalTrace → NodeEvalTrace)
    (trace : NodeEvalTrace) (hsize : bytes.length ≤ UINT32_MAX)
    (hparser : createParser language = true) :
    evaluateSourceTree env (sourceOfBytes bytes) language visitor trace =
      if (parsedTree env language (sourceOfBytes bytes)).hasError = true then
        ({ errorCode := .RCN_ERR_SYNTAX_ERROR,
           errorMessage := some "Syntax error detected in source code",
           ok := false }, trace)
      else
        ({ errorCode := .RCN_ERR_NONE, errorMessage := none, ok := true },
         traverseTree visitor (parsedTree env language (sourceOfBytes bytes)).root trace) := by
  have hsz : ¬ (sourceOfBytes bytes).size > UINT32_MAX := by
    simp only [sourceOfBytes]; omega
  unfold evaluateSourceTree parsedTree
  simp only [hsz, if_false, hparser, Bool.not_true, Bool.false_eq_true]

theorem rcnMark_cases (env : Env) (memory : AnnotationMemory) (language : RcnTextFormat)
    (bytes : List Nat) :
    rcnMarkLogicalLinesInSourceText env memory language (sourceOfBytes bytes) = emptyText ∨
    ((∃ evaluator, createEvaluationFunction language = some evaluator) ∧
      detectEncoding (sourceOfBytes bytes) = .TextEncodingUTF8 ∧
      (behindBOM bytes).length ≤ UINT32_MAX ∧
      (parsedTree env language (sourceOfBytes (behindBOM bytes))).hasError = false ∧
      rcnMarkLogicalLinesInSourceText env memory language (sourceOfBytes bytes) =
        { text := some (mergeSourceAnnotations (behindBOM bytes) (strlen (behindBOM bytes))
            (annotationContextOf env memory language bytes)),
          size := (mergeSourceAnnotations (behindBOM bytes) (strlen (behindBOM bytes))
            (annotationContextOf env memory language bytes)).length - 1 }) := by
  unfold rcnMarkLogicalLinesInSourceText
  simp only [skipUTF8BOM_sourceOfBytes]
  have ht : (sourceOfBytes bytes).text.isNone = false := rfl
  simp only [ht, Bool.false_eq_true, if_false]
  by_cases he : detectEncoding (sourceOfBytes bytes) = .TextEncodingUTF8
  swap
  · left; simp [he, emptyText]
  by_cases hp : (rcnCountPhysicalLines (sourceOfBytes (behindBOM bytes))).state.ok = true
  swap
  · left; simp [he, hp, emptyText]
  have hsize : (behindBOM bytes).length ≤ UINT32_MAX := by
    by_contra hgt
    have hst := physical_state (sourceOfBytes (behindBOM bytes)) rfl
    have hsz : ¬ (sourceOfBytes (behindBOM bytes)).size ≤ UINT32_MAX := hgt
    rw [if_neg hsz] at hst
    rw [hst] at hp
    simp [tooLargeState] at hp
  by_cases hm1 : memory.ctx = true
  swap
  · left; simp [he, hp, hm1, createNodeEvalContextAnnotation, emptyText]
  cases hlang : createEvaluationFunction language with
  | none => left; simp [he, hp, hm1, createNodeEvalContextAnnotation, hlang, emptyText]
  | some evaluator =>
    by_cases hm2 : memory.lines = true
    swap
    · left; simp [he, hp, hm1, hm2, createNodeEvalContextAnnotation, hlang, emptyText]
    have hparser : createParser language = true := by
      cases language <;> simp_all [createEvaluationFunction, createParser]
    simp only [he, hp, hm1, hm2, createNodeEvalContextAnnotation, hlang, bne_self_eq_false,
      Bool.false_eq_true, if_false, Bool.not_true,
      evaluateSourceTree_sourceOfBytes env (behindBOM bytes) language _ _ hsize hparser]
    by_cases herr : (parsedTree env language (sourceOfBytes (behindBOM bytes))).hasError = true
    · left
      simp [herr, emptyText]
    · by_cases hm3 : memory.annotated = true
      swap
      · left
        simp [herr, hm3, buildAnnotatedSource, emptyText]
      right
      refine ⟨⟨evaluator, rfl⟩, trivial, hsize, by simpa using herr, ?_⟩
      have hab := annotatedBytes_of_walk memory language evaluator hlang
        (rcnCountPhysicalLines (sourceOfBytes (behindBOM bytes))).count
        (parsedTree env language (sourceOfBytes (behindBOM bytes))).root (behindBOM bytes)
      simp only [herr, hm3, buildAnnotatedSource, Bool.false_eq_true, if_false, if_true,
        Bool.not_true]
      unfold annotationContextOf
      rw [← hab]
      rfl

theorem rcnMark_success (env : Env) (memory : AnnotationMemory) (language : RcnTextFormat)
    (bytes : List Nat) (evaluator : TSNode → NodeEvalTrace → NodeEvalTrace)
    (hm1 : memory.ctx = true) (hm2 : memory.lines = true) (hm3 : memory.annotated = true)
    (hlang : createEvaluationFunction language = some evaluator)
    (he : detectEncoding (sourceOfBytes bytes) = .TextEncodingUTF8)
    (hsize : (behindBOM bytes).length ≤ UINT32_MAX)
    (herr : (parsedTree env language (sourceOfBytes (behindBOM bytes))).hasError = false) :
    rcnMarkLogicalLinesInSourceText env memory language (sourceOfBytes bytes) =
      { text := some (mergeSourceAnnotations (behindBOM bytes) (strlen (behindBOM bytes))
          (annotationContextOf env memory language bytes)),
        size := (mergeSourceAnnotations (behindBOM bytes) (strlen (behindBOM bytes))
          (annotationContextOf env memory language bytes)).length - 1 } := by
  have hparser : createParser language = true := by
    cases language <;> simp_all [createEvaluationFunction, createParser]
  have hp : (rcnCountPhysicalLines (sourceOfBytes (behindBOM bytes))).state.ok = true := by
    have hsz : (sourceOfBytes (behindBOM bytes)).size ≤ UINT32_MAX := hsize
    rw [physical_state (sourceOfBytes (behindBOM bytes)) rfl, if_pos hsz]
    rfl
  have ht : (sourceOfBytes bytes).text.isNone = false := rfl
  have hab := annotatedBytes_of_walk memory language evaluator hlang
    (rcnCountPhysicalLines (sourceOfBytes (behindBOM bytes))).count
    (parsedTree env language (sourceOfBytes (behindBOM bytes))).root (behindBOM bytes)
  unfold rcnMarkLogicalLinesInSourceText
  simp only [skipUTF8BOM_sourceOfBytes, ht, Bool.false_eq_true, if_false, he, hp, hm1, hm2,
    hm3, createNodeEvalContextAnnotation, hlang, bne_self_eq_false, Bool.not_true,
    evaluateSourceTree_sourceOfBytes env (behindBOM bytes) language _ _ hsize hparser, herr,
    buildAnnotatedSource, if_true]
  unfold annotationContextOf
  rw [← hab]
  rfl

theorem behindBOM_nul_free (bytes : List Nat) (h0 : 0 ∉ bytes) : 0 ∉ behindBOM bytes := by
  unfold behindBOM
  split_ifs
  · exact fun h => h0 (List.mem_of_mem_drop h)
  · exact h0

theorem strlen_of_nul_free (bytes : List Nat) (h0 : 0 ∉ bytes) : strlen bytes = bytes.length := by
  unfold strlen
  rw [cstring_of_nonzero bytes (fun c hc hz => h0 (hz ▸ hc))]

theorem annotationContextOf_length (env : Env) (memory : AnnotationMemory) (language : RcnTextFormat)
    (evaluator : TSNode → NodeEvalTrace → NodeEvalTrace)
    (hlang : createEvaluationFunction language = some evaluator) (bytes : List Nat) :
    (annotationContextOf env memory language bytes).lines.length
      = (annotationContextOf env memory language bytes).lineCount ∧
    (annotationContextOf env memory language bytes).lineCount
      = (rcnCountPhysicalLines (sourceOfBytes (behindBOM bytes))).count :=
  annotatedContext_length memory language evaluator hlang _ _

theorem annotated_length (env : Env) (memory : AnnotationMemory) (language : RcnTextFormat)
    (evaluator : TSNode → NodeEvalTrace → NodeEvalTrace)
    (hlang : createEvaluationFunction language = some evaluator) (bytes : List Nat)
    (h0 : 0 ∉ bytes) :
    (insertComments (lineComment (annotationContextOf env memory language bytes)) 0
        (sourceLines (behindBOM bytes))).length
      = (behindBOM bytes).length + spaceForComments (annotationContextOf env memory language bytes) := by
  obtain ⟨hl, hc⟩ := annotationContextOf_length env memory language evaluator hlang bytes
  rw [insertComments_length]
  have hj := joinLines_sourceLines (behindBOM bytes)
  unfold joinLines at hj
  rw [hj]
  congr 1
  have hfun : (fun j => (lineComment (annotationContextOf env memory language bytes) (0 + j)).length)
      = (fun j => (((annotationContextOf env memory language bytes).lines.getD j {}).ptr).length) := by
    funext j
    rw [Nat.zero_add, lineComment_eq_getD _ hl]
  rw [hfun]
  unfold spaceForComments
  apply sum_lineComment_lengths
  unfold sourceLines
  rw [sourceLinesFrom_length, hl, hc]
  exact physical_count_le _ (behindBOM_nul_free bytes h0)

theorem annotationTrace_bytes (env : Env) (memory : AnnotationMemory) (language : RcnTextFormat)
    (evaluator : TSNode → NodeEvalTrace → NodeEvalTrace)
    (hlang : createEvaluationFunction language = some evaluator) (bytes text : List Nat) :
    annotatedBytes memory text (annotationTrace env memory language bytes)
      = mergeSourceAnnotations text (strlen text) (annotationContextOf env memory language bytes) ∧
    annotatedSourceLength memory text (annotationTrace env memory language bytes)
      = strlen text + spaceForComments (annotationContextOf env memory language bytes) + 1 := by
  constructor
  · exact annotatedBytes_of_walk memory language evaluator hlang _ _ text
  · unfold annotationTrace annotationContextOf annotatedSourceLength annotatedContext
      annotationStart
    rw [traverseTree_eq_walk]
    rw [walk_annotate memory evaluator _ _ (freshContext language _) rfl hlang]

theorem rcnMark_of_text (env : Env) (memory : AnnotationMemory) (language : RcnTextFormat)
    (bytes : List Nat) (h0 : 0 ∉ bytes)
    (hok : (rcnMarkLogicalLinesInSourceText env memory language (sourceOfBytes bytes)).text
      ≠ none) :
    (∃ evaluator, createEvaluationFunction language = some evaluator) ∧
    rcnMarkLogicalLinesInSourceText env memory language (sourceOfBytes bytes) =
      { text := some (insertComments (lineComment (annotationContextOf env memory language bytes)) 0
          (sourceLines (behindBOM bytes)) ++ [0]),
        size := (insertComments (lineComment (annotationContextOf env memory language bytes)) 0
          (sourceLines (behindBOM bytes))).length } := by
  rcases rcnMark_cases env memory language bytes with h | ⟨hl, _, _, _, h⟩
  · rw [h] at hok
    exact absurd rfl hok
  · refine ⟨hl, ?_⟩
    rw [h, strlen_of_nul_free _ (behindBOM_nul_free bytes h0), mergeSourceAnnotations_eq]
    simp

/-- A text of a UTF-8 byte order mark followed by `n` spaces, for
`0 < n ≤ UINT32_MAX`, is annotated: the size test is made on the text behind
the byte order mark. The grammar service yields a `translation_unit` without
children for it. -/
theorem rcnMark_of_bom_spaces (n : Nat) (hn : n ≤ UINT32_MAX) :
    (sourceOfBytes (0xef :: 0xbb :: 0xbf :: List.replicate n 0x20)).size = n + 3 ∧
    (rcnMarkLogicalLinesInSourceText rootOnlyEnv sampleMemory .RCN_LANG_C
      (sourceOfBytes (0xef :: 0xbb :: 0xbf :: List.replicate n 0x20))).text ≠ none := by
  refine ⟨by simp [sourceOfBytes], ?_⟩
  have hbom : hasUTF8BOM (sourceOfBytes (0xef :: 0xbb :: 0xbf :: List.replicate n 0x20))
      = true := (hasUTF8BOM_iff _).mpr ⟨_, rfl⟩
  have hb : behindBOM (0xef :: 0xbb :: 0xbf :: List.replicate n 0x20)
      = List.replicate n 0x20 := by
    unfold behindBOM
    rw [if_pos hbom]
    rfl
  have he : detectEncoding (sourceOfBytes (0xef :: 0xbb :: 0xbf :: List.replicate n 0x20))
      = .TextEncodingUTF8 := by
    unfold detectEncoding
    rw [if_pos hbom]
  rw [rcnMark_success rootOnlyEnv sampleMemory .RCN_LANG_C _ evaluateNodeC rfl rfl rfl rfl he
    (by rw [hb, List.length_replicate]; exact hn) rfl]
  simp

theorem walk_evaluator_idx (language : RcnTextFormat)
    (evaluator : TSNode → NodeEvalTrace → NodeEvalTrace)
    (h : createEvaluationFunction language = some evaluator) :
    ∀ (nodes : List TSNode) (trace : NodeEvalTrace),
      (walk evaluator nodes trace).idx % 2 ^ 64 = (trace.idx + nodes.length) % 2 ^ 64 ∧
      (nodes ≠ [] → (walk evaluator nodes trace).idx < 2 ^ 64)
  | [], trace => by simp [walk_nil]
  | node :: rest, trace => by
    rw [walk_cons]
    have hi := (evaluator_fields language evaluator h node trace).2.1
    obtain ⟨h1, h2⟩ := walk_evaluator_idx language evaluator h rest (evaluator node trace)
    refine ⟨?_, fun _ => ?_⟩
    · rw [h1, hi, List.length_cons]
      omega
    · cases rest with
      | nil => rw [walk_nil, hi]; exact Nat.mod_lt _ (by norm_num)
      | cons r rs => exact h2 (List.cons_ne_nil r rs)

theorem walk_annotate_idx (memory : AnnotationMemory) (evaluator : TSNode → NodeEvalTrace → NodeEvalTrace) :
    ∀ (nodes : List TSNode) (trace : NodeEvalTrace) (ctx : AnnotationContext),
      trace.ctx = some ctx →
      createEvaluationFunction ctx.language = some evaluator →
      (walk (annotateLineWithNodeType memory) nodes trace).idx % 2 ^ 64 =
        (trace.idx + nodes.countP (fun node => node.row < ctx.lineCount)) % 2 ^ 64 ∧
      (trace.idx < 2 ^ 64 → (walk (annotateLineWithNodeType memory) nodes trace).idx < 2 ^ 64)
  | [], trace, ctx, _, _ => by simp [walk_nil]
  | node :: rest, trace, ctx, hctx, he => by
    rw [walk_cons]
    by_cases hrow : node.row < ctx.lineCount
    · have hs := annotate_step memory node trace ctx evaluator hctx he hrow
      have hi := (evaluator_fields ctx.language evaluator he node trace).2.1
      have hidx : (annotateLineWithNodeType memory node trace).idx = (trace.idx + 1) % 2 ^ 64 := by
        rw [hs]; exact hi
      by_cases h0 : languageWeight ctx.language node trace = 0
      · have hc : (annotateLineWithNodeType memory node trace).ctx = some ctx := by
          rw [hs]; simp [h0]
        obtain ⟨h1, h2⟩ := walk_annotate_idx memory evaluator rest _ ctx hc he
        refine ⟨?_, fun _ => h2 (by rw [hidx]; exact Nat.mod_lt _ (by norm_num))⟩
        rw [h1, hidx, List.countP_cons_of_pos _ _ (by simpa using hrow)]
        omega
      · have hc : (annotateLineWithNodeType memory node trace).ctx = some
            { ctx with lines :=
                (recordOnLine (memory.record trace.idx)
                  (languageWeight ctx.language node trace) node.type ctx.lines
                  node.row) } := by
          rw [hs]; simp [h0]
        obtain ⟨h1, h2⟩ := walk_annotate_idx memory evaluator rest _ _ hc he
        refine ⟨?_, fun _ => h2 (by rw [hidx]; exact Nat.mod_lt _ (by norm_num))⟩
        rw [h1, hidx, List.countP_cons_of_pos _ _ (by simpa using hrow)]
        simp only
        omega
    · have hs := annotate_skip memory node trace ctx hctx (Nat.not_lt.mp hrow)
      rw [hs]
      obtain ⟨h1, h2⟩ := walk_annotate_idx memory evaluator rest trace ctx hctx he
      refine ⟨?_, h2⟩
      rw [h1, List.countP_cons_of_neg _ _ (by simpa using hrow)]

theorem counters_total_add (x : FormatCounters) (format : RcnTextFormat) (n t : Nat)
    (h : t = x.total % 2 ^ 64) :
    addCount t n = (x.add format n).total % 2 ^ 64 := by
  subst h
  cases format <;>
    simp only [FormatCounters.add, FormatCounters.total, addCount] <;> omega

theorem count_totals_match (env : Env) (options : RcnStatOptions) (s : RcnCountStatistics)
    (g : RcnSourceFile) (r : RcnCountResultGroup) (h : TotalsMatchFormats s) :
    TotalsMatchFormats
      (count env options { stats := s, file := g, result := resetResultGroup r }
        (detectSourceFormat g)).2.stats := by
  obtain ⟨h1, h2, h3, h4, h5⟩ := h
  rcases count_cases env options s g r (detectSourceFormat g) with
    ⟨m1, m2, -, hc⟩ | ⟨st, -, -, hc⟩ | ⟨-, -, hc⟩
  · rw [hc]
    cases hs : options.stopOnError <;> simp [finishFailed, hs, TotalsMatchFormats, h1, h2, h3, h4, h5]
  · rw [hc]
    cases hs : options.stopOnError <;> simp [finishFailed, hs, TotalsMatchFormats, h1, h2, h3, h4, h5]
  · rw [hc]
    simp only [countedStats, TotalsMatchFormats]
    refine ⟨?_, ?_, ?_, ?_, ?_⟩
    · split_ifs
      · exact counters_total_add _ _ _ _ h1
      · exact h1
    · split_ifs
      · exact counters_total_add _ _ _ _ h2
      · exact h2
    · split_ifs
      · exact counters_total_add _ _ _ _ h3
      · exact h3
    · split_ifs
      · exact counters_total_add _ _ _ _ h4
      · exact h4
    · exact counters_total_add _ _ _ _ h5

theorem physical_utf16 (littleEndian : Bool) (rest : List Nat)
    (heven : rest.length % 2 = 0) (hmax : (utf16BOM littleEndian ++ rest).length ≤ 2 ^ 32 - 1) :
    rcnCountPhysicalLines (sourceOfBytes (utf16BOM littleEndian ++ rest)) =
      okResult (physicalLinesOfUnits (utf16Units littleEndian rest)) := by
  have hbl : (utf16BOM littleEndian).length = 2 := by cases littleEndian <;> rfl
  have hsize : (sourceOfBytes (utf16BOM littleEndian ++ rest)).size = rest.length + 2 := by
    simp [sourceOfBytes, hbl, Nat.add_comm]
  have h0 : ((sourceOfBytes (utf16BOM littleEndian ++ rest)).size == 0) = false := by
    rw [hsize]; simp
  have h1 : (sourceOfBytes (utf16BOM littleEndian ++ rest)).text.isNone = false := rfl
  have h2 : ¬ (sourceOfBytes (utf16BOM littleEndian ++ rest)).size > UINT32_MAX := by
    rw [hsize]
    simp only [List.length_append, hbl, UINT32_MAX] at hmax ⊢
    omega
  have henc := detectEncoding_utf16 littleEndian rest
  have hnot8 : (detectEncoding (sourceOfBytes (utf16BOM littleEndian ++ rest)) ==
      TextEncoding.TextEncodingUTF8) = false := by
    rw [henc]; cases littleEndian <;> rfl
  have hle : (detectEncoding (sourceOfBytes (utf16BOM littleEndian ++ rest)) ==
      TextEncoding.TextEncodingUTF16LE) = littleEndian := by
    rw [henc]; cases littleEndian <;> rfl
  have hloop := physicalLoopUTF16_eq littleEndian (utf16BOM littleEndian ++ rest)
    (rest.length + 2) (utf16BOM littleEndian) rest 0 rfl (by omega)
  rw [hbl, Nat.zero_add] at hloop
  have key : rcnCountPhysicalLines (sourceOfBytes (utf16BOM littleEndian ++ rest)) =
      okResult (physicalLinesOfUnits (utf16Units littleEndian rest)) := by
    unfold rcnCountPhysicalLines
    simp only [h0, h1, h2, hnot8, hle, Bool.false_eq_true, if_false]
    rw [hsize, hloop]
    unfold physicalLinesOfUnits
    congr 1
    by_cases hne : rest = []
    · subst hne
      simp [utf16Units]
    · have hlen : 0 < rest.length := List.length_pos.mpr hne
      have hr2 : 2 ≤ rest.length := by omega
      have hune : utf16Units littleEndian rest ≠ [] := by
        intro he
        have := congrArg List.length he
        rw [utf16Units_length, List.length_nil] at this
        omega
      have hb0 : byteAt (sourceOfBytes (utf16BOM littleEndian ++ rest)) (rest.length + 2 - 2) =
          rest.getD (rest.length - 2) 0 := by
        have : rest.length + 2 - 2 = (utf16BOM littleEndian).length + (rest.length - 2) := by
          rw [hbl]; omega
        rw [this]
        simp [byteAt, sourceOfBytes, List.getD_eq_getElem?_getD,
          List.getElem?_append_right]
      have hb1 : byteAt (sourceOfBytes (utf16BOM littleEndian ++ rest)) (rest.length + 2 - 1) =
          rest.getD (rest.length - 1) 0 := by
        have : rest.length + 2 - 1 = (utf16BOM littleEndian).length + (rest.length - 1) := by
          rw [hbl]; omega
        rw [this]
        simp [byteAt, sourceOfBytes, List.getD_eq_getElem?_getD,
          List.getElem?_append_right]
      have hgt : decide (rest.length + 2 > 2) = true := by simp; omega
      rw [hb0, hb1, physicalLinesOfUnits_last littleEndian rest heven hne, hgt, Bool.true_and]
      have hnl := newline_unit littleEndian (rest.getD (rest.length - 2) 0)
        (rest.getD (rest.length - 1) 0)
      generalize rest.getD (rest.length - 2) 0 = x at hnl ⊢
      generalize rest.getD (rest.length - 1) 0 = y at hnl ⊢
      have hor : (x != (if littleEndian then 0x0a else 0x00) ||
          y != (if littleEndian then 0x00 else 0x0a)) =
          !((if littleEndian then x + 256 * y else 256 * x + y) == 0x000a) := by
        rw [← hnl]
        simp only [bne]
        cases (x == (if littleEndian then 0x0a else 0x00)) <;>
          cases (y == (if littleEndian then 0x00 else 0x0a)) <;> rfl
      rw [hor]
      by_cases hu : (if littleEndian then x + 256 * y else 256 * x + y) = 0x000a
      · simp [hu]
      · simp [hu, hune]
  exact key

theorem characters_utf16 (littleEndian : Bool) (rest : List Nat)
    (hbyte : ∀ b ∈ rest, b < 256)
    (hmax : (utf16BOM littleEndian ++ rest).length ≤ 2 ^ 32 - 1) :
    rcnCountCharacters (sourceOfBytes (utf16BOM littleEndian ++ rest)) =
      okResult (charactersOfUnits (utf16Units littleEndian rest)) := by
  have hbl : (utf16BOM littleEndian).length = 2 := by cases littleEndian <;> rfl
  have hall : ∀ b ∈ utf16BOM littleEndian ++ rest, b < 256 := by
    intro b hb
    rcases List.mem_append.mp hb with hb | hb
    · cases littleEndian <;> simp [utf16BOM] at hb <;> omega
    · exact hbyte b hb
  have hsize : (sourceOfBytes (utf16BOM littleEndian ++ rest)).size = rest.length + 2 := by
    simp [sourceOfBytes, hbl, Nat.add_comm]
  have h0 : ((sourceOfBytes (utf16BOM littleEndian ++ rest)).size == 0) = false := by
    rw [hsize]; simp
  have h1 : (sourceOfBytes (utf16BOM littleEndian ++ rest)).text.isNone = false := rfl
  have h2 : ¬ (sourceOfBytes (utf16BOM littleEndian ++ rest)).size > UINT32_MAX := by
    rw [hsize]
    simp only [List.length_append, hbl, UINT32_MAX] at hmax ⊢
    omega
  have henc := detectEncoding_utf16 littleEndian rest
  have hnot8 : (detectEncoding (sourceOfBytes (utf16BOM littleEndian ++ rest)) ==
      TextEncoding.TextEncodingUTF8) = false := by
    rw [henc]; cases littleEndian <;> rfl
  have hle : (detectEncoding (sourceOfBytes (utf16BOM littleEndian ++ rest)) ==
      TextEncoding.TextEncodingUTF16LE) = littleEndian := by
    rw [henc]; cases littleEndian <;> rfl
  have hcu0 : codeUnit (sourceOfBytes (utf16BOM littleEndian ++ rest)) 0 littleEndian =
      0xfeff := by
    cases littleEndian
    · exact codeUnit_at false _ hall [] 0xfe 0xff rest rfl
    · exact codeUnit_at true _ hall [] 0xff 0xfe rest rfl
  have hloop := charactersLoopUTF16_eq littleEndian (utf16BOM littleEndian ++ rest) hall
    (rest.length + 2) (utf16BOM littleEndian) rest 0 rfl (by omega)
  rw [hbl, Nat.zero_add] at hloop
  have key : rcnCountCharacters (sourceOfBytes (utf16BOM littleEndian ++ rest)) =
      okResult (charactersOfUnits (utf16Units littleEndian rest)) := by
    unfold rcnCountCharacters
    simp only [h0, h1, h2, hnot8, hle, Bool.false_eq_true, if_false]
    congr 1
    unfold countCharactersUTF16
    have hge : (sourceOfBytes (utf16BOM littleEndian ++ rest)).size ≥ 2 := by rw [hsize]; omega
    simp only [hge, if_true, hcu0]
    rw [hsize]
    exact hloop
  exact key

theorem swapBytes_length : ∀ (bytes : List Nat), (swapBytes bytes).length = bytes.length
  | [] => rfl
  | [_] => rfl
  | a :: b :: rest => by
    simp only [swapBytes, List.length_cons, swapBytes_length rest]

theorem swapBytes_mem : ∀ (bytes : List Nat) (x : Nat), x ∈ swapBytes bytes → x ∈ bytes
  | [], _, h => h
  | [_], _, h => h
  | a :: b :: rest, x, h => by
    simp only [swapBytes, List.mem_cons] at h ⊢
    rcases h with h | h | h
    · exact Or.inr (Or.inl h)
    · exact Or.inl h
    · exact Or.inr (Or.inr (swapBytes_mem rest x h))

theorem utf16Units_swapBytes : ∀ (bytes : List Nat),
    utf16Units false (swapBytes bytes) = utf16Units true bytes
  | [] => rfl
  | [_] => rfl
  | a :: b :: rest => by
    simp only [swapBytes, utf16Units, utf16Units_swapBytes rest, Bool.false_eq_true, if_false,
      if_true]
    rw [Nat.add_comm]

theorem swapBytes_bom (rest : List Nat) :
    swapBytes (utf16BOM true ++ rest) = utf16BOM false ++ swapBytes rest := rfl

theorem physical_too_large (bytes : List Nat) (h : UINT32_MAX < bytes.length) :
    rcnCountPhysicalLines (sourceOfBytes bytes) =
      errResult .RCN_ERR_INPUT_TOO_LARGE "Input exceeds maximum supported size" := by
  have h0 : ((sourceOfBytes bytes).size == 0) = false := by
    simp only [sourceOfBytes, beq_eq_false_iff_ne]
    unfold UINT32_MAX at h
    omega
  have h1 : (sourceOfBytes bytes).text.isNone = false := rfl
  have h2 : (sourceOfBytes bytes).size > UINT32_MAX := h
  unfold rcnCountPhysicalLines
  simp only [h0, h1, h2, Bool.false_eq_true, if_false, if_true]

theorem characters_too_large (bytes : List Nat) (h : UINT32_MAX < bytes.length) :
    rcnCountCharacters (sourceOfBytes bytes) =
      errResult .RCN_ERR_INPUT_TOO_LARGE "Input exceeds maximum supported size" := by
  have h0 : ((sourceOfBytes bytes).size == 0) = false := by
    simp only [sourceOfBytes, beq_eq_false_iff_ne]
    unfold UINT32_MAX at h
    omega
  have h1 : (sourceOfBytes bytes).text.isNone = false := rfl
  have h2 : (sourceOfBytes bytes).size > UINT32_MAX := h
  unfold rcnCountCharacters
  simp only [h0, h1, h2, Bool.false_eq_true, if_false, if_true]

theorem loop_descend_leaf (visitor : TSNode → NodeEvalTrace → NodeEvalTrace) (fuel : Nat)
    (value : TSNode) (siblings : List TSTree) (above : List (TSTree × List TSTree))
    (trace : NodeEvalTrace) (calls : List TSNode) :
    traverseTreeLoop visitor (fuel + 1) .DESCEND
        { frames := (.node value [], siblings) :: above } trace calls =
      traverseTreeLoop visitor (fuel + 1) .NEXT_SIBLING
        { frames := (.node value [], siblings) :: above } (visitor value trace)
        (calls ++ [value]) := by
  simp only [traverseTreeLoop, ts_tree_cursor_current_node, ts_tree_cursor_goto_first_child]

theorem loop_descend_child (visitor : TSNode → NodeEvalTrace → NodeEvalTrace) (fuel : Nat)
    (value : TSNode) (child : TSTree) (rest siblings : List TSTree)
    (above : List (TSTree × List TSTree)) (trace : NodeEvalTrace) (calls : List TSNode) :
    traverseTreeLoop visitor (fuel + 1) .DESCEND
        { frames := (.node value (child :: rest), siblings) :: above } trace calls =
      traverseTreeLoop visitor fuel .DESCEND
        { frames := (child, rest) :: (.node value (child :: rest), siblings) :: above }
        (visitor value trace) (calls ++ [value]) := by
  simp only [traverseTreeLoop, ts_tree_cursor_current_node, ts_tree_cursor_goto_first_child]

theorem loop_next_sibling (visitor : TSNode → NodeEvalTrace → NodeEvalTrace) (fuel : Nat)
    (tree sibling : TSTree) (rest : List TSTree)
    (above : List (TSTree × List TSTree)) (trace : NodeEvalTrace) (calls : List TSNode) :
    traverseTreeLoop visitor (fuel + 1) .NEXT_SIBLING
        { frames := (tree, sibling :: rest) :: above } trace calls =
      traverseTreeLoop visitor fuel .DESCEND
        { frames := (sibling, rest) :: above } trace calls := by
  simp only [traverseTreeLoop, ts_tree_cursor_goto_next_sibling]

theorem loop_last_sibling (visitor : TSNode → NodeEvalTrace → NodeEvalTrace) (fuel : Nat)
    (tree : TSTree) (parent : TSTree × List TSTree)
    (above : List (TSTree × List TSTree)) (trace : NodeEvalTrace) (calls : List TSNode) :
    traverseTreeLoop visitor (fuel + 1) .NEXT_SIBLING
        { frames := (tree, []) :: parent :: above } trace calls =
      traverseTreeLoop visitor fuel .NEXT_SIBLING
        { frames := parent :: above } trace calls := by
  simp only [traverseTreeLoop, ts_tree_cursor_goto_next_sibling, ts_tree_cursor_goto_parent]

theorem loop_root_done (visitor : TSNode → NodeEvalTrace → NodeEvalTrace) (fuel : Nat)
    (tree : TSTree) (trace : NodeEvalTrace) (calls : List TSNode) :
    traverseTreeLoop visitor (fuel + 1) .NEXT_SIBLING
        { frames := [(tree, [])] } trace calls = some (trace, calls) := by
  simp only [traverseTreeLoop, ts_tree_cursor_goto_next_sibling, ts_tree_cursor_goto_parent]

mutual
theorem loop_subtree (visitor : TSNode → NodeEvalTrace → NodeEvalTrace) :
    ∀ (tree : TSTree) (siblings : List TSTree) (above : List (TSTree × List TSTree))
      (trace : NodeEvalTrace) (calls : List TSNode),
      ∃ n, n + 2 ≤ 2 * (visitOrder tree).length ∧ ∀ k,
        traverseTreeLoop visitor (n + k + 1) .DESCEND
            { frames := (tree, siblings) :: above } trace calls =
          traverseTreeLoop visitor (k + 1) .NEXT_SIBLING
            { frames := (tree, siblings) :: above } (walk visitor (visitOrder tree) trace)
            (calls ++ visitOrder tree)
  | .node value [], siblings, above, trace, calls =>
    ⟨0, by simp [visitOrder, visitOrderOfSiblings], fun k => by
      rw [Nat.zero_add, loop_descend_leaf]
      simp [visitOrder, visitOrderOfSiblings, walk]⟩
  | .node value (child :: rest), siblings, above, trace, calls => by
    obtain ⟨n, hn, h1⟩ := loop_subtree visitor child rest
      ((.node value (child :: rest), siblings) :: above) (visitor value trace)
      (calls ++ [value])
    obtain ⟨m, hm, h2⟩ := loop_siblings visitor rest child
      (.node value (child :: rest), siblings) above
      (walk visitor (visitOrder child) (visitor value trace))
      (calls ++ [value] ++ visitOrder child)
    refine ⟨n + m + 2, ?_, fun k => ?_⟩
    · simp only [visitOrder, visitOrderOfSiblings, List.length_cons, List.length_append]
      omega
    · have e1 : n + m + 2 + k + 1 = (n + (m + (k + 1)) + 1) + 1 := by omega
      rw [e1, loop_descend_child, h1 (m + (k + 1)), h2 (k + 1)]
      simp [visitOrder, visitOrderOfSiblings, walk, List.foldl_append]
theorem loop_siblings (visitor : TSNode → NodeEvalTrace → NodeEvalTrace) :
    ∀ (siblings : List TSTree) (tree : TSTree) (parent : TSTree × List TSTree)
      (above : List (TSTree × List TSTree)) (trace : NodeEvalTrace) (calls : List TSNode),
      ∃ m, m ≤ 2 * (visitOrderOfSiblings siblings).length ∧ ∀ k,
        traverseTreeLoop visitor (m + k + 1) .NEXT_SIBLING
            { frames := (tree, siblings) :: parent :: above } trace calls =
          traverseTreeLoop visitor k .NEXT_SIBLING
            { frames := parent :: above } (walk visitor (visitOrderOfSiblings siblings) trace)
            (calls ++ visitOrderOfSiblings siblings)
  | [], tree, parent, above, trace, calls =>
    ⟨0, Nat.zero_le _, fun k => by
      rw [Nat.zero_add, loop_last_sibling]
      simp [visitOrderOfSiblings, walk]⟩
  | sibling :: rest, tree, parent, above, trace, calls => by
    obtain ⟨n, hn, h1⟩ := loop_subtree visitor sibling rest (parent :: above) trace calls
    obtain ⟨m, hm, h2⟩ := loop_siblings visitor rest sibling parent above
      (walk visitor (visitOrder sibling) trace) (calls ++ visitOrder sibling)
    refine ⟨n + m + 1, ?_, fun k => ?_⟩
    · simp only [visitOrderOfSiblings, List.length_append]
      omega
    · have e1 : n + m + 1 + k + 1 = (n + (m + k) + 1) + 1 := by omega
      rw [e1, loop_next_sibling, h1 (m + k), h2 k]
      simp [visitOrderOfSiblings, walk, List.foldl_append]
end

theorem traverseTreeWithCursor_eq (visitor : TSNode → NodeEvalTrace → NodeEvalTrace)
    (root : TSTree) (trace : NodeEvalTrace) (fuel : Nat)
    (hfuel : 2 * nodeCount root ≤ fuel) :
    traverseTreeWithCursor visitor fuel root trace =
      some (walk visitor (visitOrder root) trace, visitOrder root) := by
  obtain ⟨n, hn, h⟩ := loop_subtree visitor root [] [] trace []
  unfold nodeCount at hfuel
  have e : fuel = n + (fuel - n - 1) + 1 := by omega
  unfold traverseTreeWithCursor ts_tree_cursor_new
  rw [e, h (fuel - n - 1), loop_root_done]
  simp

theorem visitOrderOfSiblings_eq : ∀ (trees : List TSTree),
    visitOrderOfSiblings trees = (trees.map visitOrder).flatten
  | [] => rfl
  | tree :: rest => by
    rw [visitOrderOfSiblings, visitOrderOfSiblings_eq rest]
    simp

theorem charactersLoopUTF8_step (source : RcnSourceText) (fuel offset count : Nat) :
    charactersLoopUTF8 source (fuel + 1) offset count =
      if offset < source.size then
        charactersLoopUTF8 source fuel (offset + utf8Stride source offset) (count + 1)
      else count := rfl

theorem utf8Stride_bounds (source : RcnSourceText) (offset : Nat) (h : offset < source.size) :
    1 ≤ utf8Stride source offset ∧ utf8Stride source offset ≤ 4 ∧
    offset + utf8Stride source offset ≤ source.size ∧
    (utf8Stride source offset = 2 → (byteAt source offset &&& 0xe0) = 0xc0) ∧
    (utf8Stride source offset = 3 → (byteAt source offset &&& 0xf0) = 0xe0) ∧
    (utf8Stride source offset = 4 → (byteAt source offset &&& 0xf8) = 0xf0) := by
  unfold utf8Stride
  simp only [Bool.and_eq_true, beq_iff_eq, decide_eq_true_eq]
  split_ifs with h1 h2 h3
  · exact ⟨by omega, by omega, by omega, fun _ => h1.1, by omega, by omega⟩
  · exact ⟨by omega, by omega, by omega, by omega, fun _ => h2.1, by omega⟩
  · exact ⟨by omega, by omega, by omega, by omega, by omega, fun _ => h3.1⟩
  · exact ⟨by omega, by omega, by omega, by omega, by omega, by omega⟩

theorem hasUTF8BOMReads_lt (source : RcnSourceText) :
    ∀ i ∈ hasUTF8BOMReads source, i < source.size := by
  unfold hasUTF8BOMReads
  split_ifs with h
  · intro i hi
    simp only [List.mem_cons, List.mem_singleton, List.not_mem_nil, or_false] at hi
    omega
  · simp

theorem detectEncodingReads_lt (source : RcnSourceText) :
    ∀ i ∈ detectEncodingReads source, i < source.size := by
  unfold detectEncodingReads
  intro i hi
  rcases List.mem_append.mp hi with hi | hi
  · exact hasUTF8BOMReads_lt source i hi
  · split_ifs at hi with h1 h2
    · simp at hi
    · simp only [List.mem_cons, List.mem_singleton, List.not_mem_nil, or_false] at hi
      omega
    · simp at hi

theorem physicalLoopUTF8Reads_lt (source : RcnSourceText) :
    ∀ (fuel start : Nat), ∀ i ∈ physicalLoopUTF8Reads source fuel start, i < source.size
  | 0, _ => by simp [physicalLoopUTF8Reads]
  | fuel + 1, start => by
    intro i hi
    simp only [physicalLoopUTF8Reads] at hi
    split_ifs at hi with h
    · rcases List.mem_cons.mp hi with hi | hi
      · omega
      · exact physicalLoopUTF8Reads_lt source fuel (start + 1) i hi
    · simp at hi

theorem physicalLoopUTF16Reads_lt (source : RcnSourceText) (nlByte0 : Nat) :
    ∀ (fuel start : Nat), ∀ i ∈ physicalLoopUTF16Reads source nlByte0 fuel start,
      i < source.size
  | 0, _ => by simp [physicalLoopUTF16Reads]
  | fuel + 1, start => by
    intro i hi
    simp only [physicalLoopUTF16Reads] at hi
    split_ifs at hi with h h0
    · rcases List.mem_append.mp hi with hi | hi
      · simp only [List.mem_cons, List.mem_singleton, List.not_mem_nil, or_false] at hi
        omega
      · exact physicalLoopUTF16Reads_lt source nlByte0 fuel (start + 2) i hi
    · rcases List.mem_append.mp hi with hi | hi
      · simp only [List.mem_singleton] at hi
        omega
      · exact physicalLoopUTF16Reads_lt source nlByte0 fuel (start + 2) i hi
    · simp at hi

theorem charactersLoopUTF8Reads_lt (source : RcnSourceText) :
    ∀ (fuel start : Nat), ∀ i ∈ charactersLoopUTF8Reads source fuel start, i < source.size
  | 0, _ => by simp [charactersLoopUTF8Reads]
  | fuel + 1, start => by
    intro i hi
    simp only [charactersLoopUTF8Reads] at hi
    split_ifs at hi with h
    · rcases List.mem_cons.mp hi with hi | hi
      · omega
      · exact charactersLoopUTF8Reads_lt source fuel _ i hi
    · simp at hi

theorem codeUnitReads_lt (offset size : Nat) (h : offset + 1 < size) :
    ∀ i ∈ codeUnitReads offset, i < size := by
  intro i hi
  simp only [codeUnitReads, List.mem_cons, List.mem_singleton, List.not_mem_nil, or_false] at hi
  omega

theorem charactersLoopUTF16Reads_lt (source : RcnSourceText) (littleEndian : Bool) :
    ∀ (fuel start : Nat), ∀ i ∈ charactersLoopUTF16Reads source littleEndian fuel start,
      i < source.size
  | 0, _ => by simp [charactersLoopUTF16Reads]
  | fuel + 1, start => by
    intro i hi
    have ih := charactersLoopUTF16Reads_lt source littleEndian fuel
    simp only [charactersLoopUTF16Reads] at hi
    split_ifs at hi with h h1 h2 h3 h4
    all_goals first
      | (simp at hi; done)
      | (simp only [List.mem_append] at hi
         rcases hi with (hi | hi) | hi
         · exact codeUnitReads_lt start _ h i hi
         · exact codeUnitReads_lt (start + 2) _ (by assumption) i hi
         · exact ih _ i hi)
      | (simp only [List.mem_append] at hi
         rcases hi with hi | hi
         · exact codeUnitReads_lt start _ h i hi
         · exact ih _ i hi)

theorem physicalLoopUTF8_stable (source : RcnSourceText) :
    ∀ (fuel i count k : Nat), source.size ≤ i + fuel →
      physicalLoopUTF8 source (fuel + k) i count = physicalLoopUTF8 source fuel i count
  | 0, i, count, 0, _ => rfl
  | 0, i, count, k + 1, h => by
    have hn : ¬ i < source.size := by omega
    simp only [Nat.zero_add, physicalLoopUTF8, hn, if_false]
  | fuel + 1, i, count, k, h => by
    have e : fuel + 1 + k = (fuel + k) + 1 := by omega
    rw [e]
    simp only [physicalLoopUTF8]
    by_cases hi : i < source.size
    · simp only [hi, if_true]
      exact physicalLoopUTF8_stable source fuel (i + 1) _ k (by omega)
    · simp only [hi, if_false]

theorem physicalLoopUTF16_stable (source : RcnSourceText) (nlByte0 nlByte1 : Nat) :
    ∀ (fuel i count k : Nat), source.size ≤ i + fuel →
      physicalLoopUTF16 source nlByte0 nlByte1 (fuel + k) i count =
        physicalLoopUTF16 source nlByte0 nlByte1 fuel i count
  | 0, i, count, 0, _ => rfl
  | 0, i, count, k + 1, h => by
    have hn : ¬ i < source.size - 1 := by omega
    simp only [Nat.zero_add, physicalLoopUTF16, hn, if_false]
  | fuel + 1, i, count, k, h => by
    have e : fuel + 1 + k = (fuel + k) + 1 := by omega
    rw [e]
    simp only [physicalLoopUTF16]
    by_cases hi : i < source.size - 1
    · simp only [hi, if_true]
      exact physicalLoopUTF16_stable source nlByte0 nlByte1 fuel (i + 2) _ k (by omega)
    · simp only [hi, if_false]

theorem charactersLoopUTF8_stable (source : RcnSourceText) :
    ∀ (fuel offset count k : Nat), source.size ≤ offset + fuel →
      charactersLoopUTF8 source (fuel + k) offset count =
        charactersLoopUTF8 source fuel offset count
  | 0, offset, count, 0, _ => rfl
  | 0, offset, count, k + 1, h => by
    have hn : ¬ offset < source.size := by omega
    rw [Nat.zero_add, charactersLoopUTF8_step, if_neg hn]
    rfl
  | fuel + 1, offset, count, k, h => by
    have e : fuel + 1 + k = (fuel + k) + 1 := by omega
    rw [e, charactersLoopUTF8_step, charactersLoopUTF8_step]
    split_ifs with hi
    · have hs := (utf8Stride_bounds source offset hi).1
      exact charactersLoopUTF8_stable source fuel _ _ k (by omega)
    · rfl

theorem charactersLoopUTF16_stable (source : RcnSourceText) (littleEndian : Bool) :
    ∀ (fuel offset count k : Nat), source.size ≤ offset + fuel →
      charactersLoopUTF16 source littleEndian (fuel + k) offset count =
        charactersLoopUTF16 source littleEndian fuel offset count
  | 0, offset, count, 0, _ => rfl
  | 0, offset, count, k + 1, h => by
    have hn : ¬ offset + 1 < source.size := by omega
    simp only [Nat.zero_add, charactersLoopUTF16, hn, if_false]
  | fuel + 1, offset, count, k, h => by
    have e : fuel + 1 + k = (fuel + k) + 1 := by omega
    have ih := charactersLoopUTF16_stable source littleEndian fuel
    rw [e]
    simp only [charactersLoopUTF16]
    split_ifs
    all_goals first
      | rfl
      | exact ih _ _ k (by omega)

theorem rcnCountPhysicalLinesReads_lt (source : RcnSourceText) :
    ∀ i ∈ rcnCountPhysicalLinesReads source, i < source.size := by
  intro i hi
  unfold rcnCountPhysicalLinesReads at hi
  by_cases h0 : (source.size == 0) = true
  · simp [h0] at hi
  by_cases h1 : source.text.isNone = true
  · simp [h0, h1] at hi
  by_cases h2 : source.size > UINT32_MAX
  · simp [h0, h1, h2] at hi
  have hpos : 0 < source.size := by
    rcases Nat.eq_zero_or_pos source.size with hz | hp
    · rw [hz] at h0; simp at h0
    · exact hp
  simp only [h0, h1, h2, if_false, Bool.false_eq_true] at hi
  rcases List.mem_append.mp hi with hi | hi
  · exact detectEncodingReads_lt source i hi
  · by_cases h3 : (detectEncoding source == TextEncoding.TextEncodingUTF8) = true
    · simp only [h3, if_true] at hi
      rcases List.mem_append.mp hi with hi | hi
      · exact physicalLoopUTF8Reads_lt source _ _ i hi
      · simp only [List.mem_singleton] at hi; omega
    · simp only [h3, if_false] at hi
      rcases List.mem_append.mp hi with hi | hi
      · exact physicalLoopUTF16Reads_lt source _ _ _ i hi
      · split_ifs at hi <;>
          simp only [List.mem_cons, List.mem_singleton, List.not_mem_nil, or_false] at hi <;>
          omega

theorem rcnCountCharactersReads_lt (source : RcnSourceText) :
    ∀ i ∈ rcnCountCharactersReads source, i < source.size := by
  intro i hi
  unfold rcnCountCharactersReads at hi
  by_cases h0 : (source.size == 0) = true
  · simp [h0] at hi
  by_cases h1 : source.text.isNone = true
  · simp [h0, h1] at hi
  by_cases h2 : source.size > UINT32_MAX
  · simp [h0, h1, h2] at hi
  simp only [h0, h1, h2, if_false, Bool.false_eq_true] at hi
  rcases List.mem_append.mp hi with hi | hi
  · exact detectEncodingReads_lt source i hi
  · by_cases h3 : (detectEncoding source == TextEncoding.TextEncodingUTF8) = true
    · simp only [h3, if_true] at hi
      unfold countCharactersUTF8Reads at hi
      rcases List.mem_append.mp hi with hi | hi
      · exact hasUTF8BOMReads_lt source i hi
      · exact charactersLoopUTF8Reads_lt source _ _ i hi
    · simp only [h3, if_false] at hi
      unfold countCharactersUTF16Reads at hi
      simp only [] at hi
      rcases List.mem_append.mp hi with hi | hi
      · by_cases h4 : source.size ≥ 2
        · simp only [h4, if_true] at hi
          exact codeUnitReads_lt 0 _ (by omega) i hi
        · simp [h4] at hi
      · exact charactersLoopUTF16Reads_lt source _ _ _ i hi

theorem evaluatedVisits_recorded (memory : AnnotationMemory) (language : RcnTextFormat)
    (evaluator : TSNode → NodeEvalTrace → NodeEvalTrace) (lineCount : Nat)
    (hrec : ∀ index, memory.record index = true) (nodes : List TSNode) :
    ∀ (trace : NodeEvalTrace),
      ∀ visit ∈ evaluatedVisits memory language evaluator lineCount nodes trace,
        visit.2.2 = true := by
  induction nodes with
  | nil =>
    intro trace visit hv
    simp [evaluatedVisits] at hv
  | cons node rest ih =>
    intro trace visit hv
    unfold evaluatedVisits at hv
    by_cases hr : node.row < lineCount
    · simp only [hr, if_true, List.mem_cons] at hv
      rcases hv with hv | hv
      · rw [hv]
        exact hrec _
      · exact ih _ visit hv
    · simp only [hr, if_false] at hv
      exact ih _ visit hv

theorem completeComment_of_recorded (recorded : List (TSNode × Nat × Bool))
    (h : ∀ visit ∈ recorded, visit.2.2 = true) :
    renderedComment true recorded = completeComment recorded := by
  rw [renderedComment_of_recorded true recorded h]
  unfold completeComment
  simp

/-- What `rcnMarkLogicalLinesInSourceText` returns for a C string: nothing, or
the text with the rendered comment on every line below the line count. -/
theorem rcnMark_rendered (env : Env) (memory : AnnotationMemory) (language : RcnTextFormat)
    (evaluator : TSNode → NodeEvalTrace → NodeEvalTrace)
    (hlang : createEvaluationFunction language = some evaluator)
    (bytes : List Nat) (h0 : 0 ∉ bytes) :
    rcnMarkLogicalLinesInSourceText env memory language (sourceOfBytes bytes) = emptyText ∨
    (rcnMarkLogicalLinesInSourceText env memory language (sourceOfBytes bytes)).text =
      some (commentedText
        (fun row => renderedComment (memory.reserve row)
          (recordedOnRow row (visitsOf env memory language evaluator bytes)))
        (rcnCountPhysicalLines (sourceOfBytes (behindBOM bytes))).count
        (behindBOM bytes)) := by
  by_cases hok : (rcnMarkLogicalLinesInSourceText env memory language
      (sourceOfBytes bytes)).text = none
  · rcases rcnMark_cases env memory language bytes with h | ⟨_, _, _, _, h⟩
    · exact Or.inl h
    · rw [h] at hok
      exact absurd hok (by simp)
  · right
    obtain ⟨_, h⟩ := rcnMark_of_text env memory language bytes h0 hok
    have hc : lineComment (annotationContextOf env memory language bytes) =
        fun row =>
          if row < (rcnCountPhysicalLines (sourceOfBytes (behindBOM bytes))).count then
            renderedComment (memory.reserve row)
              (recordedOnRow row (visitsOf env memory language evaluator bytes))
          else [] := by
      funext row
      by_cases hr : row < (rcnCountPhysicalLines (sourceOfBytes (behindBOM bytes))).count
      · simp only [hr, if_true]
        exact lineComment_annotatedContext memory language evaluator hlang _ _ row hr
      · simp only [hr, if_false]
        unfold lineComment
        rw [(annotationContextOf_length env memory language evaluator hlang bytes).2]
        simp only [hr, if_false]
    rw [h, hc]
    rfl

/-- When no allocation of a line buffer fails, the text that
`rcnMarkLogicalLinesInSourceText` returns for a C string has the complete
comment on every line below the line count. -/
theorem rcnMark_complete (env : Env) (memory : AnnotationMemory) (language : RcnTextFormat)
    (evaluator : TSNode → NodeEvalTrace → NodeEvalTrace)
    (hlang : createEvaluationFunction language = some evaluator)
    (bytes : List Nat) (h0 : 0 ∉ bytes)
    (hrec : ∀ index, memory.record index = true) (hres : ∀ row, memory.reserve row = true) :
    rcnMarkLogicalLinesInSourceText env memory language (sourceOfBytes bytes) = emptyText ∨
    (rcnMarkLogicalLinesInSourceText env memory language (sourceOfBytes bytes)).text =
      some (commentedText
        (fun row => completeComment
          (recordedOnRow row (visitsOf env memory language evaluator bytes)))
        (rcnCountPhysicalLines (sourceOfBytes (behindBOM bytes))).count
        (behindBOM bytes)) := by
  rcases rcnMark_rendered env memory language evaluator hlang bytes h0 with h | h
  · exact Or.inl h
  · right
    rw [h]
    have hc : (fun row => renderedComment (memory.reserve row)
          (recordedOnRow row (visitsOf env memory language evaluator bytes))) =
        fun row => completeComment
          (recordedOnRow row (visitsOf env memory language evaluator bytes)) := by
      funext row
      rw [hres row]
      apply completeComment_of_recorded
      intro visit hv
      unfold recordedOnRow at hv
      exact evaluatedVisits_recorded memory language evaluator _ hrec _ _ visit
        (List.mem_of_mem_filter hv)
    rw [hc]

/-- For a text that is a C string of its size and annotates successfully, the
merge writes `len(source) + spaceForComments + 1` bytes, the last being NUL,
where `len(source)` is the length of the text behind its byte order mark and
`spaceForComments` the sum of the sizes of all line buffers; this is the
assertion `nCharsWritten == annotatedSourceLength` of `buildAnnotatedSource`,
and the reported size is `len(source) + spaceForComments`. -/
theorem annotated_size_of_string (env : Env) (memory : AnnotationMemory)
    (language : RcnTextFormat) (bytes : List Nat) (hnul : 0 ∉ bytes)
    (hok : (rcnMarkLogicalLinesInSourceText env memory language (sourceOfBytes bytes)).text
      ≠ none) :
    (rcnMarkLogicalLinesInSourceText env memory language (sourceOfBytes bytes)).text =
      some (annotatedBytes memory (behindBOM bytes)
        (annotationTrace env memory language bytes)) ∧
    (annotatedBytes memory (behindBOM bytes)
        (annotationTrace env memory language bytes)).length =
      annotatedSourceLength memory (behindBOM bytes)
        (annotationTrace env memory language bytes) ∧
    (annotatedBytes memory (behindBOM bytes)
        (annotationTrace env memory language bytes)).length =
      (behindBOM bytes).length + spaceForComments (annotationContextOf env memory language bytes)
        + 1 ∧
    (annotatedBytes memory (behindBOM bytes)
        (annotationTrace env memory language bytes)).getLast? = some 0 ∧
    (rcnMarkLogicalLinesInSourceText env memory language (sourceOfBytes bytes)).size =
      (behindBOM bytes).length
        + spaceForComments (annotationContextOf env memory language bytes) := by
  obtain ⟨⟨evaluator, hlang⟩, h⟩ := rcnMark_of_text env memory language bytes hnul hok
  obtain ⟨hb, hl⟩ := annotationTrace_bytes env memory language evaluator hlang bytes (behindBOM bytes)
  have hs := strlen_of_nul_free _ (behindBOM_nul_free bytes hnul)
  have hlen := annotated_length env memory language evaluator hlang bytes hnul
  rw [hb, hl, hs, mergeSourceAnnotations_eq, h]
  refine ⟨rfl, ?_, ?_, ?_, ?_⟩
  · simp only [List.length_append, List.length_singleton, hlen]
  · simp only [List.length_append, List.length_singleton, hlen]
  · simp
  · exact hlen

/-! ## The claims -/

/-- Claim C1. After `rcnCount` on statistics as they are created (all totals
and all results zero), for any files and any options, each of the five totals
equals the sum of the corresponding field over the per-file results, the sum
being taken in `RcnCount` arithmetic (`uint64_t`, modulo `2 ^ 64`). -/
theorem C1_totals_equal_sums_of_results (env : Env) (files : List RcnSourceFile)
    (options : RcnStatOptions) :
    (rcnCount env (freshStatistics files) options).totalLogicalLines =
        (((rcnCount env (freshStatistics files) options).count.results.getD []).map
          (·.logicalLines)).sum % 2 ^ 64 ∧
    (rcnCount env (freshStatistics files) options).totalPhysicalLines =
        (((rcnCount env (freshStatistics files) options).count.results.getD []).map
          (·.physicalLines)).sum % 2 ^ 64 ∧
    (rcnCount env (freshStatistics files) options).totalWords =
        (((rcnCount env (freshStatistics files) options).count.results.getD []).map
          (·.words)).sum % 2 ^ 64 ∧
    (rcnCount env (freshStatistics files) options).totalCharacters =
        (((rcnCount env (freshStatistics files) options).count.results.getD []).map
          (·.characters)).sum % 2 ^ 64 ∧
    (rcnCount env (freshStatistics files) options).totalSourceSize =
        (((rcnCount env (freshStatistics files) options).count.results.getD []).map
          (·.sourceSize)).sum % 2 ^ 64 := by
  cases files with
  | nil => rw [rcnCount_fresh_nil]; simp [freshStatistics]
  | cons f fs =>
    rw [rcnCount_fresh env (f :: fs) options (List.cons_ne_nil f fs)]
    obtain ⟨t1, t2, t3, t4, t5, -⟩ := finishStatistics_totals (f :: fs).length
      (rcnCountLoop env (enableDefaults options) (startStatistics (freshStatistics (f :: fs)))
        (f :: fs) (List.replicate (f :: fs).length zeroResultGroup))
    rw [t1, t2, t3, t4, t5, finishStatistics_results]
    simp only [Option.getD_some]
    have hc := count_totals env (enableDefaults options)
    have key : ∀ (tot : RcnCountStatistics → Nat) (fld : RcnCountResultGroup → Nat),
        (∀ r, fld (resetResultGroup r) = 0) → (∀ r, fld (unsupportedResult r) = 0) →
        (∀ s f r d, Tracks tot fld s
          (count env (enableDefaults options)
            { stats := s, file := f, result := resetResultGroup r } d)) →
        tot (startStatistics (freshStatistics (f :: fs))) = 0 →
        tot (rcnCountLoop env (enableDefaults options)
            (startStatistics (freshStatistics (f :: fs))) (f :: fs)
            (List.replicate (f :: fs).length zeroResultGroup)).stats =
          ((rcnCountLoop env (enableDefaults options)
            (startStatistics (freshStatistics (f :: fs))) (f :: fs)
            (List.replicate (f :: fs).length zeroResultGroup)).results.map fld).sum % 2 ^ 64 := by
      intro tot fld hr hu htr h0
      obtain ⟨h1, h2⟩ := loop_sum env (enableDefaults options) tot fld hr hu htr (f :: fs)
        (startStatistics (freshStatistics (f :: fs)))
      rw [h0, Nat.zero_add] at h1
      rw [← h1]
      exact (Nat.mod_eq_of_lt (h2 (by rw [h0]; norm_num))).symm
    refine ⟨key _ _ (fun _ => rfl) (fun _ => rfl) (fun s f r d => (hc s f r d).1) rfl,
      key _ _ (fun _ => rfl) (fun _ => rfl) (fun s f r d => (hc s f r d).2.1) rfl,
      key _ _ (fun _ => rfl) (fun _ => rfl) (fun s f r d => (hc s f r d).2.2.1) rfl,
      key _ _ (fun _ => rfl) (fun _ => rfl) (fun s f r d => (hc s f r d).2.2.2.1) rfl,
      key _ _ (fun _ => rfl) (fun _ => rfl) (fun s f r d => (hc s f r d).2.2.2.2) rfl⟩

/-- Claim C2. After `rcnCount` on statistics as they are created, every result
with `isProcessed = false` has `logicalLines`, `physicalLines`, `words`,
`characters` and `sourceSize` all equal to 0; this covers a file that failed in a
later step, whose result is reset. -/
theorem C2_unprocessed_results_are_zero (env : Env) (files : List RcnSourceFile)
    (options : RcnStatOptions) (r : RcnCountResultGroup)
    (hr : r ∈ (rcnCount env (freshStatistics files) options).count.results.getD [])
    (hp : r.isProcessed = false) :
    r.logicalLines = 0 ∧ r.physicalLines = 0 ∧ r.words = 0 ∧ r.characters = 0 ∧
      r.sourceSize = 0 := by
  obtain ⟨k, f, f', h1, h2, h3⟩ := rcnCount_result_index env files options r hr
  refine rcnCount_forall env files options (fun _ => True)
    (fun _ _ r => r.isProcessed = false →
      r.logicalLines = 0 ∧ r.physicalLines = 0 ∧ r.words = 0 ∧ r.characters = 0 ∧
        r.sourceSize = 0)
    (fun _ _ _ => ⟨rfl, rfl, rfl, rfl, rfl⟩)
    (fun _ _ _ _ => ⟨rfl, rfl, rfl, rfl, rfl⟩)
    ?_ (fun _ _ => trivial) k f f' r h1 h2 h3 hp
  intro s g _ _ _
  rcases count_cases env (enableDefaults options) s g zeroResultGroup
    (detectSourceFormat g) with ⟨m1, m2, -, h⟩ | ⟨st, -, -, h⟩ | ⟨-, -, h⟩
  · rw [reset_zero] at h; rw [h]; intro _; exact ⟨rfl, rfl, rfl, rfl, rfl⟩
  · rw [reset_zero] at h; rw [h]; intro _; exact ⟨rfl, rfl, rfl, rfl, rfl⟩
  · rw [reset_zero] at h; rw [h]; intro hp; simp [countedResult] at hp

/-- Witness of `C2_unprocessed_results_are_zero`: the file `bad.c`, whose
logical-line step fails. -/
theorem C2_unprocessed_results_are_zero_witness :
    sampleSyntaxFailure ∈
      (rcnCount sampleEnv (freshStatistics [sampleFile "good.c" "c", sampleFile "bad.c" "c"])
        sampleOptions).count.results.getD [] ∧
    sampleSyntaxFailure.isProcessed = false ∧
    (sampleSyntaxFailure.logicalLines = 0 ∧ sampleSyntaxFailure.physicalLines = 0 ∧
      sampleSyntaxFailure.words = 0 ∧ sampleSyntaxFailure.characters = 0 ∧
      sampleSyntaxFailure.sourceSize = 0) :=
  ⟨by decide, rfl,
    C2_unprocessed_results_are_zero sampleEnv
      [sampleFile "good.c" "c", sampleFile "bad.c" "c"] sampleOptions sampleSyntaxFailure
      (by decide) rfl⟩

/-- Claim C3, as amended. After `rcnCount` on statistics as they are created,
every result with `isProcessed = true` has the error code `RCN_ERR_NONE`, and
its `state.ok` is `true` whenever at least one counting step ran on its file:
the operations (zero meaning all) select physical lines, words or characters,
or they select logical lines and the file is a programming language. -/
theorem C3_processed_result_state (env : Env) (files : List RcnSourceFile)
    (options : RcnStatOptions) (k : Nat) (f : RcnSourceFile) (r : RcnCountResultGroup)
    (hf : files[k]? = some f)
    (hr : ((rcnCount env (freshStatistics files) options).count.results.getD [])[k]? = some r)
    (hp : r.isProcessed = true) :
    r.state.errorCode = .RCN_ERR_NONE ∧
      ((runsLogical (enableDefaults options) (detectSourceFormat f)
          || runsPhysical (enableDefaults options) || runsWords (enableDefaults options)
          || runsCharacters (enableDefaults options)) = true →
        r.state.ok = true) := by
  obtain ⟨f', r', h2, h3⟩ := rcnCount_file_index env files options k f hf
  refine rcnCount_forall env files options (fun _ => True)
    (fun f _ r => r.isProcessed = true → r.state.errorCode = .RCN_ERR_NONE ∧
      ((runsLogical (enableDefaults options) (detectSourceFormat f)
          || runsPhysical (enableDefaults options) || runsWords (enableDefaults options)
          || runsCharacters (enableDefaults options)) = true →
        r.state.ok = true))
    (fun _ _ h => by simp [zeroResultGroup] at h)
    (fun _ _ _ h => by simp [unsupportedResult, resetResultGroup] at h)
    ?_ (fun _ _ => trivial) k f f' r hf h2 hr hp
  intro s g _ _ _
  rcases count_cases env (enableDefaults options) s g zeroResultGroup
    (detectSourceFormat g) with ⟨m1, m2, -, h⟩ | ⟨st, -, -, h⟩ | ⟨-, -, h⟩
  · rw [reset_zero] at h; rw [h]; intro hp; simp [finishFailed, failedResult] at hp
  · rw [reset_zero] at h; rw [h]; intro hp; simp [finishFailed, failedResult] at hp
  · rw [reset_zero] at h; rw [h]; intro _
    simp only [countedResult]
    constructor
    · split_ifs <;> rfl
    · intro hrun; rw [if_pos hrun]

/-- Witness of `C3_processed_result_state`: the C file `good.c`, all
operations. -/
theorem C3_processed_result_state_witness :
    [sampleFile "good.c" "c"][0]? = some (sampleFile "good.c" "c") ∧
    ((rcnCount sampleEnv (freshStatistics [sampleFile "good.c" "c"])
        sampleOptions).count.results.getD [])[0]? = some sampleCountedResult ∧
    sampleCountedResult.isProcessed = true ∧
    (sampleCountedResult.state.errorCode = .RCN_ERR_NONE ∧
      ((runsLogical (enableDefaults sampleOptions)
            (detectSourceFormat (sampleFile "good.c" "c"))
          || runsPhysical (enableDefaults sampleOptions)
          || runsWords (enableDefaults sampleOptions)
          || runsCharacters (enableDefaults sampleOptions)) = true →
        sampleCountedResult.state.ok = true)) :=
  ⟨rfl, by decide, rfl,
    C3_processed_result_state sampleEnv [sampleFile "good.c" "c"] sampleOptions
      0 (sampleFile "good.c" "c") sampleCountedResult rfl (by decide) rfl⟩

/-- Claim C3 does not hold as stated: with only logical lines selected, the
text file `notes.txt` is marked processed while `state.ok` stays `false`. -/
theorem C3_counterexample :
    ¬ (∀ (env : Env) (files : List RcnSourceFile) (options : RcnStatOptions)
        (r : RcnCountResultGroup),
        r ∈ (rcnCount env (freshStatistics files) options).count.results.getD [] →
        r.isProcessed = true →
        r.state.ok = true ∧ r.state.errorCode = .RCN_ERR_NONE) := by
  intro h
  have h1 := h sampleEnv [sampleFile "notes.txt" "txt"]
    { operations := RCN_OPT_COUNT_LOGICAL_LINES, formats := 0, stopOnError := false,
      keepFileContent := false }
    { logicalLines := 0, physicalLines := 0, words := 0, characters := 0, sourceSize := 3,
      state := { errorCode := .RCN_ERR_NONE, errorMessage := none, ok := false },
      isProcessed := true }
    (by decide) rfl
  exact absurd h1.1 (by decide)

/-- Claim C4, as amended. In `rcnCount` over two or more files with
`stopOnError = false`, `stats.state.ok` stays `true`, and the aggregate error
code afterwards is `RCN_ERR_INVALID_INPUT` when the content of at least one
file could not be loaded and `RCN_ERR_NONE` otherwise: a failure of a counting
step (a syntax error, an input too large) is recorded in the result of the file
and not in the aggregate state. -/
theorem C4_aggregate_state_without_stop (env : Env) (files : List RcnSourceFile)
    (options : RcnStatOptions) (hn : 2 ≤ files.length)
    (hs : options.stopOnError = false) :
    (rcnCount env (freshStatistics files) options).state.ok = true ∧
    (rcnCount env (freshStatistics files) options).state.errorCode =
      if ((rcnCount env (freshStatistics files) options).count.results.getD []).any loadFailed
      then .RCN_ERR_INVALID_INPUT else .RCN_ERR_NONE := by
  have hne : files ≠ [] := by
    intro h; rw [h] at hn; simp at hn
  rw [rcnCount_fresh env files options hne, finishStatistics_results, Option.getD_some]
  have h1 : (files.length == 1) = false := by
    simp only [beq_eq_false_iff_ne, ne_eq]; omega
  have h2 : finishStatistics files.length
      (rcnCountLoop env (enableDefaults options) (startStatistics (freshStatistics files))
        files (List.replicate files.length zeroResultGroup)) =
      { (rcnCountLoop env (enableDefaults options) (startStatistics (freshStatistics files))
          files (List.replicate files.length zeroResultGroup)).stats with
        count :=
          { (rcnCountLoop env (enableDefaults options)
              (startStatistics (freshStatistics files))
              files (List.replicate files.length zeroResultGroup)).stats.count with
            files := some (rcnCountLoop env (enableDefaults options)
              (startStatistics (freshStatistics files))
              files (List.replicate files.length zeroResultGroup)).files,
            results := some (rcnCountLoop env (enableDefaults options)
              (startStatistics (freshStatistics files))
              files (List.replicate files.length zeroResultGroup)).results } } := by
    unfold finishStatistics
    simp only [h1, Bool.false_eq_true, if_false]
  rw [h2]
  exact loop_nostop_state env (enableDefaults options) hs files
    (startStatistics (freshStatistics files)) rfl

/-- Witness of `C4_aggregate_state_without_stop`: a file with a syntax error
and a file that does not exist. -/
theorem C4_aggregate_state_without_stop_witness :
    2 ≤ [sampleFile "bad.c" "c", sampleFile "missing.c" "c"].length ∧
    ({ operations := 0, formats := 0, stopOnError := false, keepFileContent := false }
      : RcnStatOptions).stopOnError = false ∧
    (rcnCount sampleEnv
        (freshStatistics [sampleFile "bad.c" "c", sampleFile "missing.c" "c"])
        { operations := 0, formats := 0, stopOnError := false, keepFileContent := false }
      ).state.ok = true ∧
    (rcnCount sampleEnv
        (freshStatistics [sampleFile "bad.c" "c", sampleFile "missing.c" "c"])
        { operations := 0, formats := 0, stopOnError := false, keepFileContent := false }
      ).state.errorCode =
      if ((rcnCount sampleEnv
        (freshStatistics [sampleFile "bad.c" "c", sampleFile "missing.c" "c"])
        { operations := 0, formats := 0, stopOnError := false, keepFileContent := false }
        ).count.results.getD []).any loadFailed
      then .RCN_ERR_INVALID_INPUT else .RCN_ERR_NONE :=
  ⟨by decide, rfl,
    C4_aggregate_state_without_stop sampleEnv
      [sampleFile "bad.c" "c", sampleFile "missing.c" "c"]
      { operations := 0, formats := 0, stopOnError := false, keepFileContent := false }
      (by decide) rfl⟩

/-- Claim C4 does not hold as stated: over `good.c` and `bad.c`, without
`stopOnError`, the most recent failure is the syntax error of `bad.c`, and
the aggregate error code afterwards is `RCN_ERR_NONE`. -/
theorem C4_counterexample :
    ¬ (∀ (env : Env) (files : List RcnSourceFile) (options : RcnStatOptions)
        (r : RcnCountResultGroup),
        2 ≤ files.length → options.stopOnError = false →
        (((rcnCount env (freshStatistics files) options).count.results.getD []).filter
          (fun x => x.state.errorCode != .RCN_ERR_NONE
            && x.state.errorCode != .RCN_ERR_UNSUPPORTED_FORMAT)).getLast? = some r →
        (rcnCount env (freshStatistics files) options).state.errorCode = r.state.errorCode ∧
        (rcnCount env (freshStatistics files) options).state.ok = true) := by
  intro h
  have h1 := h sampleEnv [sampleFile "good.c" "c", sampleFile "bad.c" "c"]
    { operations := 0, formats := 0, stopOnError := false, keepFileContent := false }
    (failedResult
      { errorCode := .RCN_ERR_SYNTAX_ERROR,
        errorMessage := some "Syntax error detected in source code", ok := false })
    (by decide) rfl (by decide)
  exact absurd h1.1 (by decide)

/-- Claim C5. In `rcnCount` with `stopOnError = true`, at the first file that
fails to load or fails a counting step, the aggregate state is set to
`ok = false` with the error code recorded in the result of that file, and no
later file is read, reset or processed: the files and the results after it are
exactly as before the call. -/
theorem C5_stop_on_first_failure (env : Env) (stats : RcnCountStatistics)
    (options : RcnStatOptions) (pre post : List RcnSourceFile) (f : RcnSourceFile)
    (rpre rpost : List RcnCountResultGroup) (r : RcnCountResultGroup)
    (hfiles : stats.count.files = some (pre ++ f :: post))
    (hresults : stats.count.results = some (rpre ++ r :: rpost))
    (hsize : stats.count.size = (pre ++ f :: post).length)
    (hlen : rpre.length = pre.length) (hlen' : rpost.length = post.length)
    (hs : options.stopOnError = true)
    (hpre : ∀ g ∈ pre, fileFails env (enableDefaults options) g = false)
    (hf : fileFails env (enableDefaults options) f = true) :
    (rcnCount env stats options).state.ok = false ∧
    (∃ r' : RcnCountResultGroup,
      ((rcnCount env stats options).count.results.getD [])[pre.length]? = some r' ∧
      r'.isProcessed = false ∧ r'.state.ok = false ∧
      r'.state.errorCode ≠ .RCN_ERR_NONE ∧
      (rcnCount env stats options).state.errorCode = r'.state.errorCode) ∧
    ((rcnCount env stats options).count.files.getD []).drop (pre.length + 1) = post ∧
    ((rcnCount env stats options).count.results.getD []).drop (pre.length + 1) = rpost := by
  have hrs : (rpre ++ r :: rpost).length = (pre ++ f :: post).length := by
    simp [hlen, hlen']
  rw [rcnCount_eq env stats options _ _ hfiles hresults hsize hrs]
  have hs' : (enableDefaults options).stopOnError = true := hs
  obtain ⟨c, c1, c2, c3, c4, hloop⟩ := loop_stop_at env (enableDefaults options) hs'
    pre post f rpre rpost r (startStatistics stats) hlen rfl hpre hf
  have hl := loop_length env (enableDefaults options) pre (startStatistics stats) rpre
  rw [hloop]
  have hfl : ((rcnCountLoop env (enableDefaults options) (startStatistics stats)
      pre rpre).files).length = pre.length := hl.1
  have hrl : ((rcnCountLoop env (enableDefaults options) (startStatistics stats)
      pre rpre).results).length = pre.length := by rw [hl.2, hlen]
  rw [finishStatistics_results, finishStatistics_files, Option.getD_some, Option.getD_some]
  refine ⟨?_, ⟨c.result, ?_, c3, c1, c2, ?_⟩, ?_, ?_⟩
  · -- the aggregate state is not ok
    unfold finishStatistics
    simp only []
    split_ifs with h1
    · cases pre with
      | nil =>
        have : rpre = [] := List.length_eq_zero.mp hlen
        subst this
        simp [loop_nil_left, c1]
      | cons g gs => simp at h1
    · simp [c4]
  · rw [List.getElem?_append_right (by rw [hrl]), hrl]
    simp
  · unfold finishStatistics
    simp only []
    split_ifs with h1
    · cases pre with
      | nil =>
        have : rpre = [] := List.length_eq_zero.mp hlen
        subst this
        simp [loop_nil_left]
      | cons g gs => simp at h1
    · simp [c4]
  · rw [← hfl, List.drop_append_eq_append_drop]
    simp
  · rw [← hrl, List.drop_append_eq_append_drop]
    simp

/-- Witness of `C5_stop_on_first_failure`: `good.c`, `bad.c`, `good.c` with
`stopOnError`; the third result holds stale values and keeps them. -/
theorem C5_stop_on_first_failure_witness :
    (rcnCount sampleEnv
      (sampleStatistics
        [sampleFile "good.c" "c", sampleFile "bad.c" "c", sampleFile "good.c" "c"]
        [zeroResultGroup, zeroResultGroup, sampleStaleResult])
      { sampleOptions with stopOnError := true }).state.ok = false ∧
    (∃ r' : RcnCountResultGroup,
      ((rcnCount sampleEnv
        (sampleStatistics
          [sampleFile "good.c" "c", sampleFile "bad.c" "c", sampleFile "good.c" "c"]
          [zeroResultGroup, zeroResultGroup, sampleStaleResult])
        { sampleOptions with stopOnError := true }).count.results.getD [])[
          [sampleFile "good.c" "c"].length]? = some r' ∧
      r'.isProcessed = false ∧ r'.state.ok = false ∧
      r'.state.errorCode ≠ .RCN_ERR_NONE ∧
      (rcnCount sampleEnv
        (sampleStatistics
          [sampleFile "good.c" "c", sampleFile "bad.c" "c", sampleFile "good.c" "c"]
          [zeroResultGroup, zeroResultGroup, sampleStaleResult])
        { sampleOptions with stopOnError := true }).state.errorCode = r'.state.errorCode) ∧
    ((rcnCount sampleEnv
      (sampleStatistics
        [sampleFile "good.c" "c", sampleFile "bad.c" "c", sampleFile "good.c" "c"]
        [zeroResultGroup, zeroResultGroup, sampleStaleResult])
      { sampleOptions with stopOnError := true }).count.files.getD []).drop
        ([sampleFile "good.c" "c"].length + 1) = [sampleFile "good.c" "c"] ∧
    ((rcnCount sampleEnv
      (sampleStatistics
        [sampleFile "good.c" "c", sampleFile "bad.c" "c", sampleFile "good.c" "c"]
        [zeroResultGroup, zeroResultGroup, sampleStaleResult])
      { sampleOptions with stopOnError := true }).count.results.getD []).drop
        ([sampleFile "good.c" "c"].length + 1) = [sampleStaleResult] :=
  C5_stop_on_first_failure sampleEnv
    (sampleStatistics
      [sampleFile "good.c" "c", sampleFile "bad.c" "c", sampleFile "good.c" "c"]
      [zeroResultGroup, zeroResultGroup, sampleStaleResult])
    { sampleOptions with stopOnError := true }
    [sampleFile "good.c" "c"] [sampleFile "good.c" "c"] (sampleFile "bad.c" "c")
    [zeroResultGroup] [sampleStaleResult] zeroResultGroup
    rfl rfl rfl rfl rfl rfl (by decide) (by decide)

/-- Claim C6. In `rcnCount` over two or more files, when the loop gets to a
file whose extension is not a supported format (no failure has stopped it
before), the result of the file gets the error code
`RCN_ERR_UNSUPPORTED_FORMAT` with `isProcessed = false` and zero counts, the file
is not read, and the loop goes on even with `stopOnError = true`: the aggregate
state, all totals and counters, and all the other files and results are those
of the loop over the arrays without this file. -/
theorem C6_unsupported_format_is_skipped (env : Env) (stats : RcnCountStatistics)
    (options : RcnStatOptions) (pre post : List RcnSourceFile) (f : RcnSourceFile)
    (rpre rpost : List RcnCountResultGroup) (r : RcnCountResultGroup)
    (hfiles : stats.count.files = some (pre ++ f :: post))
    (hresults : stats.count.results = some (rpre ++ r :: rpost))
    (hsize : stats.count.size = (pre ++ f :: post).length)
    (hlen : rpre.length = pre.length) (hlen' : rpost.length = post.length)
    (hn : 2 ≤ (pre ++ f :: post).length)
    (hf : (detectSourceFormat f).isSupportedFormat = false)
    (hreach : options.stopOnError = true →
      ∀ g ∈ pre, fileFails env (enableDefaults options) g = false) :
    ((rcnCount env stats options).count.results.getD [])[pre.length]? =
        some { logicalLines := 0, physicalLines := 0, words := 0, characters := 0,
               sourceSize := 0,
               state := { errorCode := .RCN_ERR_UNSUPPORTED_FORMAT,
                          errorMessage := some "The source format is not supported",
                          ok := false },
               isProcessed := false } ∧
    ((rcnCount env stats options).count.files.getD [])[pre.length]? = some f ∧
    (rcnCount env stats options).state =
      (rcnCountLoop env (enableDefaults options) (startStatistics stats)
        (pre ++ post) (rpre ++ rpost)).stats.state ∧
    (rcnCount env stats options).tallies =
      (rcnCountLoop env (enableDefaults options) (startStatistics stats)
        (pre ++ post) (rpre ++ rpost)).stats.tallies ∧
    ((rcnCount env stats options).count.files.getD []).eraseIdx pre.length =
      (rcnCountLoop env (enableDefaults options) (startStatistics stats)
        (pre ++ post) (rpre ++ rpost)).files ∧
    ((rcnCount env stats options).count.results.getD []).eraseIdx pre.length =
      (rcnCountLoop env (enableDefaults options) (startStatistics stats)
        (pre ++ post) (rpre ++ rpost)).results := by
  have hrs : (rpre ++ r :: rpost).length = (pre ++ f :: post).length := by
    simp [hlen, hlen']
  have hany : pre.any (stopsLoop env (enableDefaults options)) = false := by
    rw [List.any_eq_false]
    intro g hg
    cases hs : options.stopOnError
    · simp [stopsLoop, enableDefaults, hs]
    · simp [stopsLoop, hreach hs g hg]
  have hne : (pre ++ f :: post).length ≠ 1 := by omega
  rw [rcnCount_eq env stats options _ _ hfiles hresults hsize hrs,
    finishStatistics_many _ _ hne,
    loop_skip env (enableDefaults options) pre post f rpre rpost r (startStatistics stats)
      hlen rfl (Or.inl hf)]
  have hl := loop_length env (enableDefaults options) (pre ++ post) (startStatistics stats)
    (rpre ++ rpost)
  have h1 := insert_at (rcnCountLoop env (enableDefaults options) (startStatistics stats)
    (pre ++ post) (rpre ++ rpost)).files pre.length f (by rw [hl.1]; simp)
  have h2 := insert_at (rcnCountLoop env (enableDefaults options) (startStatistics stats)
    (pre ++ post) (rpre ++ rpost)).results pre.length (skippedResult f r)
    (by rw [hl.2]; simp [hlen])
  have h3 : skippedResult f r =
      { logicalLines := 0, physicalLines := 0, words := 0, characters := 0, sourceSize := 0,
        state := { errorCode := .RCN_ERR_UNSUPPORTED_FORMAT,
                   errorMessage := some "The source format is not supported",
                   ok := false },
        isProcessed := false } := by
    simp [skippedResult, hf, unsupportedResult, resetResultGroup]
  simp only [hany, Bool.false_eq_true, if_false, Option.getD_some]
  rw [← h3]
  refine ⟨h2.1, h1.1, ?_, ?_, h1.2, h2.2⟩ <;> first | rfl | trivial

/-- Witness of `C6_unsupported_format_is_skipped`: `good.c`, `old.cob`,
`good.c` with `stopOnError`. -/
theorem C6_unsupported_format_is_skipped_witness :
    ((rcnCount sampleEnv
        (sampleStatistics
          [sampleFile "good.c" "c", sampleFile "old.cob" "cob", sampleFile "good.c" "c"]
          [zeroResultGroup, sampleStaleResult, zeroResultGroup])
        { sampleOptions with stopOnError := true }).count.results.getD [])[1]? =
      some { logicalLines := 0, physicalLines := 0, words := 0, characters := 0,
             sourceSize := 0,
             state := { errorCode := .RCN_ERR_UNSUPPORTED_FORMAT,
                        errorMessage := some "The source format is not supported",
                        ok := false },
             isProcessed := false } ∧
    (rcnCount sampleEnv
        (sampleStatistics
          [sampleFile "good.c" "c", sampleFile "old.cob" "cob", sampleFile "good.c" "c"]
          [zeroResultGroup, sampleStaleResult, zeroResultGroup])
        { sampleOptions with stopOnError := true }).tallies =
      (rcnCountLoop sampleEnv (enableDefaults { sampleOptions with stopOnError := true })
        (startStatistics (sampleStatistics
          [sampleFile "good.c" "c", sampleFile "old.cob" "cob", sampleFile "good.c" "c"]
          [zeroResultGroup, sampleStaleResult, zeroResultGroup]))
        [sampleFile "good.c" "c", sampleFile "good.c" "c"]
        [zeroResultGroup, zeroResultGroup]).stats.tallies :=
  have h := C6_unsupported_format_is_skipped sampleEnv
    (sampleStatistics
      [sampleFile "good.c" "c", sampleFile "old.cob" "cob", sampleFile "good.c" "c"]
      [zeroResultGroup, sampleStaleResult, zeroResultGroup])
    { sampleOptions with stopOnError := true }
    [sampleFile "good.c" "c"] [sampleFile "good.c" "c"] (sampleFile "old.cob" "cob")
    [zeroResultGroup] [zeroResultGroup] sampleStaleResult
    rfl rfl rfl rfl rfl (by decide) (by decide) (fun _ => by decide)
  ⟨h.1, h.2.2.2.1⟩

/-- Claim C7. A zero bitset means all: for every statistics value, `rcnCount`
with `options.operations = 0` yields exactly the same statistics as with the
four operation bits set, and `rcnCount` with `options.formats = 0` yields
exactly the same statistics as with the bits of all supported formats set. -/
theorem C7_zero_bitset_means_all (env : Env) (stats : RcnCountStatistics)
    (options : RcnStatOptions) :
    rcnCount env stats { options with operations := 0 } =
      rcnCount env stats { options with operations :=
        RCN_OPT_COUNT_LOGICAL_LINES ||| RCN_OPT_COUNT_PHYSICAL_LINES |||
          RCN_OPT_COUNT_WORDS ||| RCN_OPT_COUNT_CHARACTERS } ∧
    rcnCount env stats { options with formats := 0 } =
      rcnCount env stats { options with formats :=
        (RECKON_MK_FRMT_OPT RcnTextFormat.RCN_TEXT_UNFORMATTED) |||
          (RECKON_MK_FRMT_OPT RcnTextFormat.RCN_LANG_C) |||
          (RECKON_MK_FRMT_OPT RcnTextFormat.RCN_LANG_JAVA) |||
          (RECKON_MK_FRMT_OPT RcnTextFormat.RCN_TEXT_MARKDOWN) } := by
  constructor
  · unfold rcnCount
    simp only []
    cases stats.count.files with
    | none => rfl
    | some files =>
      cases stats.count.results with
      | none => rfl
      | some results =>
        simp only []
        rw [loop_congr env
          (enableDefaults { options with operations := 0 })
          (enableDefaults { options with operations :=
            RCN_OPT_COUNT_LOGICAL_LINES ||| RCN_OPT_COUNT_PHYSICAL_LINES |||
              RCN_OPT_COUNT_WORDS ||| RCN_OPT_COUNT_CHARACTERS })
          (count_congr env _ _ (by simp only [enableDefaults]; decide)
            (by simp only [enableDefaults]; decide) (by simp only [enableDefaults]; decide)
            (by simp only [enableDefaults]; decide) rfl rfl)
          (fun _ => rfl) rfl]
  · unfold rcnCount
    simp only []
    cases stats.count.files with
    | none => rfl
    | some files =>
      cases stats.count.results with
      | none => rfl
      | some results =>
        simp only []
        rw [loop_congr env
          (enableDefaults { options with formats := 0 })
          (enableDefaults { options with formats :=
            (RECKON_MK_FRMT_OPT RcnTextFormat.RCN_TEXT_UNFORMATTED) |||
              (RECKON_MK_FRMT_OPT RcnTextFormat.RCN_LANG_C) |||
              (RECKON_MK_FRMT_OPT RcnTextFormat.RCN_LANG_JAVA) |||
              (RECKON_MK_FRMT_OPT RcnTextFormat.RCN_TEXT_MARKDOWN) })
          (count_congr env _ _ rfl rfl rfl rfl rfl rfl)
          (fun format => by
            cases format <;> simp only [isFormatSelected, enableDefaults] <;> decide) rfl]

/-- Claim C8. In `rcnCount`, a file whose detected format is supported but not
selected in `options.formats` is left untouched: the file is not read, its
result stays as it was created (`isProcessed = false`, `state.ok = false`, error
code `RCN_ERR_NONE`, zero counts), and the totals, the counters of every format
and `sizeProcessed`, as well as all the other files and results, are those of
the loop over the arrays without this file. -/
theorem C8_unselected_format_is_untouched (env : Env) (stats : RcnCountStatistics)
    (options : RcnStatOptions) (pre post : List RcnSourceFile) (f : RcnSourceFile)
    (rpre rpost : List RcnCountResultGroup)
    (hfiles : stats.count.files = some (pre ++ f :: post))
    (hresults : stats.count.results = some (rpre ++ zeroResultGroup :: rpost))
    (hsize : stats.count.size = (pre ++ f :: post).length)
    (hlen : rpre.length = pre.length) (hlen' : rpost.length = post.length)
    (hf : (detectSourceFormat f).isSupportedFormat = true)
    (hsel : isFormatSelected (enableDefaults options) (detectSourceFormat f).format = false) :
    ((rcnCount env stats options).count.files.getD [])[pre.length]? = some f ∧
    ((rcnCount env stats options).count.results.getD [])[pre.length]? =
        some { logicalLines := 0, physicalLines := 0, words := 0, characters := 0,
               sourceSize := 0,
               state := { errorCode := .RCN_ERR_NONE, errorMessage := none, ok := false },
               isProcessed := false } ∧
    (rcnCount env stats options).tallies =
      (rcnCountLoop env (enableDefaults options) (startStatistics stats)
        (pre ++ post) (rpre ++ rpost)).stats.tallies ∧
    ((rcnCount env stats options).count.files.getD []).eraseIdx pre.length =
      (rcnCountLoop env (enableDefaults options) (startStatistics stats)
        (pre ++ post) (rpre ++ rpost)).files ∧
    ((rcnCount env stats options).count.results.getD []).eraseIdx pre.length =
      (rcnCountLoop env (enableDefaults options) (startStatistics stats)
        (pre ++ post) (rpre ++ rpost)).results := by
  have hrs : (rpre ++ zeroResultGroup :: rpost).length = (pre ++ f :: post).length := by
    simp [hlen, hlen']
  rw [rcnCount_eq env stats options _ _ hfiles hresults hsize hrs,
    finishStatistics_tallies, finishStatistics_files, finishStatistics_results,
    loop_skip env (enableDefaults options) pre post f rpre rpost zeroResultGroup
      (startStatistics stats) hlen rfl (Or.inr hsel)]
  have hl := loop_length env (enableDefaults options) (pre ++ post) (startStatistics stats)
    (rpre ++ rpost)
  have h1 := insert_at (rcnCountLoop env (enableDefaults options) (startStatistics stats)
    (pre ++ post) (rpre ++ rpost)).files pre.length f (by rw [hl.1]; simp)
  have h2 := insert_at (rcnCountLoop env (enableDefaults options) (startStatistics stats)
    (pre ++ post) (rpre ++ rpost)).results pre.length zeroResultGroup
    (by rw [hl.2]; simp [hlen])
  have h3 : (if pre.any (stopsLoop env (enableDefaults options)) = true then zeroResultGroup
      else skippedResult f zeroResultGroup) = zeroResultGroup := by
    split_ifs
    · rfl
    · simp [skippedResult, hf, reset_zero]
  simp only [h3, Option.getD_some]
  refine ⟨h1.1, h2.1, ?_, h1.2, h2.2⟩
  first | rfl | trivial

/-- Witness of `C8_unselected_format_is_untouched`: `good.c` and `notes.txt`
with only the C format selected. -/
theorem C8_unselected_format_is_untouched_witness :
    ((rcnCount sampleEnv
        (sampleStatistics [sampleFile "good.c" "c", sampleFile "notes.txt" "txt"]
          [zeroResultGroup, zeroResultGroup])
        { sampleOptions with formats := RECKON_MK_FRMT_OPT RcnTextFormat.RCN_LANG_C }
      ).count.files.getD [])[1]? = some (sampleFile "notes.txt" "txt") ∧
    ((rcnCount sampleEnv
        (sampleStatistics [sampleFile "good.c" "c", sampleFile "notes.txt" "txt"]
          [zeroResultGroup, zeroResultGroup])
        { sampleOptions with formats := RECKON_MK_FRMT_OPT RcnTextFormat.RCN_LANG_C }
      ).count.results.getD [])[1]? =
      some { logicalLines := 0, physicalLines := 0, words := 0, characters := 0,
             sourceSize := 0,
             state := { errorCode := .RCN_ERR_NONE, errorMessage := none, ok := false },
             isProcessed := false } :=
  have h := C8_unselected_format_is_untouched sampleEnv
    (sampleStatistics [sampleFile "good.c" "c", sampleFile "notes.txt" "txt"]
      [zeroResultGroup, zeroResultGroup])
    { sampleOptions with formats := RECKON_MK_FRMT_OPT RcnTextFormat.RCN_LANG_C }
    [sampleFile "good.c" "c"] [] (sampleFile "notes.txt" "txt")
    [zeroResultGroup] []
    rfl rfl rfl rfl rfl (by decide) (by decide)
  ⟨h.1, h.2.1⟩

/-- Claim C9. For a file whose format is supported and not a programming
language (txt, md), `rcnCount` on statistics as they are created never runs
the logical-line evaluator: the counter of logical lines of that format stays
0, the `logicalLines` of the file is 0, and when the format is selected, the
content is not read yet and loads, and no failure has stopped the loop before,
the file is marked `isProcessed = true` with its other selected metrics counted
on its content. -/
theorem C9_plain_text_has_no_logical_lines (env : Env) (options : RcnStatOptions)
    (pre post : List RcnSourceFile) (f : RcnSourceFile)
    (hsup : (detectSourceFormat f).isSupportedFormat = true)
    (hplain : (detectSourceFormat f).isProgrammingLanguage = false) :
    (rcnCount env (freshStatistics (pre ++ f :: post)) options).logicalLines.get
        (detectSourceFormat f).format = 0 ∧
    (∀ r : RcnCountResultGroup,
      ((rcnCount env (freshStatistics (pre ++ f :: post)) options).count.results.getD
        [])[pre.length]? = some r → r.logicalLines = 0) ∧
    (isFormatSelected (enableDefaults options) (detectSourceFormat f).format = true →
      f.isContentRead = false → (loadFile env f).1 = true →
      (options.stopOnError = true →
        ∀ g ∈ pre, fileFails env (enableDefaults options) g = false) →
      ((rcnCount env (freshStatistics (pre ++ f :: post)) options).count.results.getD
        [])[pre.length]? =
        some { logicalLines := 0,
               physicalLines :=
                 if runsPhysical (enableDefaults options) then
                   (rcnCountPhysicalLines (loadFile env f).2.content).count
                 else 0,
               words :=
                 if runsWords (enableDefaults options) then
                   (rcnCountWords (loadFile env f).2.content).count
                 else 0,
               characters :=
                 if runsCharacters (enableDefaults options) then
                   (rcnCountCharacters (loadFile env f).2.content).count
                 else 0,
               sourceSize := (loadFile env f).2.content.size,
               state :=
                 { errorCode := .RCN_ERR_NONE, errorMessage := none,
                   ok := runsPhysical (enableDefaults options)
                     || runsWords (enableDefaults options)
                     || runsCharacters (enableDefaults options) },
               isProcessed := true }) := by
  have hne : pre ++ f :: post ≠ [] := by simp
  have hformat : (detectSourceFormat f).format ≠ .RCN_LANG_C ∧
      (detectSourceFormat f).format ≠ .RCN_LANG_JAVA := by
    rw [detect_programming] at hplain
    cases hfm : (detectSourceFormat f).format <;> simp_all
  have hrun : runsLogical (enableDefaults options) (detectSourceFormat f) = false := by
    simp [runsLogical, hplain]
  have hidx : (pre ++ f :: post)[pre.length]? = some f := by
    rw [List.getElem?_append_right (Nat.le_refl _)]
    simp
  refine ⟨?_, ?_, ?_⟩
  · rw [rcnCount_fresh env _ options hne,
      (finishStatistics_totals _ _).2.2.2.2.2.1]
    exact loop_stats_inv env (enableDefaults options)
      (fun s => s.logicalLines.get (detectSourceFormat f).format = 0)
      (fun s g r hs => by
        simp only []
        rw [count_logical_counter env _ s g r _ hformat.1 hformat.2]; exact hs)
      _ _ _ (by cases (detectSourceFormat f).format <;> rfl)
  · intro r hr
    obtain ⟨f', r', h2, -⟩ := rcnCount_file_index env (pre ++ f :: post) options pre.length f
      hidx
    refine rcnCount_forall env (pre ++ f :: post) options (fun _ => True)
      (fun g _ r => (detectSourceFormat g).isProgrammingLanguage = false → r.logicalLines = 0)
      (fun _ _ _ => rfl) (fun _ _ _ _ => rfl) ?_ (fun _ _ => trivial)
      pre.length f f' r hidx h2 hr hplain
    intro s g _ _ _ hp
    rcases count_cases env (enableDefaults options) s g zeroResultGroup
      (detectSourceFormat g) with ⟨m1, m2, -, h⟩ | ⟨st, -, -, h⟩ | ⟨-, -, h⟩
    · rw [reset_zero] at h; rw [h]; rfl
    · rw [reset_zero] at h; rw [h]; rfl
    · rw [reset_zero] at h; rw [h]
      simp [countedResult, runsLogical, hp, zeroResultGroup]
  · intro hsel hunread hload hreach
    have hsize := loadFile_size env f hunread hload
    have hcf : counterFailure env (enableDefaults options) (detectSourceFormat f)
        (loadFile env f).2.content = none := by
      unfold counterFailure
      have : ¬ ((loadFile env f).2.content.size > UINT32_MAX) := by
        unfold FILE_MAX_PROC_SIZE at hsize
        unfold UINT32_MAX
        omega
      simp [hrun, this]
    rw [rcnCount_fresh env _ options hne, finishStatistics_results, Option.getD_some,
      (loop_counted_at env (enableDefaults options) pre post f _ rfl hreach hsup hsel hload
        hcf).1]
    simp only [countedResult, hrun, Bool.false_or, Bool.false_eq_true, if_false]
    cases runsPhysical (enableDefaults options) <;> cases runsWords (enableDefaults options) <;>
      cases runsCharacters (enableDefaults options) <;> rfl

/-- Witness of `C9_plain_text_has_no_logical_lines`: `good.c` and `notes.txt`
with all operations. -/
theorem C9_plain_text_has_no_logical_lines_witness :
    (rcnCount sampleEnv
        (freshStatistics [sampleFile "good.c" "c", sampleFile "notes.txt" "txt"])
        sampleOptions).logicalLines.get RcnTextFormat.RCN_TEXT_UNFORMATTED = 0 ∧
    ((rcnCount sampleEnv
        (freshStatistics [sampleFile "good.c" "c", sampleFile "notes.txt" "txt"])
        sampleOptions).count.results.getD [])[1]? =
      some { logicalLines := 0, physicalLines := 1, words := 1, characters := 3,
             sourceSize := 3,
             state := { errorCode := .RCN_ERR_NONE, errorMessage := none, ok := true },
             isProcessed := true } :=
  have h := C9_plain_text_has_no_logical_lines sampleEnv sampleOptions
    [sampleFile "good.c" "c"] [] (sampleFile "notes.txt" "txt") (by decide) (by decide)
  ⟨h.1, h.2.2 (by decide) rfl (by decide) (fun _ => by decide)⟩

/-- Claim C10. After `rcnCount` with `keepFileContent = false` on statistics as
they are created, every file with a supported and selected format that the
loop gets to (no failure has stopped it before), and every file that was not
read before (so, each file of statistics just created), has
`isContentRead = false`, `content.text = NULL` and `content.size = 0`, while the
results, the totals and the state are the same as with `keepFileContent = true`,
so the results keep the counted values and `sourceSize`. With
`keepFileContent = true` every processed file still holds the content it was
counted on: its content is read and not null, `sourceSize` is its size and the
other fields of the result are what the selected counting steps yield on it. -/
theorem C10_keep_file_content (env : Env) (files : List RcnSourceFile)
    (options : RcnStatOptions) :
    (options.keepFileContent = false →
      (∀ (k : Nat) (f f' : RcnSourceFile),
        files[k]? = some f →
        ((rcnCount env (freshStatistics files) options).count.files.getD [])[k]? = some f' →
        (((detectSourceFormat f).isSupportedFormat = true ∧
            isFormatSelected (enableDefaults options) (detectSourceFormat f).format = true ∧
            (options.stopOnError = true →
              ∀ g ∈ files.take k, fileFails env (enableDefaults options) g = false)) ∨
          (f.isContentRead = false ∧ f.content = { text := none, size := 0 })) →
        f'.isContentRead = false ∧ f'.content.text = none ∧ f'.content.size = 0) ∧
      (rcnCount env (freshStatistics files) options).count.results =
        (rcnCount env (freshStatistics files)
          { options with keepFileContent := true }).count.results ∧
      (rcnCount env (freshStatistics files) options).tallies =
        (rcnCount env (freshStatistics files)
          { options with keepFileContent := true }).tallies ∧
      (rcnCount env (freshStatistics files) options).state =
        (rcnCount env (freshStatistics files)
          { options with keepFileContent := true }).state) ∧
    (options.keepFileContent = true →
      ∀ (k : Nat) (f f' : RcnSourceFile) (r : RcnCountResultGroup),
        files[k]? = some f →
        ((rcnCount env (freshStatistics files) options).count.files.getD [])[k]? = some f' →
        ((rcnCount env (freshStatistics files) options).count.results.getD [])[k]? = some r →
        r.isProcessed = true →
        f' = (loadFile env f).2 ∧ f'.isContentRead = true ∧ f'.content.text.isNone = false ∧
        r = countedResult env (enableDefaults options) (detectSourceFormat f) f'.content
          zeroResultGroup) := by
  constructor
  · intro hk
    refine ⟨?_, ?_⟩
    · intro k f f' h1 h2 hcase
      have hk' : (!(enableDefaults options).keepFileContent) = true := by
        simp [enableDefaults, hk]
      rcases hcase with ⟨hsup, hsel, hreach⟩ | hunread
      · -- the loop gets to the file and calls `count` on it
        have hlt : k < files.length := (List.getElem?_eq_some.mp h1).1
        have hsplit : files = files.take k ++ f :: files.drop (k + 1) := by
          have hd : files.drop k = f :: files.drop (k + 1) := by
            rw [List.drop_eq_getElem_cons hlt]
            congr 1
            exact Option.some.inj ((List.getElem?_eq_getElem hlt).symm.trans h1)
          rw [← hd, List.take_append_drop]
        have hlen : (files.take k).length = k := by
          rw [List.length_take]; omega
        have hne : files ≠ [] := by
          intro h; rw [h] at hlt; simp at hlt
        rw [rcnCount_fresh env files options hne, finishStatistics_files,
          Option.getD_some] at h2
        have hfree := loop_freed_at env (enableDefaults options) (files.take k)
          (files.drop (k + 1)) f (startStatistics (freshStatistics files)) rfl hreach hsup hsel
          (by simp [enableDefaults, hk])
        rw [← hsplit, hlen, h2] at hfree
        rw [Option.some.inj hfree]
        exact ⟨rfl, rfl, rfl⟩
      · -- the file was not read before
        obtain ⟨g, r, h1', h3⟩ := rcnCount_out_file_index env files options k f' h2
        refine rcnCount_forall env files options (fun _ => True)
          (fun f f' _ => (f.isContentRead = false ∧ f.content = { text := none, size := 0 }) →
            f'.isContentRead = false ∧ f'.content.text = none ∧ f'.content.size = 0)
          (fun f _ hf => ⟨hf.1, by rw [hf.2], by rw [hf.2]⟩)
          (fun f _ _ hf => ⟨hf.1, by rw [hf.2], by rw [hf.2]⟩)
          ?_ (fun _ _ => trivial) k f f' r h1 h2 h3 hunread
        intro s g _ _ _ _
        rcases count_cases env (enableDefaults options) s g zeroResultGroup
          (detectSourceFormat g) with ⟨m1, m2, -, h⟩ | ⟨st, -, -, h⟩ | ⟨-, -, h⟩
        · rw [reset_zero] at h; rw [h]
          simp [finishFailed, hk', freeSourceFileContent]
        · rw [reset_zero] at h; rw [h]
          simp [finishFailed, hk', freeSourceFileContent]
        · rw [reset_zero] at h; rw [h]
          simp [hk', freeSourceFileContent]
    · cases files with
      | nil => exact ⟨rfl, rfl, rfl⟩
      | cons g gs =>
        rw [rcnCount_fresh env (g :: gs) options (List.cons_ne_nil g gs),
          rcnCount_fresh env (g :: gs) _ (List.cons_ne_nil g gs)]
        have hl := loop_keep env (enableDefaults options) true (g :: gs)
          (startStatistics (freshStatistics (g :: gs)))
          (List.replicate (g :: gs).length zeroResultGroup)
        have he : enableDefaults { options with keepFileContent := true } =
            { enableDefaults options with keepFileContent := true } := rfl
        rw [he]
        generalize rcnCountLoop env { enableDefaults options with keepFileContent := true }
          (startStatistics (freshStatistics (g :: gs))) (g :: gs)
          (List.replicate (g :: gs).length zeroResultGroup) = a at hl ⊢
        generalize rcnCountLoop env (enableDefaults options)
          (startStatistics (freshStatistics (g :: gs))) (g :: gs)
          (List.replicate (g :: gs).length zeroResultGroup) = b at hl ⊢
        obtain ⟨l1, l2⟩ := hl
        refine ⟨?_, ?_, ?_⟩
        · rw [finishStatistics_results, finishStatistics_results, l2]
        · rw [finishStatistics_tallies, finishStatistics_tallies, l1]
        · unfold finishStatistics
          simp only [l1, l2]
          split_ifs
          · cases b.results <;> rfl
          · rfl
  · intro hk k f f' r h1 h2 h3 hp
    have hk' : (!(enableDefaults options).keepFileContent) = false := by
      simp [enableDefaults, hk]
    refine rcnCount_forall env files options (fun _ => True)
      (fun f f' r => r.isProcessed = true →
        f' = (loadFile env f).2 ∧ f'.isContentRead = true ∧ f'.content.text.isNone = false ∧
        r = countedResult env (enableDefaults options) (detectSourceFormat f) f'.content
          zeroResultGroup)
      (fun _ _ h => by simp [zeroResultGroup] at h)
      (fun _ _ _ h => by simp [unsupportedResult, resetResultGroup] at h)
      ?_ (fun _ _ => trivial) k f f' r h1 h2 h3 hp
    intro s g _ _ _
    rcases count_cases env (enableDefaults options) s g zeroResultGroup
      (detectSourceFormat g) with ⟨m1, m2, -, h⟩ | ⟨st, -, -, h⟩ | ⟨hl, -, h⟩
    · rw [reset_zero] at h; rw [h]; intro hp; simp [finishFailed, failedResult] at hp
    · rw [reset_zero] at h; rw [h]; intro hp; simp [finishFailed, failedResult] at hp
    · rw [reset_zero] at h; rw [h]; intro _
      simp only [hk', Bool.false_eq_true, if_false]
      exact ⟨trivial, loadFile_read env g hl, (loadFile_true env g hl).1, trivial⟩

/-- Witness of `C10_keep_file_content`: `good.c` and `bad.c`, without and with
`keepFileContent`; the loop gets to `bad.c`, whose content is freed although
its logical-line step fails. -/
theorem C10_keep_file_content_witness :
    ((freeSourceFileContent (loadFile sampleEnv (sampleFile "bad.c" "c")).2).isContentRead
        = false ∧
      (freeSourceFileContent (loadFile sampleEnv (sampleFile "bad.c" "c")).2).content.text
        = none ∧
      (freeSourceFileContent (loadFile sampleEnv (sampleFile "bad.c" "c")).2).content.size
        = 0) ∧
    (rcnCount sampleEnv
        (freshStatistics [sampleFile "good.c" "c", sampleFile "bad.c" "c"])
        sampleOptions).count.results =
      (rcnCount sampleEnv
        (freshStatistics [sampleFile "good.c" "c", sampleFile "bad.c" "c"])
        { sampleOptions with keepFileContent := true }).count.results ∧
    ((loadFile sampleEnv (sampleFile "good.c" "c")).2.isContentRead = true ∧
      (loadFile sampleEnv (sampleFile "good.c" "c")).2.content.text.isNone = false) :=
  ⟨((C10_keep_file_content sampleEnv [sampleFile "good.c" "c", sampleFile "bad.c" "c"]
      sampleOptions).1 rfl).1 1 (sampleFile "bad.c" "c")
      (freeSourceFileContent (loadFile sampleEnv (sampleFile "bad.c" "c")).2)
      rfl (by decide) (Or.inl ⟨by decide, by decide, fun _ => by decide⟩),
    ((C10_keep_file_content sampleEnv [sampleFile "good.c" "c", sampleFile "bad.c" "c"]
      sampleOptions).1 rfl).2.1,
    ((C10_keep_file_content sampleEnv [sampleFile "good.c" "c", sampleFile "bad.c" "c"]
      { sampleOptions with keepFileContent := true }).2 rfl 0 (sampleFile "good.c" "c")
      (loadFile sampleEnv (sampleFile "good.c" "c")).2
      { logicalLines := 1, physicalLines := 1, words := 1, characters := 3, sourceSize := 3,
        state := { errorCode := .RCN_ERR_NONE, errorMessage := none, ok := true },
        isProcessed := true }
      rfl (by decide) (by decide) rfl).2.1,
    ((C10_keep_file_content sampleEnv [sampleFile "good.c" "c", sampleFile "bad.c" "c"]
      { sampleOptions with keepFileContent := true }).2 rfl 0 (sampleFile "good.c" "c")
      (loadFile sampleEnv (sampleFile "good.c" "c")).2
      { logicalLines := 1, physicalLines := 1, words := 1, characters := 3, sourceSize := 3,
        state := { errorCode := .RCN_ERR_NONE, errorMessage := none, ok := true },
        isProcessed := true }
      rfl (by decide) (by decide) rfl).2.2.1⟩

/-- Claim C11. After `rcnCount` on statistics as they are created,
`count.sizeProcessed` equals the number of entries of `results` that have
`isProcessed = true`; the number of files is a `size_t`. -/
theorem C11_size_processed_counts_processed_results (env : Env) (files : List RcnSourceFile)
    (options : RcnStatOptions) (hsize : files.length < 2 ^ 64) :
    (rcnCount env (freshStatistics files) options).count.sizeProcessed =
      ((rcnCount env (freshStatistics files) options).count.results.getD []).countP
        (·.isProcessed) := by
  cases files with
  | nil => rw [rcnCount_fresh_nil]; simp [freshStatistics]
  | cons f fs =>
    rw [rcnCount_fresh env (f :: fs) options (List.cons_ne_nil f fs),
      (finishStatistics_totals _ _).2.2.2.2.2.2.2.2.2.2.1, finishStatistics_results,
      Option.getD_some]
    obtain ⟨h1, h2⟩ := loop_sum env (enableDefaults options) (·.count.sizeProcessed)
      (fun r => if r.isProcessed then 1 else 0) (fun _ => rfl) (fun _ => rfl)
      (count_sizeProcessed env (enableDefaults options)) (f :: fs)
      (startStatistics (freshStatistics (f :: fs)))
    have hl := (loop_length env (enableDefaults options) (f :: fs)
      (startStatistics (freshStatistics (f :: fs)))
      (List.replicate (f :: fs).length zeroResultGroup)).2
    have h0 : (startStatistics (freshStatistics (f :: fs))).count.sizeProcessed = 0 := rfl
    rw [h0, Nat.zero_add, sum_flags_eq_countP] at h1
    rw [h0] at h2
    have hle := List.countP_le_length RcnCountResultGroup.isProcessed
      (l := (rcnCountLoop env (enableDefaults options)
        (startStatistics (freshStatistics (f :: fs))) (f :: fs)
        (List.replicate (f :: fs).length zeroResultGroup)).results)
    rw [hl, List.length_replicate] at hle
    rw [Nat.mod_eq_of_lt (h2 (by norm_num)), Nat.mod_eq_of_lt (by omega)] at h1
    exact h1

/-- Witness of `C11_size_processed_counts_processed_results`: `good.c`,
`bad.c` and `notes.txt`. -/
theorem C11_size_processed_counts_processed_results_witness :
    [sampleFile "good.c" "c", sampleFile "bad.c" "c", sampleFile "notes.txt" "txt"].length
      < 2 ^ 64 ∧
    (rcnCount sampleEnv
        (freshStatistics
          [sampleFile "good.c" "c", sampleFile "bad.c" "c", sampleFile "notes.txt" "txt"])
        sampleOptions).count.sizeProcessed =
      ((rcnCount sampleEnv
        (freshStatistics
          [sampleFile "good.c" "c", sampleFile "bad.c" "c", sampleFile "notes.txt" "txt"])
        sampleOptions).count.results.getD []).countP (·.isProcessed) :=
  ⟨by decide,
    C11_size_processed_counts_processed_results sampleEnv
      [sampleFile "good.c" "c", sampleFile "bad.c" "c", sampleFile "notes.txt" "txt"]
      sampleOptions (by decide)⟩

/-- Claim C12. For each of `rcnCountPhysicalLines`, `rcnCountWords` and
`rcnCountCharacters` and for every input: the result is `ok` exactly when the
size is 0 or the text is non-null and the size is at most `2 ^ 32 - 1`; a null
text with a non-zero size gives `RCN_ERR_INVALID_INPUT`, a (non-null) text of a
size above `2 ^ 32 - 1` gives `RCN_ERR_INPUT_TOO_LARGE`, and every failing
result has count 0. The checks are made in this order. -/
theorem C12_counters_guard_their_input (source : RcnSourceText) :
    GuardsInput rcnCountPhysicalLines source ∧ GuardsInput rcnCountWords source ∧
      GuardsInput rcnCountCharacters source := by
  refine ⟨guards_of_shape _ _ ?_ ?_ ?_ ?_, guards_of_shape _ _ ?_ ?_ ?_ ?_,
    guards_of_shape _ _ ?_ ?_ ?_ ?_⟩
  · intro h; simp [rcnCountPhysicalLines, h]
  · intro h0 h1; simp [rcnCountPhysicalLines, h0, h1]
  · intro h0 h1 h2
    have h1' : source.text.isNone = false := by cases ht : source.text <;> simp_all
    simp [rcnCountPhysicalLines, h0, h1', h2]
  · intro h0 h1 h2
    have h1' : source.text.isNone = false := by cases ht : source.text <;> simp_all
    rw [physical_state source h1', if_pos h2]
  · intro h; simp [rcnCountWords, h]
  · intro h0 h1; simp [rcnCountWords, h0, h1]
  · intro h0 h1 h2
    have h1' : source.text.isNone = false := by cases ht : source.text <;> simp_all
    simp [rcnCountWords, h0, h1', h2]
  · intro h0 h1 h2
    have h1' : source.text.isNone = false := by cases ht : source.text <;> simp_all
    rw [words_state source h1', if_pos h2]
  · intro h; simp [rcnCountCharacters, h]
  · intro h0 h1; simp [rcnCountCharacters, h0, h1]
  · intro h0 h1 h2
    have h1' : source.text.isNone = false := by cases ht : source.text <;> simp_all
    simp [rcnCountCharacters, h0, h1', h2]
  · intro h0 h1 h2
    have h1' : source.text.isNone = false := by cases ht : source.text <;> simp_all
    rw [characters_state source h1', if_pos h2]

/-- Witness of `C12_counters_guard_their_input`: a null text of size 1 and a
text with a size of `2 ^ 32`. -/
theorem C12_counters_guard_their_input_witness :
    (rcnCountPhysicalLines { text := none, size := 1 }).state.errorCode
      = .RCN_ERR_INVALID_INPUT ∧
    (rcnCountWords { text := some [0x41], size := 2 ^ 32 }).state.errorCode
      = .RCN_ERR_INPUT_TOO_LARGE ∧
    (rcnCountCharacters { text := some [0x41], size := 2 ^ 32 }).count = 0 :=
  ⟨(C12_counters_guard_their_input { text := none, size := 1 }).1.2.1 rfl (by decide),
    (C12_counters_guard_their_input { text := some [0x41], size := 2 ^ 32 }).2.1.2.2.1
      (by decide) (by decide),
    (C12_counters_guard_their_input { text := some [0x41], size := 2 ^ 32 }).2.2.2.2.2
      (by decide)⟩

/-- Claim C13. `rcnCountLogicalLines` returns count 0 with `ok = false` in
every failure case, the cases being taken in this order: error code
`RCN_ERR_INVALID_INPUT` for a null text, `RCN_ERR_UNSUPPORTED_FORMAT` for a
format that is not C or Java, `RCN_ERR_INPUT_TOO_LARGE` for a size above
`2 ^ 32 - 1`, and `RCN_ERR_SYNTAX_ERROR` whenever the root of the parsed tree
reports an error, in which case the visitor is not run (the trace is left as
it is) and no partial count is returned. In every other case it returns
`ok = true` with the error code `RCN_ERR_NONE`. -/
theorem C13_logical_lines_failure_cases (env : Env) (language : RcnTextFormat)
    (source : RcnSourceText) :
    (source.text = none →
      (rcnCountLogicalLines env language source).count = 0 ∧
      (rcnCountLogicalLines env language source).state.ok = false ∧
      (rcnCountLogicalLines env language source).state.errorCode = .RCN_ERR_INVALID_INPUT) ∧
    (source.text ≠ none → language ≠ .RCN_LANG_C → language ≠ .RCN_LANG_JAVA →
      (rcnCountLogicalLines env language source).count = 0 ∧
      (rcnCountLogicalLines env language source).state.ok = false ∧
      (rcnCountLogicalLines env language source).state.errorCode
        = .RCN_ERR_UNSUPPORTED_FORMAT) ∧
    (source.text ≠ none → (language = .RCN_LANG_C ∨ language = .RCN_LANG_JAVA) →
      source.size > 2 ^ 32 - 1 →
      (rcnCountLogicalLines env language source).count = 0 ∧
      (rcnCountLogicalLines env language source).state.ok = false ∧
      (rcnCountLogicalLines env language source).state.errorCode
        = .RCN_ERR_INPUT_TOO_LARGE) ∧
    (source.text ≠ none → (language = .RCN_LANG_C ∨ language = .RCN_LANG_JAVA) →
      source.size ≤ 2 ^ 32 - 1 → (parsedTree env language source).hasError = true →
      (rcnCountLogicalLines env language source).count = 0 ∧
      (rcnCountLogicalLines env language source).state.ok = false ∧
      (rcnCountLogicalLines env language source).state.errorCode = .RCN_ERR_SYNTAX_ERROR ∧
      ∀ (evaluator : TSNode → NodeEvalTrace → NodeEvalTrace) (trace : NodeEvalTrace),
        (evaluateSourceTree env source language evaluator trace).2 = trace) ∧
    (source.text ≠ none → (language = .RCN_LANG_C ∨ language = .RCN_LANG_JAVA) →
      source.size ≤ 2 ^ 32 - 1 → (parsedTree env language source).hasError = false →
      (rcnCountLogicalLines env language source).state.ok = true ∧
      (rcnCountLogicalLines env language source).state.errorCode = .RCN_ERR_NONE) := by
  have hm : UINT32_MAX = 2 ^ 32 - 1 := by unfold UINT32_MAX; norm_num
  rw [← hm]
  refine ⟨?_, ?_, ?_, ?_, ?_⟩
  · intro h
    simp [rcnCountLogicalLines, h, errResult]
  · intro h hc hj
    have h' : source.text.isNone = false := by cases ht : source.text <;> simp_all
    cases language <;> simp_all [rcnCountLogicalLines, createEvaluationFunction, errResult]
  · intro h hl hs
    have h' : source.text.isNone = false := by cases ht : source.text <;> simp_all
    rcases hl with hl | hl <;> subst hl <;>
      simp [rcnCountLogicalLines, createEvaluationFunction, evaluateSourceTree, h', hs,
        NodeEvalTrace.zero]
  · intro h hl hs he
    have h' : source.text.isNone = false := by cases ht : source.text <;> simp_all
    have hs' : ¬ source.size > UINT32_MAX := by omega
    unfold parsedTree at he
    norm_num at he
    rcases hl with hl | hl <;> subst hl <;>
      simp [rcnCountLogicalLines, createEvaluationFunction, evaluateSourceTree, createParser,
        h', hs', he, NodeEvalTrace.zero]
  · intro h hl hs he
    have h' : source.text.isNone = false := by cases ht : source.text <;> simp_all
    have hs' : ¬ source.size > UINT32_MAX := by omega
    unfold parsedTree at he
    norm_num at he
    rcases hl with hl | hl <;> subst hl <;>
      simp [rcnCountLogicalLines, createEvaluationFunction, evaluateSourceTree, createParser,
        h', hs', he]

/-- Witness of `C13_logical_lines_failure_cases`: the one byte on which the
grammar service of `sampleEnv` reports an error, and a null text. -/
theorem C13_logical_lines_failure_cases_witness :
    ((rcnCountLogicalLines sampleEnv .RCN_LANG_JAVA { text := some [0x7b], size := 1 }).count
        = 0 ∧
      (rcnCountLogicalLines sampleEnv .RCN_LANG_JAVA
        { text := some [0x7b], size := 1 }).state.ok = false ∧
      (rcnCountLogicalLines sampleEnv .RCN_LANG_JAVA
        { text := some [0x7b], size := 1 }).state.errorCode = .RCN_ERR_SYNTAX_ERROR ∧
      ∀ (evaluator : TSNode → NodeEvalTrace → NodeEvalTrace) (trace : NodeEvalTrace),
        (evaluateSourceTree sampleEnv { text := some [0x7b], size := 1 } .RCN_LANG_JAVA
          evaluator trace).2 = trace) ∧
    ((rcnCountLogicalLines sampleEnv .RCN_LANG_JAVA { text := none, size := 0 }).count = 0 ∧
      (rcnCountLogicalLines sampleEnv .RCN_LANG_JAVA
        { text := none, size := 0 }).state.ok = false ∧
      (rcnCountLogicalLines sampleEnv .RCN_LANG_JAVA
        { text := none, size := 0 }).state.errorCode = .RCN_ERR_INVALID_INPUT) :=
  ⟨(C13_logical_lines_failure_cases sampleEnv .RCN_LANG_JAVA
      { text := some [0x7b], size := 1 }).2.2.2.1 (by decide) (Or.inr rfl) (by decide) rfl,
    (C13_logical_lines_failure_cases sampleEnv .RCN_LANG_JAVA
      { text := none, size := 0 }).1 rfl⟩

/-- Claim C14, as amended. For every input of size 0, null text included,
`rcnCountPhysicalLines`, `rcnCountWords` and `rcnCountCharacters` return count 0
with `ok = true`. `rcnCountLogicalLines` returns `ok = true` on an input of size
0 when the text is non-null, the language is C or Java and the parser reports
no error on it, and its count is then 0 when the parsed tree is a root node
alone to which the evaluator gives no weight. -/
theorem C14_empty_input (env : Env) (language : RcnTextFormat) (source : RcnSourceText)
    (hsize : source.size = 0) :
    ((rcnCountPhysicalLines source).count = 0 ∧
      (rcnCountPhysicalLines source).state.ok = true) ∧
    ((rcnCountWords source).count = 0 ∧ (rcnCountWords source).state.ok = true) ∧
    ((rcnCountCharacters source).count = 0 ∧ (rcnCountCharacters source).state.ok = true) ∧
    (source.text ≠ none → (language = .RCN_LANG_C ∨ language = .RCN_LANG_JAVA) →
      (parsedTree env language source).hasError = false →
      (rcnCountLogicalLines env language source).state.ok = true ∧
      (∀ (root : TSNode) (evaluator : TSNode → NodeEvalTrace → NodeEvalTrace),
        (parsedTree env language source).root = .node root [] →
        createEvaluationFunction language = some evaluator →
        (evaluator root NodeEvalTrace.zero).count = 0 →
        (rcnCountLogicalLines env language source).count = 0)) := by
  refine ⟨?_, ?_, ?_, ?_⟩
  · simp [rcnCountPhysicalLines, hsize, okResult]
  · simp [rcnCountWords, hsize, okResult]
  · simp [rcnCountCharacters, hsize, okResult]
  · intro h hl he
    have h' : source.text.isNone = false := by cases ht : source.text <;> simp_all
    have hs' : ¬ source.size > UINT32_MAX := by rw [hsize]; simp [UINT32_MAX]
    unfold parsedTree at he ⊢
    norm_num at he
    constructor
    · rcases hl with hl | hl <;> subst hl <;>
        simp [rcnCountLogicalLines, createEvaluationFunction, evaluateSourceTree, createParser,
          h', hs', he]
    · intro root evaluator hroot hev hw
      norm_num at hroot
      rcases hl with hl | hl <;> subst hl <;>
        simp only [createEvaluationFunction, Option.some.injEq] at hev <;> subst hev <;>
        simp [rcnCountLogicalLines, createEvaluationFunction, evaluateSourceTree, createParser,
          h', hs', he, hroot, traverseTree, traverseSiblings, hw]

/-- Witness of `C14_empty_input`: the empty C text, with a grammar service
that yields the root node alone. -/
theorem C14_empty_input_witness :
    ({ text := some [], size := 0 } : RcnSourceText).size = 0 ∧
    (rcnCountLogicalLines rootOnlyEnv .RCN_LANG_C { text := some [], size := 0 }).state.ok
      = true ∧
    (rcnCountLogicalLines rootOnlyEnv .RCN_LANG_C { text := some [], size := 0 }).count = 0 :=
  ⟨rfl,
    ((C14_empty_input rootOnlyEnv .RCN_LANG_C { text := some [], size := 0 } rfl).2.2.2
      (by decide) (Or.inl rfl) rfl).1,
    ((C14_empty_input rootOnlyEnv .RCN_LANG_C { text := some [], size := 0 } rfl).2.2.2
      (by decide) (Or.inl rfl) rfl).2 { symbol := 161, row := 0 } evaluateNodeC rfl rfl
      (by decide)⟩

/-- Claim C14 does not hold as stated: on the null text of size 0,
`rcnCountLogicalLines` returns `RCN_ERR_INVALID_INPUT` with `ok = false`, while
the other three operations return `ok = true`. -/
theorem C14_counterexample :
    ¬ (∀ (env : Env) (language : RcnTextFormat) (source : RcnSourceText),
        source.size = 0 →
        ((rcnCountLogicalLines env language source).count = 0 ∧
          (rcnCountLogicalLines env language source).state.ok = true) ∧
        ((rcnCountPhysicalLines source).count = 0 ∧
          (rcnCountPhysicalLines source).state.ok = true) ∧
        ((rcnCountWords source).count = 0 ∧ (rcnCountWords source).state.ok = true) ∧
        ((rcnCountCharacters source).count = 0 ∧
          (rcnCountCharacters source).state.ok = true)) := by
  intro h
  have h1 := (h sampleEnv .RCN_LANG_JAVA { text := none, size := 0 } rfl).1.2
  exact absurd h1 (by decide)

/-- Claim C15, as amended. For every non-empty input of size at most
`2 ^ 32 - 1` detected as UTF-8 (with or without BOM), `rcnCountPhysicalLines`
returns the number of `0x0A` bytes, plus 1 exactly when the final byte is not
`0x0A`; so a text without a final newline has one line more than it has line
feeds. -/
theorem C15_physical_lines_utf8 (bytes : List Nat) (hne : bytes ≠ [])
    (hmax : bytes.length ≤ 2 ^ 32 - 1)
    (henc : detectEncoding (sourceOfBytes bytes) = .TextEncodingUTF8) :
    rcnCountPhysicalLines (sourceOfBytes bytes) = okResult (physicalLinesOfBytes bytes) ∧
    (bytes.getLast? ≠ some 0x0a →
      (rcnCountPhysicalLines (sourceOfBytes bytes)).count = bytes.count 0x0a + 1) := by
  have hlen : 0 < bytes.length := List.length_pos.mpr hne
  have h0 : ((sourceOfBytes bytes).size == 0) = false := by
    simp [sourceOfBytes, hne]
  have h1 : (sourceOfBytes bytes).text.isNone = false := rfl
  have h2 : ¬ (sourceOfBytes bytes).size > UINT32_MAX := by
    simp only [sourceOfBytes, UINT32_MAX]; omega
  have hlast : bytes.getLast? = some (byteAt (sourceOfBytes bytes) (bytes.length - 1)) := by
    rw [byteAt_sourceOfBytes bytes _ (by omega), List.getLast?_eq_getElem?,
      List.getElem?_eq_getElem (by omega)]
  have key : rcnCountPhysicalLines (sourceOfBytes bytes) =
      okResult (physicalLinesOfBytes bytes) := by
    unfold rcnCountPhysicalLines
    simp only [h0, h1, h2, henc, Bool.false_eq_true, if_false, beq_self_eq_true, if_true]
    rw [physicalLoopUTF8_eq bytes _ 0 0 (by simp [sourceOfBytes])]
    unfold physicalLinesOfBytes
    rw [hlast]
    simp only [sourceOfBytes, List.drop_zero, Nat.zero_add, Option.some.injEq]
    by_cases hb : byteAt { text := some bytes, size := bytes.length } (bytes.length - 1) = 0x0a
    · simp [hb]
    · simp [hb]
  refine ⟨key, ?_⟩
  intro hl
  rw [key]
  simp [okResult, physicalLinesOfBytes, hl]

/-- Witness of `C15_physical_lines_utf8`: the bytes of `a`, line feed, `b`. -/
theorem C15_physical_lines_utf8_witness :
    [0x61, 0x0a, 0x62] ≠ [] ∧ [0x61, 0x0a, 0x62].length ≤ 2 ^ 32 - 1 ∧
    detectEncoding (sourceOfBytes [0x61, 0x0a, 0x62]) = .TextEncodingUTF8 ∧
    rcnCountPhysicalLines (sourceOfBytes [0x61, 0x0a, 0x62]) = okResult 2 :=
  ⟨by decide, by decide, by decide,
    (C15_physical_lines_utf8 [0x61, 0x0a, 0x62] (by decide) (by decide) (by decide)).1⟩

/-- Claim C15 does not hold as stated: an input of `2 ^ 32` bytes without a
line feed is detected as UTF-8 and `rcnCountPhysicalLines` returns the count 0,
with `RCN_ERR_INPUT_TOO_LARGE`, where the claim gives 1. -/
theorem C15_counterexample :
    ¬ (∀ bytes : List Nat, bytes ≠ [] →
        detectEncoding (sourceOfBytes bytes) = .TextEncodingUTF8 →
        (rcnCountPhysicalLines (sourceOfBytes bytes)).count = physicalLinesOfBytes bytes) := by
  intro h
  obtain ⟨hne, henc, h2⟩ := physical_of_large (2 ^ 32) (by unfold UINT32_MAX; norm_num)
  have h1 := h (List.replicate (2 ^ 32) 0x41) hne henc
  have h3 := physicalLinesOfBytes_pos (List.replicate (2 ^ 32) 0x41)
  omega

/-- Claim C16, as amended. For every input of even size at most `2 ^ 32 - 1`
that starts with a UTF-16 BOM (either endianness), `rcnCountPhysicalLines`
returns the number of 16-bit code units after the BOM that equal `0x000A` in
the detected endianness, plus 1 exactly when at least one code unit follows
the BOM and the last code unit is not `0x000A`; an input consisting only of the
BOM yields 0. -/
theorem C16_physical_lines_utf16 (littleEndian : Bool) (rest : List Nat)
    (heven : rest.length % 2 = 0) (hmax : (utf16BOM littleEndian ++ rest).length ≤ 2 ^ 32 - 1) :
    rcnCountPhysicalLines (sourceOfBytes (utf16BOM littleEndian ++ rest)) =
      okResult (physicalLinesOfUnits (utf16Units littleEndian rest)) ∧
    (rest = [] →
      (rcnCountPhysicalLines (sourceOfBytes (utf16BOM littleEndian ++ rest))).count = 0) := by
  have key := physical_utf16 littleEndian rest heven hmax
  refine ⟨key, ?_⟩
  intro hr
  rw [key, hr]
  rfl

/-- Witness of `C16_physical_lines_utf16`: the little-endian text `a`, line
feed, `b`. -/
theorem C16_physical_lines_utf16_witness :
    [0x61, 0x00, 0x0a, 0x00, 0x62, 0x00].length % 2 = 0 ∧
    (utf16BOM true ++ [0x61, 0x00, 0x0a, 0x00, 0x62, 0x00]).length ≤ 2 ^ 32 - 1 ∧
    rcnCountPhysicalLines
        (sourceOfBytes (utf16BOM true ++ [0x61, 0x00, 0x0a, 0x00, 0x62, 0x00])) =
      okResult 2 :=
  ⟨by decide, by decide,
    (C16_physical_lines_utf16 true [0x61, 0x00, 0x0a, 0x00, 0x62, 0x00] (by decide)
      (by decide)).1⟩

/-- Claim C16 does not hold as stated: on the three bytes FF FE 41, a
little-endian BOM and a trailing odd byte, no code unit follows the BOM and
`rcnCountPhysicalLines` returns 1. -/
theorem C16_counterexample :
    ¬ (∀ (littleEndian : Bool) (rest : List Nat),
        (rcnCountPhysicalLines (sourceOfBytes (utf16BOM littleEndian ++ rest))).count =
          physicalLinesOfUnits (utf16Units littleEndian rest)) := by
  intro h
  exact absurd (h true [0x41]) (by decide)

/-- Claim C17, as amended. For every byte input of size at most `2 ^ 32 - 1`,
`rcnCountWords` returns the number of maximal runs of non-whitespace bytes that
hold a byte other than NUL, where whitespace is the ASCII class (space, tab,
LF, VT, FF, CR) applied byte-wise. For an input without NUL bytes this is the
number of maximal runs of non-whitespace bytes and, equivalently, the number of
positions where a non-whitespace byte is at the start of the input or follows a
whitespace byte. -/
theorem C17_words_are_runs (bytes : List Nat) (hmax : bytes.length ≤ 2 ^ 32 - 1) :
    rcnCountWords (sourceOfBytes bytes) = okResult (wordsOfBytes bytes) ∧
    ((∀ b ∈ bytes, b ≠ 0) →
      (rcnCountWords (sourceOfBytes bytes)).count = wordRunsOfBytes bytes ∧
      (rcnCountWords (sourceOfBytes bytes)).count = wordStartsOfBytes bytes) := by
  have key : rcnCountWords (sourceOfBytes bytes) = okResult (wordsOfBytes bytes) := by
    unfold rcnCountWords
    by_cases h0 : bytes = []
    · subst h0
      rfl
    · have h0' : ((sourceOfBytes bytes).size == 0) = false := by
        simp [sourceOfBytes, h0]
      have h1 : (sourceOfBytes bytes).text.isNone = false := rfl
      have h2 : ¬ (sourceOfBytes bytes).size > UINT32_MAX := by
        simp only [sourceOfBytes, UINT32_MAX]; omega
      simp only [h0', h1, h2, Bool.false_eq_true, if_false]
      rw [wordsLoop_eq bytes _ 0 false 0 (by simp [sourceOfBytes]), List.drop_zero,
        Nat.zero_add, wordsScan_eq_wordsOfBytes]
  refine ⟨key, ?_⟩
  intro hnz
  rw [key]
  refine ⟨wordsOfBytes_eq_runs bytes hnz, ?_⟩
  show wordsOfBytes bytes = wordStartsOfBytes bytes
  rw [← wordsScan_eq_wordsOfBytes]
  exact wordsScan_starts bytes 0x20 hnz

/-- Witness of `C17_words_are_runs`: the bytes of ` ab  c`. -/
theorem C17_words_are_runs_witness :
    [0x20, 0x61, 0x62, 0x20, 0x20, 0x63].length ≤ 2 ^ 32 - 1 ∧
    rcnCountWords (sourceOfBytes [0x20, 0x61, 0x62, 0x20, 0x20, 0x63]) = okResult 2 ∧
    (∀ b ∈ [0x20, 0x61, 0x62, 0x20, 0x20, 0x63], b ≠ 0) ∧
    (rcnCountWords (sourceOfBytes [0x20, 0x61, 0x62, 0x20, 0x20, 0x63])).count =
      wordStartsOfBytes [0x20, 0x61, 0x62, 0x20, 0x20, 0x63] :=
  ⟨by decide,
    (C17_words_are_runs [0x20, 0x61, 0x62, 0x20, 0x20, 0x63] (by decide)).1,
    by decide,
    ((C17_words_are_runs [0x20, 0x61, 0x62, 0x20, 0x20, 0x63] (by decide)).2
      (by decide)).2⟩

/-- Claim C17 does not hold as stated: the input of one NUL byte is one
maximal run of non-whitespace bytes, and a non-whitespace byte at the start of
the input, and `rcnCountWords` returns 0. -/
theorem C17_counterexample :
    (¬ ∀ bytes : List Nat, bytes.length ≤ 2 ^ 32 - 1 →
        (rcnCountWords (sourceOfBytes bytes)).count = wordRunsOfBytes bytes) ∧
    (¬ ∀ bytes : List Nat, bytes.length ≤ 2 ^ 32 - 1 →
        (rcnCountWords (sourceOfBytes bytes)).count = wordStartsOfBytes bytes) := by
  constructor
  · intro h
    exact absurd (h [0x00] (by decide)) (by decide)
  · intro h
    exact absurd (h [0x00] (by decide)) (by decide)

/-- Claim C18. For every well-formed UTF-8 byte sequence of size at most
`2 ^ 32 - 1`, that is the encoding of a sequence of Unicode scalar values,
`rcnCountCharacters` returns the number of code points it encodes, not counting
a leading byte order mark (EF BB BF). -/
theorem C18_characters_utf8 (codePoints : List Nat)
    (hscalar : ∀ c ∈ codePoints, isScalarValue c = true)
    (hmax : (utf8EncodeAll codePoints).length ≤ 2 ^ 32 - 1) :
    rcnCountCharacters (sourceOfBytes (utf8EncodeAll codePoints)) =
      okResult (codePointsCounted codePoints) := by
  have hlt : ∀ c ∈ codePoints, c < 0x110000 := by
    intro c hc
    have := hscalar c hc
    simp only [isScalarValue, Bool.and_eq_true, decide_eq_true_eq] at this
    exact this.1
  cases codePoints with
  | nil => rfl
  | cons c cs =>
    obtain ⟨l, conts, hlc, hl, hbom⟩ := utf8Encode_head c (hlt c (List.mem_cons_self _ _))
      (utf8EncodeAll cs)
    have hbytes : utf8EncodeAll (c :: cs) = l :: conts := hlc
    have h0 : ((sourceOfBytes (utf8EncodeAll (c :: cs))).size == 0) = false := by
      rw [hbytes]; rfl
    have h1 : (sourceOfBytes (utf8EncodeAll (c :: cs))).text.isNone = false := rfl
    have h2 : ¬ (sourceOfBytes (utf8EncodeAll (c :: cs))).size > UINT32_MAX := by
      simp only [sourceOfBytes, UINT32_MAX]; omega
    have henc : detectEncoding (sourceOfBytes (utf8EncodeAll (c :: cs))) =
        .TextEncodingUTF8 := by
      rw [hbytes]; exact detectEncoding_of_lead l conts hl
    unfold rcnCountCharacters
    simp only [h0, h1, h2, henc, Bool.false_eq_true, if_false, beq_self_eq_true, if_true]
    congr 1
    unfold countCharactersUTF8 codePointsCounted
    by_cases hc : c = 0xfeff
    · subst hc
      have hb : hasUTF8BOM (sourceOfBytes (utf8EncodeAll (0xfeff :: cs))) = true := by
        rw [hasUTF8BOM_iff]
        exact ⟨utf8EncodeAll cs, rfl⟩
      have hloop := charactersLoopUTF8_eq (utf8EncodeAll (0xfeff :: cs)) cs
        (sourceOfBytes (utf8EncodeAll (0xfeff :: cs))).size [0xef, 0xbb, 0xbf] 0
        (fun x hx => hlt x (List.mem_cons_of_mem _ hx)) rfl
        (by simp [sourceOfBytes, utf8EncodeAll])
      simp only [List.length_cons, List.length_nil, Nat.zero_add] at hloop
      simp only [hb, if_true, List.head?_cons, List.length_cons]
      rw [hloop]
      simp
    · have hb : hasUTF8BOM (sourceOfBytes (utf8EncodeAll (c :: cs))) = false := by
        rw [Bool.eq_false_iff]
        intro h
        rw [hasUTF8BOM_iff, hbytes] at h
        exact hbom hc h
      have hloop := charactersLoopUTF8_eq (utf8EncodeAll (c :: cs)) (c :: cs)
        (sourceOfBytes (utf8EncodeAll (c :: cs))).size [] 0 hlt rfl
        (by simp [sourceOfBytes])
      simp only [List.length_nil, Nat.zero_add] at hloop
      simp only [hb, Bool.false_eq_true, if_false, List.head?_cons, Option.some.injEq, hc]
      exact hloop

/-- Witness of `C18_characters_utf8`: the byte order mark, `a`, `é`, `€` and
`U+1F600`, in eleven bytes after the mark. -/
theorem C18_characters_utf8_witness :
    (∀ c ∈ [0xfeff, 0x61, 0xe9, 0x20ac, 0x1f600], isScalarValue c = true) ∧
    (utf8EncodeAll [0xfeff, 0x61, 0xe9, 0x20ac, 0x1f600]).length ≤ 2 ^ 32 - 1 ∧
    utf8EncodeAll [0xfeff, 0x61, 0xe9, 0x20ac, 0x1f600] =
      [0xef, 0xbb, 0xbf, 0x61, 0xc3, 0xa9, 0xe2, 0x82, 0xac, 0xf0, 0x9f, 0x98, 0x80] ∧
    rcnCountCharacters (sourceOfBytes (utf8EncodeAll [0xfeff, 0x61, 0xe9, 0x20ac, 0x1f600])) =
      okResult 4 :=
  ⟨by decide, by decide, by decide,
    C18_characters_utf8 [0xfeff, 0x61, 0xe9, 0x20ac, 0x1f600] (by decide) (by decide)⟩

/-- Claim C19, as amended. For every input of size at most `2 ^ 32 - 1` that
starts with a UTF-16 BOM, `rcnCountCharacters` returns, over the code units
after the BOM in the detected endianness: one per high surrogate
(`0xD800`-`0xDBFF`) immediately followed by a low surrogate (`0xDC00`-`0xDFFF`),
nothing for a high surrogate not followed by a low surrogate (the following
unit is then counted on its own merits), nothing for a stray low surrogate,
nothing for an interior BOM unit (`0xFEFF` or `0xFFFE`), and one for every
other unit; a trailing odd byte is ignored and a BOM-only input yields 0. -/
theorem C19_characters_utf16 (littleEndian : Bool) (rest : List Nat)
    (hbyte : ∀ b ∈ rest, b < 256)
    (hmax : (utf16BOM littleEndian ++ rest).length ≤ 2 ^ 32 - 1) :
    rcnCountCharacters (sourceOfBytes (utf16BOM littleEndian ++ rest)) =
      okResult (charactersOfUnits (utf16Units littleEndian rest)) ∧
    (∀ (init : List Nat) (b : Nat), rest = init ++ [b] → init.length % 2 = 0 →
      (rcnCountCharacters (sourceOfBytes (utf16BOM littleEndian ++ rest))).count =
        charactersOfUnits (utf16Units littleEndian init)) ∧
    (rest = [] →
      (rcnCountCharacters (sourceOfBytes (utf16BOM littleEndian ++ rest))).count = 0) := by
  have key := characters_utf16 littleEndian rest hbyte hmax
  refine ⟨key, ?_, ?_⟩
  · intro init b hr heven
    rw [key, hr, utf16Units_append_odd littleEndian b init heven]
    rfl
  · intro hr
    rw [key, hr]
    rfl

/-- Witness of `C19_characters_utf16`: the big-endian units `a`, a surrogate
pair, a stray low surrogate, a BOM, a high surrogate and `b`, then an odd
byte. -/
theorem C19_characters_utf16_witness :
    (∀ b ∈ [0x00, 0x61, 0xd8, 0x3d, 0xde, 0x00, 0xdc, 0xaa, 0xfe, 0xff, 0xd8, 0x00,
      0x00, 0x62, 0x41], b < 256) ∧
    (utf16BOM false ++ [0x00, 0x61, 0xd8, 0x3d, 0xde, 0x00, 0xdc, 0xaa, 0xfe, 0xff, 0xd8, 0x00,
      0x00, 0x62, 0x41]).length ≤ 2 ^ 32 - 1 ∧
    rcnCountCharacters (sourceOfBytes (utf16BOM false ++
      [0x00, 0x61, 0xd8, 0x3d, 0xde, 0x00, 0xdc, 0xaa, 0xfe, 0xff, 0xd8, 0x00,
        0x00, 0x62, 0x41])) = okResult 3 :=
  ⟨by decide, by decide,
    (C19_characters_utf16 false
      [0x00, 0x61, 0xd8, 0x3d, 0xde, 0x00, 0xdc, 0xaa, 0xfe, 0xff, 0xd8, 0x00, 0x00, 0x62, 0x41]
      (by decide) (by decide)).1⟩

/-- Claim C19 does not hold as stated: on a little-endian BOM followed by
`2 ^ 32` bytes `A`, that is `2 ^ 31` units `0x4141`, `rcnCountCharacters`
returns the count 0, with `RCN_ERR_INPUT_TOO_LARGE`. -/
theorem C19_counterexample :
    ¬ (∀ (littleEndian : Bool) (rest : List Nat), (∀ b ∈ rest, b < 256) →
        (rcnCountCharacters (sourceOfBytes (utf16BOM littleEndian ++ rest))).count =
          charactersOfUnits (utf16Units littleEndian rest)) := by
  intro h
  have e : 2 ^ 32 = 2 * (2 ^ 31 - 1 + 1) := by norm_num
  have h1 := h true (List.replicate (2 ^ 32) 0x41)
    (fun b hb => by rw [List.eq_of_mem_replicate hb]; norm_num)
  have h2 := characters_of_large (2 ^ 32) (by unfold UINT32_MAX; norm_num)
  have h3 := charactersOfUnits_letters true (2 ^ 31 - 1)
  rw [← e] at h3
  omega

/-- Claim C20. For every byte input, `detectEncoding` returns UTF-16LE exactly
when the input has at least 2 bytes and starts with FF FE, UTF-16BE exactly
when it has at least 2 bytes and starts with FE FF, and UTF-8 in every other
case, which covers the inputs that start with EF BB BF and the inputs shorter
than 2 bytes; `hasUTF8BOM` is true exactly when the input has at least 3 bytes
and starts with EF BB BF. -/
theorem C20_encoding_detection (bytes : List Nat) :
    (detectEncoding { text := some bytes, size := bytes.length } = .TextEncodingUTF16LE ↔
      2 ≤ bytes.length ∧ bytes.take 2 = [0xff, 0xfe]) ∧
    (detectEncoding { text := some bytes, size := bytes.length } = .TextEncodingUTF16BE ↔
      2 ≤ bytes.length ∧ bytes.take 2 = [0xfe, 0xff]) ∧
    (detectEncoding { text := some bytes, size := bytes.length } = .TextEncodingUTF8 ↔
      ¬ (2 ≤ bytes.length ∧ bytes.take 2 = [0xff, 0xfe]) ∧
      ¬ (2 ≤ bytes.length ∧ bytes.take 2 = [0xfe, 0xff])) ∧
    (bytes.take 3 = [0xef, 0xbb, 0xbf] →
      detectEncoding { text := some bytes, size := bytes.length } = .TextEncodingUTF8) ∧
    (bytes.length < 2 →
      detectEncoding { text := some bytes, size := bytes.length } = .TextEncodingUTF8) ∧
    (hasUTF8BOM { text := some bytes, size := bytes.length } = true ↔
      3 ≤ bytes.length ∧ bytes.take 3 = [0xef, 0xbb, 0xbf]) := by
  match bytes with
  | [] => simp [detectEncoding, hasUTF8BOM]
  | [a] => simp [detectEncoding, hasUTF8BOM]
  | [a, b] =>
    simp only [detectEncoding, hasUTF8BOM, byteAt, List.length_cons, List.length_nil]
    by_cases h1 : a = 0xff
    · by_cases h2 : b = 0xfe <;> simp [h1, h2]
    · by_cases h3 : a = 0xfe
      · by_cases h4 : b = 0xff <;> simp [h3, h4]
      · simp [h1, h3]
  | a :: b :: c :: rest =>
    simp only [detectEncoding, hasUTF8BOM, byteAt, List.length_cons]
    by_cases h1 : a = 0xff
    · by_cases h2 : b = 0xfe <;> simp [h1, h2]
    · by_cases h3 : a = 0xfe
      · by_cases h4 : b = 0xff <;> simp [h3, h4]
      · by_cases h5 : a = 0xef
        · by_cases h6 : b = 0xbb <;> by_cases h7 : c = 0xbf <;> simp [h5, h6, h7]
        · simp [h1, h3, h5]

/-- Witness of `C20_encoding_detection`: a UTF-8 byte order mark and one
byte. -/
theorem C20_encoding_detection_witness :
    [0xef, 0xbb, 0xbf, 0x41].take 3 = [0xef, 0xbb, 0xbf] ∧
    detectEncoding { text := some [0xef, 0xbb, 0xbf, 0x41], size := [0xef, 0xbb, 0xbf, 0x41].length }
      = .TextEncodingUTF8 ∧
    detectEncoding { text := some [0xff], size := [0xff].length } = .TextEncodingUTF8 :=
  ⟨rfl, (C20_encoding_detection [0xef, 0xbb, 0xbf, 0x41]).2.2.2.1 rfl,
    (C20_encoding_detection [0xff]).2.2.2.2.1 (by decide)⟩

/-- Claim C21, amended. For every line below the line count, the annotation
comment that the annotating walk and `finalizeLineComments` leave for the line
is the rendering of the weighted nodes that start on it, in visit order:
nothing when no kind name was recorded for the line or when the space for the
comment could not be reserved, and otherwise one space, `//`, a space, `+`,
the decimal sum of the weights of all these nodes (as a 64-bit sum), a space,
`(`, the recorded kind names joined by `, ` with every underscore replaced by
a space and duplicates kept, and `)`. A kind name is recorded when the
allocations of `linebufferRecordType` succeed in the visit of its node. When
they succeed for every weighted node of the line and the reservation succeeds,
the comment is the one of the claim, with the kind names of all weighted nodes
of the line; a line without a weighted node gets no comment. The language is C
or Java, that is, one with an evaluator. -/
theorem C21_comment_format (memory : AnnotationMemory) (language : RcnTextFormat)
    (evaluator : TSNode → NodeEvalTrace → NodeEvalTrace)
    (hlang : createEvaluationFunction language = some evaluator)
    (lineCount : Nat) (nodes : List TSNode) (row : Nat) (hrow : row < lineCount) :
    lineComment (annotatedContext memory language lineCount nodes) row =
      renderedComment (memory.reserve row) (recordedOnRow row
        (evaluatedVisits memory language evaluator lineCount nodes NodeEvalTrace.zero)) ∧
    ((∀ visit ∈ recordedOnRow row
          (evaluatedVisits memory language evaluator lineCount nodes NodeEvalTrace.zero),
        visit.2.2 = true) →
      memory.reserve row = true →
      lineComment (annotatedContext memory language lineCount nodes) row =
        if recordedOnRow row
            (evaluatedVisits memory language evaluator lineCount nodes NodeEvalTrace.zero)
            = [] then []
        else
          [0x20, 0x2f, 0x2f, 0x20, 0x2b] ++
            decimalDigits (((recordedOnRow row
              (evaluatedVisits memory language evaluator lineCount nodes
                NodeEvalTrace.zero)).map (fun visit => visit.2.1)).sum % 2 ^ 64) ++
            [0x20, 0x28] ++
            List.intercalate [0x2c, 0x20] ((recordedOnRow row
              (evaluatedVisits memory language evaluator lineCount nodes
                NodeEvalTrace.zero)).map (fun visit => shownKindName visit.1)) ++
            [0x29]) ∧
    (recordedOnRow row
        (evaluatedVisits memory language evaluator lineCount nodes NodeEvalTrace.zero) = [] →
      lineComment (annotatedContext memory language lineCount nodes) row = []) := by
  have h := lineComment_annotatedContext memory language evaluator hlang lineCount nodes row hrow
  refine ⟨h, fun hall hres => ?_, fun he => ?_⟩
  · rw [h, renderedComment_of_recorded _ _ hall, hres]
    simp
  · rw [h, he]
    rfl

/-- Witness for C21: the seven lines of the Java sample with the
if / else-if / else chain, every allocation succeeding. Line 3 carries the
`if_statement` and an `expression_statement`, line 4 the `else` token and an
`expression_statement` (the `if_statement` after `else` has no weight), and
line 6 no weighted node. -/
theorem C21_comment_format_witness :
    lineComment (annotatedContext sampleMemory .RCN_LANG_JAVA 7
        (visitOrder (javaMethodTree [javaIfElseChainTree]))) 2
      = bytesOfString " // +2 (if statement, expression statement)" ∧
    lineComment (annotatedContext sampleMemory .RCN_LANG_JAVA 7
        (visitOrder (javaMethodTree [javaIfElseChainTree]))) 3
      = bytesOfString " // +2 (else, expression statement)" ∧
    lineComment (annotatedContext sampleMemory .RCN_LANG_JAVA 7
        (visitOrder (javaMethodTree [javaIfElseChainTree]))) 5 = [] :=
  ⟨((C21_comment_format sampleMemory .RCN_LANG_JAVA evaluateNodeJava rfl 7
      (visitOrder (javaMethodTree [javaIfElseChainTree])) 2 (by decide)).1).trans (by decide),
   ((C21_comment_format sampleMemory .RCN_LANG_JAVA evaluateNodeJava rfl 7
      (visitOrder (javaMethodTree [javaIfElseChainTree])) 3 (by decide)).1).trans (by decide),
   (C21_comment_format sampleMemory .RCN_LANG_JAVA evaluateNodeJava rfl 7
      (visitOrder (javaMethodTree [javaIfElseChainTree])) 5 (by decide)).2.2 (by decide)⟩

/-- Counterexample to C21 as stated: on line 3 of the Java sample the
`if_statement` and an `expression_statement` start, both with weight 1. When
the allocations of `linebufferRecordType` fail in the visit of the
`if_statement`, the comment of the line shows the weight 2 and the one kind
name that was recorded; when the reservation for the comment of the line
fails, the line gets no comment. -/
theorem C21_counterexample :
    lineComment (annotatedContext sampleMemory .RCN_LANG_JAVA 7
        (visitOrder (javaMethodTree [javaIfElseChainTree]))) 2
      = bytesOfString " // +2 (if statement, expression statement)" ∧
    lineComment (annotatedContext (failingRecord 12) .RCN_LANG_JAVA 7
        (visitOrder (javaMethodTree [javaIfElseChainTree]))) 2
      = bytesOfString " // +2 (expression statement)" ∧
    lineComment (annotatedContext (failingReserve 2) .RCN_LANG_JAVA 7
        (visitOrder (javaMethodTree [javaIfElseChainTree]))) 2 = [] := by
  decide

/-- Claim C22, amended. For every source text that is a C string of its size
(no NUL byte among its bytes, the size being their number) and that annotates
successfully (with or without a leading byte order mark, with LF or CR LF
line ends, with or without a final newline), whichever allocations of the
line buffers fail, the output is the source behind its byte order mark with
the comment of each line inserted immediately before the LF or CR LF of the
line, or appended at the end for an unterminated last line, followed by one
NUL that the size does not count. The lines without their comments make up
the source behind its byte order mark byte for byte; the three bytes of a
byte order mark are not part of the output. -/
theorem C22_annotation_round_trip (env : Env) (memory : AnnotationMemory)
    (language : RcnTextFormat) (bytes : List Nat) (hnul : 0 ∉ bytes)
    (hok : (rcnMarkLogicalLinesInSourceText env memory language (sourceOfBytes bytes)).text
      ≠ none) :
    (rcnMarkLogicalLinesInSourceText env memory language (sourceOfBytes bytes)).text =
      some (insertComments (lineComment (annotationContextOf env memory language bytes)) 0
        (sourceLines (behindBOM bytes)) ++ [0]) ∧
    (rcnMarkLogicalLinesInSourceText env memory language (sourceOfBytes bytes)).size =
      (insertComments (lineComment (annotationContextOf env memory language bytes)) 0
        (sourceLines (behindBOM bytes))).length ∧
    joinLines (sourceLines (behindBOM bytes)) = behindBOM bytes ∧
    (hasUTF8BOM (sourceOfBytes bytes) = false → behindBOM bytes = bytes) ∧
    (hasUTF8BOM (sourceOfBytes bytes) = true →
      bytes = [0xef, 0xbb, 0xbf] ++ behindBOM bytes) := by
  obtain ⟨_, h⟩ := rcnMark_of_text env memory language bytes hnul hok
  refine ⟨by rw [h], by rw [h], joinLines_sourceLines _, ?_, ?_⟩
  · intro hb
    simp [behindBOM, hb]
  · intro hb
    obtain ⟨tail, ht⟩ := (hasUTF8BOM_iff bytes).mp hb
    simp only [behindBOM, hb, if_true]
    rw [ht]
    rfl

/-- Witness for C22: the C text `x;`, CR LF, `y;` without a final newline,
with one expression statement on each of its two lines. -/
theorem C22_annotation_round_trip_witness :
    (rcnMarkLogicalLinesInSourceText (treeEnv (statementsTree 2)) sampleMemory .RCN_LANG_C
        (sourceOfBytes (bytesOfString "x;\r\ny;"))).text =
      some (bytesOfString
        "x; // +1 (expression statement)\r\ny; // +1 (expression statement)" ++ [0]) :=
  ((C22_annotation_round_trip (treeEnv (statementsTree 2)) sampleMemory .RCN_LANG_C
      (bytesOfString "x;\r\ny;") (by decide) (by decide)).1).trans (by decide)

/-- Counterexample to C22 as stated: the C text `x;` with a line feed, behind
a UTF-8 byte order mark, annotates successfully; the output starts with `x`,
not with the byte order mark, so that it is not the source with comments
inserted, whatever the comments. -/
theorem C22_counterexample :
    (rcnMarkLogicalLinesInSourceText (treeEnv (statementsTree 1)) sampleMemory .RCN_LANG_C
        (sourceOfBytes ([0xef, 0xbb, 0xbf] ++ bytesOfString "x;\n"))).text =
      some (bytesOfString "x; // +1 (expression statement)\n" ++ [0]) ∧
    ∀ comment : Nat → List Nat,
      insertComments comment 0 (sourceLines ([0xef, 0xbb, 0xbf] ++ bytesOfString "x;\n"))
        ≠ bytesOfString "x; // +1 (expression statement)\n" := by
  refine ⟨by decide, ?_⟩
  intro comment h
  have hl : sourceLines ([0xef, 0xbb, 0xbf] ++ bytesOfString "x;\n")
      = [([0xef, 0xbb, 0xbf, 0x78, 0x3b], [0x0a]), ([], [])] := by decide
  rw [hl] at h
  have hh := congrArg List.head? h
  simp [insertComments, bytesOfString] at hh

/-- Claim C23, evaluated where the code departs from it. The text handed over
is the first three bytes, `x;` and a line feed, of a buffer that goes on with
`y;`, a line feed and a NUL: its size is 3, and the one expression statement
of its one line gets a comment of 29 bytes. `buildAnnotatedSource` measures
the text with `strlen` and not with its size: it writes 6 + 29 + 1 = 36 bytes,
the three bytes behind the text among them, and reports the size 35, where the
size of the text and the comments make 3 + 29 + 1 = 33 bytes and the size 32.
The same three bytes as a text that ends at its NUL give the 33 bytes and the
size 32. -/
theorem C23_annotated_size_measured_by_strlen :
    rcnMarkLogicalLinesInSourceText (treeEnv (statementsTree 1)) sampleMemory .RCN_LANG_C
        { text := some (bytesOfString "x;\ny;\n"), size := 3 } =
      { text := some (bytesOfString "x; // +1 (expression statement)\ny;\n" ++ [0]),
        size := 35 } ∧
    (rcnCountPhysicalLines { text := some (bytesOfString "x;\ny;\n"), size := 3 }).count = 1 ∧
    spaceForComments (annotatedContext sampleMemory .RCN_LANG_C 1
        (visitOrder (statementsTree 1))) = 29 ∧
    rcnMarkLogicalLinesInSourceText (treeEnv (statementsTree 1)) sampleMemory .RCN_LANG_C
        (sourceOfBytes (bytesOfString "x;\n")) =
      { text := some (bytesOfString "x; // +1 (expression statement)\n" ++ [0]),
        size := 32 } := by
  decide

/-- Claim C24, amended. `rcnMarkLogicalLinesInSourceText` returns the empty
result (text = NULL, size = 0) whenever the text is null, the input starts
with a UTF-16 byte order mark, the size of the text behind a leading UTF-8
byte order mark exceeds 2^32 - 1, the format is not C or Java, or the parsed
tree reports a syntax error. For a text that is a C string of its size, what
it returns is either the empty result or the whole text behind the byte order
mark in which every line below the line count carries the comment rendered
from all weighted nodes that start on it, with the kind names whose recording
succeeded, unless the reservation for the comment failed; when no allocation
of a line buffer fails, that is the complete comment of every line, with the
kind names of all weighted nodes of the line. -/
theorem C24_empty_result_on_failure (env : Env) (memory : AnnotationMemory)
    (language : RcnTextFormat) (source : RcnSourceText) :
    (source.text = none →
      rcnMarkLogicalLinesInSourceText env memory language source = emptyText) ∧
    (source.size ≥ 2 →
      (byteAt source 0 = 0xff ∧ byteAt source 1 = 0xfe) ∨
        (byteAt source 0 = 0xfe ∧ byteAt source 1 = 0xff) →
      rcnMarkLogicalLinesInSourceText env memory language source = emptyText) ∧
    ((skipUTF8BOM source).size > 2 ^ 32 - 1 →
      rcnMarkLogicalLinesInSourceText env memory language source = emptyText) ∧
    (language ≠ .RCN_LANG_C → language ≠ .RCN_LANG_JAVA →
      rcnMarkLogicalLinesInSourceText env memory language source = emptyText) ∧
    ((parsedTree env language (skipUTF8BOM source)).hasError = true →
      rcnMarkLogicalLinesInSourceText env memory language source = emptyText) ∧
    (∀ (bytes : List Nat) (evaluator : TSNode → NodeEvalTrace → NodeEvalTrace),
      source = sourceOfBytes bytes → 0 ∉ bytes →
      createEvaluationFunction language = some evaluator →
      rcnMarkLogicalLinesInSourceText env memory language source = emptyText ∨
      (rcnMarkLogicalLinesInSourceText env memory language source).text =
        some (commentedText
          (fun row => renderedComment (memory.reserve row)
            (recordedOnRow row (visitsOf env memory language evaluator bytes)))
          (rcnCountPhysicalLines (sourceOfBytes (behindBOM bytes))).count
          (behindBOM bytes))) ∧
    (∀ (bytes : List Nat) (evaluator : TSNode → NodeEvalTrace → NodeEvalTrace),
      source = sourceOfBytes bytes → 0 ∉ bytes →
      createEvaluationFunction language = some evaluator →
      (∀ index, memory.record index = true) → (∀ row, memory.reserve row = true) →
      rcnMarkLogicalLinesInSourceText env memory language source = emptyText ∨
      (rcnMarkLogicalLinesInSourceText env memory language source).text =
        some (commentedText
          (fun row => completeComment
            (recordedOnRow row (visitsOf env memory language evaluator bytes)))
          (rcnCountPhysicalLines (sourceOfBytes (behindBOM bytes))).count
          (behindBOM bytes))) := by
  have key : ∀ (P : Prop),
      (source.text ≠ none → detectEncoding source = .TextEncodingUTF8 →
        (skipUTF8BOM source).size ≤ UINT32_MAX →
        (language = .RCN_LANG_C ∨ language = .RCN_LANG_JAVA) →
        (parsedTree env language (skipUTF8BOM source)).hasError = false →
        P) →
      rcnMarkLogicalLinesInSourceText env memory language source = emptyText ∨ P := by
    intro P hP
    unfold rcnMarkLogicalLinesInSourceText
    cases ht : source.text with
    | none => left; simp [emptyText]
    | some text =>
      simp only [Option.isNone_some, Bool.false_eq_true, if_false]
      by_cases he : detectEncoding source = .TextEncodingUTF8
      swap
      · left; simp [he, emptyText]
      have hts : (skipUTF8BOM source).text.isNone = false := by
        unfold skipUTF8BOM
        split_ifs <;> simp [ht]
      by_cases hp : (rcnCountPhysicalLines (skipUTF8BOM source)).state.ok = true
      swap
      · left; simp [he, hp, emptyText]
      have hsize : (skipUTF8BOM source).size ≤ UINT32_MAX := by
        by_contra hgt
        have hst := physical_state (skipUTF8BOM source) hts
        rw [if_neg hgt] at hst
        rw [hst] at hp
        simp [tooLargeState] at hp
      by_cases hm1 : memory.ctx = true
      swap
      · left; simp [he, hp, hm1, createNodeEvalContextAnnotation, emptyText]
      cases hlang : createEvaluationFunction language with
      | none => left; simp [he, hp, hm1, createNodeEvalContextAnnotation, hlang, emptyText]
      | some evaluator =>
        by_cases hm2 : memory.lines = true
        swap
        · left; simp [he, hp, hm1, hm2, createNodeEvalContextAnnotation, hlang, emptyText]
        have hl : language = .RCN_LANG_C ∨ language = .RCN_LANG_JAVA := by
          cases language <;> simp_all [createEvaluationFunction]
        have hparser : createParser language = true := by
          rcases hl with hl | hl <;> subst hl <;> rfl
        have hsz : ¬ (skipUTF8BOM source).size > UINT32_MAX := by omega
        have hev : ∀ trace : NodeEvalTrace,
            evaluateSourceTree env (skipUTF8BOM source) language
              (annotateLineWithNodeType memory) trace =
            if (parsedTree env language (skipUTF8BOM source)).hasError = true then
              ({ errorCode := .RCN_ERR_SYNTAX_ERROR,
                 errorMessage := some "Syntax error detected in source code",
                 ok := false }, trace)
            else
              ({ errorCode := .RCN_ERR_NONE, errorMessage := none, ok := true },
               traverseTree (annotateLineWithNodeType memory)
                 (parsedTree env language (skipUTF8BOM source)).root trace) := by
          intro trace
          unfold evaluateSourceTree parsedTree
          simp only [hsz, if_false, hparser, Bool.not_true, Bool.false_eq_true]
        simp only [he, hp, hm1, hm2, createNodeEvalContextAnnotation, hlang, bne_self_eq_false,
          Bool.false_eq_true, if_false, Bool.not_true, hev]
        by_cases herr : (parsedTree env language (skipUTF8BOM source)).hasError = true
        · left; simp [herr, emptyText]
        · right
          exact hP (by rw [ht]; simp) he hsize hl (by simpa using herr)
  refine ⟨?_, ?_, ?_, ?_, ?_, ?_, ?_⟩
  · intro h
    rcases key False (fun h1 _ _ _ _ => h1 h) with h' | h'
    · exact h'
    · exact h'.elim
  · intro hs hb
    have hne : detectEncoding source ≠ .TextEncodingUTF8 := by
      have hnb : hasUTF8BOM source = false := by
        unfold hasUTF8BOM
        rcases hb with ⟨h0, _⟩ | ⟨h0, _⟩ <;> simp [h0]
      unfold detectEncoding
      rcases hb with ⟨h0, h1⟩ | ⟨h0, h1⟩ <;> simp [hnb, hs, h0, h1]
    rcases key False (fun _ h2 _ _ _ => hne h2) with h' | h'
    · exact h'
    · exact h'.elim
  · intro hs
    rcases key False (fun _ _ h3 _ _ => by unfold UINT32_MAX at h3; omega) with h' | h'
    · exact h'
    · exact h'.elim
  · intro hc hj
    rcases key False (fun _ _ _ h4 _ => by rcases h4 with h | h <;> contradiction)
      with h' | h'
    · exact h'
    · exact h'.elim
  · intro herr
    rcases key False (fun _ _ _ _ h5 => by rw [herr] at h5; exact Bool.noConfusion h5)
      with h' | h'
    · exact h'
    · exact h'.elim
  · intro bytes evaluator hs h0 hlang
    subst hs
    exact rcnMark_rendered env memory language evaluator hlang bytes h0
  · intro bytes evaluator hs h0 hlang hrec hres
    subst hs
    exact rcnMark_complete env memory language evaluator hlang bytes h0 hrec hres

/-- Witness for C24: a null text, a text that starts with the UTF-16 byte
order mark FF FE, a text of 2^32 bytes without byte order mark, the format
`RCN_TEXT_UNFORMATTED`, the one-byte text on which the sample grammar
service reports an error, and the C text `x;`, line feed, `y;`, line feed,
which is returned with the complete comment on both lines when every
allocation succeeds. -/
theorem C24_empty_result_on_failure_witness :
    rcnMarkLogicalLinesInSourceText sampleEnv sampleMemory
        .RCN_LANG_JAVA { text := none, size := 1 } = emptyText ∧
    rcnMarkLogicalLinesInSourceText sampleEnv sampleMemory
        .RCN_LANG_JAVA (sourceOfBytes [0xff, 0xfe, 0x78, 0x00]) = emptyText ∧
    rcnMarkLogicalLinesInSourceText sampleEnv sampleMemory
        .RCN_LANG_C { text := some [0x41], size := 2 ^ 32 } = emptyText ∧
    rcnMarkLogicalLinesInSourceText sampleEnv sampleMemory
        .RCN_TEXT_UNFORMATTED (sourceOfBytes [0x78, 0x3b, 0x0a]) = emptyText ∧
    rcnMarkLogicalLinesInSourceText sampleEnv sampleMemory
        .RCN_LANG_C (sourceOfBytes [0x7b]) = emptyText ∧
    (rcnMarkLogicalLinesInSourceText (treeEnv (statementsTree 2)) sampleMemory .RCN_LANG_C
          (sourceOfBytes (bytesOfString "x;\ny;\n")) = emptyText ∨
      (rcnMarkLogicalLinesInSourceText (treeEnv (statementsTree 2)) sampleMemory .RCN_LANG_C
          (sourceOfBytes (bytesOfString "x;\ny;\n"))).text =
        some (bytesOfString
          "x; // +1 (expression statement)\ny; // +1 (expression statement)\n" ++ [0])) :=
  ⟨(C24_empty_result_on_failure sampleEnv _ .RCN_LANG_JAVA { text := none, size := 1 }).1 rfl,
   (C24_empty_result_on_failure sampleEnv _ .RCN_LANG_JAVA
      (sourceOfBytes [0xff, 0xfe, 0x78, 0x00])).2.1 (by decide) (Or.inl ⟨rfl, rfl⟩),
   (C24_empty_result_on_failure sampleEnv _ .RCN_LANG_C
      { text := some [0x41], size := 2 ^ 32 }).2.2.1 (by decide),
   (C24_empty_result_on_failure sampleEnv _ .RCN_TEXT_UNFORMATTED
      (sourceOfBytes [0x78, 0x3b, 0x0a])).2.2.2.1 (by decide) (by decide),
   (C24_empty_result_on_failure sampleEnv _ .RCN_LANG_C
      (sourceOfBytes [0x7b])).2.2.2.2.1 (by decide),
   ((C24_empty_result_on_failure (treeEnv (statementsTree 2)) sampleMemory .RCN_LANG_C
      (sourceOfBytes (bytesOfString "x;\ny;\n"))).2.2.2.2.2.2
        (bytesOfString "x;\ny;\n") evaluateNodeC rfl (by decide) rfl
        (fun _ => rfl) (fun _ => rfl)).imp id (fun h => h.trans (by decide))⟩

/-- Counterexample to C24 as stated. A text of 2^32 bytes, a UTF-8 byte order
mark followed by 2^32 - 3 spaces, has a size above 2^32 - 1 and is annotated
all the same, since the size is tested behind the byte order mark. And the C
text `x;`, line feed, `y;`, line feed, with one expression statement on each
of its two lines, is returned with the comment on its first line only when
the reservation for the comment of the second line fails, and with the
comment on its second line only when the recording of the kind name fails in
the visit of the first statement. -/
theorem C24_counterexample :
    ((sourceOfBytes (0xef :: 0xbb :: 0xbf :: List.replicate (2 ^ 32 - 3) 0x20)).size
      > 2 ^ 32 - 1 ∧
    (rcnMarkLogicalLinesInSourceText rootOnlyEnv sampleMemory .RCN_LANG_C
      (sourceOfBytes (0xef :: 0xbb :: 0xbf :: List.replicate (2 ^ 32 - 3) 0x20))).text
      ≠ none) ∧
    (rcnMarkLogicalLinesInSourceText (treeEnv (statementsTree 2)) (failingReserve 1)
        .RCN_LANG_C (sourceOfBytes (bytesOfString "x;\ny;\n"))).text =
      some (bytesOfString "x; // +1 (expression statement)\ny;\n" ++ [0]) ∧
    (rcnMarkLogicalLinesInSourceText (treeEnv (statementsTree 2)) (failingRecord 1)
        .RCN_LANG_C (sourceOfBytes (bytesOfString "x;\ny;\n"))).text =
      some (bytesOfString "x;\ny; // +1 (expression statement)\n" ++ [0]) := by
  obtain ⟨h1, h2⟩ := rcnMark_of_bom_spaces (2 ^ 32 - 3) (by unfold UINT32_MAX; norm_num)
  refine ⟨⟨?_, h2⟩, by decide, by decide⟩
  rw [h1]
  norm_num

/-- Claim C25, amended. For the C evaluator and for the Java evaluator, two
walks over the same sequence of node kinds that differ only in the rows on
which the nodes start yield the same logical-line count whenever the row
tests of the evaluator come out the same along both walks. The row tests are:
in C, whether a `struct_specifier` starts on the line of the last declaration
or of the last expression statement, and whether an `enum_specifier` or
`union_specifier` starts on the line of the last declaration; in Java,
whether an `expression_statement` starts on the line of both the last switch
label and the last arrow token. In particular the count does not depend on
the rows at all for a C walk without struct, enum and union specifiers and
for a Java walk without expression statements. -/
theorem C25_layout_independence (nodes1 nodes2 : List TSNode)
    (hkinds : nodes1.map (fun node => node.symbol) = nodes2.map (fun node => node.symbol)) :
    (rowTestsC nodes1 = rowTestsC nodes2 →
      logicalLinesOfWalk evaluateNodeC nodes1 = logicalLinesOfWalk evaluateNodeC nodes2) ∧
    (rowTestsJava nodes1 = rowTestsJava nodes2 →
      logicalLinesOfWalk evaluateNodeJava nodes1
        = logicalLinesOfWalk evaluateNodeJava nodes2) ∧
    ((∀ node ∈ nodes1, node.symbol ≠ SymbolIdentifiersC.sym_struct_specifier ∧
        node.symbol ≠ SymbolIdentifiersC.sym_enum_specifier ∧
        node.symbol ≠ SymbolIdentifiersC.sym_union_specifier) →
      logicalLinesOfWalk evaluateNodeC nodes1 = logicalLinesOfWalk evaluateNodeC nodes2) ∧
    ((∀ node ∈ nodes1, node.symbol ≠ SymbolIdentifiersJava.sym_expression_statement) →
      logicalLinesOfWalk evaluateNodeJava nodes1
        = logicalLinesOfWalk evaluateNodeJava nodes2) := by
  have hlen : nodes1.length = nodes2.length := by
    have := congrArg List.length hkinds
    simpa using this
  have hC : rowTestsC nodes1 = rowTestsC nodes2 →
      logicalLinesOfWalk evaluateNodeC nodes1 = logicalLinesOfWalk evaluateNodeC nodes2 :=
    fun h => (walk_evaluateNodeC_same nodes1 nodes2 NodeEvalTrace.zero NodeEvalTrace.zero hkinds
      ⟨rfl, rfl, rfl, rfl, rfl⟩ h).1
  have hJ : rowTestsJava nodes1 = rowTestsJava nodes2 →
      logicalLinesOfWalk evaluateNodeJava nodes1
        = logicalLinesOfWalk evaluateNodeJava nodes2 :=
    fun h => (walk_evaluateNodeJava_same nodes1 nodes2 NodeEvalTrace.zero NodeEvalTrace.zero
      hkinds ⟨rfl, rfl, rfl, rfl, rfl⟩ h).1
  refine ⟨hC, hJ, ?_, ?_⟩
  · intro h
    apply hC
    have h2 := kinds_transfer (fun s => s ≠ SymbolIdentifiersC.sym_struct_specifier ∧
      s ≠ SymbolIdentifiersC.sym_enum_specifier ∧
      s ≠ SymbolIdentifiersC.sym_union_specifier) nodes1 nodes2 hkinds h
    unfold rowTestsC
    rw [rowTestsCFrom_without_specifier 0 0 nodes1 0 0 h,
      rowTestsCFrom_without_specifier 0 0 nodes2 0 0 h2, hlen]
  · intro h
    apply hJ
    have h2 := kinds_transfer (fun s => s ≠ SymbolIdentifiersJava.sym_expression_statement)
      nodes1 nodes2 hkinds h
    unfold rowTestsJava
    rw [rowTestsJavaFrom_without_statement 0 0 nodes1 0 0 h,
      rowTestsJavaFrom_without_statement 0 0 nodes2 0 0 h2, hlen]

/-- Witness for C25: the walk of the for loop written on one row and the same
walk with every node on a row of its own count the same 3 logical lines; and
the if / else-if / else chain of the Java sample counts the same with every
node on a row of its own, no row test coming out differently. -/
theorem C25_layout_independence_witness :
    logicalLinesOfWalk evaluateNodeC (visitOrder forLoopTree)
      = logicalLinesOfWalk evaluateNodeC (onRowsFrom 0 (visitOrder forLoopTree)) ∧
    logicalLinesOfWalk evaluateNodeJava (visitOrder (javaMethodTree [javaIfElseChainTree]))
      = logicalLinesOfWalk evaluateNodeJava
          (onRowsFrom 0 (visitOrder (javaMethodTree [javaIfElseChainTree]))) :=
  ⟨(C25_layout_independence (visitOrder forLoopTree) (onRowsFrom 0 (visitOrder forLoopTree))
      (by decide)).2.2.1 (by decide),
   (C25_layout_independence (visitOrder (javaMethodTree [javaIfElseChainTree]))
      (onRowsFrom 0 (visitOrder (javaMethodTree [javaIfElseChainTree])))
      (by decide)).2.1 (by decide)⟩

/-- Counterexample to C25 as stated: the declaration
`static struct S { int a; } s;` written on one line and the same declaration
with a line break after `static` give walks over the same node kinds, in
which only the rows differ, and count 2 and 3 logical lines: the
`struct_specifier` is skipped when it starts on the line of the declaration
and counted when it starts on the next line. -/
theorem C25_counterexample :
    (visitOrder (structDeclarationTree 0)).map (fun node => node.symbol)
      = (visitOrder (structDeclarationTree 1)).map (fun node => node.symbol) ∧
    rcnCountLogicalLines (treeEnv (structDeclarationTree 0)) .RCN_LANG_C
        (sourceOfBytes (bytesOfString "static struct S { int a; } s;\n")) = okResult 2 ∧
    rcnCountLogicalLines (treeEnv (structDeclarationTree 1)) .RCN_LANG_C
        (sourceOfBytes (bytesOfString "static\nstruct S { int a; } s;\n")) = okResult 3 ∧
    logicalLinesOfWalk evaluateNodeC (visitOrder (structDeclarationTree 0)) = 2 ∧
    logicalLinesOfWalk evaluateNodeC (visitOrder (structDeclarationTree 1)) = 3 := by
  decide

/-- Claim C26, evaluated where the code departs from it. In the C text
`// a`, `// b`, `int x;` the declaration is the fourth node of the walk, at
index 3, after the `translation_unit` and the two comments. No `for_statement`
was visited, yet `idxLastForSym` still has its initial value 0, which is
`idx - 3`, so the declaration contributes 0 and the text has 0 logical lines
where the claim gives 1. After one comment or after three the same declaration
contributes 1, and the for loop of the claim contributes 2, next to the 1 of
the function around it. -/
theorem C26_declaration_at_walk_index_three :
    rcnCountLogicalLines (treeEnv (commentsThenDeclarationTree 2)) .RCN_LANG_C
        (sourceOfBytes (bytesOfString "// a\n// b\nint x;\n")) = okResult 0 ∧
    rcnCountLogicalLines (treeEnv (commentsThenDeclarationTree 1)) .RCN_LANG_C
        (sourceOfBytes (bytesOfString "// a\nint x;\n")) = okResult 1 ∧
    rcnCountLogicalLines (treeEnv (commentsThenDeclarationTree 3)) .RCN_LANG_C
        (sourceOfBytes (bytesOfString "// a\n// b\n// c\nint x;\n")) = okResult 1 ∧
    rcnCountLogicalLines (treeEnv forLoopTree) .RCN_LANG_C
        (sourceOfBytes (bytesOfString
          "void f(void) { for (int i = 0; i < n; ++i) { vla[i] = i; } }\n"))
      = okResult 3 := by
  decide

/-- Claim C27, amended. For Java, an if / else-if / else chain whose three
branches are single expression statements contributes exactly 6 logical
lines: 1 for the `if_statement`, 1 for each of the two `else` tokens, 1 for
each of the three expression statements, and 0 for the `if_statement` that
follows the first `else`. This holds wherever the chain occurs in a walk, from
any trace, when the chain does not itself directly follow an `else` token
(`idxLastElse` is not `idx - 1` at its `if_statement`) and none of its
expression statements starts on the line of both the last switch label and
the last arrow token; the other nodes of the chain are of kinds without a case
label in the evaluator. -/
theorem C27_java_if_else_chain (trace : NodeEvalTrace)
    (ifStatement thenStatement elseToken elseIf elseIfStatement lastElse lastStatement :
      TSNode)
    (condition thenRest elseIfCondition elseIfRest lastRest : List TSNode)
    (hIf : ifStatement.symbol = SymbolIdentifiersJava.sym_if_statement)
    (hThen : thenStatement.symbol = SymbolIdentifiersJava.sym_expression_statement)
    (hElse : elseToken.symbol = SymbolIdentifiersJava.anon_sym_else)
    (hElseIf : elseIf.symbol = SymbolIdentifiersJava.sym_if_statement)
    (hElseIfStatement :
      elseIfStatement.symbol = SymbolIdentifiersJava.sym_expression_statement)
    (hLastElse : lastElse.symbol = SymbolIdentifiersJava.anon_sym_else)
    (hLastStatement : lastStatement.symbol = SymbolIdentifiersJava.sym_expression_statement)
    (hOther : ∀ node ∈ condition ++ thenRest ++ elseIfCondition ++ elseIfRest ++ lastRest,
      isOtherJava node = true)
    (hFirst : trace.idxLastElse ≠ idxMinus trace.idx 1)
    (hRows : ∀ node ∈ [thenStatement, elseIfStatement, lastStatement],
      ¬ (trace.lnLastSwitchLabel = currentLine node ∧
        trace.lnLastArrow = currentLine node)) :
    (walk evaluateNodeJava
      (ifStatement :: (condition ++ thenStatement :: (thenRest ++ elseToken :: elseIf ::
        (elseIfCondition ++ elseIfStatement :: (elseIfRest ++ lastElse :: lastStatement ::
          lastRest))))) trace).count = (trace.count + 6) % 2 ^ 64 := by
  have o1 : ∀ n ∈ condition, isOtherJava n = true := fun n hn => hOther n (by simp [hn])
  have o2 : ∀ n ∈ thenRest, isOtherJava n = true := fun n hn => hOther n (by simp [hn])
  have o3 : ∀ n ∈ elseIfCondition, isOtherJava n = true := fun n hn => hOther n (by simp [hn])
  have o4 : ∀ n ∈ elseIfRest, isOtherJava n = true := fun n hn => hOther n (by simp [hn])
  have o5 : ∀ n ∈ lastRest, isOtherJava n = true := fun n hn => hOther n (by simp [hn])
  have r1 := hRows thenStatement (by simp)
  have r2 := hRows elseIfStatement (by simp)
  have r3 := hRows lastStatement (by simp)
  simp only [walk_cons, walk_append]
  -- the traces along the chain
  have a1 := addsJava_if ifStatement trace hIf hFirst
  generalize evaluateNodeJava ifStatement trace = t1 at a1 ⊢
  have a2 := (walk_other_java condition o1 t1).1
  generalize walk evaluateNodeJava condition t1 = t2 at a2 ⊢
  have b2 := a1.trans a2
  have a3 := addsJava_expression_statement thenStatement t2 hThen
    (by rw [b2.2.1, b2.2.2]; exact r1)
  have i3 := evaluateNodeJava_idx_lt thenStatement t2
  generalize evaluateNodeJava thenStatement t2 = t3 at a3 i3 ⊢
  have b3 := b2.trans a3
  have a4 := (walk_other_java thenRest o2 t3).1
  have i4 := (walk_other_java thenRest o2 t3).2.2.1 i3
  generalize walk evaluateNodeJava thenRest t3 = t4 at a4 i4 ⊢
  have b4 := b3.trans a4
  have a5 := addsJava_else_if elseToken elseIf t4 hElse hElseIf i4
  generalize evaluateNodeJava elseIf (evaluateNodeJava elseToken t4) = t5 at a5 ⊢
  have b5 := b4.trans a5
  have a6 := (walk_other_java elseIfCondition o3 t5).1
  generalize walk evaluateNodeJava elseIfCondition t5 = t6 at a6 ⊢
  have b6 := b5.trans a6
  have a7 := addsJava_expression_statement elseIfStatement t6 hElseIfStatement
    (by rw [b6.2.1, b6.2.2]; exact r2)
  generalize evaluateNodeJava elseIfStatement t6 = t7 at a7 ⊢
  have b7 := b6.trans a7
  have a8 := (walk_other_java elseIfRest o4 t7).1
  generalize walk evaluateNodeJava elseIfRest t7 = t8 at a8 ⊢
  have b8 := b7.trans a8
  have a9 := addsJava_else lastElse t8 hLastElse
  generalize evaluateNodeJava lastElse t8 = t9 at a9 ⊢
  have b9 := b8.trans a9
  have a10 := addsJava_expression_statement lastStatement t9 hLastStatement
    (by rw [b9.2.1, b9.2.2]; exact r3)
  have c10 := evaluateNodeJava_count_lt lastStatement t9
  generalize evaluateNodeJava lastStatement t9 = t10 at a10 c10 ⊢
  have b10 := b9.trans a10
  have a11 := (walk_other_java lastRest o5 t10).1
  have c11 := (walk_other_java lastRest o5 t10).2.2.2 c10
  generalize walk evaluateNodeJava lastRest t10 = t11 at a11 c11 ⊢
  have b11 := b10.trans a11
  have := b11.1
  omega

/-- Witness for C27: the chain of the sample tree, inside the method `f` of
the class `A`, where it follows the nodes of the class and of the method. -/
theorem C27_java_if_else_chain_witness :
    (walk evaluateNodeJava (visitOrder javaIfElseChainTree)
      (walk evaluateNodeJava
        ((visitOrder (javaMethodTree [])).take 12) NodeEvalTrace.zero)).count = 8 := by
  have h := C27_java_if_else_chain
    (walk evaluateNodeJava ((visitOrder (javaMethodTree [])).take 12) NodeEvalTrace.zero)
    (namedNode 205 2 "if_statement") (namedNode 187 2 "expression_statement")
    (namedNode 91 3 "else") (namedNode 205 3 "if_statement")
    (namedNode 187 3 "expression_statement") (namedNode 91 4 "else")
    (namedNode 187 4 "expression_statement")
    [otherNode 2, otherNode 2, otherNode 2, otherNode 2, otherNode 2]
    [otherNode 2, otherNode 2]
    [otherNode 3, otherNode 3, otherNode 3, otherNode 3, otherNode 3]
    [otherNode 3, otherNode 3]
    [otherNode 4, otherNode 4]
    rfl rfl rfl rfl rfl rfl rfl (by decide) (by decide) (by decide)
  exact h

/-- Counterexample to C27 as stated: the chain in the method `f` of the class
`A` contributes 6 logical lines, not 5. The class with the empty method has 2
logical lines, and with the chain as the body of the method it has 8. -/
theorem C27_counterexample :
    (rcnCountLogicalLines (treeEnv (javaMethodTree [])) .RCN_LANG_JAVA
      (sourceOfBytes (bytesOfString "class A \x7b\n  void f(int c) \x7b\n  \x7d\n\x7d\n"))).count = 2 ∧
    (rcnCountLogicalLines (treeEnv (javaMethodTree [javaIfElseChainTree])) .RCN_LANG_JAVA
      (sourceOfBytes (bytesOfString
        "class A \x7b\n  void f(int c) \x7b\n    if (c == 0) a();\n    else if (c == 1) b();\n    else c();\n  \x7d\n\x7d\n"))).count
      = 8 := by
  decide

/-- Claim C28, evaluated where the code departs from it. For the path
`/main.c` of a file in the root directory, `initSourceFile` sets `name` to
the whole path `/main.c`, leading slash included, where the claim and the
documentation of the field give `main.c`: `findFilename` takes the last slash
at offset 0 for the absence of a slash. The extension is `c`, as claimed; and
for `/tmp/main.c` and `main.c` the name is `main.c`. -/
theorem C28_name_of_a_root_level_path :
    (initSourceFile "/main.c" true false).name = some "/main.c" ∧
    (initSourceFile "/main.c" true false).extension = some "c" ∧
    (initSourceFile "/tmp/main.c" true false).name = some "main.c" ∧
    (initSourceFile "main.c" true false).name = some "main.c" := by
  decide

/-- Claim C29. `detectSourceFormat` reports a supported format exactly when
the extension of the file is one of `c`, `h`, `java`, `md`, `txt`; `c` and `h`
give C, `java` gives Java, `md` gives Markdown and `txt` gives unformatted
text; every other extension and a missing extension are unsupported;
`isProgrammingLanguage` is true exactly when the extension gives C or Java,
that is, exactly when the format is supported and is C or Java, so that
`isProgrammingLanguage` implies `isSupportedFormat`. -/
theorem C29_source_format_detection (file : RcnSourceFile) :
    ((detectSourceFormat file).isSupportedFormat = true ↔
      file.extension = some "c" ∨ file.extension = some "h" ∨
        file.extension = some "java" ∨ file.extension = some "md" ∨
        file.extension = some "txt") ∧
    (file.extension = some "c" ∨ file.extension = some "h" →
      (detectSourceFormat file).format = .RCN_LANG_C) ∧
    (file.extension = some "java" → (detectSourceFormat file).format = .RCN_LANG_JAVA) ∧
    (file.extension = some "md" → (detectSourceFormat file).format = .RCN_TEXT_MARKDOWN) ∧
    (file.extension = some "txt" →
      (detectSourceFormat file).format = .RCN_TEXT_UNFORMATTED) ∧
    (file.extension = none → (detectSourceFormat file).isSupportedFormat = false) ∧
    ((detectSourceFormat file).isProgrammingLanguage = true ↔
      file.extension = some "c" ∨ file.extension = some "h" ∨
        file.extension = some "java") ∧
    ((detectSourceFormat file).isProgrammingLanguage = true ↔
      (detectSourceFormat file).isSupportedFormat = true ∧
        ((detectSourceFormat file).format = .RCN_LANG_C ∨
          (detectSourceFormat file).format = .RCN_LANG_JAVA)) ∧
    ((detectSourceFormat file).isProgrammingLanguage = true →
      (detectSourceFormat file).isSupportedFormat = true) := by
  unfold detectSourceFormat
  cases hext : file.extension with
  | none => simp
  | some extension =>
    by_cases hc : extension = "c"
    · subst hc; simp
    · by_cases hh : extension = "h"
      · subst hh; simp
      · by_cases hj : extension = "java"
        · subst hj; simp
        · by_cases hm : extension = "md"
          · subst hm; simp
          · by_cases ht : extension = "txt"
            · subst ht; simp
            · simp [hc, hh, hj, hm, ht]

/-- Witness for C29: a file with the extension `java`, and one with the
extension `xyz`. -/
theorem C29_source_format_detection_witness :
    (detectSourceFormat (sampleFile "A.java" "java")).format = .RCN_LANG_JAVA ∧
    (detectSourceFormat (sampleFile "A.java" "java")).isSupportedFormat = true ∧
    ¬ ((detectSourceFormat (sampleFile "unknown.xyz" "xyz")).isSupportedFormat = true) :=
  ⟨(C29_source_format_detection (sampleFile "A.java" "java")).2.2.1 rfl,
   (C29_source_format_detection (sampleFile "A.java" "java")).2.2.2.2.2.2.2.2
     ((C29_source_format_detection (sampleFile "A.java" "java")).2.2.2.2.2.2.1.2
       (Or.inr (Or.inr rfl))),
   fun h => by
     have := (C29_source_format_detection (sampleFile "unknown.xyz" "xyz")).1.1 h
     revert this
     decide⟩

/-- Claim C30. `readSourceFileContent` changes nothing on a file that is
already failed or already loaded: with a status other than OK on entry it
returns false and leaves every field as it was, with status OK and
`isContentRead = true` it returns true and leaves every field as it was, and
so a second read after a successful read returns true and changes nothing. -/
theorem C30_second_read_changes_nothing (env : Env) (file : RcnSourceFile) :
    (file.status ≠ .RCN_FILE_OP_OK → readSourceFileContent env file = (false, file)) ∧
    (file.status = .RCN_FILE_OP_OK → file.isContentRead = true →
      readSourceFileContent env file = (true, file)) ∧
    ((readSourceFileContent env file).1 = true →
      readSourceFileContent env (readSourceFileContent env file).2
        = (true, (readSourceFileContent env file).2)) := by
  have h1 : file.status ≠ .RCN_FILE_OP_OK → readSourceFileContent env file = (false, file) := by
    intro h; simp [readSourceFileContent, h]
  have h2 : ∀ f : RcnSourceFile, f.status = .RCN_FILE_OP_OK → f.isContentRead = true →
      readSourceFileContent env f = (true, f) := by
    intro f hs hr; simp [readSourceFileContent, hs, hr]
  refine ⟨h1, h2 file, ?_⟩
  intro hok
  have hboth : (readSourceFileContent env file).2.status = .RCN_FILE_OP_OK ∧
      (readSourceFileContent env file).2.isContentRead = true := by
    revert hok
    unfold readSourceFileContent
    by_cases hs : file.status = .RCN_FILE_OP_OK
    · by_cases hr : file.isContentRead = true
      · simp [hs, hr]
      · cases hp : file.path with
        | none => simp [hs, hr]
        | some path =>
          cases ha : env.access path with
          | openFailed enoent => simp [hs, hr, ha]
          | ioFailed => simp [hs, hr, ha]
          | opened bytes mallocOk fcloseOk =>
            simp only [hs, hr, ha]
            by_cases hl : bytes.length > FILE_MAX_PROC_SIZE
            · simp [hl]
            · cases mallocOk <;> cases fcloseOk <;> simp [hl]
    · simp [hs]
  exact h2 _ hboth.1 hboth.2

/-- Witness for C30: the file `good.c` of the sample environment is read, and
read again; and a file with the status `RCN_FILE_OP_IO_ERROR` is refused. -/
theorem C30_second_read_changes_nothing_witness :
    (readSourceFileContent sampleEnv (sampleFile "good.c" "c")).1 = true ∧
    readSourceFileContent sampleEnv (readSourceFileContent sampleEnv (sampleFile "good.c" "c")).2
      = (true, (readSourceFileContent sampleEnv (sampleFile "good.c" "c")).2) ∧
    (readSourceFileContent sampleEnv (sampleFile "good.c" "c")).2.content.size = 3 ∧
    readSourceFileContent sampleEnv
        { sampleFile "good.c" "c" with status := .RCN_FILE_OP_IO_ERROR }
      = (false, { sampleFile "good.c" "c" with status := .RCN_FILE_OP_IO_ERROR }) :=
  ⟨by decide,
   (C30_second_read_changes_nothing sampleEnv (sampleFile "good.c" "c")).2.2 (by decide),
   by decide,
   (C30_second_read_changes_nothing sampleEnv
     { sampleFile "good.c" "c" with status := .RCN_FILE_OP_IO_ERROR }).1 (by decide)⟩

/-- Claim C32. For every finite syntax tree, the loop of `traverseTree`
reaches its `break`, within twice as many iterations as the tree has nodes,
and has then called the visitor exactly on the nodes of the tree in
depth-first pre-order, each once: the record of the calls is the pre-order
listing of the tree, which starts with the root and lists a node before the
listings of its children, taken left to right. The trace that results is the
one of the visitor applied along this listing, which is what the structural
`traverseTree` of this development computes. -/
theorem C32_traversal_is_preorder (visitor : TSNode → NodeEvalTrace → NodeEvalTrace)
    (root : TSTree) (trace : NodeEvalTrace) (fuel : Nat)
    (hfuel : 2 * nodeCount root ≤ fuel) :
    traverseTreeWithCursor visitor fuel root trace =
      some (walk visitor (visitOrder root) trace, visitOrder root) ∧
    traverseTree visitor root trace = walk visitor (visitOrder root) trace ∧
    (∀ (value : TSNode) (children : List TSTree),
      visitOrder (.node value children) = value :: (children.map visitOrder).flatten) := by
  refine ⟨traverseTreeWithCursor_eq visitor root trace fuel hfuel,
    traverseTree_eq_walk visitor root trace, fun value children => ?_⟩
  rw [visitOrder, visitOrderOfSiblings_eq]

/-- Witness for C32: the tree of the C for-loop sample has 29 nodes, and the
loop ends within 58 iterations with the 3 logical lines of the sample; with 10
iterations it has not ended. -/
theorem C32_traversal_is_preorder_witness :
    nodeCount forLoopTree = 29 ∧
    2 * nodeCount forLoopTree ≤ 58 ∧
    (traverseTreeWithCursor evaluateNodeC 58 forLoopTree NodeEvalTrace.zero).map
        (fun result => result.1.count) = some 3 ∧
    traverseTreeWithCursor evaluateNodeC 10 forLoopTree NodeEvalTrace.zero = none ∧
    traverseTreeWithCursor evaluateNodeC 58 forLoopTree NodeEvalTrace.zero =
      some (walk evaluateNodeC (visitOrder forLoopTree) NodeEvalTrace.zero,
        visitOrder forLoopTree) :=
  ⟨by decide, by decide, by decide, by decide,
   (C32_traversal_is_preorder evaluateNodeC forLoopTree NodeEvalTrace.zero 58 (by decide)).1⟩

/-- Claim C33, amended. During one walk from the trace `{0}`, with the C or
Java counting visitor `trace.idx` equals the number of nodes visited so far (in
`uint64_t` arithmetic): the node that follows the visited ones is evaluated
with this index, whatever the weights of the nodes were. With the annotating
visitor `trace.idx` equals the number of nodes visited so far that start on a
row below the line count: a node on a later row is passed over before the
evaluator is called and leaves the index as it is; when every visited node
starts below the line count, the index is the number of visited nodes. The
allocations of the line buffers, succeeding or failing, do not touch the
index. -/
theorem C33_index_counts_evaluated_nodes (memory : AnnotationMemory)
    (language : RcnTextFormat)
    (evaluator : TSNode → NodeEvalTrace → NodeEvalTrace)
    (hlang : createEvaluationFunction language = some evaluator)
    (visited : List TSNode) (lineCount : Nat) :
    (walk evaluator visited NodeEvalTrace.zero).idx = visited.length % 2 ^ 64 ∧
    (walk (annotateLineWithNodeType memory) visited (annotationStart language lineCount)).idx =
      visited.countP (fun node => node.row < lineCount) % 2 ^ 64 ∧
    ((∀ node ∈ visited, node.row < lineCount) →
      (walk (annotateLineWithNodeType memory) visited (annotationStart language lineCount)).idx =
        visited.length % 2 ^ 64) := by
  have hA : (walk evaluator visited NodeEvalTrace.zero).idx = visited.length % 2 ^ 64 := by
    obtain ⟨h1, h2⟩ := walk_evaluator_idx language evaluator hlang visited NodeEvalTrace.zero
    cases visited with
    | nil => rfl
    | cons v vs =>
      rw [← Nat.mod_eq_of_lt (h2 (List.cons_ne_nil v vs)), h1]
      simp [NodeEvalTrace.zero]
  have hB : (walk (annotateLineWithNodeType memory) visited
      (annotationStart language lineCount)).idx =
      visited.countP (fun node => node.row < lineCount) % 2 ^ 64 := by
    obtain ⟨h1, h2⟩ := walk_annotate_idx memory evaluator visited (annotationStart language lineCount)
      (freshContext language lineCount) rfl hlang
    have hz : (annotationStart language lineCount).idx = 0 := rfl
    rw [← Nat.mod_eq_of_lt (h2 (by rw [hz]; norm_num)), h1, hz, Nat.zero_add]
    rfl
  refine ⟨hA, hB, fun hall => ?_⟩
  rw [hB, List.countP_eq_length.mpr]
  intro node hn
  simpa using hall node hn

/-- Witness for C33: the walk of the C for-loop sample. The counting
visitor has the index 5 after the first five nodes, and the index is the
number of nodes after the whole walk, also with the annotating visitor for
the one line of the text. -/
theorem C33_index_counts_evaluated_nodes_witness :
    (walk evaluateNodeC ((visitOrder forLoopTree).take 5) NodeEvalTrace.zero).idx = 5 ∧
    (walk (annotateLineWithNodeType sampleMemory) (visitOrder forLoopTree)
        (annotationStart .RCN_LANG_C 1)).idx = (visitOrder forLoopTree).length :=
  ⟨(C33_index_counts_evaluated_nodes sampleMemory .RCN_LANG_C evaluateNodeC rfl
      ((visitOrder forLoopTree).take 5) 1).1.trans (by decide),
   ((C33_index_counts_evaluated_nodes sampleMemory .RCN_LANG_C evaluateNodeC rfl
      (visitOrder forLoopTree) 1).2.2 (by decide)).trans (by decide)⟩

/-- Counterexample to C33 as stated: with a line count of 1, the annotating
visitor leaves the index at 0 after its visit of a node that starts on row 1,
such as the empty root of a text that is one line feed; one node was visited
and the index was not incremented. The counting visitor has the index 1 after
the same visit. -/
theorem C33_counterexample :
    (walk (annotateLineWithNodeType sampleMemory) [namedNode 161 1 "translation_unit"]
        (annotationStart .RCN_LANG_C 1)).idx = 0 ∧
    (walk evaluateNodeC [namedNode 161 1 "translation_unit"] NodeEvalTrace.zero).idx = 1 := by
  decide

/-- Claim C34, evaluated where the code departs from it. In the C text
`// c`, `struct S { int a; };` the `struct_specifier` is the third node of the
walk, at index 2, after the `translation_unit` and the comment. No
`type_definition`, declaration or expression statement was visited, yet
`idxLastTypeDef` still has its initial value 0, which is `idx - 2`, so the
`struct_specifier` contributes 0 and the text has 1 logical line, that of the
field, where the claim gives 2. Without the comment or after two comments the
same definition has 2 logical lines, and `typedef struct { int a; } T;` has 2:
one for the `type_definition`, none for the `struct_specifier`, one for the
field. -/
theorem C34_struct_specifier_at_walk_index_two :
    rcnCountLogicalLines (treeEnv (commentsThenStructTree 1)) .RCN_LANG_C
        (sourceOfBytes (bytesOfString "// c\nstruct S \x7b int a; \x7d;\n")) = okResult 1 ∧
    (evaluateNodeWeightCimpl (namedNode 249 1 "struct_specifier")
        (walk evaluateNodeC [namedNode 161 0 "translation_unit", otherNode 0]
          NodeEvalTrace.zero)).1 = 0 ∧
    rcnCountLogicalLines (treeEnv (commentsThenStructTree 0)) .RCN_LANG_C
        (sourceOfBytes (bytesOfString "struct S \x7b int a; \x7d;\n")) = okResult 2 ∧
    rcnCountLogicalLines (treeEnv (commentsThenStructTree 2)) .RCN_LANG_C
        (sourceOfBytes (bytesOfString "// b\n// c\nstruct S \x7b int a; \x7d;\n"))
      = okResult 2 ∧
    rcnCountLogicalLines (treeEnv typedefStructTree) .RCN_LANG_C
        (sourceOfBytes (bytesOfString "typedef struct \x7b int a; \x7d T;\n")) = okResult 2 := by
  decide

/-- Claim C35, evaluated where the code departs from it. In the Java text
`if (c) a();` the `if_statement` is the second node of the walk, at index 1,
right after the `program`. The node before it is not an `else` keyword, yet
`idxLastElse` still has its initial value 0, which is `idx - 1`, so the
`if_statement` contributes 0 and the text has 1 logical line, that of the
expression statement, where the claim gives 2. As the second statement of the
text, and in the body of a method, the same `if_statement` contributes 1. -/
theorem C35_if_statement_at_walk_index_one :
    rcnCountLogicalLines (treeEnv (javaProgramTree [javaIfTree 0])) .RCN_LANG_JAVA
        (sourceOfBytes (bytesOfString "if (c) a();\n")) = okResult 1 ∧
    (evaluateNodeWeightJavaImpl (namedNode 205 0 "if_statement")
        (walk evaluateNodeJava [otherNode 0] NodeEvalTrace.zero)).1 = 0 ∧
    rcnCountLogicalLines (treeEnv (javaProgramTree [javaIfTree 0, javaIfTree 1])) .RCN_LANG_JAVA
        (sourceOfBytes (bytesOfString "if (c) a();\nif (c) a();\n")) = okResult 3 ∧
    (rcnCountLogicalLines (treeEnv (javaMethodTree [javaIfTree 2])) .RCN_LANG_JAVA
        (sourceOfBytes (bytesOfString
          "class A \x7b\n  void f(int c) \x7b\n    if (c) a();\n  \x7d\n\x7d\n"))).count = 4 := by
  decide

/-- Claim C36. Endianness symmetry: for every UTF-16LE text made of the
byte order mark FF FE followed by whole 16-bit code units, the UTF-16BE text
obtained by swapping the two bytes of every code unit, byte order mark
included, has the same physical line count and the same character count; both
results are equal as a whole, also when the text exceeds the size limit and
both counters refuse it. -/
theorem C36_endianness_symmetry (rest : List Nat)
    (heven : rest.length % 2 = 0) (hbyte : ∀ b ∈ rest, b < 256) :
    swapBytes ([0xff, 0xfe] ++ rest) = [0xfe, 0xff] ++ swapBytes rest ∧
    rcnCountPhysicalLines (sourceOfBytes (swapBytes ([0xff, 0xfe] ++ rest))) =
      rcnCountPhysicalLines (sourceOfBytes ([0xff, 0xfe] ++ rest)) ∧
    rcnCountCharacters (sourceOfBytes (swapBytes ([0xff, 0xfe] ++ rest))) =
      rcnCountCharacters (sourceOfBytes ([0xff, 0xfe] ++ rest)) := by
  have hle : ([0xff, 0xfe] : List Nat) = utf16BOM true := rfl
  refine ⟨rfl, ?_, ?_⟩
  · rw [hle, swapBytes_bom]
    by_cases hmax : (utf16BOM true ++ rest).length ≤ 2 ^ 32 - 1
    · have hmax2 : (utf16BOM false ++ swapBytes rest).length ≤ 2 ^ 32 - 1 := by
        simpa [utf16BOM, swapBytes_length] using hmax
      rw [physical_utf16 true rest heven hmax,
        physical_utf16 false (swapBytes rest) (by rw [swapBytes_length]; exact heven) hmax2,
        utf16Units_swapBytes]
    · have h1 : UINT32_MAX < (utf16BOM true ++ rest).length := by
        unfold UINT32_MAX; omega
      have h2 : UINT32_MAX < (utf16BOM false ++ swapBytes rest).length := by
        simpa [utf16BOM, swapBytes_length] using h1
      rw [physical_too_large _ h1, physical_too_large _ h2]
  · rw [hle, swapBytes_bom]
    by_cases hmax : (utf16BOM true ++ rest).length ≤ 2 ^ 32 - 1
    · have hmax2 : (utf16BOM false ++ swapBytes rest).length ≤ 2 ^ 32 - 1 := by
        simpa [utf16BOM, swapBytes_length] using hmax
      rw [characters_utf16 true rest hbyte hmax,
        characters_utf16 false (swapBytes rest)
          (fun b hb => hbyte b (swapBytes_mem rest b hb)) hmax2,
        utf16Units_swapBytes]
    · have h1 : UINT32_MAX < (utf16BOM true ++ rest).length := by
        unfold UINT32_MAX; omega
      have h2 : UINT32_MAX < (utf16BOM false ++ swapBytes rest).length := by
        simpa [utf16BOM, swapBytes_length] using h1
      rw [characters_too_large _ h1, characters_too_large _ h2]

/-- Witness for C36: the little-endian text `a`, line feed, `b`, a surrogate
pair, and its big-endian counterpart, with 2 physical lines and 4
characters. -/
theorem C36_endianness_symmetry_witness :
    rcnCountPhysicalLines (sourceOfBytes
        [0xfe, 0xff, 0x00, 0x61, 0x00, 0x0a, 0x00, 0x62, 0xd8, 0x3d, 0xde, 0x00]) =
      rcnCountPhysicalLines (sourceOfBytes
        [0xff, 0xfe, 0x61, 0x00, 0x0a, 0x00, 0x62, 0x00, 0x3d, 0xd8, 0x00, 0xde]) ∧
    rcnCountCharacters (sourceOfBytes
        [0xfe, 0xff, 0x00, 0x61, 0x00, 0x0a, 0x00, 0x62, 0xd8, 0x3d, 0xde, 0x00]) =
      rcnCountCharacters (sourceOfBytes
        [0xff, 0xfe, 0x61, 0x00, 0x0a, 0x00, 0x62, 0x00, 0x3d, 0xd8, 0x00, 0xde]) ∧
    rcnCountPhysicalLines (sourceOfBytes
        [0xff, 0xfe, 0x61, 0x00, 0x0a, 0x00, 0x62, 0x00, 0x3d, 0xd8, 0x00, 0xde]) = okResult 2 ∧
    rcnCountCharacters (sourceOfBytes
        [0xff, 0xfe, 0x61, 0x00, 0x0a, 0x00, 0x62, 0x00, 0x3d, 0xd8, 0x00, 0xde]) = okResult 4 :=
  ⟨(C36_endianness_symmetry [0x61, 0x00, 0x0a, 0x00, 0x62, 0x00, 0x3d, 0xd8, 0x00, 0xde]
      (by decide) (by decide)).2.1,
   (C36_endianness_symmetry [0x61, 0x00, 0x0a, 0x00, 0x62, 0x00, 0x3d, 0xd8, 0x00, 0xde]
      (by decide) (by decide)).2.2,
   by decide, by decide⟩

/-- Claim C37. For every non-null byte input with 0 < size <= 2^32 - 1,
whatever its bytes, the physical-line counter and the character counter
return a result with `ok` set, and every index at which they read
`source.text` is below the size. Their loops end by their own conditions:
more iterations than `size` change nothing. The UTF-8 scan advances at every
offset below the size by a stride of 1 to 4 that does not pass the size, and
it takes the stride 2, 3 or 4 only on a lead byte of that length; a UTF-16
code unit is read, at `offset` and `offset + 1`, only when both indices are
below the size. -/
theorem C37_counters_read_within_bounds (source : RcnSourceText)
    (htext : source.text ≠ none) (hpos : 0 < source.size)
    (hmax : source.size ≤ 2 ^ 32 - 1) :
    (rcnCountPhysicalLines source).state.ok = true ∧
    (rcnCountCharacters source).state.ok = true ∧
    (∀ i ∈ rcnCountPhysicalLinesReads source, i < source.size) ∧
    (∀ i ∈ rcnCountCharactersReads source, i < source.size) ∧
    (∀ k, physicalLoopUTF8 source (source.size + k) 0 0 =
      physicalLoopUTF8 source source.size 0 0) ∧
    (∀ nlByte0 nlByte1 k, physicalLoopUTF16 source nlByte0 nlByte1 (source.size + k) 2 0 =
      physicalLoopUTF16 source nlByte0 nlByte1 source.size 2 0) ∧
    (∀ offset k, charactersLoopUTF8 source (source.size + k) offset 0 =
      charactersLoopUTF8 source source.size offset 0) ∧
    (∀ littleEndian offset k,
      charactersLoopUTF16 source littleEndian (source.size + k) offset 0 =
        charactersLoopUTF16 source littleEndian source.size offset 0) ∧
    (∀ offset, offset < source.size →
      1 ≤ utf8Stride source offset ∧ utf8Stride source offset ≤ 4 ∧
      offset + utf8Stride source offset ≤ source.size ∧
      (utf8Stride source offset = 2 → (byteAt source offset &&& 0xe0) = 0xc0) ∧
      (utf8Stride source offset = 3 → (byteAt source offset &&& 0xf0) = 0xe0) ∧
      (utf8Stride source offset = 4 → (byteAt source offset &&& 0xf8) = 0xf0)) := by
  have h0 : (source.size == 0) = false := by
    simp only [beq_eq_false_iff_ne]; omega
  have h1 : source.text.isNone = false := by
    cases ht : source.text with
    | none => exact absurd ht htext
    | some _ => rfl
  have h2 : ¬ source.size > UINT32_MAX := by unfold UINT32_MAX; omega
  refine ⟨?_, ?_, rcnCountPhysicalLinesReads_lt source, rcnCountCharactersReads_lt source,
    fun k => physicalLoopUTF8_stable source _ _ _ k (by omega),
    fun a b k => physicalLoopUTF16_stable source a b _ _ _ k (by omega),
    fun offset k => charactersLoopUTF8_stable source _ _ _ k (by omega),
    fun le offset k => charactersLoopUTF16_stable source le _ _ _ k (by omega),
    fun offset h => utf8Stride_bounds source offset h⟩
  · unfold rcnCountPhysicalLines
    simp only [h0, h1, h2, Bool.false_eq_true, if_false]
    split_ifs <;> rfl
  · unfold rcnCountCharacters
    simp only [h0, h1, h2, Bool.false_eq_true, if_false]
    split_ifs <;> rfl

/-- Witness for C37: a text of five bytes that ends in the middle of a
three-byte sequence, and a UTF-16 text of five bytes with an odd byte at the
end; the reads stay below 5. In the first, `hasUTF8BOM` reads the indices 0
to 2 twice and `detectEncoding` the indices 0 and 1, and the scan reads the
offsets 0, 1, 3 and 4: the stride is 2 at offset 1 and 1 at offset 3, where
the sequence of three bytes does not fit. -/
theorem C37_counters_read_within_bounds_witness :
    rcnCountCharactersReads (sourceOfBytes [0x61, 0xc3, 0xa4, 0xe2, 0x82]) =
      [0, 1, 2, 0, 1, 0, 1, 2, 0, 1, 3, 4] ∧
    rcnCountCharacters (sourceOfBytes [0x61, 0xc3, 0xa4, 0xe2, 0x82]) = okResult 4 ∧
    rcnCountPhysicalLinesReads (sourceOfBytes [0xff, 0xfe, 0x0a, 0x00, 0x0a]) =
      [0, 1, 2, 0, 1, 2, 3, 3] ∧
    (∀ i ∈ rcnCountCharactersReads (sourceOfBytes [0x61, 0xc3, 0xa4, 0xe2, 0x82]),
      i < (sourceOfBytes [0x61, 0xc3, 0xa4, 0xe2, 0x82]).size) :=
  ⟨by decide, by decide, by decide,
   (C37_counters_read_within_bounds (sourceOfBytes [0x61, 0xc3, 0xa4, 0xe2, 0x82])
      (by decide) (by decide) (by decide)).2.2.2.1⟩

/-- Claim C39. After `rcnCount` on statistics as they are created, for each
of the five metrics the total equals the sum of the per-format counters, in
`RcnCount` arithmetic (`uint64_t`, modulo `2 ^ 64`): `totalLogicalLines` is the
sum of `logicalLines[f]` over the formats `f`, and likewise for the physical
lines, the words, the characters and the source size. -/
theorem C39_totals_equal_sums_of_formats (env : Env) (files : List RcnSourceFile)
    (options : RcnStatOptions) :
    (rcnCount env (freshStatistics files) options).totalLogicalLines =
      (rcnCount env (freshStatistics files) options).logicalLines.total % 2 ^ 64 ∧
    (rcnCount env (freshStatistics files) options).totalPhysicalLines =
      (rcnCount env (freshStatistics files) options).physicalLines.total % 2 ^ 64 ∧
    (rcnCount env (freshStatistics files) options).totalWords =
      (rcnCount env (freshStatistics files) options).words.total % 2 ^ 64 ∧
    (rcnCount env (freshStatistics files) options).totalCharacters =
      (rcnCount env (freshStatistics files) options).characters.total % 2 ^ 64 ∧
    (rcnCount env (freshStatistics files) options).totalSourceSize =
      (rcnCount env (freshStatistics files) options).sourceSize.total % 2 ^ 64 := by
  cases files with
  | nil => rw [rcnCount_fresh_nil]; simp [freshStatistics, FormatCounters.total, zeroCounters]
  | cons f fs =>
    rw [rcnCount_fresh env (f :: fs) options (List.cons_ne_nil f fs)]
    obtain ⟨t1, t2, t3, t4, t5, t6, t7, t8, t9, t10, -⟩ := finishStatistics_totals (f :: fs).length
      (rcnCountLoop env (enableDefaults options) (startStatistics (freshStatistics (f :: fs)))
        (f :: fs) (List.replicate (f :: fs).length zeroResultGroup))
    rw [t1, t2, t3, t4, t5, t6, t7, t8, t9, t10]
    exact loop_stats_inv env (enableDefaults options) TotalsMatchFormats
      (fun s g r h => count_totals_match env (enableDefaults options) s g r h)
      (f :: fs) _ _
      (by simp [TotalsMatchFormats, startStatistics, freshStatistics, FormatCounters.total,
        zeroCounters])

end Reckon
